import Mathlib

/-!
# SoftRF traffic tracking and collision-alarm core

A shallow embedding of `software/firmware/source/SoftRF/src/TrafficHelper.cpp`.

Conventions of the embedding:

* `float` values are exact rationals (`ℚ`); the libm functions the code calls
  (`cos`, `sin`, `hypot`, `atan2`, `log2`, `exp2`) are fields of `Libm`, a parameter.
* unsigned machine integers are `Nat`, reduced modulo `2^w` where the code can wrap;
  `time_t` seconds are `Nat`; signed integers are `Int`.
* a `char` buffer is a list of byte values; a store outside the array or a look-up
  outside the alphabet table yields `none`.
* constants of `TrafficHelper.h` and of the other headers (absent from the sources
  at hand) are the fields of `Header`, a parameter, except the alarm levels, which
  are numbered as the glossary orders them.
* output to the serial port, the NMEA sentences and the log files is left out; the sound
  notification of `Traffic_loop` is returned as a value.
* the `int` arithmetic of `Alarm_Latest` is exact (`Int`); `>>` is the arithmetic shift.
* the file system is the state `FileSys`: the files `/range.txt` and `/oldrange.txt`, each a
  list of lines, a line being the numbers printed on it, and the calls made.
* functions of other files of the firmware (`project_that`, `RF_Encode`, `RF_Transmit`) are
  parameters.
-/

namespace SoftRF

/-! ## Constants -/

/-- Modelled from the spec: the header that defines `ALARM_LEVEL_*` is missing from the
sources; the levels None, Close, Low, Important, Urgent are ordered by severity and
consecutive (`alarm_level + 1`, `sound_alarm_level - 1` in the code). -/
def ALARM_LEVEL_NONE : Int := 0

/-- Modelled from the spec: alarm level Close, one above None. -/
def ALARM_LEVEL_CLOSE : Int := 1

/-- Modelled from the spec: alarm level Low. -/
def ALARM_LEVEL_LOW : Int := 2

/-- Modelled from the spec: alarm level Important. -/
def ALARM_LEVEL_IMPORTANT : Int := 3

/-- Modelled from the spec: alarm level Urgent, the highest. -/
def ALARM_LEVEL_URGENT : Int := 4

/-- The constants `TrafficHelper.cpp` takes from headers that are not among the sources
(`GPS_MPS_PER_KNOT` stands for `_GPS_MPS_PER_KNOT`). -/
structure Header where
  MAX_TRACKING_OBJECTS : Nat
  ENTRY_EXPIRATION_TIME : Nat
  NONDIR_EXPIRATION : Nat
  ENTRY_RELAY_TIME : Nat
  ANY_RELAY_TIME : Nat
  TRAFFIC_VECTOR_UPDATE_INTERVAL : Nat
  ALARM_ZONE_CLOSE : ℚ
  ALARM_ZONE_LOW : ℚ
  ALARM_ZONE_IMPORTANT : ℚ
  ALARM_ZONE_URGENT : ℚ
  ALARM_ZONE_EXTREME : ℚ
  VERTICAL_SEPARATION : ℚ
  VERTICAL_SLOPE : ℚ
  VERTICAL_SLACK : ℚ
  ALARM_TIME_CLOSE : ℚ
  ALARM_TIME_LOW : ℚ
  ALARM_TIME_IMPORTANT : ℚ
  ALARM_TIME_URGENT : ℚ
  ALARM_TIME_EXTREME : ℚ
  ALARM_VECTOR_ANGLE : ℚ
  ALARM_VECTOR_SPEED : ℚ
  GPS_MPS_PER_KNOT : ℚ
  TX_TYPE_S : Nat
  TX_TYPE_TISB : Nat
  TX_TYPE_FLARM : Nat
  ADDR_TYPE_ICAO : Nat
  RF_BAND_US : Nat
  RF_PROTOCOL_NONE : Nat
  RF_PROTOCOL_LEGACY : Nat
  RF_PROTOCOL_LATEST : Nat
  RF_PROTOCOL_ADSB_1090 : Nat
  RF_PROTOCOL_GDL90 : Nat
  AIRCRAFT_TYPE_UNKNOWN : Nat
  AIRCRAFT_TYPE_JET : Nat
  AIRCRAFT_TYPE_HELICOPTER : Nat
  AIRCRAFT_TYPE_GLIDER : Nat
  AIRCRAFT_TYPE_TOWPLANE : Nat
  RELAY_OFF : Nat
  RELAY_ALL : Nat
  RELAY_ONLY : Nat
  DEBUG_SIMULATE : Nat

/-- One choice of the header constants, the values the comments of the code mention
(`2*ALARM_ZONE_CLOSE` is 3 km, `VERTICAL_SLACK` is 30 m); used for concrete runs. -/
def stdHeader : Header where
  MAX_TRACKING_OBJECTS := 8
  ENTRY_EXPIRATION_TIME := 10
  NONDIR_EXPIRATION := 5
  ENTRY_RELAY_TIME := 15
  ANY_RELAY_TIME := 5
  TRAFFIC_VECTOR_UPDATE_INTERVAL := 2
  ALARM_ZONE_CLOSE := 1500
  ALARM_ZONE_LOW := 1000
  ALARM_ZONE_IMPORTANT := 700
  ALARM_ZONE_URGENT := 400
  ALARM_ZONE_EXTREME := 250
  VERTICAL_SEPARATION := 300
  VERTICAL_SLOPE := 5
  VERTICAL_SLACK := 30
  ALARM_TIME_CLOSE := 30
  ALARM_TIME_LOW := 19
  ALARM_TIME_IMPORTANT := 13
  ALARM_TIME_URGENT := 9
  ALARM_TIME_EXTREME := 6
  ALARM_VECTOR_ANGLE := 10
  ALARM_VECTOR_SPEED := 2
  GPS_MPS_PER_KNOT := 51444444 / 100000000
  TX_TYPE_S := 1
  TX_TYPE_TISB := 2
  TX_TYPE_FLARM := 4
  ADDR_TYPE_ICAO := 1
  RF_BAND_US := 2
  RF_PROTOCOL_NONE := 0
  RF_PROTOCOL_LEGACY := 1
  RF_PROTOCOL_LATEST := 2
  RF_PROTOCOL_ADSB_1090 := 8
  RF_PROTOCOL_GDL90 := 9
  AIRCRAFT_TYPE_UNKNOWN := 0
  AIRCRAFT_TYPE_JET := 9
  AIRCRAFT_TYPE_HELICOPTER := 3
  AIRCRAFT_TYPE_GLIDER := 1
  AIRCRAFT_TYPE_TOWPLANE := 2
  RELAY_OFF := 0
  RELAY_ALL := 2
  RELAY_ONLY := 3
  DEBUG_SIMULATE := 32

/-! ## Data model -/

/-- The struct `container_t` (an entry of `Container[]`, and `ThisAircraft`): the fields
that `TrafficHelper.cpp` reads or writes. -/
structure container_t where
  addr : Nat
  latitude : ℚ
  longitude : ℚ
  altitude : ℚ
  pressure_altitude : ℚ
  timestamp : Nat
  gnsstime_ms : Nat
  speed : ℚ
  course : ℚ
  heading : ℚ
  turnrate : ℚ
  vs : ℚ
  hdop : Nat
  last_crc : Nat
  protocol : Nat
  tx_type : Nat
  addr_type : Nat
  aircraft_type : Nat
  airborne : Nat
  circling : Int
  stealth : Bool
  no_track : Bool
  relayed : Bool
  rssi : Int
  callsign : List Nat
  prevtime_ms : Nat
  prevcourse : ℚ
  prevheading : ℚ
  prevaltitude : ℚ
  alt_diff : ℚ
  dx : Int
  dy : Int
  distance : ℚ
  bearing : ℚ
  adj_alt_diff : ℚ
  adj_distance : ℚ
  RelativeHeading : Int
  alarm_level : Int
  alert_level : Int
  alert : Nat
  maxrssi : Int
  maxrssirelalt : ℚ
  mindist : ℚ
  mindistrssi : Int
  timerelayed : Nat
  air_ew : List Int
  air_ns : List Int
  projtime_ms : Nat
deriving DecidableEq

/-- The struct `ufo_t` (a decoded report, "fewer fields"). -/
structure ufo_t where
  addr : Nat
  latitude : ℚ
  longitude : ℚ
  altitude : ℚ
  pressure_altitude : ℚ
  timestamp : Nat
  gnsstime_ms : Nat
  speed : ℚ
  course : ℚ
  turnrate : ℚ
  vs : ℚ
  hdop : Nat
  last_crc : Nat
  protocol : Nat
  tx_type : Nat
  addr_type : Nat
  aircraft_type : Nat
  airborne : Nat
  circling : Int
  stealth : Bool
  no_track : Bool
  relayed : Bool
deriving DecidableEq

/-- The image of `memset(p, 0, sizeof(CONTAINER))`. -/
def EmptyContainer : container_t where
  addr := 0
  latitude := 0
  longitude := 0
  altitude := 0
  pressure_altitude := 0
  timestamp := 0
  gnsstime_ms := 0
  speed := 0
  course := 0
  heading := 0
  turnrate := 0
  vs := 0
  hdop := 0
  last_crc := 0
  protocol := 0
  tx_type := 0
  addr_type := 0
  aircraft_type := 0
  airborne := 0
  circling := 0
  stealth := false
  no_track := false
  relayed := false
  rssi := 0
  callsign := List.replicate 10 0
  prevtime_ms := 0
  prevcourse := 0
  prevheading := 0
  prevaltitude := 0
  alt_diff := 0
  dx := 0
  dy := 0
  distance := 0
  bearing := 0
  adj_alt_diff := 0
  adj_distance := 0
  RelativeHeading := 0
  alarm_level := 0
  alert_level := 0
  alert := 0
  maxrssi := 0
  maxrssirelalt := 0
  mindist := 0
  mindistrssi := 0
  timerelayed := 0
  air_ew := List.replicate 6 0
  air_ns := List.replicate 6 0
  projtime_ms := 0

/-- The fields of `settings` that the traffic code reads. -/
structure settings_t where
  band : Nat
  rf_protocol : Nat
  altprotocol : Nat
  relay : Nat
  debug_flags : Nat
  follow_id : Nat

/-! ## Identity computation: `icao_canadian`, `get_suffix`, `icao_to_n` -/

/-- A store `buf[i] = c` into a `char` array: `none` when `i` is past its end. -/
def poke (buf : List Nat) (i c : Nat) : Option (List Nat) :=
  if i < buf.length then some (buf.set i (c % 256)) else none

/-- The string a `char` array holds: the bytes before the first NUL. -/
def cstring (buf : List Nat) : List Nat :=
  buf.takeWhile (fun c => c != 0)

/-- The byte values of a string literal. -/
def bytes (s : String) : List Nat :=
  s.toList.map Char.toNat

/-- The table `nnumberchars` = "ABCDEFGHJKLMNPQRSTUVWXYZ0123456789" (34 characters). -/
def nnumberchars : List Nat :=
  [65, 66, 67, 68, 69, 70, 71, 72, 74, 75, 76, 77, 78, 80, 81, 82, 83, 84, 85, 86, 87, 88,
   89, 90, 48, 49, 50, 51, 52, 53, 54, 55, 56, 57]

/-- Look-up `nnumberchars[i]`: `none` outside the 34 characters. -/
def nnchar (i : Nat) : Option Nat :=
  nnumberchars[i]?

def LETTERSET_SIZE : Nat := 25

def suffix_size : Nat := 601

def bucket4_size : Nat := 35

def bucket3_size : Nat := 951

def bucket2_size : Nat := 10111

def bucket1_size : Nat := 101711

/-- The function `icao_canadian`: writes "C-", four letters, '?', NUL, and '?' at index 9.
`icao` is a `uint32_t`. -/
def icao_canadian (fop : container_t) : Option container_t :=
  let icao := (fop.addr + 4294967296 - 0xC00001) % 4294967296
  (poke fop.callsign 0 67).bind fun buf =>
  (poke buf 1 45).bind fun buf =>
  let dig := icao / (26*26*26)
  let rem := icao - dig * (26*26*26)
  let dig := if dig = 2 then 3 else dig
  (poke buf 2 (dig + 70)).bind fun buf =>
  let dig := rem / (26*26)
  let rem := rem - dig * (26*26)
  (poke buf 3 (dig + 65)).bind fun buf =>
  let dig := rem / 26
  let rem := rem - dig * 26
  (poke buf 4 (dig + 65)).bind fun buf =>
  (poke buf 5 (rem + 65)).bind fun buf =>
  (poke buf 6 63).bind fun buf =>
  (poke buf 7 0).bind fun buf =>
  (poke buf 9 63).bind fun buf =>
  some { fop with callsign := buf }

/-- The function `get_suffix(offset, buf)`, the pointer `buf` being index `pos` of the
callsign array `cs`: zero, one or two letters, then '?' and NUL. -/
def get_suffix (offset : Nat) (cs : List Nat) (pos : Nat) : Option (List Nat) :=
  if offset ≠ 0 then
    let i0 := (offset - 1) / LETTERSET_SIZE
    (nnchar i0).bind fun c0 =>
    (poke cs pos c0).bind fun cs =>
    let rem := (offset - 1) - i0 * LETTERSET_SIZE
    if rem ≠ 0 then
      (nnchar (rem - 1)).bind fun c1 =>
      (poke cs (pos + 1) c1).bind fun cs =>
      (poke cs (pos + 2) 63).bind fun cs =>
      poke cs (pos + 3) 0
    else
      (poke cs (pos + 1) 63).bind fun cs =>
      poke cs (pos + 2) 0
  else
    (poke cs pos 63).bind fun cs =>
    poke cs (pos + 1) 0

/-- The innermost block of `icao_to_n` ("shift for digit 4"): the fourth digit after the
first, an optional last character, '?' and NUL. `rem` is the remainder before the shift. -/
def n_digit4 (rem : Nat) (buf : List Nat) : Option (List Nat) :=
  let rem := rem - suffix_size
  let dig := rem / bucket4_size
  let rem := rem - dig * bucket4_size
  (poke buf 4 (dig + 48)).bind fun buf =>
  if rem ≠ 0 then
    (nnchar (rem - 1)).bind fun c =>
    (poke buf 5 c).bind fun buf =>
    (poke buf 6 63).bind fun buf =>
    poke buf 7 0
  else
    (poke buf 5 63).bind fun buf =>
    poke buf 6 0

/-- The block of `icao_to_n` for digit 3 ("shift for digit 3") and what is nested in it. -/
def n_digit3 (rem : Nat) (buf : List Nat) : Option (List Nat) :=
  let rem := rem - suffix_size
  let dig := rem / bucket3_size
  let rem := rem - dig * bucket3_size
  (poke buf 3 (dig + 48)).bind fun buf =>
  if rem < suffix_size then get_suffix rem buf 4 else n_digit4 rem buf

/-- The block of `icao_to_n` for digit 2 ("shift for digit 2") and what is nested in it. -/
def n_digit2 (rem : Nat) (buf : List Nat) : Option (List Nat) :=
  let rem := rem - suffix_size
  let dig := rem / bucket2_size
  let rem := rem - dig * bucket2_size
  (poke buf 2 (dig + 48)).bind fun buf =>
  if rem < suffix_size then get_suffix rem buf 3 else n_digit3 rem buf

/-- The function `icao_to_n`: derive a registration from the ICAO address, for the US band,
when no callsign was received. The nested blocks for digits 2 to 4 are `n_digit2`,
`n_digit3`, `n_digit4`. The result is `none` if a store or a table look-up falls outside
its array. -/
def icao_to_n (H : Header) (settings : settings_t) (fop : container_t) : Option container_t :=
  if fop.addr_type ≠ H.ADDR_TYPE_ICAO then some fop
  else if settings.band ≠ H.RF_BAND_US then some fop
  else if fop.callsign.headD 0 ≠ 0 ∧ fop.callsign.headD 0 ≠ 32 then some fop
  else
    let icao := fop.addr
    if icao > 0xC00000 ∧ icao < 0xC0CDF9 then icao_canadian fop
    else if icao < 0xA00001 ∨ icao > 0xADF7C7 then some fop
    else
      (poke fop.callsign 9 63).bind fun buf =>
      let icao := icao - 0xA00001
      (poke buf 0 78).bind fun buf =>
      let dig := icao / bucket1_size
      let rem := icao - dig * bucket1_size
      (poke buf 1 (dig + 49)).bind fun buf =>
      (if rem < suffix_size then get_suffix rem buf 2 else n_digit2 rem buf).map fun buf =>
        { fop with callsign := buf }

/-- A target of address type ICAO with the given address and an all-zero callsign array. -/
def icaoTarget (H : Header) (a : Nat) : container_t :=
  { EmptyContainer with addr := a, addr_type := H.ADDR_TYPE_ICAO }

/-- Settings with the US band selected. -/
def usSettings (H : Header) : settings_t where
  band := H.RF_BAND_US
  rf_protocol := H.RF_PROTOCOL_LATEST
  altprotocol := H.RF_PROTOCOL_NONE
  relay := H.RELAY_OFF
  debug_flags := 0
  follow_id := 0

/-- The callsign string `icao_to_n` leaves in the array (empty if the call faults). -/
def derivedCallsign (H : Header) (settings : settings_t) (fop : container_t) : List Nat :=
  match icao_to_n H settings fop with
  | some r => cstring r.callsign
  | none => []

/-! ## Reading a derived N-number back (used to show the encoder injective) -/

/-- Entry `i` of `nnumberchars` (0 outside the table). -/
def nn (i : Nat) : Nat :=
  nnumberchars.getD i 0

/-- Position of a character in `nnumberchars`. -/
def nnindex (c : Nat) : Nat :=
  nnumberchars.indexOf c

/-- Whether a byte is one of '0'..'9'. -/
def isDigitByte (c : Nat) : Bool :=
  decide (48 ≤ c) && decide (c ≤ 57)

/-- The offset that `get_suffix` turns into the given letters. -/
def suffix_offset : List Nat → Nat
  | [a] => nnindex a * 25 + 1
  | [a, b] => nnindex a * 25 + 1 + (nnindex b + 1)
  | _ => 0

/-- The remainder (1..34) that the last character of a five-character number stands for. -/
def read_last : List Nat → Nat
  | [c] => nnindex c + 1
  | _ => 0

/-- The remainder that `n_digit4`, or `get_suffix` at index 4, turns into the given characters. -/
def read_digit4 : List Nat → Nat
  | [] => 0
  | d :: r => if isDigitByte d then 601 + (d - 48) * 35 + read_last r else suffix_offset (d :: r)

/-- The remainder that `n_digit3`, or `get_suffix` at index 3, turns into the given characters. -/
def read_digit3 : List Nat → Nat
  | [] => 0
  | d :: r => if isDigitByte d then 601 + (d - 48) * 951 + read_digit4 r else suffix_offset (d :: r)

/-- The remainder that `n_digit2`, or `get_suffix` at index 2, turns into the given characters. -/
def read_digit2 : List Nat → Nat
  | [] => 0
  | d :: r => if isDigitByte d then 601 + (d - 48) * 10111 + read_digit3 r else suffix_offset (d :: r)

/-- The address offset (address minus 0xA00001) that gives the characters between 'N' and '?'. -/
def n_to_offset : List Nat → Nat
  | [] => 0
  | d :: r => (d - 49) * 101711 + read_digit2 r

/-! ## Environment and global state -/

/-- The libm functions and angle constants the code uses; `float` being modelled by `ℚ`, they
are parameters of the embedding. -/
structure Libm where
  cos : ℚ → ℚ
  sin : ℚ → ℚ
  hypot : ℚ → ℚ → ℚ
  atan2 : ℚ → ℚ → ℚ
  log2 : ℚ → ℚ
  exp2 : ℚ → ℚ
  D2R : ℚ
  R2D : ℚ

/-- A stand-in for `Libm` with rational values, for concrete runs only (the theorems hold for
every `Libm`): `hypot` is the larger absolute value, `atan2` is constant. -/
def testLibm : Libm where
  cos := fun _ => 7071 / 10000
  sin := fun _ => 7071 / 10000
  hypot := fun x y => max |x| |y|
  atan2 := fun _ _ => 0
  log2 := fun x => x
  exp2 := fun x => x
  D2R := 1745 / 100000
  R2D := 573 / 10

/-- An alarm algorithm, the type of the function pointer `Alarm_Level`:
`int8_t (*)(container_t *this_aircraft, container_t *fop)`. The result is the level returned
and the target as the call leaves it. -/
abbrev AlarmFn := container_t → container_t → Int × container_t

/-- What one call of the traffic code reads from the rest of the firmware: settings, own
aircraft, clocks, and the outcome of the radio calls made by the relay. -/
structure Env where
  settings : settings_t
  ThisAircraft : container_t
  OurTime : Nat
  RF_time : Nat
  millis : Nat
  RF_last_rssi : Int
  do_alarm_demo : Bool
  Alarm_Level : Option AlarmFn
  isTimeToUpdateTraffic : Bool
  current_RF_protocol : Nat
  RF_current_slot : Nat
  RF_Transmit_Happened : Bool
  TxEndMarker : Nat
  RF_Encode : container_t → Nat
  RF_Transmit : Bool
  TRAFFIC_ALERT_SOUND : Nat

/-- The static variables `cos_lat`, `inv_cos_lat` and `oldlat` of `CosLat`. -/
structure cos_cache where
  cos_lat : ℚ
  inv_cos_lat : ℚ
  oldlat : ℚ
deriving DecidableEq

/-- The range and RSSI accumulators (`oldrange`, `newrange`, ...), arrays of 12 sectors. -/
structure range_stats where
  oldrange : List ℚ
  newrange : List ℚ
  oldrange_n : List Nat
  newrange_n : List Nat
  oldrssi_mean : ℚ
  newrssi_sum : ℚ
  newrssi_dev : ℚ
  oldrssi_n : Nat
  newrssi_n : Nat
  oldrssi_ssd : ℚ
  newrssi_ssd : ℚ
deriving DecidableEq

/-- The globals written by `air_relay`. -/
structure relay_globals where
  lastrelay : Nat
  relay_waiting : Bool
  alt_relay_waiting : Bool
deriving DecidableEq

/-- The struct `stash` filled by `Stash_Traffic_Distances`. -/
structure stash_t where
  distance : ℚ
  bearing : ℚ
  alt_diff : ℚ
  dx : Int
  dy : Int
deriving DecidableEq

/-- The global state of the traffic code. `Container` has `MAX_TRACKING_OBJECTS` entries. -/
structure World where
  Container : List container_t
  Alarm_timer : Nat
  max_alarm_level : Int
  alarm_ahead : Bool
  UpdateTrafficTimeMarker : Nat
  relay : relay_globals
  cosc : cos_cache
  stats : range_stats
deriving DecidableEq

/-- The sound notification a tick of `Traffic_loop` emits: `Buzzer_Notify(level, multiple)`
for the entry `Container[index]`, whose address goes into `$PSRAA`. -/
structure Notification where
  level : Int
  multiple : Bool
  index : Nat
  addr : Nat
deriving DecidableEq

/-- The conversion `(int) x` of a `float`: truncation toward zero. -/
def float_to_int (x : ℚ) : Int :=
  if 0 ≤ x then Rat.floor x else - Rat.floor (-x)

/-! ## Alarm algorithms -/

/-- The function `Alarm_None`. -/
def Alarm_None : AlarmFn :=
  fun _ fop => (ALARM_LEVEL_NONE, fop)

/-- The last lines of `Adj_alt_diff`: ignore the first `VERTICAL_SLACK` of difference. -/
def vertical_slack (H : Header) (alt_diff : ℚ) : ℚ :=
  if alt_diff > H.VERTICAL_SLACK then alt_diff - H.VERTICAL_SLACK
  else if alt_diff < - H.VERTICAL_SLACK then alt_diff + H.VERTICAL_SLACK
  else 0

/-- The function `Adj_alt_diff`: relative altitude adjusted for relative vertical speed. -/
def Adj_alt_diff (H : Header) (this_aircraft fop : container_t) : ℚ :=
  let alt_diff := fop.alt_diff
  let vsr := fop.vs - this_aircraft.vs
  let vsr := if vsr > 2000 then 2000 else vsr
  let vsr := if vsr < -2000 then -2000 else vsr
  let alt_change := vsr * (5 / 100)
  if alt_diff > 0 ∧ alt_change < 0 then
    let alt_diff := alt_diff + alt_change
    if alt_diff < 0 then 0 else vertical_slack H alt_diff
  else if alt_diff < 0 ∧ alt_change > 0 then
    let alt_diff := alt_diff + alt_change
    if alt_diff > 0 then 0 else vertical_slack H alt_diff
  else vertical_slack H alt_diff

/-- The function `Alarm_Distance`: distance based alarm level; it may decrement the target's
`alert_level` inside `ALARM_ZONE_EXTREME`. -/
def Alarm_Distance (H : Header) : AlarmFn :=
  fun _ fop =>
    let distance := fop.distance
    if distance > H.ALARM_ZONE_CLOSE ∨ |fop.adj_alt_diff| > H.VERTICAL_SEPARATION then
      (ALARM_LEVEL_NONE, fop)
    else
      let adj_distance := if fop.adj_distance > distance then fop.adj_distance else distance
      let fop :=
        if adj_distance < H.ALARM_ZONE_EXTREME ∧ fop.alert_level > ALARM_LEVEL_NONE then
          { fop with alert_level := fop.alert_level - 1 }
        else fop
      let rval :=
        if adj_distance < H.ALARM_ZONE_URGENT then ALARM_LEVEL_URGENT
        else if adj_distance < H.ALARM_ZONE_IMPORTANT then ALARM_LEVEL_IMPORTANT
        else if adj_distance < H.ALARM_ZONE_LOW then ALARM_LEVEL_LOW
        else if adj_distance < H.ALARM_ZONE_CLOSE then ALARM_LEVEL_CLOSE
        else ALARM_LEVEL_NONE
      (rval, fop)

/-- The level `Alarm_Vector` assigns in its three angle bands, from the angle `rel_angle`
between the incoming direction and the bearing, the relative speed and the time `t` to
impact. -/
def band_level (H : Header) (rel_angle V_rel_magnitude t : ℚ) : Int :=
  if rel_angle < H.ALARM_VECTOR_ANGLE ∧ V_rel_magnitude > 3 * H.ALARM_VECTOR_SPEED then
    if t < H.ALARM_TIME_CLOSE then
      if t < H.ALARM_TIME_LOW then
        if t < H.ALARM_TIME_IMPORTANT then
          if t < H.ALARM_TIME_URGENT then ALARM_LEVEL_URGENT else ALARM_LEVEL_IMPORTANT
        else ALARM_LEVEL_LOW
      else ALARM_LEVEL_CLOSE
    else ALARM_LEVEL_NONE
  else if rel_angle < 2 * H.ALARM_VECTOR_ANGLE then
    if t < H.ALARM_TIME_LOW then
      if t < H.ALARM_TIME_IMPORTANT then
        if t < H.ALARM_TIME_URGENT then
          if t < H.ALARM_TIME_EXTREME then ALARM_LEVEL_URGENT else ALARM_LEVEL_IMPORTANT
        else ALARM_LEVEL_LOW
      else ALARM_LEVEL_CLOSE
    else ALARM_LEVEL_NONE
  else if rel_angle < 3 * H.ALARM_VECTOR_ANGLE then
    if t < H.ALARM_TIME_IMPORTANT then
      if t < H.ALARM_TIME_URGENT then
        if t < H.ALARM_TIME_EXTREME then ALARM_LEVEL_IMPORTANT else ALARM_LEVEL_LOW
      else ALARM_LEVEL_CLOSE
    else ALARM_LEVEL_NONE
  else ALARM_LEVEL_NONE

/-- The block `if (abs_alt_diff < VERTICAL_SEPARATION)` of `Alarm_Vector`: the level `rval`
and the local `t` after it. The code does not initialise `t`; `t0` is the value it holds
until the assignment `t = adj_distance / V_rel_magnitude`. -/
def vector_level (M : Libm) (H : Header) (t0 : ℚ) (this_aircraft fop : container_t) : Int × ℚ :=
  let distance := fop.distance
  if |fop.adj_alt_diff| < H.VERTICAL_SEPARATION then
    let adj_distance := if fop.adj_distance < distance then distance else fop.adj_distance
    let this_course := M.D2R * this_aircraft.course
    let that_course := M.D2R * fop.course
    let V_rel_y := this_aircraft.speed * M.cos this_course - fop.speed * M.cos that_course
    let V_rel_x := this_aircraft.speed * M.sin this_course - fop.speed * M.sin that_course
    let V_rel_magnitude := M.hypot V_rel_x V_rel_y * H.GPS_MPS_PER_KNOT
    let V_rel_direction := M.R2D * M.atan2 V_rel_x V_rel_y
    let V_rel_direction := if V_rel_direction < 0 then V_rel_direction + 360 else V_rel_direction
    if V_rel_magnitude > H.ALARM_VECTOR_SPEED then
      let t := adj_distance / V_rel_magnitude
      let rel_angle := |V_rel_direction - fop.bearing|
      let rel_angle := if rel_angle > 180 then 360 - rel_angle else rel_angle
      (band_level H rel_angle V_rel_magnitude t, t)
    else (ALARM_LEVEL_NONE, t0)
  else (ALARM_LEVEL_NONE, t0)

/-- The function `Alarm_Vector`: linear collision prediction from course and ground speed,
with `Alarm_Distance` as the fall-back; `gnsstime_ms` and `prevtime_ms` are `uint32_t`.
The debug sentence `$PSALV` is left out. -/
def Alarm_Vector (M : Libm) (H : Header) (t0 : ℚ) : AlarmFn :=
  fun this_aircraft fop =>
    if fop.tx_type ≤ H.TX_TYPE_S then Alarm_Distance H this_aircraft fop
    else if fop.speed = 0 then Alarm_Distance H this_aircraft fop
    else if (fop.gnsstime_ms + 4294967296 - fop.prevtime_ms) % 4294967296 > 3000 then
      Alarm_Distance H this_aircraft fop
    else if fop.distance > 2 * H.ALARM_ZONE_CLOSE then (ALARM_LEVEL_NONE, fop)
    else if |fop.adj_alt_diff| > H.VERTICAL_SEPARATION then (ALARM_LEVEL_NONE, fop)
    else if fop.distance >
        (fop.speed + this_aircraft.speed) * (H.ALARM_TIME_LOW * H.GPS_MPS_PER_KNOT) then
      (ALARM_LEVEL_NONE, fop)
    else if |this_aircraft.turnrate| > 3 ∨ |fop.turnrate| > 3 then
      Alarm_Distance H this_aircraft fop
    else
      let r := vector_level M H t0 this_aircraft fop
      if r.1 ≥ ALARM_LEVEL_LOW ∧ r.2 < H.ALARM_TIME_EXTREME ∧
          fop.alert_level > ALARM_LEVEL_NONE then
        (r.1, { fop with alert_level := fop.alert_level - 1 })
      else (r.1, fop)

/-- The flag `towing` of `Alarm_Latest`: a towplane and a glider, on courses within 20
degrees, turn rates within 6 degrees per second and speeds within 15 knots. -/
def towing_pair (H : Header) (this_aircraft fop : container_t) : Bool :=
  let towing :=
    (this_aircraft.aircraft_type = H.AIRCRAFT_TYPE_TOWPLANE ∧
        fop.aircraft_type = H.AIRCRAFT_TYPE_GLIDER) ∨
      (this_aircraft.aircraft_type = H.AIRCRAFT_TYPE_GLIDER ∧
        fop.aircraft_type = H.AIRCRAFT_TYPE_TOWPLANE)
  let course_diff := |this_aircraft.course - fop.course|
  decide (towing ∧ ¬ (course_diff > 20 ∧ course_diff < 340) ∧
    ¬ |this_aircraft.turnrate - fop.turnrate| > 6 ∧
    ¬ |this_aircraft.speed - fop.speed| > 15)

/-- The zoom-up allowance of `Alarm_Latest`: from the altitude difference `dz` (metres), the
relative vertical speed and the airspeed of the lower aircraft, the vertical separation
`adjdz` before the dead band, and the factor (in 64ths) by which the speed of the zooming
aircraft is scaled if the flag `zoom` is set (`none` if it is not: the code leaves `factor`
uninitialised then, and reads it only under `zoom`). `int` arithmetic is exact here. -/
def zoom_up (this_aircraft fop : container_t) : Int × Option Int :=
  let dz := float_to_int fop.alt_diff
  let vsr := fop.vs - this_aircraft.vs
  let absdz := |dz|
  let vv : Int :=
    if dz < 0 ∧ fop.circling = 0 ∧ vsr > 400 then
      fop.air_ew.getD 0 0 * fop.air_ew.getD 0 0 + fop.air_ns.getD 0 0 * fop.air_ns.getD 0 0
    else if dz > 0 ∧ this_aircraft.circling = 0 ∧ vsr < -400 then
      this_aircraft.air_ew.getD 0 0 * this_aircraft.air_ew.getD 0 0
        + this_aircraft.air_ns.getD 0 0 * this_aircraft.air_ns.getD 0 0
    else 0
  if vv > 20 * 20 * 4 * 4 then
    let vv20 := vv - 20 * 20 * 4 * 4
    let adjdz := absdz - (vv20 >>> 9)
    if vv20 > 8000 then
      let factor := 64 - Int.tdiv (5 * 16 * 64 * absdz) vv
      (adjdz, some (if factor < 48 then 48 else factor))
    else (adjdz, none)
  else (absdz, none)

/-- The second-by-second velocities prepared by `Alarm_Latest` (`thisvx`, `thisvy`, `thatvx`,
`thatvy`) from the six samples of an airspeed component, 3 seconds apart: entries
`3k, 3k+1, 3k+2` hold sample `k`, entry 18 repeats the last one. With a zoom factor the
samples are scaled by `factor/64` (`v *= factor; v >> 6`). -/
def per_second (factor : Option Int) (air : List Int) : List Int :=
  let scaled : List Int := (List.range 6).map fun i =>
    match factor with
    | some f => (air.getD i 0 * f) >>> 6
    | none => air.getD i 0
  (scaled.flatMap fun v => [v, v, v]) ++ [scaled.getD 5 0]

/-- The locals of the projection loop of `Alarm_Latest`. -/
structure proj_state where
  dx : Int
  dy : Int
  minsqdist : Int
  vxmin : Int
  vymin : Int
  mintime : Int

/-- One pass of the loop `for (t=0; t<18; t++)` of `Alarm_Latest`; `i0` and `j0` are the
values of `i` and `j` before the loop. -/
def proj_step (thisvx thisvy thatvx thatvy : List Int) (i0 j0 : Nat) (sqdz : Int)
    (s : proj_state) (t : Nat) : proj_state :=
  let vx := thatvx.getD (i0 + t) 0 - thisvx.getD (j0 + t) 0
  let vy := thatvy.getD (i0 + t) 0 - thisvy.getD (j0 + t) 0
  let dx := s.dx + vx
  let dy := s.dy + vy
  let sqdist := dx * dx + dy * dy + sqdz
  if sqdist < s.minsqdist then
    { dx := dx, dy := dy, minsqdist := sqdist, vxmin := vx, vymin := vy, mintime := t }
  else { s with dx := dx, dy := dy }

/-- The level `Alarm_Latest` assigns from the minimum squared distance (in quarter-metres)
and its time, before the reduction for a low relative speed. -/
def latest_band (H : Header) (minsqdist mintime : Int) (gaggling towing : Bool) : Int :=
  if minsqdist < 40 * 40 * 4 * 4 then
    if (mintime : ℚ) < H.ALARM_TIME_URGENT then ALARM_LEVEL_URGENT
    else if (mintime : ℚ) < H.ALARM_TIME_IMPORTANT then ALARM_LEVEL_IMPORTANT
    else ALARM_LEVEL_LOW
  else if minsqdist < 70 * 70 * 4 * 4 ∧ gaggling = false ∧ towing = false then
    if (mintime : ℚ) < H.ALARM_TIME_EXTREME then ALARM_LEVEL_URGENT
    else if (mintime : ℚ) < H.ALARM_TIME_URGENT then ALARM_LEVEL_IMPORTANT
    else if (mintime : ℚ) < H.ALARM_TIME_IMPORTANT then ALARM_LEVEL_LOW
    else ALARM_LEVEL_CLOSE
  else if minsqdist < 120 * 120 * 4 * 4 ∧ gaggling = false ∧ towing = false then
    if (mintime : ℚ) < H.ALARM_TIME_EXTREME then ALARM_LEVEL_IMPORTANT
    else if (mintime : ℚ) < H.ALARM_TIME_URGENT then ALARM_LEVEL_LOW
    else if (mintime : ℚ) < H.ALARM_TIME_IMPORTANT then ALARM_LEVEL_CLOSE
    else ALARM_LEVEL_NONE
  else ALARM_LEVEL_NONE

/-- The reduction of the level by `Alarm_Latest` when the relative speed at the closest
point is low (`sqspeed` is its square, in quarter-metres per second). -/
def slow_reduction (rval vxmin vymin : Int) : Int :=
  let rval :=
    if rval > ALARM_LEVEL_NONE then
      let sqspeed := vxmin * vxmin + vymin * vymin
      if sqspeed < 6 * 6 * 4 * 4 then
        if sqspeed < 4 * 4 * 4 * 4 then
          if sqspeed < 2 * 2 * 4 * 4 then rval - 3 else rval - 2
        else rval - 1
      else rval
    else rval
  if rval < ALARM_LEVEL_NONE then ALARM_LEVEL_NONE else rval

/-- The vertical separation `adjdz` (metres) that `Alarm_Latest` works with: the altitude
difference less the zoom-up allowance and `VERTICAL_SLACK`, not below 0. -/
def latest_adjdz (H : Header) (this_aircraft fop : container_t) : Int :=
  let adjdz := float_to_int (((zoom_up this_aircraft fop).1 : ℚ) - H.VERTICAL_SLACK)
  if adjdz < 0 then 0 else adjdz

/-- What the projection loop of `Alarm_Latest` works on: the per-second velocities of the two
aircraft, the values of `i` and `j` before the loop, the squared vertical separation `sqdz`,
the squared distance now `cursqdist` (quarter-metres, the vertical separation counted
twice), and the locals before the loop. -/
structure proj_setup where
  thisvx : List Int
  thisvy : List Int
  thatvx : List Int
  thatvy : List Int
  i0 : Nat
  j0 : Nat
  sqdz : Int
  cursqdist : Int
  start : proj_state

/-- The preparation of the projection in `Alarm_Latest`, from the arrays of per-second
velocities to `cursqdist`. If the projections of the two aircraft are more than 500 ms
apart, the older one is shifted by one second. `int` arithmetic is exact here;
`projtime_ms` is a `uint32_t`. -/
def latest_setup (H : Header) (this_aircraft fop : container_t) (adjdz : Int) : proj_setup :=
  let dz := float_to_int fop.alt_diff
  let z := zoom_up this_aircraft fop
  let this_factor := if z.2.isSome ∧ dz > 15 then z.2 else none
  let that_factor := if z.2.isSome ∧ dz < -15 then z.2 else none
  let thisvx := per_second this_factor this_aircraft.air_ew
  let thisvy := per_second this_factor this_aircraft.air_ns
  let thatvx := per_second that_factor fop.air_ew
  let thatvy := per_second that_factor fop.air_ns
  let dx := fop.dx * 4
  let dy := fop.dy * 4
  let this_older := decide (fop.projtime_ms > (this_aircraft.projtime_ms + 500) % 4294967296)
  let that_older := decide (this_aircraft.projtime_ms > (fop.projtime_ms + 500) % 4294967296)
  let i0 := if this_older then 0 else if that_older then 1 else 0
  let j0 := if this_older then 1 else 0
  let dx := if this_older then dx - thisvx.getD 0 0
    else if that_older then dx + thatvx.getD 0 0 else dx
  let dy := if this_older then dy - thisvy.getD 0 0
    else if that_older then dy + thatvy.getD 0 0 else dy
  let adjdz := adjdz * 8
  let sqdz := adjdz * adjdz
  { thisvx := thisvx
    thisvy := thisvy
    thatvx := thatvx
    thatvy := thatvy
    i0 := i0
    j0 := j0
    sqdz := sqdz
    cursqdist := dx * dx + dy * dy + sqdz
    start :=
      { dx := dx, dy := dy, minsqdist := 200 * 200 * 4 * 4, vxmin := 0, vymin := 0,
        mintime := float_to_int H.ALARM_TIME_CLOSE } }

/-- The projection of `Alarm_Latest`: the relative position is stepped second by second
through 18 seconds; the result is the squared distance now and the locals after the
loop. -/
def latest_project (H : Header) (this_aircraft fop : container_t) (adjdz : Int) :
    Int × proj_state :=
  let u := latest_setup H this_aircraft fop adjdz
  (u.cursqdist,
   (List.range 18).foldl (proj_step u.thisvx u.thisvy u.thatvx u.thatvy u.i0 u.j0 u.sqdz)
    u.start)

/-- The end of `Alarm_Latest`, after the projection: None if the aircraft do not get closer
than they are; otherwise the level from the closest point, and the decrement of
`alert_level` when that point is less than `ALARM_TIME_EXTREME` away. The debug sentence
`$PSALL` is left out. -/
def latest_result (H : Header) (fop : container_t) (cursqdist : Int) (s : proj_state)
    (gaggling towing : Bool) : Int × container_t :=
  if cursqdist ≤ s.minsqdist ∨ s.mintime = 0 then (ALARM_LEVEL_NONE, fop)
  else
    let rval := slow_reduction (latest_band H s.minsqdist s.mintime gaggling towing)
      s.vxmin s.vymin
    if rval ≥ ALARM_LEVEL_LOW ∧ (s.mintime : ℚ) < H.ALARM_TIME_EXTREME ∧
        fop.alert_level > ALARM_LEVEL_NONE then
      (rval, { fop with alert_level := fop.alert_level - 1 })
    else (rval, fop)

/-- The simulator of `Alarm_Latest`: the part after the fall-backs, from the flags
`gaggling` and `towing` to the end. -/
def latest_sim (H : Header) (this_aircraft fop : container_t) : Int × container_t :=
  let gaggling := decide (|this_aircraft.circling + fop.circling| = 2)
  let towing := towing_pair H this_aircraft fop
  let adjdz := latest_adjdz H this_aircraft fop
  if adjdz > 60 then (ALARM_LEVEL_NONE, fop)
  else
    let p := latest_project H this_aircraft fop adjdz
    latest_result H fop p.1 p.2 gaggling towing

/-- The function `Alarm_Latest`. `project_that`, of `Wind.cpp`, is a parameter: it is given
the own aircraft and the target, and returns the target with its projected airspeeds. -/
def Alarm_Latest (M : Libm) (H : Header) (project_that : container_t → container_t → container_t)
    (t0 : ℚ) : AlarmFn :=
  fun this_aircraft fop =>
    if fop.distance > 2 * H.ALARM_ZONE_CLOSE then (ALARM_LEVEL_NONE, fop)
    else if fop.tx_type ≤ H.TX_TYPE_S then Alarm_Distance H this_aircraft fop
    else if fop.speed = 0 then Alarm_Distance H this_aircraft fop
    else if fop.tx_type = H.TX_TYPE_TISB ∨ fop.relayed = true then
      Alarm_Vector M H t0 this_aircraft fop
    else
      let v2 := fop.speed + this_aircraft.speed
      if fop.distance > v2 * (H.ALARM_TIME_LOW * H.GPS_MPS_PER_KNOT) then (ALARM_LEVEL_NONE, fop)
      else
        let vv := float_to_int v2
        let dz := float_to_int |fop.adj_alt_diff| - ((vv * vv) >>> 8)
        if (dz : ℚ) > H.VERTICAL_SEPARATION then (ALARM_LEVEL_NONE, fop)
        else if fop.protocol = H.RF_PROTOCOL_LATEST ∧ |this_aircraft.turnrate| < 2 ∧
            |fop.turnrate| < 2 then
          Alarm_Vector M H t0 this_aircraft fop
        else
          let fop := project_that this_aircraft fop
          if fop.protocol ≠ H.RF_PROTOCOL_LATEST ∧ |this_aircraft.turnrate| < 2 ∧
              |fop.turnrate| < 2 then
            Alarm_Vector M H t0 this_aircraft fop
          else latest_sim H this_aircraft fop

/-! ## Geometry -/

/-- The function `CosLat`: the cached cosine of the latitude, refreshed when the latitude has
moved by more than 0.3 degrees. -/
def CosLat (M : Libm) (ThisAircraft : container_t) (c : cos_cache) : ℚ × cos_cache :=
  let latitude := ThisAircraft.latitude
  if |latitude - c.oldlat| > 3 / 10 then
    let cos_lat := M.cos (M.D2R * latitude)
    let inv_cos_lat := if cos_lat > 1 / 100 then 1 / cos_lat else c.inv_cos_lat
    (cos_lat, { cos_lat := cos_lat, inv_cos_lat := inv_cos_lat, oldlat := latitude })
  else (c.cos_lat, c)

/-- The function `Stash_Traffic_Distances`. -/
def Stash_Traffic_Distances (M : Libm) (ThisAircraft : container_t) (c : cos_cache)
    (fop : ufo_t) : stash_t × cos_cache :=
  let alt_diff := fop.altitude - ThisAircraft.altitude
  let y := 111300 * (fop.latitude - ThisAircraft.latitude)
  let cl := CosLat M ThisAircraft c
  let x := 111300 * (fop.longitude - ThisAircraft.longitude) * cl.1
  let bearing := M.R2D * M.atan2 x y
  ({ distance := M.hypot x y
     bearing := if bearing < 0 then bearing + 360 else bearing
     alt_diff := alt_diff
     dx := float_to_int x
     dy := float_to_int y }, cl.2)

/-- The function `Copy_Traffic_Distances`. -/
def Copy_Traffic_Distances (stash : stash_t) (cip : container_t) : container_t :=
  { cip with
    distance := stash.distance
    bearing := stash.bearing
    alt_diff := stash.alt_diff
    dx := stash.dx
    dy := stash.dy }

/-- The function `Calc_Traffic_Distances`. -/
def Calc_Traffic_Distances (M : Libm) (ThisAircraft : container_t) (c : cos_cache)
    (cip : container_t) : container_t × cos_cache :=
  let alt_diff := cip.altitude - ThisAircraft.altitude
  let y := 111300 * (cip.latitude - ThisAircraft.latitude)
  let cl := CosLat M ThisAircraft c
  let x := 111300 * (cip.longitude - ThisAircraft.longitude) * cl.1
  let bearing := M.R2D * M.atan2 x y
  ({ cip with
     alt_diff := alt_diff
     dx := float_to_int x
     dy := float_to_int y
     distance := M.hypot x y
     bearing := if bearing < 0 then bearing + 360 else bearing }, cl.2)

/-! ## `Traffic_Update` -/

/-- The RSSI bookkeeping of `Traffic_Update` for a non-directional ADS-B target. -/
def note_maxrssi (H : Header) (fop : container_t) : container_t :=
  if fop.protocol = H.RF_PROTOCOL_ADSB_1090 then
    if fop.maxrssi = 0 ∨ fop.rssi > fop.maxrssi then
      { fop with maxrssi := fop.rssi, maxrssirelalt := fop.alt_diff }
    else fop
  else fop

/-- The distance bookkeeping of `Traffic_Update` for a directional ADS-B target. -/
def note_mindist (H : Header) (fop : container_t) : container_t :=
  if fop.protocol = H.RF_PROTOCOL_ADSB_1090 then
    if fop.mindist = 0 ∨ fop.distance < fop.mindist then
      { fop with mindist := fop.distance, mindistrssi := fop.rssi }
    else fop
  else fop

/-- The last block of `Traffic_Update` (`if (Alarm_Level) ...`): evaluate the selected
algorithm, store the level, apply the hysteresis on `alert_level` and the re-arm timer.
`millis()` is a `uint32_t`. -/
def alarm_eval (env : Env) (Alarm_timer : Nat) (fop : container_t) : container_t × Nat :=
  match env.Alarm_Level with
  | none => (fop, Alarm_timer)
  | some alg =>
    let r := alg env.ThisAircraft fop
    let fop : container_t := { r.2 with alarm_level := r.1 }
    let fop : container_t :=
      if fop.alarm_level < fop.alert_level then { fop with alert_level := fop.alarm_level + 1 }
      else fop
    if Alarm_timer ≠ 0 ∧ env.millis > Alarm_timer then
      (if fop.alert_level > ALARM_LEVEL_NONE then { fop with alert_level := fop.alert_level - 1 }
       else fop, 0)
    else (fop, Alarm_timer)

/-- The first block of `Traffic_Update`, for a non-directional target
(`tx_type <= TX_TYPE_S`): adjusted distance, relative heading 0, RSSI bookkeeping. -/
def update_nondirectional (H : Header) (fop : container_t) : container_t :=
  note_maxrssi H { fop with
    adj_alt_diff := fop.alt_diff
    adj_distance := fop.distance + H.VERTICAL_SLOPE * |fop.alt_diff|
    RelativeHeading := 0 }

/-- The relative heading computed by `Traffic_Update`: `(int) (bearing - heading)`, brought
back by 360 degrees once if outside -180..180. -/
def relative_heading (bearing heading : ℚ) : Int :=
  let rel_heading := float_to_int (bearing - heading)
  rel_heading + (if rel_heading < -180 then 360 else if rel_heading > 180 then -360 else 0)

/-- The `else` block of `Traffic_Update`, for a directional target, up to the adjusted
distance: relative heading, ADS-B bookkeeping, `adj_alt_diff`, `adj_distance`. -/
def update_directional (H : Header) (env : Env) (fop : container_t) : container_t :=
  let fop := note_maxrssi H (note_mindist H { fop with
    RelativeHeading := relative_heading fop.bearing env.ThisAircraft.heading })
  let adj_alt_diff := Adj_alt_diff H env.ThisAircraft fop
  { fop with
    adj_alt_diff := adj_alt_diff
    adj_distance := fop.distance + H.VERTICAL_SLOPE * |adj_alt_diff| }

/-- The function `Traffic_Update`, on one entry; the second component is `Alarm_timer`.
The blocks that recompute the derived fields are `update_nondirectional` and
`update_directional`, the block `if (Alarm_Level)` is `alarm_eval`. -/
def Traffic_Update (H : Header) (env : Env) (Alarm_timer : Nat) (fop : container_t) :
    container_t × Nat :=
  if fop.tx_type ≤ H.TX_TYPE_S then
    let fop := update_nondirectional H fop
    if env.ThisAircraft.airborne = 0 then
      ({ fop with alarm_level := ALARM_LEVEL_NONE }, Alarm_timer)
    else alarm_eval env Alarm_timer fop
  else
    let fop := update_directional H env fop
    if (fop.airborne = 0 ∨ env.ThisAircraft.airborne = 0) ∧ env.do_alarm_demo = false then
      ({ fop with alarm_level := ALARM_LEVEL_NONE }, Alarm_timer)
    else if env.OurTime > env.ThisAircraft.timestamp + 2 then (fop, Alarm_timer)
    else if env.OurTime > fop.timestamp + 2 then (fop, Alarm_timer)
    else alarm_eval env Alarm_timer fop

/-- Whether `Traffic_Update` reaches the evaluation of the alarm level for this entry (the
guards before `if (Alarm_Level)`): the own aircraft is airborne and, for a directional
target, the target is airborne too (or the alarm demo is on) and both positions are at most
2 seconds old. -/
def evaluates (H : Header) (env : Env) (fop : container_t) : Bool :=
  if fop.tx_type ≤ H.TX_TYPE_S then decide (env.ThisAircraft.airborne ≠ 0)
  else
    decide (¬ ((fop.airborne = 0 ∨ env.ThisAircraft.airborne = 0) ∧ env.do_alarm_demo = false) ∧
      env.OurTime ≤ env.ThisAircraft.timestamp + 2 ∧ env.OurTime ≤ fop.timestamp + 2)

/-! ## Range statistics: `sample_range` -/

/-- The function `zero_range_stats`: all accumulators at zero. -/
def zero_range_stats : range_stats where
  oldrange := List.replicate 12 0
  newrange := List.replicate 12 0
  oldrange_n := List.replicate 12 0
  newrange_n := List.replicate 12 0
  oldrssi_mean := 0
  newrssi_sum := 0
  newrssi_dev := 0
  oldrssi_n := 0
  newrssi_n := 0
  oldrssi_ssd := 0
  newrssi_ssd := 0

/-- The sector index computed by `sample_range` from `RelativeHeading` (C division
truncates toward zero). -/
def clock_sector (RelativeHeading : Int) : Int :=
  let oclock := RelativeHeading + 15
  let oclock := if oclock < 0 then oclock + 360 else oclock
  let oclock := if oclock ≥ 360 then oclock - 360 else oclock
  Int.tdiv oclock 30

/-- The function `sample_range`. `newrange_n` is an array of `uint16_t`, `newrssi_n` a
`uint32_t`. An index outside 0..11 is outside the arrays; the embedding then leaves the
accumulators as they are. -/
def sample_range (M : Libm) (H : Header) (ThisAircraft fop : container_t) (rs : range_stats) :
    range_stats :=
  if ThisAircraft.airborne = 0 then rs
  else if fop.airborne = 0 then rs
  else if fop.tx_type < H.TX_TYPE_FLARM then rs
  else if fop.distance < 1000 then rs
  else if 4 * |fop.alt_diff| > fop.distance then rs
  else
    let oclock := clock_sector fop.RelativeHeading
    if 0 ≤ oclock ∧ oclock < 12 then
      let k := oclock.toNat
      let rssi : ℚ := fop.rssi
      let rssi_dev := rssi - rs.oldrssi_mean
      { rs with
        newrange := rs.newrange.set k (rs.newrange.getD k 0 + M.log2 (1 / 1000 * fop.distance))
        newrange_n := rs.newrange_n.set k ((rs.newrange_n.getD k 0 + 1) % 65536)
        newrssi_sum := rs.newrssi_sum + rssi
        newrssi_dev := rs.newrssi_dev + rssi_dev
        newrssi_ssd := rs.newrssi_ssd + rssi_dev * rssi_dev
        newrssi_n := (rs.newrssi_n + 1) % 4294967296 }
    else rs

/-! ## Range statistics: `load_range_stats`, `save_range_stats` -/

/-- A line of `range.txt`, as `sscanf` reads it: the numbers at the start of the line,
separated by commas. The text itself is not modelled (`%.1f` and `%f` round to one and six
decimals, and a line is cut to the 64 bytes of `buf`): a number is read back as written. -/
abbrev Line := List ℚ

/-- A call to the file system `FILESYS` or to the `File` object `statsfile`. -/
inductive FsCall where
  | fs_exists (path : String)
  | fs_remove (path : String)
  | fs_rename (pathFrom pathTo : String)
  | fs_open_read (path : String)
  | fs_open_write (path : String)
  | println (line : Line)
  | getline
  | close
deriving DecidableEq

/-- The flash file system as the range statistics see it: the two files (`none` for a file
that does not exist), whether `FILESYS.open` succeeds, and the calls made so far. -/
structure FileSys where
  range_txt : Option (List Line)
  oldrange_txt : Option (List Line)
  opens : Bool
  calls : List FsCall
deriving DecidableEq

/-- Record a call. -/
def FileSys.call (fs : FileSys) (c : FsCall) : FileSys :=
  { fs with calls := fs.calls ++ [c] }

/-- The call `statsfile.println(...)` on `/range.txt` opened for writing: appends the line; no
effect if the file could not be opened. -/
def FileSys.println (fs : FileSys) (line : Line) : FileSys :=
  { fs with range_txt := fs.range_txt.map fun lines => lines ++ [line] }.call
    (FsCall.println line)

/-- The macro `RANGESTATSVERSION`. -/
def RANGESTATSVERSION : Int := 1

/-- The value `sscanf` stores through a `uint32_t *` for the conversion `%d`. -/
def scan_uint32 (x : ℚ) : Nat :=
  (float_to_int x % 4294967296).toNat

/-- The state of the loop of `load_range_stats`: the accumulators, the lines not yet read,
the file system, and whether the file ended early. -/
structure load_state where
  rs : range_stats
  lines : List Line
  fs : FileSys
  ended : Bool

/-- One pass of the loop of `load_range_stats` over the sectors: `getline`, then
`sscanf(buf, "%f,%f,%d", &file_linrange, &oldrange[oclock], &oldrange_n[oclock])`, which
stores the numbers present on the line, then `oldrssi_n += oldrange_n[oclock]`
(`uint32_t`). `getline`, defined outside this file, is taken to read the next line and to
fail at the end of the file; the function then returns, and the later passes do not run. -/
def load_sector (s : load_state) (oclock : Nat) : load_state :=
  if s.ended then s
  else
    let fs := s.fs.call FsCall.getline
    match s.lines with
    | [] => { s with fs := fs, ended := true }
    | buf :: rest =>
      let rs : range_stats :=
        match buf[1]? with
        | some x => { s.rs with oldrange := s.rs.oldrange.set oclock x }
        | none => s.rs
      let rs : range_stats :=
        match buf[2]? with
        | some n => { rs with oldrange_n := rs.oldrange_n.set oclock (scan_uint32 n) }
        | none => rs
      { rs := { rs with
          oldrssi_n := (rs.oldrssi_n + rs.oldrange_n.getD oclock 0) % 4294967296 }
        lines := rest
        fs := fs
        ended := false }

/-- The version read by `sscanf(buf, "%d", &file_version)`. `v0` is the value of the local
`file_version`, which the code does not initialise, when the line holds no number. -/
def scan_version (v0 : Int) (buf : Line) : Int :=
  match buf[0]? with
  | some v => float_to_int v
  | none => v0

/-- The last line of `range.txt`: `sscanf(buf, "%f,%f", &oldrssi_mean, &oldrssi_ssd)`. -/
def scan_rssi (rs : range_stats) (buf : Line) : range_stats :=
  let rs : range_stats :=
    match buf[0]? with
    | some x => { rs with oldrssi_mean := x }
    | none => rs
  match buf[1]? with
  | some x => { rs with oldrssi_ssd := x }
  | none => rs

/-- The end of `load_range_stats`, after the loop over the sectors: the line of the RSSI
statistics. If the file ended early the accumulators are zeroed again. -/
def load_finish (s : load_state) : (range_stats × FileSys) × Bool :=
  if s.ended then ((zero_range_stats, s.fs.call FsCall.close), false)
  else
    let fs := s.fs.call FsCall.getline
    match s.lines with
    | [] => ((zero_range_stats, fs.call FsCall.close), false)
    | buf :: _ => ((scan_rssi s.rs buf, fs.call FsCall.close), true)

/-- The function `load_range_stats`: the accumulators and the file system after the call,
and the value returned. -/
def load_range_stats (v0 : Int) (fs : FileSys) : (range_stats × FileSys) × Bool :=
  let rs := zero_range_stats
  let fs := fs.call (FsCall.fs_exists "/range.txt")
  match fs.range_txt with
  | none => ((rs, fs), false)
  | some lines =>
    let fs := fs.call (FsCall.fs_open_read "/range.txt")
    if fs.opens = false then ((rs, fs), false)
    else
      let fs := fs.call FsCall.getline
      match lines with
      | [] => ((rs, fs.call FsCall.close), false)
      | buf :: rest =>
        if scan_version v0 buf ≠ RANGESTATSVERSION then ((rs, fs.call FsCall.close), false)
        else
          load_finish ((List.range 12).foldl load_sector
            { rs := rs, lines := rest, fs := fs, ended := false })

/-- One pass of the loop of `save_range_stats` over the sectors: merge the new samples of
the sector with the old mean, and print the line `linrange,logrange,n`. `newrange_n` is an
array of `uint16_t`, `oldrange_n` of `uint32_t`. -/
def save_sector (M : Libm) (s : range_stats × FileSys) (oclock : Nat) : range_stats × FileSys :=
  let rs := s.1
  let rs : range_stats :=
    if rs.newrange_n.getD oclock 0 ≠ 0 then
      let newrange := rs.newrange.getD oclock 0
        + rs.oldrange.getD oclock 0 * (rs.oldrange_n.getD oclock 0 : ℚ)
      let newrange_n := (rs.newrange_n.getD oclock 0 + rs.oldrange_n.getD oclock 0) % 65536
      { rs with
        newrange := rs.newrange.set oclock (newrange / (newrange_n : ℚ))
        newrange_n := rs.newrange_n.set oclock newrange_n }
    else
      { rs with
        newrange := rs.newrange.set oclock (rs.oldrange.getD oclock 0)
        newrange_n := rs.newrange_n.set oclock (rs.oldrange_n.getD oclock 0 % 65536) }
  (rs, s.2.println
    [if rs.newrange_n.getD oclock 0 ≠ 0 then M.exp2 (rs.newrange.getD oclock 0) else 0,
     rs.newrange.getD oclock 0,
     (rs.newrange_n.getD oclock 0 : ℚ)])

/-- The merge of the RSSI statistics in `save_range_stats` (`newrssi_n`, `oldrssi_n` are
`uint32_t`): the new mean and the new mean square deviation, left in `newrssi_sum` and
`newrssi_ssd`. -/
def merge_rssi (rs : range_stats) : range_stats :=
  let newrssi_sum := rs.newrssi_sum + rs.oldrssi_mean * (rs.oldrssi_n : ℚ)
  let newrssi_n := (rs.newrssi_n + rs.oldrssi_n) % 4294967296
  let newrssi_sum := newrssi_sum / (newrssi_n : ℚ)
  let devsquared := rs.newrssi_dev * rs.newrssi_dev
  let oldrssi_ssd := rs.oldrssi_ssd * (rs.oldrssi_n : ℚ)
  let newrssi_ssd := rs.newrssi_ssd + oldrssi_ssd
  let newrssi_ssd := newrssi_ssd - devsquared / (newrssi_n : ℚ)
  let newrssi_ssd := newrssi_ssd / (newrssi_n : ℚ)
  { rs with
    newrssi_sum := newrssi_sum
    newrssi_n := newrssi_n
    oldrssi_ssd := oldrssi_ssd
    newrssi_ssd := newrssi_ssd }

/-- The function `save_range_stats`: the accumulators and the file system after the call.
The serial output and the flight log comments are left out. -/
def save_range_stats (M : Libm) (v0 : Int) (rs : range_stats) (fs : FileSys) :
    range_stats × FileSys :=
  if rs.newrssi_n = 0 then (rs, fs)
  else
    let fs := { fs with oldrange_txt := none }.call (FsCall.fs_remove "/oldrange.txt")
    let fs :=
      (match fs.range_txt with
        | some lines => { fs with oldrange_txt := some lines, range_txt := none }
        | none => fs).call (FsCall.fs_rename "/range.txt" "/oldrange.txt")
    let fs :=
      (if fs.opens then { fs with range_txt := some [] } else fs).call
        (FsCall.fs_open_write "/range.txt")
    let fs := fs.println [(RANGESTATSVERSION : ℚ)]
    let s := (List.range 12).foldl (save_sector M) (rs, fs)
    let rs := merge_rssi s.1
    let fs := s.2.println [rs.newrssi_sum, rs.newrssi_ssd]
    let fs := fs.call FsCall.close
    (load_range_stats v0 fs).1

/-! ## Relay: `air_relay` -/

/-- The function `air_relay` on the entry `cip`; `millis()`, `lastrelay` are `uint32_t`.
The serial and NMEA output is left out. -/
def air_relay (H : Header) (env : Env) (g : relay_globals) (cip : container_t) :
    container_t × relay_globals :=
  let landed_out :=
    (cip.protocol = H.RF_PROTOCOL_LATEST ∨ cip.protocol = H.RF_PROTOCOL_LEGACY)
      ∧ cip.aircraft_type = H.AIRCRAFT_TYPE_UNKNOWN
  let normal_protocol := env.current_RF_protocol = env.settings.rf_protocol
  let refused :=
    ¬ landed_out ∧
      (env.settings.relay < H.RELAY_ALL ∨ ¬ normal_protocol ∨
        (env.settings.relay = H.RELAY_ONLY ∧ cip.tx_type < H.TX_TYPE_FLARM) ∨
        (cip.aircraft_type ≠ H.AIRCRAFT_TYPE_JET ∧
          cip.aircraft_type ≠ H.AIRCRAFT_TYPE_HELICOPTER ∧ cip.distance > 10000))
  if refused then (cip, g)
  else
    let often := true
    if normal_protocol ∧
        (env.millis < (g.lastrelay + 1000 * H.ANY_RELAY_TIME) % 4294967296 ∨
         cip.timerelayed + (if often then H.ANY_RELAY_TIME + 2 else H.ENTRY_RELAY_TIME)
           > cip.timestamp) then (cip, g)
    else
      let tryrelay := if normal_protocol then decide (env.RF_current_slot = 0) else true
      let relayed :=
        if tryrelay = true ∧ env.RF_Transmit_Happened = false ∧
            (env.millis + 15) % 4294967296 < env.TxEndMarker then
          if env.RF_Encode cip ≠ 0 then env.RF_Transmit else false
        else false
      let cip := if cip.timerelayed = 0 then { cip with timerelayed := 1 } else cip
      if relayed = true then
        if normal_protocol then
          ({ cip with timerelayed := env.ThisAircraft.timestamp },
           { g with lastrelay := env.millis })
        else (cip, g)
      else if landed_out then
        (cip, { g with
          relay_waiting := true
          alt_relay_waiting :=
            if env.settings.altprotocol ≠ H.RF_PROTOCOL_NONE then true
            else g.alt_relay_waiting })
      else (cip, g)

/-! ## The tracking table: `CopyTraffic`, `AddTraffic` -/

/-- The call `strncpy(dst, src, 8)` followed by `dst[8] = 0` and `dst[9] = 0`: the first
8 bytes of the string `src`, padded with NULs. -/
def copy_callsign (dst src : List Nat) : Option (List Nat) :=
  if 8 ≤ dst.length then
    (poke (((cstring src ++ List.replicate 8 0).take 8) ++ dst.drop 8) 8 0).bind fun buf =>
    poke buf 9 0
  else none

/-- The assignments at the start of `CopyTraffic`: the fields of the report `fop`, and the
RSSI of the last packet, go into the entry `cip`. -/
def copy_fields (env : Env) (cip : container_t) (fop : ufo_t) : container_t :=
  { cip with
    addr := fop.addr
    latitude := fop.latitude
    longitude := fop.longitude
    altitude := fop.altitude
    pressure_altitude := fop.pressure_altitude
    timestamp := fop.timestamp
    gnsstime_ms := fop.gnsstime_ms
    speed := fop.speed
    course := fop.course
    turnrate := fop.turnrate
    vs := fop.vs
    hdop := fop.hdop
    last_crc := fop.last_crc
    protocol := fop.protocol
    tx_type := fop.tx_type
    addr_type := fop.addr_type
    aircraft_type := fop.aircraft_type
    airborne := fop.airborne
    circling := fop.circling
    stealth := fop.stealth
    no_track := fop.no_track
    relayed := fop.relayed
    rssi := env.RF_last_rssi }

/-- The function `CopyTraffic`: update the entry `cip` from the report `fop`; `callsign` is
the optional string passed along (`none` for a NULL pointer). -/
def CopyTraffic (H : Header) (env : Env) (cip : container_t) (fop : ufo_t)
    (callsign : Option (List Nat)) : Option container_t :=
  let cip := copy_fields env cip fop
  let copied : Option container_t :=
    match callsign with
    | none => some cip
    | some cs =>
      if (cs.headD 0 ≠ 0 ∧ cs.headD 0 ≠ 32) ∧
          (cip.callsign.headD 0 = 0 ∨ cip.callsign.headD 0 = 32) then
        (copy_callsign cip.callsign cs).map fun buf => { cip with callsign := buf }
      else some cip
  copied.bind fun cip => icao_to_n H env.settings cip

/-- The flag `do_relay` computed at the start of `AddTraffic`. -/
def do_relay (H : Header) (env : Env) (fop : ufo_t) : Bool :=
  decide ((env.settings.rf_protocol = H.RF_PROTOCOL_LATEST ∨
      env.settings.rf_protocol = H.RF_PROTOCOL_LEGACY) ∧
    env.settings.relay ≠ H.RELAY_OFF ∧
    (env.ThisAircraft.airborne ≠ 0 ∨ env.settings.relay = H.RELAY_ONLY) ∧
    fop.relayed = false ∧
    fop.tx_type > H.TX_TYPE_S ∧
    env.settings.debug_flags &&& H.DEBUG_SIMULATE = 0)

/-- The source preference tests of `AddTraffic` for a report `fop` matching the entry `cip`:
true when the report is ignored (one of the three `return`s). -/
def source_rejected (H : Header) (env : Env) (cip : container_t) (fop : ufo_t) : Bool :=
  let fop_adsb := fop.protocol = H.RF_PROTOCOL_GDL90 ∨ fop.protocol = H.RF_PROTOCOL_ADSB_1090
  let cip_adsb := cip.protocol = H.RF_PROTOCOL_GDL90 ∨ cip.protocol = H.RF_PROTOCOL_ADSB_1090
  let fresh := env.OurTime ≤ cip.timestamp + H.ENTRY_EXPIRATION_TIME
  if fop_adsb ∧ ¬ cip_adsb then decide (cip.relayed = false ∧ fresh)
  else if cip_adsb ∧ ¬ fop_adsb then decide (fop.relayed = true ∧ fresh)
  else if cip_adsb ∧ fop_adsb then
    decide (fop.tx_type = H.TX_TYPE_TISB ∧ cip.tx_type > H.TX_TYPE_TISB ∧ fresh)
  else false

/-- The call `if (do_relay) air_relay(cip)` and the write-back of the entry into slot `i`. -/
def relay_and_store (H : Header) (env : Env) (w : World) (i : Nat) (cip : container_t)
    (relay : Bool) : World :=
  let r := if relay then air_relay H env w.relay cip else (cip, w.relay)
  { w with Container := w.Container.set i r.1, relay := r.2 }

/-- The history rotation of `AddTraffic` (`gnsstime_ms`, `prevtime_ms` are `uint32_t`). -/
def rotate_history (cip : container_t) (fop : ufo_t) : container_t :=
  if (fop.gnsstime_ms + 4294967296 - cip.gnsstime_ms) % 4294967296 > 1200 ∨
      (fop.gnsstime_ms + 4294967296 - cip.prevtime_ms) % 4294967296 > 2600 then
    { cip with
      prevtime_ms := cip.gnsstime_ms
      prevcourse := cip.course
      prevheading := cip.heading
      prevaltitude := cip.altitude }
  else cip

/-- The body of the first loop of `AddTraffic` for the entry `cip = Container[i]` whose
address is the report's: source preference, identical position, update. -/
def AddTraffic_known (M : Libm) (H : Header) (env : Env) (w : World) (i : Nat)
    (cip : container_t) (fop : ufo_t) (callsign : Option (List Nat)) : Option World :=
  if source_rejected H env cip fop then some w
  else if fop.altitude = cip.altitude ∧ fop.latitude = cip.latitude ∧
      fop.longitude = cip.longitude then
    let cip := { cip with last_crc := fop.last_crc, timestamp := fop.timestamp }
    some (relay_and_store H env w i cip (do_relay H env fop))
  else
    let cip := rotate_history cip fop
    (CopyTraffic H env cip fop callsign).map fun cip =>
      let c := Calc_Traffic_Distances M env.ThisAircraft w.cosc cip
      let u := Traffic_Update H env w.Alarm_timer c.1
      relay_and_store H env { w with cosc := c.2, Alarm_timer := u.2 } i u.1
        (do_relay H env fop)

/-- The replacement of slot `i` by a new object in `AddTraffic`: into an empty slot
(`sample = true`, `sample_range` is called) or over an expired one (`sample = false`). -/
def AddTraffic_new (M : Libm) (H : Header) (env : Env) (w : World) (i : Nat)
    (fop : ufo_t) (callsign : Option (List Nat)) (sample : Bool) : Option World :=
  (CopyTraffic H env EmptyContainer fop callsign).map fun cip =>
    let c := Calc_Traffic_Distances M env.ThisAircraft w.cosc cip
    let u := Traffic_Update H env w.Alarm_timer c.1
    let stats := if sample then sample_range M H env.ThisAircraft u.1 w.stats else w.stats
    relay_and_store H env { w with cosc := c.2, Alarm_timer := u.2, stats := stats } i u.1
      (do_relay H env fop)

/-- The loop of `AddTraffic` that finds the farthest entry with alarm level None that is
neither followed nor relayed: `(max_dist_ndx, max_dist)`, `none` for
`MAX_TRACKING_OBJECTS`. -/
def farthest (follow_id : Nat) : Nat → List container_t → Option Nat × ℚ → Option Nat × ℚ
  | _, [], acc => acc
  | i, c :: rest, acc =>
    let acc :=
      if c.alarm_level = ALARM_LEVEL_NONE ∧ c.addr ≠ follow_id ∧ c.relayed = false then
        let adj_distance := if c.adj_distance < c.distance then c.distance else c.adj_distance
        if adj_distance > acc.2 then (some i, adj_distance) else acc
      else acc
    farthest follow_id (i + 1) rest acc

/-- The last part of `AddTraffic`: replace the farthest entry if the new object is closer,
followed or relayed; otherwise ignore the report. -/
def AddTraffic_evict (M : Libm) (H : Header) (env : Env) (w : World) (fop : ufo_t)
    (callsign : Option (List Nat)) : Option World :=
  let follow_id := env.settings.follow_id
  let far := farthest follow_id 0 w.Container (none, 0)
  let s := Stash_Traffic_Distances M env.ThisAircraft w.cosc fop
  let adj_distance := s.1.distance + H.VERTICAL_SLOPE * |s.1.alt_diff|
  let w := { w with cosc := s.2 }
  match far.1 with
  | some ndx =>
    if adj_distance < far.2 ∨ fop.addr = follow_id ∨ fop.relayed = true then
      (CopyTraffic H env EmptyContainer fop callsign).map fun cip =>
        let cip := Copy_Traffic_Distances s.1 cip
        let u := Traffic_Update H env w.Alarm_timer cip
        relay_and_store H env { w with Alarm_timer := u.2 } ndx u.1 (do_relay H env fop)
    else some w
  | none => some w

/-- The function `AddTraffic`. The result is `none` if a store into a callsign array falls
outside the array. -/
def AddTraffic (M : Libm) (H : Header) (env : Env) (w : World) (fop : ufo_t)
    (callsign : Option (List Nat)) : Option World :=
  match w.Container.findIdx? (fun cip => cip.addr == fop.addr) with
  | some i => AddTraffic_known M H env w i (w.Container.getD i EmptyContainer) fop callsign
  | none =>
    match w.Container.findIdx? (fun cip => cip.addr == 0) with
    | some i => AddTraffic_new M H env w i fop callsign true
    | none =>
      match w.Container.findIdx?
          (fun cip => decide (env.OurTime > cip.timestamp + H.ENTRY_EXPIRATION_TIME)) with
      | some i => AddTraffic_new M H env w i fop callsign false
      | none => AddTraffic_evict M H env w fop callsign

/-! ## The periodic tick: `Traffic_loop` -/

/-- The locals of `Traffic_loop` and the globals its loop writes. -/
structure loop_acc where
  max_alarm_level : Int
  alarm_ahead : Bool
  sound_alarm_level : Int
  alarmcount : Int
  mfop : Option Nat
  stats : range_stats
deriving DecidableEq

/-- Whether the entry is past its expiration time at `OurTime`
(`NONDIR_EXPIRATION` for a non-directional target). -/
def expired (H : Header) (OurTime : Nat) (fop : container_t) : Bool :=
  let expiration_time :=
    if fop.tx_type ≤ H.TX_TYPE_S then H.NONDIR_EXPIRATION else H.ENTRY_EXPIRATION_TIME
  !decide (OurTime ≤ fop.timestamp + expiration_time)

/-- One pass of the loop body of `Traffic_loop` over the entry `fop = Container[i]`. -/
def loop_slot (M : Libm) (H : Header) (env : Env) (i : Nat) (fop : container_t)
    (a : loop_acc) : container_t × loop_acc :=
  if fop.addr ≠ 0 then
    if expired H env.OurTime fop = false then
      if (env.RF_time : Int) - (fop.timestamp : Int) ≥ (H.TRAFFIC_VECTOR_UPDATE_INTERVAL : Int) then
        (fop, a)
      else
        let a :=
          if fop.alarm_level > a.max_alarm_level then { a with max_alarm_level := fop.alarm_level }
          else a
        let a :=
          if fop.alarm_level ≥ ALARM_LEVEL_LOW ∧ |fop.RelativeHeading| < 45 then
            { a with alarm_ahead := true }
          else a
        let a :=
          if fop.alarm_level > fop.alert_level ∧ fop.alarm_level > ALARM_LEVEL_CLOSE then
            let a := { a with alarmcount := a.alarmcount + 1 }
            if fop.alarm_level > a.sound_alarm_level then
              { a with sound_alarm_level := fop.alarm_level, mfop := some i }
            else a
          else a
        (fop, a)
    else
      ({ fop with addr := 0 }, { a with stats := sample_range M H env.ThisAircraft fop a.stats })
  else (fop, a)

/-- The loop of `Traffic_loop` over the entries from index `i` on. -/
def loop_slots (M : Libm) (H : Header) (env : Env) :
    Nat → List container_t → loop_acc → List container_t × loop_acc
  | _, [], a => ([], a)
  | i, fop :: rest, a =>
    let r := loop_slot M H env i fop a
    let rs := loop_slots M H env (i + 1) rest r.2
    (r.1 :: rs.1, rs.2)

/-- The function `Traffic_loop`: the state after the tick and the sound notification it
emits, if any. `Alarm_timer` and `millis()` are `uint32_t`. -/
def Traffic_loop (M : Libm) (H : Header) (env : Env) (w : World) : World × Option Notification :=
  if env.isTimeToUpdateTraffic = false then (w, none)
  else
    let r := loop_slots M H env 0 w.Container
      { max_alarm_level := ALARM_LEVEL_NONE
        alarm_ahead := false
        sound_alarm_level := ALARM_LEVEL_NONE
        alarmcount := 0
        mfop := none
        stats := w.stats }
    let w := { w with
      Container := r.1
      max_alarm_level := r.2.max_alarm_level
      alarm_ahead := r.2.alarm_ahead
      stats := r.2.stats
      UpdateTrafficTimeMarker := env.millis }
    match r.2.mfop with
    | some k =>
      if r.2.sound_alarm_level > ALARM_LEVEL_CLOSE then
        let mfop := w.Container.getD k EmptyContainer
        let mfop := { mfop with
          alert_level := mfop.alarm_level
          alert := mfop.alert ||| env.TRAFFIC_ALERT_SOUND }
        ({ w with
            Container := w.Container.set k mfop
            Alarm_timer :=
              if w.Alarm_timer = 0 then (env.millis + 9000) % 4294967296 else w.Alarm_timer },
         some { level := r.2.sound_alarm_level
                multiple := decide (r.2.alarmcount > 1)
                index := k
                addr := mfop.addr })
      else (w, none)
    | none => (w, none)

/-! ## Runs of the dispatcher -/

/-- One call made by the dispatcher: a report handed to `AddTraffic`, or a tick of
`Traffic_loop`. -/
inductive Event where
  | add (env : Env) (fop : ufo_t) (callsign : Option (List Nat))
  | tick (env : Env)

/-- The state after one call (`none` if `AddTraffic` faults). -/
def step (M : Libm) (H : Header) (w : World) : Event → Option World
  | Event.add env fop callsign => AddTraffic M H env w fop callsign
  | Event.tick env => some (Traffic_loop M H env w).1

/-- The state after a sequence of calls. -/
def run (M : Libm) (H : Header) (w : World) : List Event → Option World
  | [] => some w
  | e :: es => (step M H w e).bind fun w => run M H w es

/-- The environment of a call. -/
def Event.env : Event → Env
  | Event.add env _ _ => env
  | Event.tick env => env

/-- An alarm algorithm that leaves the address and the callsign of the target alone (the
functions of `TrafficHelper.cpp` write `alert_level` only). -/
def Framed (alg : AlarmFn) : Prop :=
  ∀ this_aircraft fop : container_t,
    (alg this_aircraft fop).2.addr = fop.addr ∧
    (alg this_aircraft fop).2.callsign = fop.callsign

/-- No two slots hold the same non-zero address. -/
def UniqueAddr (l : List container_t) : Prop :=
  l.Pairwise fun a b => a.addr ≠ 0 → a.addr ≠ b.addr

instance (l : List container_t) : Decidable (UniqueAddr l) := by
  unfold UniqueAddr
  infer_instance

/-- Every callsign array of the table has its 10 bytes. -/
def WellFormed (w : World) : Prop :=
  ∀ c ∈ w.Container, c.callsign.length = 10

instance (w : World) : Decidable (WellFormed w) := by
  unfold WellFormed
  infer_instance

/-! ## Runs of alarm evaluations and ticks -/

/-- The entry on which `Traffic_Update` evaluates the alarm level: the entry after the block
that recomputes its derived fields. -/
def eval_input (H : Header) (env : Env) (fop : container_t) : container_t :=
  if fop.tx_type ≤ H.TX_TYPE_S then update_nondirectional H fop else update_directional H env fop

/-- A call that touches the alarm state: `Traffic_Update(&Container[i])`, made after the
fields of the entry were refreshed from a report (`refresh`), or a tick of `Traffic_loop`. -/
inductive AlarmEvent where
  | update (env : Env) (i : Nat) (refresh : container_t → container_t)
  | tick (env : Env)

/-- The state after one such call, and the notification emitted. -/
def alarm_step (M : Libm) (H : Header) (w : World) : AlarmEvent → World × Option Notification
  | AlarmEvent.update env i refresh =>
    let u := Traffic_Update H env w.Alarm_timer (refresh (w.Container.getD i EmptyContainer))
    ({ w with Container := w.Container.set i u.1, Alarm_timer := u.2 }, none)
  | AlarmEvent.tick env => Traffic_loop M H env w

/-- The environment of such a call. -/
def AlarmEvent.env : AlarmEvent → Env
  | AlarmEvent.update env _ _ => env
  | AlarmEvent.tick env => env

/-- The notifications emitted along a sequence of such calls, in order, each with the
value of `millis()` at the tick that emits it. -/
def alarm_trace (M : Libm) (H : Header) : World → List AlarmEvent → List (Nat × Notification)
  | _, [] => []
  | w, e :: es =>
    ((alarm_step M H w e).2.toList.map fun n => (e.env.millis, n))
      ++ alarm_trace M H (alarm_step M H w e).1 es

/-- Along the sequence, no `Traffic_Update` of slot `k` re-arms a notification at level `L`:
the refresh keeps `alert_level`, and whenever the call evaluates the alarm level, the level
is at least `L - 1`, the algorithm does not lower `alert_level` itself, and the re-arm timer
has not expired. -/
def Calm (M : Libm) (H : Header) (k : Nat) (L : Int) : World → List AlarmEvent → Prop
  | _, [] => True
  | w, e :: es =>
    (match e with
      | AlarmEvent.update env i refresh =>
        i = k →
          (refresh (w.Container.getD k EmptyContainer)).alert_level
              = (w.Container.getD k EmptyContainer).alert_level ∧
          (evaluates H env (refresh (w.Container.getD k EmptyContainer)) = true →
            ∀ alg, env.Alarm_Level = some alg →
              L - 1 ≤ (alg env.ThisAircraft
                (eval_input H env (refresh (w.Container.getD k EmptyContainer)))).1 ∧
              (eval_input H env (refresh (w.Container.getD k EmptyContainer))).alert_level
                ≤ (alg env.ThisAircraft
                  (eval_input H env (refresh (w.Container.getD k EmptyContainer)))).2.alert_level ∧
              ¬ (w.Alarm_timer ≠ 0 ∧ env.millis > w.Alarm_timer))
      | AlarmEvent.tick _ => True) ∧
    Calm M H k L (alarm_step M H w e).1 es

/-! ## Concrete inputs -/

/-- A report from a FLARM target at the given position, heard at time 100 s. -/
def flarmReport (a : Nat) (latitude longitude : ℚ) : ufo_t where
  addr := a
  latitude := latitude
  longitude := longitude
  altitude := 1000
  pressure_altitude := 1000
  timestamp := 100
  gnsstime_ms := 100000
  speed := 80
  course := 270
  turnrate := 0
  vs := 0
  hdop := 0
  last_crc := 0
  protocol := stdHeader.RF_PROTOCOL_LATEST
  tx_type := stdHeader.TX_TYPE_FLARM
  addr_type := 2
  aircraft_type := 1
  airborne := 1
  circling := 0
  stealth := false
  no_track := false
  relayed := false


/-- The state with the given table, the re-arm timer at `timer`, and the other globals at
their initial values. -/
def worldOf (table : List container_t) (timer : Nat) : World where
  Container := table
  Alarm_timer := timer
  max_alarm_level := ALARM_LEVEL_NONE
  alarm_ahead := false
  UpdateTrafficTimeMarker := 0
  relay := { lastrelay := 0, relay_waiting := false, alt_relay_waiting := false }
  cosc := { cos_lat := 7071 / 10000, inv_cos_lat := 14142 / 10000, oldlat := 45 }
  stats := zero_range_stats

/-- An entry of a directional FLARM target, airborne, last heard at time 100 s. -/
def flarmTarget (a : Nat) (distance : ℚ) (alarm alert : Int) : container_t :=
  { EmptyContainer with
    addr := a
    tx_type := stdHeader.TX_TYPE_FLARM
    protocol := stdHeader.RF_PROTOCOL_LATEST
    airborne := 1
    timestamp := 100
    distance := distance
    adj_distance := distance
    alarm_level := alarm
    alert_level := alert }

/-- The own aircraft, airborne or not, with a fix at time `sec` (seconds). -/
def ownShip (airborne sec : Nat) : container_t :=
  { EmptyContainer with addr := 0x111111, airborne := airborne, timestamp := sec }

/-- An environment at GNSS time `sec` (seconds) and `millis()` = `ms`, with the given own
aircraft and alarm algorithm; the relay is off and the tick passes the rate gate. -/
def testEnv (own : container_t) (alg : Option AlarmFn) (sec ms : Nat) : Env where
  settings := usSettings stdHeader
  ThisAircraft := own
  OurTime := sec
  RF_time := sec
  millis := ms
  RF_last_rssi := -80
  do_alarm_demo := false
  Alarm_Level := alg
  isTimeToUpdateTraffic := true
  current_RF_protocol := stdHeader.RF_PROTOCOL_LATEST
  RF_current_slot := 0
  RF_Transmit_Happened := false
  TxEndMarker := 0
  RF_Encode := fun _ => 0
  RF_Transmit := false
  TRAFFIC_ALERT_SOUND := 1

/-- The refresh of an entry by a report heard at time `sec`, at the given distance. -/
def heardAt (distance : ℚ) (sec : Nat) (cip : container_t) : container_t :=
  { cip with distance := distance, timestamp := sec }

/-- A file system without the two files. -/
def emptyFs : FileSys where
  range_txt := none
  oldrange_txt := none
  opens := true
  calls := []

/-- The accumulators after one sample: a FLARM target 2 km ahead, heard at -80 dBm. -/
def oneSample : range_stats :=
  sample_range testLibm stdHeader (ownShip 1 100)
    { flarmTarget 0xABCDEF 2000 0 0 with rssi := -80 } zero_range_stats

/-- The own aircraft in a turn of 3 degrees per second, flying north at 30 m/s through the
air (120 quarter-metres per second), circling as given. -/
def simOwn (circling : Int) : container_t :=
  { ownShip 1 100 with
    speed := 58, turnrate := 3, circling := circling
    air_ns := [120, 120, 120, 120, 120, 120], air_ew := [0, 0, 0, 0, 0, 0]
    projtime_ms := 100000 }

/-- A FLARM target `dy` metres north of the own aircraft at the same altitude, flying north
through the air at `v` quarter-metres per second (south if negative), circling as given. -/
def simTarget (dy v circling : Int) : container_t :=
  { flarmTarget 0xABCDEF 600 0 3 with
    speed := 58, dx := 0, dy := dy, distance := dy, adj_distance := dy, circling := circling
    air_ns := [v, v, v, v, v, v], air_ew := [0, 0, 0, 0, 0, 0]
    projtime_ms := 100000 }

/-! ## The notification of a tick, in the words of the specification -/

/-- In the words of the specification: a slot considered for the sound selection of a tick
is a non-empty slot that is not expired, was updated recently (less than
`TRAFFIC_VECTOR_UPDATE_INTERVAL` seconds before `RF_time`), and has
`alarm_level > alert_level` and `alarm_level > Close`. -/
def sound_candidate (H : Header) (env : Env) (fop : container_t) : Bool :=
  decide (fop.addr ≠ 0 ∧ expired H env.OurTime fop = false ∧
    (env.RF_time : Int) - (fop.timestamp : Int) < (H.TRAFFIC_VECTOR_UPDATE_INTERVAL : Int) ∧
    fop.alarm_level > fop.alert_level ∧ fop.alarm_level > ALARM_LEVEL_CLOSE)

/-! ## The projected distances of `Alarm_Latest`, step by step -/

/-- The relative position (quarter-metres) after `t` projected seconds: the position before
the loop plus the relative velocities of the first `t` passes. -/
def proj_pos (u : proj_setup) : Nat → Int × Int
  | 0 => (u.start.dx, u.start.dy)
  | t + 1 =>
    ((proj_pos u t).1 + (u.thatvx.getD (u.i0 + t) 0 - u.thisvx.getD (u.j0 + t) 0),
     (proj_pos u t).2 + (u.thatvy.getD (u.i0 + t) 0 - u.thisvy.getD (u.j0 + t) 0))

/-- The weighted 3-D squared distance `sqdist` computed in pass `t` of the loop, that is
after `t + 1` projected seconds. -/
def proj_sqdist (u : proj_setup) (t : Nat) : Int :=
  (proj_pos u (t + 1)).1 * (proj_pos u (t + 1)).1
    + (proj_pos u (t + 1)).2 * (proj_pos u (t + 1)).2 + u.sqdz

/-- The state of the projection loop of `Alarm_Latest` after `n` passes. -/
def proj_after (u : proj_setup) (n : Nat) : proj_state :=
  (List.range n).foldl (proj_step u.thisvx u.thisvy u.thatvx u.thatvy u.i0 u.j0 u.sqdz) u.start

/-! ## The range of the levels -/

/-- In the words of the specification: a level in `{None, Close, Low, Important, Urgent}`. -/
def LevelOK (x : Int) : Prop :=
  ALARM_LEVEL_NONE ≤ x ∧ x ≤ ALARM_LEVEL_URGENT

/-- An alarm algorithm that returns a level of the range and keeps `alert_level` in the
range. -/
def LevelSafe (alg : AlarmFn) : Prop :=
  ∀ this_aircraft fop : container_t,
    LevelOK (alg this_aircraft fop).1 ∧
    (LevelOK fop.alert_level → LevelOK (alg this_aircraft fop).2.alert_level)

/-- In the words of the specification: a slot that may be evicted has alarm level None, is
not the followed address and is not relayed. -/
def evictable (follow_id : Nat) (c : container_t) : Prop :=
  c.alarm_level = ALARM_LEVEL_NONE ∧ c.addr ≠ follow_id ∧ c.relayed = false

/-- In the words of the specification: the distance by which slots are compared for
eviction, `max(distance, adj_distance)`. -/
def reach (c : container_t) : ℚ :=
  max c.distance c.adj_distance

/-- In the words of the specification: the exact mean of a list of samples. -/
def spec_mean (l : List ℚ) : ℚ :=
  l.sum / (l.length : ℚ)

/-- In the words of the specification: the exact population variance of a list of samples,
the mean of the squared deviations from the mean. -/
def spec_pvariance (l : List ℚ) : ℚ :=
  (l.map fun x => (x - spec_mean l) ^ 2).sum / (l.length : ℚ)

/-- A call of `sample_range` that records a sample: none of the five early returns is
taken, and the sector index lies inside the arrays. -/
def records (H : Header) (ThisAircraft fop : container_t) : Prop :=
  ThisAircraft.airborne ≠ 0 ∧ fop.airborne ≠ 0 ∧ ¬ fop.tx_type < H.TX_TYPE_FLARM ∧
    ¬ fop.distance < 1000 ∧ ¬ 4 * |fop.alt_diff| > fop.distance ∧
    0 ≤ clock_sector fop.RelativeHeading ∧ clock_sector fop.RelativeHeading < 12

instance (H : Header) (ThisAircraft fop : container_t) :
    Decidable (records H ThisAircraft fop) := by
  unfold records
  infer_instance

/-- A sequence of calls of `sample_range`, each with the own aircraft and the target of the
moment. -/
def sample_calls (M : Libm) (H : Header) (calls : List (container_t × container_t))
    (rs : range_stats) : range_stats :=
  calls.foldl (fun rs p => sample_range M H p.1 p.2 rs) rs

/-- The two ranges of accumulators agree on the RSSI statistics. -/
def same_rssi (a b : range_stats) : Prop :=
  a.oldrssi_mean = b.oldrssi_mean ∧ a.oldrssi_n = b.oldrssi_n ∧ a.oldrssi_ssd = b.oldrssi_ssd ∧
    a.newrssi_sum = b.newrssi_sum ∧ a.newrssi_dev = b.newrssi_dev ∧
    a.newrssi_ssd = b.newrssi_ssd ∧ a.newrssi_n = b.newrssi_n

/-- The file system `b` has the file `/range.txt` of `a` and all the calls of `a`. -/
def fs_kept (a b : FileSys) : Prop :=
  b.range_txt = a.range_txt ∧ ∀ c ∈ a.calls, c ∈ b.calls

/-- What one call of `air_relay` did: the entry and the globals after the call, whether
`RF_Transmit` was called, and the final value of the local `relayed`. -/
structure relay_outcome where
  cip : container_t
  g : relay_globals
  invoked : Bool
  relayed : Bool

/-- The function `air_relay` once more, with the call of `RF_Transmit` on record: the same
statements as `air_relay`, and beside the state the two facts of `relay_outcome`. On an early
`return` the transmitter is not called and `relayed` is still `false`. -/
def air_relay_outcome (H : Header) (env : Env) (g : relay_globals) (cip : container_t) :
    relay_outcome :=
  let landed_out :=
    (cip.protocol = H.RF_PROTOCOL_LATEST ∨ cip.protocol = H.RF_PROTOCOL_LEGACY)
      ∧ cip.aircraft_type = H.AIRCRAFT_TYPE_UNKNOWN
  let normal_protocol := env.current_RF_protocol = env.settings.rf_protocol
  let refused :=
    ¬ landed_out ∧
      (env.settings.relay < H.RELAY_ALL ∨ ¬ normal_protocol ∨
        (env.settings.relay = H.RELAY_ONLY ∧ cip.tx_type < H.TX_TYPE_FLARM) ∨
        (cip.aircraft_type ≠ H.AIRCRAFT_TYPE_JET ∧
          cip.aircraft_type ≠ H.AIRCRAFT_TYPE_HELICOPTER ∧ cip.distance > 10000))
  if refused then { cip := cip, g := g, invoked := false, relayed := false }
  else
    let often := true
    if normal_protocol ∧
        (env.millis < (g.lastrelay + 1000 * H.ANY_RELAY_TIME) % 4294967296 ∨
         cip.timerelayed + (if often then H.ANY_RELAY_TIME + 2 else H.ENTRY_RELAY_TIME)
           > cip.timestamp) then { cip := cip, g := g, invoked := false, relayed := false }
    else
      let tryrelay := if normal_protocol then decide (env.RF_current_slot = 0) else true
      let attempt := tryrelay = true ∧ env.RF_Transmit_Happened = false ∧
        (env.millis + 15) % 4294967296 < env.TxEndMarker
      let invoked := decide (attempt ∧ env.RF_Encode cip ≠ 0)
      let relayed :=
        if attempt then
          if env.RF_Encode cip ≠ 0 then env.RF_Transmit else false
        else false
      let cip := if cip.timerelayed = 0 then { cip with timerelayed := 1 } else cip
      if relayed = true then
        if normal_protocol then
          { cip := { cip with timerelayed := env.ThisAircraft.timestamp }
            g := { g with lastrelay := env.millis }
            invoked := invoked, relayed := relayed }
        else { cip := cip, g := g, invoked := invoked, relayed := relayed }
      else if landed_out then
        { cip := cip
          g := { g with
            relay_waiting := true
            alt_relay_waiting :=
              if env.settings.altprotocol ≠ H.RF_PROTOCOL_NONE then true
              else g.alt_relay_waiting }
          invoked := invoked, relayed := relayed }
      else { cip := cip, g := g, invoked := invoked, relayed := relayed }

/-- A sequence of calls of `air_relay`, each with the environment and the entry of the
moment; the static `lastrelay` and the two waiting flags pass from one call to the next. -/
def relay_run (H : Header) : relay_globals → List (Env × container_t) → List relay_outcome
  | _, [] => []
  | g, s :: rest =>
    air_relay_outcome H s.1 g s.2 :: relay_run H (air_relay_outcome H s.1 g s.2).g rest

/-- An environment for the relay: relay mode All, alternate protocol Legacy, the host in the
given protocol and radio slot at `millis()` = `ms`, the slot ending at `txend`; the packet
encodes to 24 bytes and the transmission succeeds. -/
def relayEnv (protocol slot ms txend : Nat) : Env :=
  { testEnv (ownShip 1 101) none 101 ms with
    settings := { usSettings stdHeader with
      relay := stdHeader.RELAY_ALL, altprotocol := stdHeader.RF_PROTOCOL_LEGACY }
    current_RF_protocol := protocol
    RF_current_slot := slot
    TxEndMarker := txend
    RF_Encode := fun _ => 24
    RF_Transmit := true }

/-- The entry of a landed-out aircraft (type unknown, protocol Latest) last heard at time
`sec`, with the given `timerelayed`. -/
def landedOut (timerelayed sec : Nat) : container_t :=
  { flarmTarget 0xABCDEF 800 0 0 with
    aircraft_type := stdHeader.AIRCRAFT_TYPE_UNKNOWN
    timerelayed := timerelayed
    timestamp := sec }

/-- The local `V_rel_magnitude` of `Alarm_Vector`: the speed of the own aircraft relative to
the target, in metres per second. -/
def V_rel_magnitude (M : Libm) (H : Header) (this_aircraft fop : container_t) : ℚ :=
  let this_course := M.D2R * this_aircraft.course
  let that_course := M.D2R * fop.course
  let V_rel_y := this_aircraft.speed * M.cos this_course - fop.speed * M.cos that_course
  let V_rel_x := this_aircraft.speed * M.sin this_course - fop.speed * M.sin that_course
  M.hypot V_rel_x V_rel_y * H.GPS_MPS_PER_KNOT

/-- The state after a sequence of `Traffic_Update` calls and `Traffic_loop` ticks. -/
def alarm_run (M : Libm) (H : Header) (w : World) (es : List AlarmEvent) : World :=
  es.foldl (fun w e => (alarm_step M H w e).1) w

/-- The entry after the evaluation of the selected algorithm `alg` in `Traffic_Update` and
the hysteresis line `if (fop->alarm_level < fop->alert_level)`, before the test of the
re-arm timer. -/
def evaluated (alg : AlarmFn) (ThisAircraft fop : container_t) : container_t :=
  let r := alg ThisAircraft fop
  let fop : container_t := { r.2 with alarm_level := r.1 }
  if fop.alarm_level < fop.alert_level then { fop with alert_level := fop.alarm_level + 1 }
  else fop

/-- In the words of the specification: an entry that carries no state of a previous
occupant of its slot: `alert_level` is None and the history is zero. -/
def Fresh (c : container_t) : Prop :=
  c.alert_level = ALARM_LEVEL_NONE ∧ c.prevtime_ms = 0 ∧ c.prevcourse = 0 ∧
    c.prevheading = 0 ∧ c.prevaltitude = 0

instance (c : container_t) : Decidable (Fresh c) := by
  unfold Fresh
  infer_instance

/-- An alarm algorithm that returns no level below None and hands a fresh entry back
fresh. -/
def KeepsFresh (alg : AlarmFn) : Prop :=
  ∀ this_aircraft fop : container_t,
    ALARM_LEVEL_NONE ≤ (alg this_aircraft fop).1 ∧
    (Fresh fop → Fresh (alg this_aircraft fop).2)

/-- In the words of the specification: a landed-out target is a legacy/latest-protocol
target whose aircraft type is Unknown and which is not airborne. -/
def spec_landed_out (H : Header) (cip : container_t) : Prop :=
  (cip.protocol = H.RF_PROTOCOL_LATEST ∨ cip.protocol = H.RF_PROTOCOL_LEGACY) ∧
    cip.aircraft_type = H.AIRCRAFT_TYPE_UNKNOWN ∧ cip.airborne = 0

instance (H : Header) (cip : container_t) : Decidable (spec_landed_out H cip) := by
  unfold spec_landed_out
  infer_instance

/-- The local `landed_out` of `air_relay`. -/
def landed_out (H : Header) (cip : container_t) : Prop :=
  (cip.protocol = H.RF_PROTOCOL_LATEST ∨ cip.protocol = H.RF_PROTOCOL_LEGACY) ∧
    cip.aircraft_type = H.AIRCRAFT_TYPE_UNKNOWN

instance (H : Header) (cip : container_t) : Decidable (landed_out H cip) := by
  unfold landed_out
  infer_instance

/-- A file system holding a `/range.txt` written earlier: version 1, 65535 samples in sector
0, 70000 in sector 1, none in the others, RSSI mean -80 and mean square deviation 25. -/
def persistedFs : FileSys where
  range_txt := some ([[1], [2, 1, 65535], [2, 1, 70000]] ++ List.replicate 10 [0, 0, 0]
    ++ [[-80, 25]])
  oldrange_txt := none
  opens := true
  calls := []

/-- The local `vv` of `Alarm_Latest` after the choice of the aircraft that may zoom up: the
squared airspeed (quarter-metres per second) of the lower aircraft, if it is not circling and
rises relative to the other by more than 400 fpm; 0 otherwise. It is the divisor of
`factor/vv`. -/
def zoom_vv (this_aircraft fop : container_t) : Int :=
  let dz := float_to_int fop.alt_diff
  let vsr := fop.vs - this_aircraft.vs
  if dz < 0 ∧ fop.circling = 0 ∧ vsr > 400 then
    fop.air_ew.getD 0 0 * fop.air_ew.getD 0 0 + fop.air_ns.getD 0 0 * fop.air_ns.getD 0 0
  else if dz > 0 ∧ this_aircraft.circling = 0 ∧ vsr < -400 then
    this_aircraft.air_ew.getD 0 0 * this_aircraft.air_ew.getD 0 0
      + this_aircraft.air_ns.getD 0 0 * this_aircraft.air_ns.getD 0 0
  else 0

/-- The factor by which `Alarm_Latest` scales the velocity samples of this aircraft
(`if (zoom && dz > 15)`), `none` if it takes them as they are. -/
def this_factor (this_aircraft fop : container_t) : Option Int :=
  if (zoom_up this_aircraft fop).2.isSome ∧ float_to_int fop.alt_diff > 15 then
    (zoom_up this_aircraft fop).2
  else none

/-- The factor by which `Alarm_Latest` scales the velocity samples of the other aircraft
(`if (zoom && dz < -15)`), `none` if it takes them as they are. -/
def that_factor (this_aircraft fop : container_t) : Option Int :=
  if (zoom_up this_aircraft fop).2.isSome ∧ float_to_int fop.alt_diff < -15 then
    (zoom_up this_aircraft fop).2
  else none

/-- A store `a[i] = v` into an `int` array: `none` when `i` is past its end. -/
def store (a : List Int) (i : Nat) (v : Int) : Option (List Int) :=
  if i < a.length then some (a.set i v) else none

/-- The value `vx` (or `vy`) that `Alarm_Latest` takes from sample `i` of an airspeed
component: the sample, scaled by `factor/64` when the aircraft is taken to zoom up
(`v *= factor; v >> 6`). -/
def scaled_sample (factor : Option Int) (air : List Int) (i : Nat) : Int :=
  match factor with
  | some f => (air.getD i 0 * f) >>> 6
  | none => air.getD i 0

/-- One pass of the loop `for (i=0; i<6; i++)` that fills a per-second array: the three
stores `*px++ = vx` of the inner loop. The state is the array and the index `px` points
at. -/
def fill_sample (factor : Option Int) (air : List Int) (s : List Int × Nat) (i : Nat) :
    Option (List Int × Nat) :=
  let vx := scaled_sample factor air i
  (store s.1 s.2 vx).bind fun a =>
  (store a (s.2 + 1) vx).bind fun a =>
  (store a (s.2 + 2) vx).map fun a => (a, s.2 + 3)

/-- The filling of one of the static arrays `thisvx`, `thisvy`, `thatvx`, `thatvy`
(`int[20]`) by `Alarm_Latest`: the loop over the six samples, then the store `*px = vx` of
the last value. `old` is what the previous call left in the array; the result is `none` if
a store falls outside the array. -/
def fill_per_second (factor : Option Int) (air : List Int) (old : List Int) :
    Option (List Int) :=
  ((List.range 6).foldlM (fill_sample factor air) (old, 0)).bind fun s =>
    store s.1 s.2 (scaled_sample factor air 5)

/-- In the words of the specification: an array of 20 entries in which entries `3k`, `3k+1`,
`3k+2` hold the (scaled) sample `k` and entry 18 equals entry 17. -/
def Written (factor : Option Int) (air : List Int) (a : List Int) : Prop :=
  a.length = 20 ∧
    (∀ k j, k < 6 → j < 3 → a[3 * k + j]? = some (scaled_sample factor air k)) ∧
    a[18]? = a[17]?

/-- The `int` values computed while `Alarm_Latest` prepares one per-second array: each of
the six samples and, with a zoom factor, the product `v * factor` and the shifted value
`v >> 6`. -/
def fill_values (factor : Option Int) (air : List Int) : List Int :=
  (List.range 6).flatMap fun i =>
    match factor with
    | some f => [air.getD i 0, air.getD i 0 * f, (air.getD i 0 * f) >>> 6]
    | none => [air.getD i 0]

/-- The `int` values computed in pass `t` of the projection loop of `Alarm_Latest`: the
relative velocity `vx`, `vy`, the relative position `dx`, `dy`, the two squares, their sum
and `sqdist`. -/
def step_values (u : proj_setup) (t : Nat) : List Int :=
  let vx := u.thatvx.getD (u.i0 + t) 0 - u.thisvx.getD (u.j0 + t) 0
  let vy := u.thatvy.getD (u.i0 + t) 0 - u.thisvy.getD (u.j0 + t) 0
  let dx := (proj_pos u t).1 + vx
  let dy := (proj_pos u t).2 + vy
  [vx, vy, dx, dy, dx * dx, dy * dy, dx * dx + dy * dy, dx * dx + dy * dy + u.sqdz]

/-- The `int` values computed by the projection of `Alarm_Latest`, from the preparation of
the four per-second arrays to the end of the loop: the scaled velocities, the relative
position in quarter-metres before the loop (`dx << 2`, then shifted by one second if the
projections are of different times), `adjdz << 3`, `sqdz`, `cursqdist` and the terms of its
sum, and the values of the 18 passes. -/
def projection_values (H : Header) (this_aircraft fop : container_t) (adjdz : Int) : List Int :=
  let u := latest_setup H this_aircraft fop adjdz
  fill_values (this_factor this_aircraft fop) this_aircraft.air_ew
    ++ fill_values (this_factor this_aircraft fop) this_aircraft.air_ns
    ++ fill_values (that_factor this_aircraft fop) fop.air_ew
    ++ fill_values (that_factor this_aircraft fop) fop.air_ns
    ++ [fop.dx * 4, fop.dy * 4, u.start.dx, u.start.dy, adjdz * 8, u.sqdz,
        u.start.dx * u.start.dx, u.start.dy * u.start.dy,
        u.start.dx * u.start.dx + u.start.dy * u.start.dy, u.cursqdist]
    ++ (List.range 18).flatMap (step_values u)

/-- The report held in an entry: the fields of a `container_t` that a `ufo_t` has too, the
ones `CopyTraffic` assigns from the report. -/
def report_of (c : container_t) : ufo_t where
  addr := c.addr
  latitude := c.latitude
  longitude := c.longitude
  altitude := c.altitude
  pressure_altitude := c.pressure_altitude
  timestamp := c.timestamp
  gnsstime_ms := c.gnsstime_ms
  speed := c.speed
  course := c.course
  turnrate := c.turnrate
  vs := c.vs
  hdop := c.hdop
  last_crc := c.last_crc
  protocol := c.protocol
  tx_type := c.tx_type
  addr_type := c.addr_type
  aircraft_type := c.aircraft_type
  airborne := c.airborne
  circling := c.circling
  stealth := c.stealth
  no_track := c.no_track
  relayed := c.relayed

/-- An alarm algorithm that leaves the report held in the target, and its RSSI, alone (the
functions of `TrafficHelper.cpp` write `alert_level` only). -/
def KeepsReport (alg : AlarmFn) : Prop :=
  ∀ this_aircraft fop : container_t,
    report_of (alg this_aircraft fop).2 = report_of fop ∧
    (alg this_aircraft fop).2.rssi = fop.rssi

/-! ## Lemmas on the identity computation -/

theorem len10 (l : List Nat) (h : l.length = 10) :
    ∃ b0 b1 b2 b3 b4 b5 b6 b7 b8 b9, l = [b0, b1, b2, b3, b4, b5, b6, b7, b8, b9] := by
  match l, h with
  | [b0, b1, b2, b3, b4, b5, b6, b7, b8, b9], _ => exact ⟨b0, b1, b2, b3, b4, b5, b6, b7, b8, b9, rfl⟩

theorem nnchar_lt (i : Nat) (h : i < 34) : nnchar i = some (nn i) := by
  interval_cases i <;> rfl

theorem nnindex_nn (i : Nat) (h : i < 34) : nnindex (nn i) = i := by
  interval_cases i <;> rfl

theorem nn_letter (i : Nat) (h : i < 24) : isDigitByte (nn i) = false := by
  interval_cases i <;> rfl

theorem nn_mem (i : Nat) (h : i < 34) : nn i ∈ nnumberchars := by
  interval_cases i <;> decide

theorem nn_byte (i : Nat) (h : i < 34) : nn i < 256 := by
  interval_cases i <;> decide

theorem mem_nnumberchars_pos (c : Nat) (h : c ∈ nnumberchars) : 48 ≤ c ∧ c ≤ 90 := by
  simp only [nnumberchars, List.mem_cons, List.mem_singleton, List.not_mem_nil, or_false] at h
  omega

theorem isDigitByte_digit (d : Nat) (h : d ≤ 9) : isDigitByte (d + 48) = true := by
  simp [isDigitByte]; omega

theorem digit_mem (d : Nat) (h : d ≤ 9) : d + 48 ∈ nnumberchars := by
  interval_cases d <;> decide

theorem read_digit4_letters (t : List Nat) (h : ∀ c ∈ t, isDigitByte c = false) :
    read_digit4 t = suffix_offset t := by
  cases t with
  | nil => rfl
  | cons d r =>
    have hd : isDigitByte d = false := h d (List.mem_cons_self _ _)
    simp only [read_digit4, hd, Bool.false_eq_true, if_false]

theorem read_digit3_letters (t : List Nat) (h : ∀ c ∈ t, isDigitByte c = false) :
    read_digit3 t = suffix_offset t := by
  cases t with
  | nil => rfl
  | cons d r =>
    have hd : isDigitByte d = false := h d (List.mem_cons_self _ _)
    simp only [read_digit3, hd, Bool.false_eq_true, if_false]

theorem read_digit2_letters (t : List Nat) (h : ∀ c ∈ t, isDigitByte c = false) :
    read_digit2 t = suffix_offset t := by
  cases t with
  | nil => rfl
  | cons d r =>
    have hd : isDigitByte d = false := h d (List.mem_cons_self _ _)
    simp only [read_digit2, hd, Bool.false_eq_true, if_false]

/-- Closed form of `get_suffix` on a 10-byte array. -/
theorem get_suffix_closed (offset pos : Nat) (cs : List Nat) (hlen : cs.length = 10)
    (hoff : offset < 601) (hpos : pos ≤ 4) :
    ∃ tail : List Nat, tail.length ≤ 2 ∧ (∀ c ∈ tail, c ∈ nnumberchars ∧ isDigitByte c = false) ∧
      suffix_offset tail = offset ∧
      get_suffix offset cs pos =
        some (cs.take pos ++ tail ++ [63, 0] ++ cs.drop (pos + tail.length + 2)) := by
  obtain ⟨c0, c1, c2, c3, c4, c5, c6, c7, c8, c9, rfl⟩ := len10 cs hlen
  unfold get_suffix
  by_cases h0 : offset = 0
  · refine ⟨[], by simp, by simp, by simp [suffix_offset, h0], ?_⟩
    interval_cases pos <;> simp [h0, poke]
  · have hi : (offset - 1) / LETTERSET_SIZE < 24 := by unfold LETTERSET_SIZE; omega
    have hi34 : (offset - 1) / LETTERSET_SIZE < 34 := by omega
    have hb0 := nn_byte _ hi34
    by_cases h1 : (offset - 1) - (offset - 1) / LETTERSET_SIZE * LETTERSET_SIZE = 0
    · refine ⟨[nn ((offset - 1) / LETTERSET_SIZE)], by simp, ?_, ?_, ?_⟩
      · simp [nn_mem _ hi34, nn_letter _ hi]
      · simp only [suffix_offset, nnindex_nn _ hi34]
        unfold LETTERSET_SIZE at h1; unfold LETTERSET_SIZE; omega
      · interval_cases pos <;> simp [h0, h1, poke, nnchar_lt _ hi34, Nat.mod_eq_of_lt hb0]
    · have hj : (offset - 1) - (offset - 1) / LETTERSET_SIZE * LETTERSET_SIZE - 1 < 24 := by
        unfold LETTERSET_SIZE; omega
      have hj34 : (offset - 1) - (offset - 1) / LETTERSET_SIZE * LETTERSET_SIZE - 1 < 34 := by omega
      have hb1 := nn_byte _ hj34
      refine ⟨[nn ((offset - 1) / LETTERSET_SIZE),
        nn ((offset - 1) - (offset - 1) / LETTERSET_SIZE * LETTERSET_SIZE - 1)],
        by simp, ?_, ?_, ?_⟩
      · simp [nn_mem _ hi34, nn_letter _ hi, nn_mem _ hj34, nn_letter _ hj]
      · simp only [suffix_offset, nnindex_nn _ hi34, nnindex_nn _ hj34]
        unfold LETTERSET_SIZE at h1; unfold LETTERSET_SIZE; omega
      · interval_cases pos <;>
          simp [h0, h1, poke, nnchar_lt _ hi34, nnchar_lt _ hj34, Nat.mod_eq_of_lt hb0,
            Nat.mod_eq_of_lt hb1]

/-- Closed form of the digit-4 block. -/
theorem n_digit4_closed (r : Nat) (buf : List Nat) (hlen : buf.length = 10)
    (h1 : 601 ≤ r) (h2 : r < 951) :
    ∃ tail : List Nat, tail.length ≤ 2 ∧ (∀ c ∈ tail, c ∈ nnumberchars) ∧
      read_digit4 tail = r ∧
      n_digit4 r buf = some (buf.take 4 ++ tail ++ [63, 0] ++ buf.drop (4 + tail.length + 2)) := by
  obtain ⟨c0, c1, c2, c3, c4, c5, c6, c7, c8, c9, rfl⟩ := len10 buf hlen
  unfold n_digit4
  simp only [suffix_size, bucket4_size]
  obtain ⟨d, hd⟩ : ∃ d, d = (r - 601) / 35 := ⟨_, rfl⟩
  obtain ⟨m, hm⟩ : ∃ m, m = r - 601 - d * 35 := ⟨_, rfl⟩
  simp only [← hd, ← hm]
  have hd9 : d ≤ 9 := by omega
  have hm34 : m - 1 < 34 := by omega
  have e1 : (d + 48) % 256 = d + 48 := by omega
  by_cases h0 : m = 0
  · refine ⟨[d + 48], by simp, ?_, ?_, ?_⟩
    · simp [digit_mem d hd9]
    · simp [read_digit4, read_last, isDigitByte_digit d hd9]; omega
    · simp [h0, poke, e1]
  · refine ⟨[d + 48, nn (m - 1)], by simp, ?_, ?_, ?_⟩
    · simp [digit_mem d hd9, nn_mem _ hm34]
    · simp [read_digit4, read_last, isDigitByte_digit d hd9, nnindex_nn _ hm34]; omega
    · simp [h0, poke, e1, nnchar_lt _ hm34, Nat.mod_eq_of_lt (nn_byte _ hm34)]

/-- Closed form of the digit-3 block. -/
theorem n_digit3_closed (r : Nat) (buf : List Nat) (hlen : buf.length = 10)
    (h1 : 601 ≤ r) (h2 : r < 10111) :
    ∃ tail : List Nat, tail.length ≤ 3 ∧ (∀ c ∈ tail, c ∈ nnumberchars) ∧
      read_digit3 tail = r ∧
      n_digit3 r buf = some (buf.take 3 ++ tail ++ [63, 0] ++ buf.drop (3 + tail.length + 2)) := by
  obtain ⟨c0, c1, c2, c3, c4, c5, c6, c7, c8, c9, rfl⟩ := len10 buf hlen
  unfold n_digit3
  simp only [suffix_size, bucket3_size]
  obtain ⟨d, hd⟩ : ∃ d, d = (r - 601) / 951 := ⟨_, rfl⟩
  obtain ⟨m, hm⟩ : ∃ m, m = r - 601 - d * 951 := ⟨_, rfl⟩
  simp only [← hd, ← hm]
  have hd9 : d ≤ 9 := by omega
  have e1 : (d + 48) % 256 = d + 48 := by omega
  have hp : poke [c0, c1, c2, c3, c4, c5, c6, c7, c8, c9] 3 (d + 48)
      = some [c0, c1, c2, d + 48, c4, c5, c6, c7, c8, c9] := by simp [poke, e1]
  rw [hp, Option.some_bind]
  by_cases c : m < 601
  · rw [if_pos c]
    obtain ⟨t, htl, htm, hts, hg⟩ := get_suffix_closed m 4
      [c0, c1, c2, d + 48, c4, c5, c6, c7, c8, c9] rfl c (by omega)
    refine ⟨(d + 48) :: t, by simp; omega, ?_, ?_, ?_⟩
    · intro x hx
      rcases List.mem_cons.1 hx with rfl | hx
      · exact digit_mem d hd9
      · exact (htm x hx).1
    · rw [read_digit3, if_pos (isDigitByte_digit d hd9),
        read_digit4_letters t (fun x hx => (htm x hx).2), hts]
      omega
    · rw [hg]
      rcases t with _ | ⟨x, _ | ⟨y, _ | ⟨z, t⟩⟩⟩
      · simp
      · simp
      · simp
      · simp at htl
  · rw [if_neg c]
    obtain ⟨t, htl, htm, hts, hg⟩ := n_digit4_closed m
      [c0, c1, c2, d + 48, c4, c5, c6, c7, c8, c9] rfl (by omega) (by omega)
    refine ⟨(d + 48) :: t, by simp; omega, ?_, ?_, ?_⟩
    · intro x hx
      rcases List.mem_cons.1 hx with rfl | hx
      · exact digit_mem d hd9
      · exact htm x hx
    · rw [read_digit3, if_pos (isDigitByte_digit d hd9), hts]
      omega
    · rw [hg]
      rcases t with _ | ⟨x, _ | ⟨y, _ | ⟨z, t⟩⟩⟩
      · simp
      · simp
      · simp
      · simp at htl

/-- Closed form of the digit-2 block. -/
theorem n_digit2_closed (r : Nat) (buf : List Nat) (hlen : buf.length = 10)
    (h1 : 601 ≤ r) (h2 : r < 101711) :
    ∃ tail : List Nat, tail.length ≤ 4 ∧ (∀ c ∈ tail, c ∈ nnumberchars) ∧
      read_digit2 tail = r ∧
      n_digit2 r buf = some (buf.take 2 ++ tail ++ [63, 0] ++ buf.drop (2 + tail.length + 2)) := by
  obtain ⟨c0, c1, c2, c3, c4, c5, c6, c7, c8, c9, rfl⟩ := len10 buf hlen
  unfold n_digit2
  simp only [suffix_size, bucket2_size]
  obtain ⟨d, hd⟩ : ∃ d, d = (r - 601) / 10111 := ⟨_, rfl⟩
  obtain ⟨m, hm⟩ : ∃ m, m = r - 601 - d * 10111 := ⟨_, rfl⟩
  simp only [← hd, ← hm]
  have hd9 : d ≤ 9 := by omega
  have e1 : (d + 48) % 256 = d + 48 := by omega
  have hp : poke [c0, c1, c2, c3, c4, c5, c6, c7, c8, c9] 2 (d + 48)
      = some [c0, c1, d + 48, c3, c4, c5, c6, c7, c8, c9] := by simp [poke, e1]
  rw [hp, Option.some_bind]
  by_cases c : m < 601
  · rw [if_pos c]
    obtain ⟨t, htl, htm, hts, hg⟩ := get_suffix_closed m 3
      [c0, c1, d + 48, c3, c4, c5, c6, c7, c8, c9] rfl c (by omega)
    refine ⟨(d + 48) :: t, by simp; omega, ?_, ?_, ?_⟩
    · intro x hx
      rcases List.mem_cons.1 hx with rfl | hx
      · exact digit_mem d hd9
      · exact (htm x hx).1
    · rw [read_digit2, if_pos (isDigitByte_digit d hd9),
        read_digit3_letters t (fun x hx => (htm x hx).2), hts]
      omega
    · rw [hg]
      rcases t with _ | ⟨x, _ | ⟨y, _ | ⟨z, t⟩⟩⟩
      · simp
      · simp
      · simp
      · simp at htl
  · rw [if_neg c]
    obtain ⟨t, htl, htm, hts, hg⟩ := n_digit3_closed m
      [c0, c1, d + 48, c3, c4, c5, c6, c7, c8, c9] rfl (by omega) (by omega)
    refine ⟨(d + 48) :: t, by simp; omega, ?_, ?_, ?_⟩
    · intro x hx
      rcases List.mem_cons.1 hx with rfl | hx
      · exact digit_mem d hd9
      · exact htm x hx
    · rw [read_digit2, if_pos (isDigitByte_digit d hd9), hts]
      omega
    · rw [hg]
      rcases t with _ | ⟨x, _ | ⟨y, _ | ⟨z, _ | ⟨w, t⟩⟩⟩⟩
      · simp
      · simp
      · simp
      · simp
      · simp at htl

/-- Closed form of `icao_to_n` on the US range: the array afterwards, and the address read
back from the characters. -/
theorem us_closed (H : Header) (st : settings_t) (fop : container_t)
    (hlen : fop.callsign.length = 10) (hty : fop.addr_type = H.ADDR_TYPE_ICAO)
    (hband : st.band = H.RF_BAND_US)
    (hcs : fop.callsign.headD 0 = 0 ∨ fop.callsign.headD 0 = 32)
    (h1 : 0xA00001 ≤ fop.addr) (h2 : fop.addr ≤ 0xADF7C7) :
    ∃ d tail, 49 ≤ d ∧ d ≤ 57 ∧ List.length tail ≤ 4 ∧ (∀ c ∈ tail, c ∈ nnumberchars) ∧
      n_to_offset (d :: tail) = fop.addr - 0xA00001 ∧
      icao_to_n H st fop = some { fop with callsign :=
        78 :: d :: tail ++ [63, 0] ++ (fop.callsign.drop (tail.length + 4)).take (5 - tail.length)
          ++ [63] } := by
  obtain ⟨b0, b1, b2, b3, b4, b5, b6, b7, b8, b9, hb⟩ := len10 _ hlen
  have hrange : ¬ (fop.addr > 0xC00000 ∧ fop.addr < 0xC0CDF9) := by omega
  have hus : ¬ (fop.addr < 0xA00001 ∨ fop.addr > 0xADF7C7) := by omega
  have hcs2 : ¬ (fop.callsign.headD 0 ≠ 0 ∧ fop.callsign.headD 0 ≠ 32) := by omega
  generalize hoff : fop.addr - 0xA00001 = off
  have hofflt : off < 915399 := by omega
  unfold icao_to_n
  simp only [hty, hband, ne_eq, not_true_eq_false, if_false, hcs2, hrange, hus, hoff,
    bucket1_size, suffix_size]
  obtain ⟨d, hd⟩ : ∃ d, d = off / 101711 := ⟨_, rfl⟩
  obtain ⟨m, hm⟩ : ∃ m, m = off - d * 101711 := ⟨_, rfl⟩
  simp only [← hd, ← hm]
  have hd8 : d ≤ 8 := by omega
  have e1 : (d + 49) % 256 = d + 49 := by omega
  rw [hb]
  have hp9 : poke [b0, b1, b2, b3, b4, b5, b6, b7, b8, b9] 9 63
      = some [b0, b1, b2, b3, b4, b5, b6, b7, b8, 63] := by simp [poke]
  have hp0 : poke [b0, b1, b2, b3, b4, b5, b6, b7, b8, 63] 0 78
      = some [78, b1, b2, b3, b4, b5, b6, b7, b8, 63] := by simp [poke]
  have hp1 : poke [78, b1, b2, b3, b4, b5, b6, b7, b8, 63] 1 (d + 49)
      = some [78, d + 49, b2, b3, b4, b5, b6, b7, b8, 63] := by simp [poke, e1]
  rw [hp9, Option.some_bind, hp0, Option.some_bind, hp1, Option.some_bind]
  by_cases c : m < 601
  · rw [if_pos c]
    obtain ⟨t, htl, htm, hts, hg⟩ := get_suffix_closed m 2
      [78, d + 49, b2, b3, b4, b5, b6, b7, b8, 63] rfl c (by omega)
    refine ⟨d + 49, t, by omega, by omega, by omega, fun x hx => (htm x hx).1, ?_, ?_⟩
    · rw [n_to_offset, read_digit2_letters t (fun x hx => (htm x hx).2), hts]
      omega
    · rw [hg, Option.map_some']
      rcases t with _ | ⟨x, _ | ⟨y, _ | ⟨z, t⟩⟩⟩
      · simp
      · simp
      · simp
      · simp at htl
  · rw [if_neg c]
    obtain ⟨t, htl, htm, hts, hg⟩ := n_digit2_closed m
      [78, d + 49, b2, b3, b4, b5, b6, b7, b8, 63] rfl (by omega) (by omega)
    refine ⟨d + 49, t, by omega, by omega, htl, htm, ?_, ?_⟩
    · rw [n_to_offset, hts]
      omega
    · rw [hg, Option.map_some']
      rcases t with _ | ⟨x, _ | ⟨y, _ | ⟨z, _ | ⟨w, _ | ⟨v, t⟩⟩⟩⟩⟩
      · simp
      · simp
      · simp
      · simp
      · simp
      · simp at htl

/-- The string held by an array whose first NUL follows `pre`. -/
theorem cstring_append_nul (pre rest : List Nat) (h : ∀ c ∈ pre, c ≠ 0) :
    cstring (pre ++ 0 :: rest) = pre := by
  unfold cstring
  induction pre with
  | nil => simp
  | cons a t ih =>
    have ha : a ≠ 0 := h a (List.mem_cons_self _ _)
    have ht : ∀ c ∈ t, c ≠ 0 := fun c hc => h c (List.mem_cons_of_mem _ hc)
    simp [List.takeWhile_cons, ha, ih ht]

/-- On the US range the derived string is 'N', a digit '1'..'9', up to four characters of the
alphabet and '?'; the address is read back from it by `n_to_offset`. -/
theorem us_string (H : Header) (st : settings_t) (fop : container_t)
    (hlen : fop.callsign.length = 10) (hty : fop.addr_type = H.ADDR_TYPE_ICAO)
    (hband : st.band = H.RF_BAND_US)
    (hcs : fop.callsign.headD 0 = 0 ∨ fop.callsign.headD 0 = 32)
    (h1 : 0xA00001 ≤ fop.addr) (h2 : fop.addr ≤ 0xADF7C7) :
    ∃ d tail, 49 ≤ d ∧ d ≤ 57 ∧ List.length tail ≤ 4 ∧ (∀ c ∈ tail, c ∈ nnumberchars) ∧
      n_to_offset (d :: tail) = fop.addr - 0xA00001 ∧
      derivedCallsign H st fop = 78 :: d :: tail ++ [63] := by
  obtain ⟨d, tail, hd1, hd2, htl, htm, hn, hr⟩ := us_closed H st fop hlen hty hband hcs h1 h2
  refine ⟨d, tail, hd1, hd2, htl, htm, hn, ?_⟩
  unfold derivedCallsign
  rw [hr]
  show cstring (78 :: d :: tail ++ [63, 0] ++ _ ++ [63]) = _
  have e : ∀ X : List Nat, 78 :: d :: tail ++ [63, 0] ++ X ++ [63]
      = (78 :: d :: tail ++ [63]) ++ 0 :: (X ++ [63]) := by intro X; simp
  rw [e, cstring_append_nul]
  intro c hc
  simp only [List.cons_append, List.mem_cons, List.mem_append, List.mem_singleton,
    List.not_mem_nil, or_false] at hc
  rcases hc with rfl | rfl | hc | rfl
  · decide
  · omega
  · have := mem_nnumberchars_pos c (htm c hc); omega
  · decide

/-- Closed form of `icao_canadian` on the Canadian range. -/
theorem canadian_closed (fop : container_t) (b0 b1 b2 b3 b4 b5 b6 b7 b8 b9 : Nat)
    (hb : fop.callsign = [b0, b1, b2, b3, b4, b5, b6, b7, b8, b9])
    (h1 : 0xC00001 ≤ fop.addr) (h2 : fop.addr < 0xC0CDF9) :
    icao_canadian fop = some { fop with callsign :=
      [67, 45, (if (fop.addr - 0xC00001) / 17576 = 2 then 3 else (fop.addr - 0xC00001) / 17576) + 70,
       (fop.addr - 0xC00001) % 17576 / 676 + 65,
       (fop.addr - 0xC00001) % 17576 % 676 / 26 + 65,
       (fop.addr - 0xC00001) % 17576 % 26 + 65, 63, 0, b8, 63] } := by
  have e : (fop.addr + 4294967296 - 0xC00001) % 4294967296 = fop.addr - 0xC00001 := by omega
  simp only [icao_canadian, e, hb, poke, List.length_cons, List.length_nil, List.set_cons_zero,
    List.set_cons_succ, Option.bind]
  simp
  refine ⟨?_, ?_, ?_, ?_⟩
  · split_ifs <;> omega
  all_goals omega

/-- The string derived on the Canadian range. -/
theorem canadian_string (H : Header) (st : settings_t) (fop : container_t)
    (hlen : fop.callsign.length = 10) (hty : fop.addr_type = H.ADDR_TYPE_ICAO)
    (hband : st.band = H.RF_BAND_US)
    (hcs : fop.callsign.headD 0 = 0 ∨ fop.callsign.headD 0 = 32)
    (h1 : 0xC00001 ≤ fop.addr) (h2 : fop.addr < 0xC0CDF9) :
    derivedCallsign H st fop =
      [67, 45, (if (fop.addr - 0xC00001) / 17576 = 2 then 3 else (fop.addr - 0xC00001) / 17576) + 70,
       (fop.addr - 0xC00001) % 17576 / 676 + 65,
       (fop.addr - 0xC00001) % 17576 % 676 / 26 + 65,
       (fop.addr - 0xC00001) % 17576 % 26 + 65, 63] := by
  obtain ⟨b0, b1, b2, b3, b4, b5, b6, b7, b8, b9, hb⟩ := len10 _ hlen
  have hrange : fop.addr > 0xC00000 ∧ fop.addr < 0xC0CDF9 := by omega
  have hcs2 : ¬ (fop.callsign.headD 0 ≠ 0 ∧ fop.callsign.headD 0 ≠ 32) := by omega
  unfold derivedCallsign icao_to_n
  simp only [hty, hband, ne_eq, not_true_eq_false, if_false, hcs2, hrange, and_self, if_true]
  rw [canadian_closed fop b0 b1 b2 b3 b4 b5 b6 b7 b8 b9 hb h1 h2]
  simp [cstring, List.takeWhile_cons]

/-! ## Claims on the identity computation -/

/-- Claim C6. The N-number encoder is injective on the US range: two targets of address type
ICAO with distinct addresses in [0xA00001, 0xADF7C7], US band, no received callsign (first
byte NUL or space), get two different callsign strings from `icao_to_n`. -/
theorem icao_to_n_injective_us (H : Header) (st : settings_t) (f g : container_t)
    (hband : st.band = H.RF_BAND_US)
    (hflen : f.callsign.length = 10) (hfty : f.addr_type = H.ADDR_TYPE_ICAO)
    (hfcs : f.callsign.headD 0 = 0 ∨ f.callsign.headD 0 = 32)
    (hf1 : 0xA00001 ≤ f.addr) (hf2 : f.addr ≤ 0xADF7C7)
    (hglen : g.callsign.length = 10) (hgty : g.addr_type = H.ADDR_TYPE_ICAO)
    (hgcs : g.callsign.headD 0 = 0 ∨ g.callsign.headD 0 = 32)
    (hg1 : 0xA00001 ≤ g.addr) (hg2 : g.addr ≤ 0xADF7C7)
    (hne : f.addr ≠ g.addr) :
    derivedCallsign H st f ≠ derivedCallsign H st g := by
  obtain ⟨d, t, -, -, -, -, hn, hs⟩ := us_string H st f hflen hfty hband hfcs hf1 hf2
  obtain ⟨d', t', -, -, -, -, hn', hs'⟩ := us_string H st g hglen hgty hband hgcs hg1 hg2
  intro heq
  rw [hs, hs'] at heq
  have h3 : d :: t = d' :: t' := by
    have h4 : (78 :: d :: t) ++ [63] = (78 :: d' :: t') ++ [63] := heq
    have h5 := List.append_cancel_right h4
    exact (List.cons.inj h5).2
  rw [h3] at hn
  omega

/-- Witness of C6: the addresses 0xA00001 and 0xADF7C7 give different strings. -/
theorem icao_to_n_injective_us_witness :
    derivedCallsign stdHeader (usSettings stdHeader) (icaoTarget stdHeader 0xA00001) ≠
      derivedCallsign stdHeader (usSettings stdHeader) (icaoTarget stdHeader 0xADF7C7) :=
  icao_to_n_injective_us stdHeader (usSettings stdHeader) (icaoTarget stdHeader 0xA00001)
    (icaoTarget stdHeader 0xADF7C7) rfl (by decide) rfl (by decide) (by decide) (by decide)
    (by decide) rfl (by decide) (by decide) (by decide) (by decide)

/-- Claim C7. With address type ICAO, US band and no callsign received, `icao_to_n` yields
"N1?" for address 0xA00001, "N1A?" for 0xA00002 and "C-FAAA?" for 0xC00001. -/
theorem icao_to_n_examples (H : Header) (st : settings_t) (fop : container_t)
    (hlen : fop.callsign.length = 10) (hty : fop.addr_type = H.ADDR_TYPE_ICAO)
    (hband : st.band = H.RF_BAND_US)
    (hcs : fop.callsign.headD 0 = 0 ∨ fop.callsign.headD 0 = 32) :
    (fop.addr = 0xA00001 → derivedCallsign H st fop = bytes "N1?") ∧
    (fop.addr = 0xA00002 → derivedCallsign H st fop = bytes "N1A?") ∧
    (fop.addr = 0xC00001 → derivedCallsign H st fop = bytes "C-FAAA?") := by
  obtain ⟨b0, b1, b2, b3, b4, b5, b6, b7, b8, b9, hb⟩ := len10 _ hlen
  have hcs2 : ¬ (fop.callsign.headD 0 ≠ 0 ∧ fop.callsign.headD 0 ≠ 32) := by omega
  refine ⟨?_, ?_, ?_⟩
  · intro ha
    unfold derivedCallsign icao_to_n
    simp only [hty, hband, ne_eq, not_true_eq_false, if_false, hcs2, ha]
    rw [hb]
    simp [poke, get_suffix, bucket1_size, suffix_size, cstring, List.takeWhile_cons, bytes]
  · intro ha
    unfold derivedCallsign icao_to_n
    simp only [hty, hband, ne_eq, not_true_eq_false, if_false, hcs2, ha]
    rw [hb]
    simp [poke, get_suffix, bucket1_size, suffix_size, cstring, List.takeWhile_cons, bytes,
      LETTERSET_SIZE, nnchar, nnumberchars]
  · intro ha
    rw [canadian_string H st fop hlen hty hband hcs (by omega) (by omega), ha]
    simp [bytes]

/-- Witness of C7: the three strings for a target with an all-zero callsign array. -/
theorem icao_to_n_examples_witness :
    derivedCallsign stdHeader (usSettings stdHeader) (icaoTarget stdHeader 0xA00001) = bytes "N1?" ∧
    derivedCallsign stdHeader (usSettings stdHeader) (icaoTarget stdHeader 0xA00002) = bytes "N1A?" ∧
    derivedCallsign stdHeader (usSettings stdHeader) (icaoTarget stdHeader 0xC00001)
      = bytes "C-FAAA?" :=
  ⟨(icao_to_n_examples stdHeader (usSettings stdHeader) (icaoTarget stdHeader 0xA00001)
      (by decide) rfl rfl (by decide)).1 rfl,
   (icao_to_n_examples stdHeader (usSettings stdHeader) (icaoTarget stdHeader 0xA00002)
      (by decide) rfl rfl (by decide)).2.1 rfl,
   (icao_to_n_examples stdHeader (usSettings stdHeader) (icaoTarget stdHeader 0xC00001)
      (by decide) rfl rfl (by decide)).2.2 rfl⟩

/-- Claim C8. For every address in [0xA00001, 0xADF7C7] (ICAO type, US band, no callsign
received, 10-byte callsign array) `icao_to_n` completes without a store outside the array and
without a look-up outside the 34 characters of the alphabet (the result is `some r`); it
writes 'N', a digit '1'..'9', at most four characters `tail` of the alphabet, '?' and NUL, so
that at most 7 characters precede the NUL, and every index from the NUL up to 8 keeps its
old content. -/
theorem icao_to_n_us_safe (H : Header) (st : settings_t) (fop : container_t)
    (hlen : fop.callsign.length = 10) (hty : fop.addr_type = H.ADDR_TYPE_ICAO)
    (hband : st.band = H.RF_BAND_US)
    (hcs : fop.callsign.headD 0 = 0 ∨ fop.callsign.headD 0 = 32)
    (h1 : 0xA00001 ≤ fop.addr) (h2 : fop.addr ≤ 0xADF7C7) :
    ∃ r d tail, icao_to_n H st fop = some r ∧ 49 ≤ d ∧ d ≤ 57 ∧ List.length tail ≤ 4 ∧
      (∀ c ∈ tail, c ∈ nnumberchars) ∧
      r.callsign.length = 10 ∧
      r.callsign.take (tail.length + 4) = 78 :: d :: tail ++ [63, 0] ∧
      cstring r.callsign = 78 :: d :: tail ++ [63] ∧
      (cstring r.callsign).length ≤ 7 ∧
      (∀ i, tail.length + 4 ≤ i → i < 9 → r.callsign[i]? = fop.callsign[i]?) := by
  obtain ⟨d, tail, hd1, hd2, htl, htm, -, hr⟩ := us_closed H st fop hlen hty hband hcs h1 h2
  obtain ⟨b0, b1, b2, b3, b4, b5, b6, b7, b8, b9, hb⟩ := len10 _ hlen
  have hs2 : derivedCallsign H st fop = 78 :: d :: tail ++ [63] := by
    unfold derivedCallsign
    rw [hr]
    show cstring (78 :: d :: tail ++ [63, 0] ++ _ ++ [63]) = _
    have e : ∀ X : List Nat, 78 :: d :: tail ++ [63, 0] ++ X ++ [63]
        = (78 :: d :: tail ++ [63]) ++ 0 :: (X ++ [63]) := by intro X; simp
    rw [e, cstring_append_nul]
    intro c hc
    simp only [List.cons_append, List.mem_cons, List.mem_append, List.mem_singleton,
      List.not_mem_nil, or_false] at hc
    rcases hc with rfl | rfl | hc | rfl
    · decide
    · omega
    · have := mem_nnumberchars_pos c (htm c hc); omega
    · decide
  have hs3 : cstring (78 :: d :: tail ++ [63, 0] ++
      (fop.callsign.drop (tail.length + 4)).take (5 - tail.length) ++ [63])
      = 78 :: d :: tail ++ [63] := by
    unfold derivedCallsign at hs2
    rw [hr] at hs2
    exact hs2
  refine ⟨_, d, tail, hr, hd1, hd2, htl, htm, ?_, ?_, hs3, ?_, ?_⟩
  · rw [hb]
    rcases tail with _ | ⟨x, _ | ⟨y, _ | ⟨z, _ | ⟨w, _ | ⟨v, t⟩⟩⟩⟩⟩
    · simp
    · simp
    · simp
    · simp
    · simp
    · simp at htl
  · rw [hb]
    rcases tail with _ | ⟨x, _ | ⟨y, _ | ⟨z, _ | ⟨w, _ | ⟨v, t⟩⟩⟩⟩⟩
    · simp
    · simp
    · simp
    · simp
    · simp
    · simp at htl
  · rw [hs3]
    simp only [List.cons_append, List.length_cons, List.length_append, List.length_nil]
    omega
  · intro i hi1 hi2
    rw [hb]
    rcases tail with _ | ⟨x, _ | ⟨y, _ | ⟨z, _ | ⟨w, _ | ⟨v, t⟩⟩⟩⟩⟩
    · simp at hi1; interval_cases i <;> simp
    · simp at hi1; interval_cases i <;> simp
    · simp at hi1; interval_cases i <;> simp
    · simp at hi1; interval_cases i <;> simp
    · simp at hi1; interval_cases i; simp
    · simp at htl

/-- Witness of C8: the last address of the range, 0xADF7C7, gives "N99999?". -/
theorem icao_to_n_us_safe_witness :
    ∃ r d tail, icao_to_n stdHeader (usSettings stdHeader) (icaoTarget stdHeader 0xADF7C7) = some r ∧
      49 ≤ d ∧ d ≤ 57 ∧ List.length tail ≤ 4 ∧
      (∀ c ∈ tail, c ∈ nnumberchars) ∧
      r.callsign.length = 10 ∧
      r.callsign.take (tail.length + 4) = 78 :: d :: tail ++ [63, 0] ∧
      cstring r.callsign = 78 :: d :: tail ++ [63] ∧
      (cstring r.callsign).length ≤ 7 ∧
      (∀ i, tail.length + 4 ≤ i → i < 9 →
        r.callsign[i]? = (icaoTarget stdHeader 0xADF7C7).callsign[i]?) :=
  icao_to_n_us_safe stdHeader (usSettings stdHeader) (icaoTarget stdHeader 0xADF7C7)
    (by decide) rfl rfl (by decide) (by decide) (by decide)

/-- Claim C9. For an address `a` with 0xC00001 <= a < 0xC0CDF9 (ICAO type, US band, no
callsign received) the derived callsign is "C-", a first letter among F, G, I (never H), the
three base-26 letters 'A'..'Z' of (a - 0xC00001) mod 26^3, and '?'; two such targets with
distinct addresses get distinct callsigns. -/
theorem icao_canadian_callsign (H : Header) (st : settings_t) (f g : container_t)
    (hband : st.band = H.RF_BAND_US)
    (hflen : f.callsign.length = 10) (hfty : f.addr_type = H.ADDR_TYPE_ICAO)
    (hfcs : f.callsign.headD 0 = 0 ∨ f.callsign.headD 0 = 32)
    (hf1 : 0xC00001 ≤ f.addr) (hf2 : f.addr < 0xC0CDF9)
    (hglen : g.callsign.length = 10) (hgty : g.addr_type = H.ADDR_TYPE_ICAO)
    (hgcs : g.callsign.headD 0 = 0 ∨ g.callsign.headD 0 = 32)
    (hg1 : 0xC00001 ≤ g.addr) (hg2 : g.addr < 0xC0CDF9) :
    (∃ L, (L = 70 ∨ L = 71 ∨ L = 73) ∧
      (f.addr - 0xC00001) % 26 ^ 3 / 26 ^ 2 < 26 ∧
      derivedCallsign H st f =
        [67, 45, L,
          65 + (f.addr - 0xC00001) % 26 ^ 3 / 26 ^ 2,
          65 + (f.addr - 0xC00001) % 26 ^ 3 / 26 % 26,
          65 + (f.addr - 0xC00001) % 26 ^ 3 % 26, 63]) ∧
    (f.addr ≠ g.addr → derivedCallsign H st f ≠ derivedCallsign H st g) := by
  have hf := canadian_string H st f hflen hfty hband hfcs hf1 hf2
  have hg := canadian_string H st g hglen hgty hband hgcs hg1 hg2
  constructor
  · refine ⟨(if (f.addr - 0xC00001) / 17576 = 2 then 3 else (f.addr - 0xC00001) / 17576) + 70,
      ?_, ?_, ?_⟩
    · split_ifs <;> omega
    · norm_num; omega
    · rw [hf]
      norm_num
      omega
  · intro hne heq
    rw [hf, hg] at heq
    simp only [List.cons.injEq, and_true, true_and] at heq
    obtain ⟨e1, e2, e3, e4⟩ := heq
    split_ifs at e1 <;> omega

/-- Witness of C9: the addresses 0xC00001 ("C-FAAA?") and 0xC0CDF8. -/
theorem icao_canadian_callsign_witness :
    (∃ L, (L = 70 ∨ L = 71 ∨ L = 73) ∧
      (0xC00001 - 0xC00001) % 26 ^ 3 / 26 ^ 2 < 26 ∧
      derivedCallsign stdHeader (usSettings stdHeader) (icaoTarget stdHeader 0xC00001) =
        [67, 45, L,
          65 + (0xC00001 - 0xC00001) % 26 ^ 3 / 26 ^ 2,
          65 + (0xC00001 - 0xC00001) % 26 ^ 3 / 26 % 26,
          65 + (0xC00001 - 0xC00001) % 26 ^ 3 % 26, 63]) ∧
    ((0xC00001 : Nat) ≠ 0xC0CDF8 →
      derivedCallsign stdHeader (usSettings stdHeader) (icaoTarget stdHeader 0xC00001) ≠
        derivedCallsign stdHeader (usSettings stdHeader) (icaoTarget stdHeader 0xC0CDF8)) :=
  icao_canadian_callsign stdHeader (usSettings stdHeader) (icaoTarget stdHeader 0xC00001)
    (icaoTarget stdHeader 0xC0CDF8) rfl (by decide) rfl (by decide) (by decide) (by decide)
    (by decide) rfl (by decide) (by decide) (by decide)

/-- Claim C10. `icao_to_n` leaves the callsign (indeed the whole entry) unchanged whenever the
address type is not ICAO, or the band is not US, or a callsign is present (first character
neither NUL nor space), or the address is outside both [0xA00001, 0xADF7C7] and
[0xC00001, 0xC0CDF9). -/
theorem icao_to_n_unchanged (H : Header) (st : settings_t) (fop : container_t)
    (h : fop.addr_type ≠ H.ADDR_TYPE_ICAO ∨ st.band ≠ H.RF_BAND_US ∨
      (fop.callsign.headD 0 ≠ 0 ∧ fop.callsign.headD 0 ≠ 32) ∨
      (¬ (0xA00001 ≤ fop.addr ∧ fop.addr ≤ 0xADF7C7) ∧
        ¬ (0xC00001 ≤ fop.addr ∧ fop.addr < 0xC0CDF9))) :
    icao_to_n H st fop = some fop := by
  unfold icao_to_n
  by_cases a1 : fop.addr_type ≠ H.ADDR_TYPE_ICAO
  · rw [if_pos a1]
  rw [if_neg a1]
  by_cases a2 : st.band ≠ H.RF_BAND_US
  · rw [if_pos a2]
  rw [if_neg a2]
  by_cases a3 : fop.callsign.headD 0 ≠ 0 ∧ fop.callsign.headD 0 ≠ 32
  · rw [if_pos a3]
  rw [if_neg a3]
  have a4 : ¬ (0xA00001 ≤ fop.addr ∧ fop.addr ≤ 0xADF7C7) ∧
      ¬ (0xC00001 ≤ fop.addr ∧ fop.addr < 0xC0CDF9) := by
    rcases h with h | h | h | h
    · exact absurd h a1
    · exact absurd h a2
    · exact absurd h a3
    · exact h
  have a5 : ¬ (fop.addr > 0xC00000 ∧ fop.addr < 0xC0CDF9) := by omega
  have a6 : fop.addr < 0xA00001 ∨ fop.addr > 0xADF7C7 := by omega
  simp only [a5, a6, if_false, if_true]

/-- Witness of C10: the address 0x3D1234 lies outside both ranges. -/
theorem icao_to_n_unchanged_witness :
    icao_to_n stdHeader (usSettings stdHeader) (icaoTarget stdHeader 0x3D1234)
      = some (icaoTarget stdHeader 0x3D1234) :=
  icao_to_n_unchanged stdHeader (usSettings stdHeader) (icaoTarget stdHeader 0x3D1234)
    (Or.inr (Or.inr (Or.inr (by decide))))

/-! ## The alarm level: `Alarm_Distance`, `Traffic_Update` -/

/-- The level `Alarm_Distance` returns, as a function of the three fields it reads. -/
theorem Alarm_Distance_level (H : Header) (t f : container_t) :
    (Alarm_Distance H t f).1 =
      if f.distance > H.ALARM_ZONE_CLOSE ∨ |f.adj_alt_diff| > H.VERTICAL_SEPARATION then
        ALARM_LEVEL_NONE
      else if max f.adj_distance f.distance < H.ALARM_ZONE_URGENT then ALARM_LEVEL_URGENT
      else if max f.adj_distance f.distance < H.ALARM_ZONE_IMPORTANT then ALARM_LEVEL_IMPORTANT
      else if max f.adj_distance f.distance < H.ALARM_ZONE_LOW then ALARM_LEVEL_LOW
      else if max f.adj_distance f.distance < H.ALARM_ZONE_CLOSE then ALARM_LEVEL_CLOSE
      else ALARM_LEVEL_NONE := by
  have hmax : (if f.adj_distance > f.distance then f.adj_distance else f.distance)
      = max f.adj_distance f.distance := by
    split_ifs with h
    · exact (max_eq_left (le_of_lt h)).symm
    · exact (max_eq_right (not_lt.1 h)).symm
  unfold Alarm_Distance
  by_cases h : f.distance > H.ALARM_ZONE_CLOSE ∨ |f.adj_alt_diff| > H.VERTICAL_SEPARATION
  · simp only [h, if_true]
  · simp only [h, if_false, hmax]

/-- Claim C5. `Alarm_Distance` is monotone: for two targets with the same `adj_alt_diff`, if
the first has the smaller (or equal) `distance` and `adj_distance`, the level returned for it
is not lower than the level returned for the second. The order of the thresholds is not
needed. -/
theorem Alarm_Distance_monotone (H : Header) (t f g : container_t)
    (halt : f.adj_alt_diff = g.adj_alt_diff) (hd : f.distance ≤ g.distance)
    (ha : f.adj_distance ≤ g.adj_distance) :
    (Alarm_Distance H t g).1 ≤ (Alarm_Distance H t f).1 := by
  rw [Alarm_Distance_level, Alarm_Distance_level, halt]
  have hm : max f.adj_distance f.distance ≤ max g.adj_distance g.distance :=
    max_le_max ha hd
  simp only [ALARM_LEVEL_NONE, ALARM_LEVEL_CLOSE, ALARM_LEVEL_LOW, ALARM_LEVEL_IMPORTANT,
    ALARM_LEVEL_URGENT]
  by_cases hg0 : g.distance > H.ALARM_ZONE_CLOSE ∨ |g.adj_alt_diff| > H.VERTICAL_SEPARATION
  · rw [if_pos hg0]
    split_ifs <;> omega
  · have hf0 : ¬ (f.distance > H.ALARM_ZONE_CLOSE ∨ |g.adj_alt_diff| > H.VERTICAL_SEPARATION) := by
      intro h
      rcases h with h | h
      · exact hg0 (Or.inl (lt_of_lt_of_le h hd))
      · exact hg0 (Or.inr h)
    rw [if_neg hg0, if_neg hf0]
    split_ifs <;> first | omega | (exfalso; linarith)

/-- Witness of C5: a target at 300 m against one at 800 m. -/
theorem Alarm_Distance_monotone_witness :
    (Alarm_Distance stdHeader (ownShip 1 100) (flarmTarget 2 800 0 0)).1 ≤
      (Alarm_Distance stdHeader (ownShip 1 100) (flarmTarget 1 300 0 0)).1 :=
  Alarm_Distance_monotone stdHeader (ownShip 1 100) (flarmTarget 1 300 0 0) (flarmTarget 2 800 0 0)
    rfl (by show (300 : ℚ) ≤ 800; norm_num) (by show (300 : ℚ) ≤ 800; norm_num)

/-- After the block `if (Alarm_Level)` with an algorithm selected, `alert_level` is at most
`alarm_level + 1`. -/
theorem alarm_eval_bound (env : Env) (timer : Nat) (fop : container_t)
    (h : env.Alarm_Level.isSome = true) :
    (alarm_eval env timer fop).1.alert_level ≤ (alarm_eval env timer fop).1.alarm_level + 1 := by
  unfold alarm_eval
  cases hA : env.Alarm_Level with
  | none => rw [hA] at h; exact absurd h (by decide)
  | some alg =>
    simp only [ALARM_LEVEL_NONE]
    split_ifs <;> simp only <;> omega

/-- With no algorithm selected the block `if (Alarm_Level)` does nothing. -/
theorem alarm_eval_none (env : Env) (timer : Nat) (fop : container_t)
    (h : env.Alarm_Level = none) : alarm_eval env timer fop = (fop, timer) := by
  unfold alarm_eval
  simp only [h]

/-- The fields `note_maxrssi` leaves alone (among those the table logic reads). -/
theorem note_maxrssi_frame (H : Header) (f : container_t) :
    (note_maxrssi H f).alert_level = f.alert_level ∧
    (note_maxrssi H f).alarm_level = f.alarm_level ∧
    (note_maxrssi H f).addr = f.addr ∧
    (note_maxrssi H f).callsign = f.callsign ∧
    (note_maxrssi H f).airborne = f.airborne ∧
    (note_maxrssi H f).timestamp = f.timestamp := by
  unfold note_maxrssi
  split_ifs <;> exact ⟨rfl, rfl, rfl, rfl, rfl, rfl⟩

/-- The fields `note_mindist` leaves alone (among those the table logic reads). -/
theorem note_mindist_frame (H : Header) (f : container_t) :
    (note_mindist H f).alert_level = f.alert_level ∧
    (note_mindist H f).alarm_level = f.alarm_level ∧
    (note_mindist H f).addr = f.addr ∧
    (note_mindist H f).callsign = f.callsign ∧
    (note_mindist H f).airborne = f.airborne ∧
    (note_mindist H f).timestamp = f.timestamp := by
  unfold note_mindist
  split_ifs <;> exact ⟨rfl, rfl, rfl, rfl, rfl, rfl⟩

/-- The first block of `Traffic_Update` keeps levels, address, callsign. -/
theorem update_nondirectional_frame (H : Header) (f : container_t) :
    (update_nondirectional H f).alert_level = f.alert_level ∧
    (update_nondirectional H f).alarm_level = f.alarm_level ∧
    (update_nondirectional H f).addr = f.addr ∧
    (update_nondirectional H f).callsign = f.callsign := by
  unfold update_nondirectional
  obtain ⟨n1, n2, n3, n4, -, -⟩ := note_maxrssi_frame H { f with
    adj_alt_diff := f.alt_diff
    adj_distance := f.distance + H.VERTICAL_SLOPE * |f.alt_diff|
    RelativeHeading := 0 }
  exact ⟨n1, n2, n3, n4⟩

/-- The directional block of `Traffic_Update` keeps levels, address, callsign, the airborne
flag and the timestamp. -/
theorem update_directional_frame (H : Header) (env : Env) (f : container_t) :
    (update_directional H env f).alert_level = f.alert_level ∧
    (update_directional H env f).alarm_level = f.alarm_level ∧
    (update_directional H env f).addr = f.addr ∧
    (update_directional H env f).callsign = f.callsign ∧
    (update_directional H env f).airborne = f.airborne ∧
    (update_directional H env f).timestamp = f.timestamp := by
  obtain ⟨m1, m2, m3, m4, m5, m6⟩ := note_mindist_frame H { f with
    RelativeHeading := relative_heading f.bearing env.ThisAircraft.heading }
  obtain ⟨n1, n2, n3, n4, n5, n6⟩ := note_maxrssi_frame H (note_mindist H { f with
    RelativeHeading := relative_heading f.bearing env.ThisAircraft.heading })
  unfold update_directional
  exact ⟨n1.trans m1, n2.trans m2, n3.trans m3, n4.trans m4, n5.trans m5, n6.trans m6⟩

/-- The two ways `Traffic_Update` ends: it evaluates the alarm level on an entry with the old
levels, or it returns early with `alert_level` and `Alarm_timer` as they were. -/
theorem Traffic_Update_cases (H : Header) (env : Env) (timer : Nat) (fop : container_t) :
    (evaluates H env fop = true →
      ∃ f, f.alert_level = fop.alert_level ∧ f.alarm_level = fop.alarm_level ∧
        f.addr = fop.addr ∧ f.callsign = fop.callsign ∧
        Traffic_Update H env timer fop = alarm_eval env timer f) ∧
    (evaluates H env fop = false →
      (Traffic_Update H env timer fop).1.alert_level = fop.alert_level ∧
      ((Traffic_Update H env timer fop).1.alarm_level = ALARM_LEVEL_NONE ∨
        (Traffic_Update H env timer fop).1.alarm_level = fop.alarm_level) ∧
      (Traffic_Update H env timer fop).1.addr = fop.addr ∧
      (Traffic_Update H env timer fop).1.callsign = fop.callsign ∧
      (Traffic_Update H env timer fop).2 = timer) := by
  by_cases h1 : fop.tx_type ≤ H.TX_TYPE_S
  · obtain ⟨m1, m2, m3, m4⟩ := update_nondirectional_frame H fop
    by_cases h2 : env.ThisAircraft.airborne = 0
    · have hT : Traffic_Update H env timer fop =
          ({ update_nondirectional H fop with alarm_level := ALARM_LEVEL_NONE }, timer) := by
        simp only [Traffic_Update, h1, h2, if_true]
      refine ⟨fun he => ?_, fun _ => ?_⟩
      · simp [evaluates, h1, h2] at he
      · rw [hT]
        exact ⟨m1, Or.inl rfl, m3, m4, rfl⟩
    · have hT : Traffic_Update H env timer fop =
          alarm_eval env timer (update_nondirectional H fop) := by
        simp only [Traffic_Update, h1, h2, if_true, if_false]
      refine ⟨fun _ => ⟨_, m1, m2, m3, m4, hT⟩, fun he => ?_⟩
      simp [evaluates, h1, h2] at he
  · obtain ⟨m1, m2, m3, m4, m5, m6⟩ := update_directional_frame H env fop
    by_cases h2 : (fop.airborne = 0 ∨ env.ThisAircraft.airborne = 0) ∧ env.do_alarm_demo = false
    · have hT : Traffic_Update H env timer fop =
          ({ update_directional H env fop with alarm_level := ALARM_LEVEL_NONE }, timer) := by
        simp only [Traffic_Update, h1, if_false, m5, h2, and_self, if_true]
      refine ⟨fun he => ?_, fun _ => ?_⟩
      · simp [evaluates, h1, h2] at he
      · rw [hT]
        exact ⟨m1, Or.inl rfl, m3, m4, rfl⟩
    · by_cases h3 : env.OurTime > env.ThisAircraft.timestamp + 2
      · have hT : Traffic_Update H env timer fop = (update_directional H env fop, timer) := by
          simp only [Traffic_Update, h1, if_false, m5, h2, h3, if_true]
        refine ⟨fun he => ?_, fun _ => ?_⟩
        · simp only [evaluates, h1, if_false, decide_eq_true_eq] at he
          omega
        · rw [hT]
          exact ⟨m1, Or.inr m2, m3, m4, rfl⟩
      · by_cases h4 : env.OurTime > fop.timestamp + 2
        · have hT : Traffic_Update H env timer fop = (update_directional H env fop, timer) := by
            simp only [Traffic_Update, h1, if_false, m5, m6, h2, h3, h4, if_true]
          refine ⟨fun he => ?_, fun _ => ?_⟩
          · simp only [evaluates, h1, if_false, decide_eq_true_eq] at he
            omega
          · rw [hT]
            exact ⟨m1, Or.inr m2, m3, m4, rfl⟩
        · have hT : Traffic_Update H env timer fop =
              alarm_eval env timer (update_directional H env fop) := by
            simp only [Traffic_Update, h1, if_false, m5, m6, h2, h3, h4]
          refine ⟨fun _ => ⟨_, m1, m2, m3, m4, hT⟩, fun he => ?_⟩
          simp only [evaluates, h1, if_false, decide_eq_false_iff_not] at he
          exact absurd ⟨h2, by omega, by omega⟩ he

/-- Claim C3, amended. After a call of `Traffic_Update` that evaluates the alarm level (an
algorithm is selected and none of the early returns is taken, see `evaluates`) the entry
satisfies `alert_level <= alarm_level + 1`, for every prior state, own aircraft and
algorithm. A call that returns early, or with no algorithm selected, leaves `alert_level` as
it was; the bound then still holds when `alert_level` was at most Close and the bound held
before, as it does for a newly admitted target. -/
theorem Traffic_Update_alert_bound (H : Header) (env : Env) (timer : Nat) (fop : container_t) :
    (evaluates H env fop = true → env.Alarm_Level.isSome = true →
      (Traffic_Update H env timer fop).1.alert_level
        ≤ (Traffic_Update H env timer fop).1.alarm_level + 1) ∧
    (evaluates H env fop = false ∨ env.Alarm_Level = none →
      (Traffic_Update H env timer fop).1.alert_level = fop.alert_level) ∧
    (fop.alert_level ≤ ALARM_LEVEL_CLOSE → fop.alert_level ≤ fop.alarm_level + 1 →
      (Traffic_Update H env timer fop).1.alert_level
        ≤ (Traffic_Update H env timer fop).1.alarm_level + 1) := by
  obtain ⟨c1, c2⟩ := Traffic_Update_cases H env timer fop
  refine ⟨?_, ?_, ?_⟩
  · intro he hs
    obtain ⟨f, -, -, -, -, hf⟩ := c1 he
    rw [hf]
    exact alarm_eval_bound env timer f hs
  · intro h
    cases he : evaluates H env fop with
    | false => exact (c2 he).1
    | true =>
      rcases h with h | h
      · rw [he] at h; exact absurd h (by decide)
      · obtain ⟨f, hf1, -, -, -, hf⟩ := c1 he
        rw [hf, alarm_eval_none env timer f h]
        exact hf1
  · intro h1 h2
    cases he : evaluates H env fop with
    | false =>
      obtain ⟨d1, d2, -⟩ := c2 he
      rw [d1]
      unfold ALARM_LEVEL_CLOSE at h1
      unfold ALARM_LEVEL_NONE at d2
      rcases d2 with d2 | d2 <;> rw [d2] <;> omega
    | true =>
      obtain ⟨f, hf1, hf2, -, -, hf⟩ := c1 he
      rw [hf]
      cases hA : env.Alarm_Level with
      | none =>
        rw [alarm_eval_none env timer f hA]
        show f.alert_level ≤ f.alarm_level + 1
        rw [hf1, hf2]; exact h2
      | some alg =>
        exact alarm_eval_bound env timer f (by rw [hA]; rfl)

/-- Witness of C3 (amended): an airborne target at 300 m, the own aircraft airborne,
`Alarm_Distance` selected. -/
theorem Traffic_Update_alert_bound_witness :
    (Traffic_Update stdHeader (testEnv (ownShip 1 100) (some (Alarm_Distance stdHeader)) 100 0) 0
        (flarmTarget 0xABCDEF 300 4 4)).1.alert_level ≤
      (Traffic_Update stdHeader (testEnv (ownShip 1 100) (some (Alarm_Distance stdHeader)) 100 0) 0
        (flarmTarget 0xABCDEF 300 4 4)).1.alarm_level + 1 :=
  (Traffic_Update_alert_bound stdHeader (testEnv (ownShip 1 100) (some (Alarm_Distance stdHeader)) 100 0)
    0 (flarmTarget 0xABCDEF 300 4 4)).1 (by decide) (by decide)

/-- Counterexample to C3 as stated: a tracked target at Urgent with `alert_level` Urgent
(already notified); the own aircraft is no longer airborne. `Traffic_Update` returns early
with `alarm_level` None and `alert_level` still Urgent. -/
theorem Traffic_Update_alert_bound_fails :
    (flarmTarget 0xABCDEF 300 4 4).alert_level ≤ (flarmTarget 0xABCDEF 300 4 4).alarm_level + 1 ∧
    (Traffic_Update stdHeader (testEnv (ownShip 0 100) (some (Alarm_Distance stdHeader)) 100 0) 0
        (flarmTarget 0xABCDEF 300 4 4)).1.alarm_level = ALARM_LEVEL_NONE ∧
    (Traffic_Update stdHeader (testEnv (ownShip 0 100) (some (Alarm_Distance stdHeader)) 100 0) 0
        (flarmTarget 0xABCDEF 300 4 4)).1.alert_level = ALARM_LEVEL_URGENT ∧
    ¬ ((Traffic_Update stdHeader (testEnv (ownShip 0 100) (some (Alarm_Distance stdHeader)) 100 0) 0
        (flarmTarget 0xABCDEF 300 4 4)).1.alert_level ≤
      (Traffic_Update stdHeader (testEnv (ownShip 0 100) (some (Alarm_Distance stdHeader)) 100 0) 0
        (flarmTarget 0xABCDEF 300 4 4)).1.alarm_level + 1) := by
  decide

/-! ## The periodic tick -/

/-- The entry as one pass of the loop of `Traffic_loop` leaves it: emptied if it was
non-empty and expired, untouched otherwise. -/
theorem loop_slot_fst (M : Libm) (H : Header) (env : Env) (i : Nat) (fop : container_t)
    (a : loop_acc) :
    (loop_slot M H env i fop a).1 =
      if fop.addr ≠ 0 ∧ expired H env.OurTime fop = true then { fop with addr := 0 } else fop := by
  unfold loop_slot
  by_cases h1 : fop.addr ≠ 0
  · cases h2 : expired H env.OurTime fop with
    | false =>
      simp only [h1, if_true, ne_eq, not_false_eq_true, Bool.false_eq_true, and_false, if_false]
      split_ifs <;> rfl
    | true =>
      simp only [h1, if_true, ne_eq, not_false_eq_true, Bool.true_eq_false, and_self, if_false]
  · simp only [h1, if_false, false_and]

/-- The table after the loop of `Traffic_loop`, entry by entry. -/
theorem loop_slots_fst (M : Libm) (H : Header) (env : Env) (l : List container_t) :
    ∀ (i : Nat) (a : loop_acc), (loop_slots M H env i l a).1 =
      l.map fun fop =>
        if fop.addr ≠ 0 ∧ expired H env.OurTime fop = true then { fop with addr := 0 }
        else fop := by
  induction l with
  | nil => intro i a; rfl
  | cons c rest ih =>
    intro i a
    simp only [loop_slots, List.map_cons, ih, loop_slot_fst]

/-- The table after a tick that passes the rate gate: the entries as the loop leaves them,
and, if a notification is emitted for slot `k`, that entry with `alert_level` and `alert`
rewritten. -/
theorem Traffic_loop_Container (M : Libm) (H : Header) (env : Env) (w : World)
    (hg : env.isTimeToUpdateTraffic = true) :
    (Traffic_loop M H env w).1.Container =
        (w.Container.map fun fop =>
          if fop.addr ≠ 0 ∧ expired H env.OurTime fop = true then { fop with addr := 0 }
          else fop) ∨
    ∃ (k : Nat) (x : Int) (y : Nat), (Traffic_loop M H env w).1.Container =
        (w.Container.map fun fop =>
          if fop.addr ≠ 0 ∧ expired H env.OurTime fop = true then { fop with addr := 0 }
          else fop).set k
          { (w.Container.map fun fop =>
              if fop.addr ≠ 0 ∧ expired H env.OurTime fop = true then { fop with addr := 0 }
              else fop).getD k EmptyContainer with alert_level := x, alert := y } := by
  unfold Traffic_loop
  simp only [hg, Bool.true_eq_false, if_false, loop_slots_fst]
  split
  · split_ifs <;> first | exact Or.inl rfl | exact Or.inr ⟨_, _, _, rfl⟩
  · exact Or.inl rfl

/-- Claim C2. After a `Traffic_loop` tick that passes the rate gate, every slot that was
non-empty and expired at the tick (`OurTime > timestamp + NONDIR_EXPIRATION` when
`tx_type <= TX_TYPE_S`, otherwise `OurTime > timestamp + ENTRY_EXPIRATION_TIME`) has
`addr == 0`, and every slot that was not expired keeps its `addr`. -/
theorem Traffic_loop_expires (M : Libm) (H : Header) (env : Env) (w : World)
    (hg : env.isTimeToUpdateTraffic = true) (i : Nat) (c : container_t)
    (hc : w.Container[i]? = some c) :
    ∃ c', (Traffic_loop M H env w).1.Container[i]? = some c' ∧
      (c.addr ≠ 0 →
        (if c.tx_type ≤ H.TX_TYPE_S then env.OurTime > c.timestamp + H.NONDIR_EXPIRATION
         else env.OurTime > c.timestamp + H.ENTRY_EXPIRATION_TIME) → c'.addr = 0) ∧
      (¬ (if c.tx_type ≤ H.TX_TYPE_S then env.OurTime > c.timestamp + H.NONDIR_EXPIRATION
         else env.OurTime > c.timestamp + H.ENTRY_EXPIRATION_TIME) → c'.addr = c.addr) := by
  have hexp : expired H env.OurTime c = true ↔
      (if c.tx_type ≤ H.TX_TYPE_S then env.OurTime > c.timestamp + H.NONDIR_EXPIRATION
         else env.OurTime > c.timestamp + H.ENTRY_EXPIRATION_TIME) := by
    unfold expired
    split_ifs <;> simp
  have hL : (w.Container.map fun fop =>
          if fop.addr ≠ 0 ∧ expired H env.OurTime fop = true then { fop with addr := 0 }
          else fop)[i]? = some (if c.addr ≠ 0 ∧ expired H env.OurTime c = true
            then { c with addr := 0 } else c) := by
    rw [List.getElem?_map, hc]; rfl
  have hsweep : ∀ c' : container_t,
      c'.addr = (if c.addr ≠ 0 ∧ expired H env.OurTime c = true
            then { c with addr := 0 } else c).addr →
      (c.addr ≠ 0 →
        (if c.tx_type ≤ H.TX_TYPE_S then env.OurTime > c.timestamp + H.NONDIR_EXPIRATION
         else env.OurTime > c.timestamp + H.ENTRY_EXPIRATION_TIME) → c'.addr = 0) ∧
      (¬ (if c.tx_type ≤ H.TX_TYPE_S then env.OurTime > c.timestamp + H.NONDIR_EXPIRATION
         else env.OurTime > c.timestamp + H.ENTRY_EXPIRATION_TIME) → c'.addr = c.addr) := by
    intro c' h
    rw [← hexp]
    constructor
    · intro h1 h2
      rw [h, if_pos ⟨h1, h2⟩]
    · intro h2
      rw [h, if_neg (fun hh => h2 hh.2)]
  rcases Traffic_loop_Container M H env w hg with h | ⟨k, x, y, h⟩
  · rw [h, hL]
    exact ⟨_, rfl, hsweep _ rfl⟩
  · rw [h, List.getElem?_set]
    by_cases hk : k = i
    · subst hk
      have hlen : k < (w.Container.map fun fop =>
          if fop.addr ≠ 0 ∧ expired H env.OurTime fop = true then { fop with addr := 0 }
          else fop).length := by
        by_contra hcon
        rw [List.getElem?_eq_none (not_lt.1 hcon)] at hL
        exact absurd hL (by simp)
      rw [if_pos rfl, if_pos hlen]
      refine ⟨_, rfl, hsweep _ ?_⟩
      rw [List.getD_eq_getElem?_getD, hL]
      rfl
    · rw [if_neg hk, hL]
      exact ⟨_, rfl, hsweep _ rfl⟩

/-- Witness of C2: a table of one target last heard at 100 s, at a tick at time 200 s. -/
theorem Traffic_loop_expires_witness :
    ∃ c', (Traffic_loop testLibm stdHeader
        (testEnv (ownShip 1 200) (some (Alarm_Distance stdHeader)) 200 0)
        (worldOf [flarmTarget 0xABCDEF 300 0 0] 0)).1.Container[0]? = some c' ∧
      ((flarmTarget 0xABCDEF 300 0 0).addr ≠ 0 →
        (if (flarmTarget 0xABCDEF 300 0 0).tx_type ≤ stdHeader.TX_TYPE_S then
          200 > (flarmTarget 0xABCDEF 300 0 0).timestamp + stdHeader.NONDIR_EXPIRATION
         else 200 > (flarmTarget 0xABCDEF 300 0 0).timestamp + stdHeader.ENTRY_EXPIRATION_TIME) →
        c'.addr = 0) ∧
      (¬ (if (flarmTarget 0xABCDEF 300 0 0).tx_type ≤ stdHeader.TX_TYPE_S then
          200 > (flarmTarget 0xABCDEF 300 0 0).timestamp + stdHeader.NONDIR_EXPIRATION
         else 200 > (flarmTarget 0xABCDEF 300 0 0).timestamp + stdHeader.ENTRY_EXPIRATION_TIME) →
        c'.addr = (flarmTarget 0xABCDEF 300 0 0).addr) :=
  Traffic_loop_expires testLibm stdHeader
    (testEnv (ownShip 1 200) (some (Alarm_Distance stdHeader)) 200 0)
    (worldOf [flarmTarget 0xABCDEF 300 0 0] 0) rfl 0 (flarmTarget 0xABCDEF 300 0 0) rfl

/-! ## Uniqueness of addresses -/

/-- Writing back the element a place holds changes nothing. -/
theorem set_getElem?_self {α : Type} (as : List α) (i : Nat) (a : α) (h : as[i]? = some a) :
    as.set i a = as := by
  induction as generalizing i with
  | nil => rfl
  | cons x xs ih =>
    cases i with
    | zero =>
      simp only [List.getElem?_cons_zero, Option.some.injEq] at h
      simp [h]
    | succ j =>
      simp only [List.getElem?_cons_succ] at h
      simp [ih j h]

/-- Writing into one place of a list of addresses a zero, a value not in the list, or the
value already there keeps the non-zero values distinct. -/
theorem distinct_set (as : List Nat) (i a : Nat)
    (hP : as.Pairwise fun x y => x ≠ 0 → x ≠ y)
    (ha : a = 0 ∨ a ∉ as ∨ as[i]? = some a) :
    (as.set i a).Pairwise fun x y => x ≠ 0 → x ≠ y := by
  rcases ha with ha | ha | ha
  · induction as generalizing i with
    | nil => simp
    | cons x xs ih =>
      rw [List.pairwise_cons] at hP
      cases i with
      | zero =>
        simp only [List.set_cons_zero, List.pairwise_cons]
        exact ⟨fun y _ h0 => absurd ha h0, hP.2⟩
      | succ j =>
        simp only [List.set_cons_succ, List.pairwise_cons]
        refine ⟨fun y hy hx => ?_, ih j hP.2⟩
        rcases List.mem_or_eq_of_mem_set hy with hy | hy
        · exact hP.1 y hy hx
        · rw [hy, ha]; exact hx
  · induction as generalizing i with
    | nil => simp
    | cons x xs ih =>
      rw [List.pairwise_cons] at hP
      have hax : a ≠ x := fun h => ha (h ▸ List.mem_cons_self _ _)
      have haxs : a ∉ xs := fun h => ha (List.mem_cons_of_mem _ h)
      cases i with
      | zero =>
        simp only [List.set_cons_zero, List.pairwise_cons]
        exact ⟨fun y hy _ h => haxs (h ▸ hy), hP.2⟩
      | succ j =>
        simp only [List.set_cons_succ, List.pairwise_cons]
        refine ⟨fun y hy hx => ?_, ih j hP.2 haxs⟩
        rcases List.mem_or_eq_of_mem_set hy with hy | hy
        · exact hP.1 y hy hx
        · rw [hy]; exact fun h => hax h.symm
  · rw [set_getElem?_self as i a ha]
    exact hP

/-- Replacing slot `i` by an entry whose address is zero, is new to the table, or is the one
the slot holds keeps the table free of duplicate addresses. -/
theorem UniqueAddr_set (l : List container_t) (i : Nat) (c : container_t)
    (hU : UniqueAddr l)
    (hc : c.addr = 0 ∨ (∀ x ∈ l, x.addr ≠ c.addr) ∨ (l[i]?).map (fun x => x.addr) = some c.addr) :
    UniqueAddr (l.set i c) := by
  unfold UniqueAddr at hU ⊢
  have h1 := (List.pairwise_map (f := fun x : container_t => x.addr)
    (R := fun x y => x ≠ 0 → x ≠ y)).2 hU
  have h2 := distinct_set (l.map fun x => x.addr) i c.addr h1 (by
    rcases hc with hc | hc | hc
    · exact Or.inl hc
    · refine Or.inr (Or.inl ?_)
      intro hm
      obtain ⟨x, hx, hxa⟩ := List.mem_map.1 hm
      exact hc x hx hxa
    · refine Or.inr (Or.inr ?_)
      rw [List.getElem?_map]; exact hc)
  rw [← List.map_set] at h2
  exact (List.pairwise_map (f := fun x : container_t => x.addr)
    (R := fun x y => x ≠ 0 → x ≠ y)).1 h2

/-- Emptying some entries (address set to zero) keeps the table free of duplicates. -/
theorem UniqueAddr_map (l : List container_t) (g : container_t → container_t)
    (hg : ∀ c, (g c).addr = c.addr ∨ (g c).addr = 0) (hU : UniqueAddr l) :
    UniqueAddr (l.map g) := by
  unfold UniqueAddr at hU ⊢
  rw [List.pairwise_map]
  refine List.Pairwise.imp ?_ hU
  intro a b hab hga
  have ha : (g a).addr = a.addr := by
    rcases hg a with h | h
    · exact h
    · exact absurd h hga
  rw [ha] at hga ⊢
  rcases hg b with h | h
  · rw [h]; exact hab hga
  · rw [h]; exact hga

/-! ## Frame and totality lemmas for `AddTraffic` -/

/-- `air_relay` keeps the address and the callsign of the entry. -/
theorem air_relay_frame (H : Header) (env : Env) (g : relay_globals) (cip : container_t) :
    (air_relay H env g cip).1.addr = cip.addr ∧
    (air_relay H env g cip).1.callsign = cip.callsign := by
  unfold air_relay
  simp only
  split_ifs <;> exact ⟨rfl, rfl⟩

/-- `relay_and_store` writes slot `i` only, with an entry of the same address and callsign. -/
theorem relay_and_store_Container (H : Header) (env : Env) (w : World) (i : Nat)
    (cip : container_t) (b : Bool) :
    ∃ c, (relay_and_store H env w i cip b).Container = w.Container.set i c ∧
      c.addr = cip.addr ∧ c.callsign = cip.callsign := by
  unfold relay_and_store
  cases b with
  | false => exact ⟨cip, rfl, rfl, rfl⟩
  | true => exact ⟨_, rfl, (air_relay_frame H env w.relay cip).1, (air_relay_frame H env w.relay cip).2⟩

/-- The block `if (Alarm_Level)` keeps address and callsign when the algorithm does. -/
theorem alarm_eval_frame (env : Env) (timer : Nat) (f : container_t)
    (hF : ∀ alg, env.Alarm_Level = some alg → Framed alg) :
    (alarm_eval env timer f).1.addr = f.addr ∧
    (alarm_eval env timer f).1.callsign = f.callsign := by
  unfold alarm_eval
  cases hA : env.Alarm_Level with
  | none => exact ⟨rfl, rfl⟩
  | some alg =>
    obtain ⟨h1, h2⟩ := hF alg hA env.ThisAircraft f
    simp only
    split_ifs <;> exact ⟨h1, h2⟩

/-- `Traffic_Update` keeps address and callsign when the selected algorithm does. -/
theorem Traffic_Update_frame (H : Header) (env : Env) (timer : Nat) (f : container_t)
    (hF : ∀ alg, env.Alarm_Level = some alg → Framed alg) :
    (Traffic_Update H env timer f).1.addr = f.addr ∧
    (Traffic_Update H env timer f).1.callsign = f.callsign := by
  obtain ⟨c1, c2⟩ := Traffic_Update_cases H env timer f
  cases he : evaluates H env f with
  | false =>
    obtain ⟨-, -, h3, h4, -⟩ := c2 he
    exact ⟨h3, h4⟩
  | true =>
    obtain ⟨f', -, -, h3, h4, hf⟩ := c1 he
    rw [hf]
    obtain ⟨e1, e2⟩ := alarm_eval_frame env timer f' hF
    exact ⟨e1.trans h3, e2.trans h4⟩

/-- `Alarm_None` leaves the target alone. -/
theorem Alarm_None_Framed : Framed Alarm_None := fun _ _ => ⟨rfl, rfl⟩

/-- `Alarm_Distance` writes `alert_level` only. -/
theorem Alarm_Distance_Framed (H : Header) : Framed (Alarm_Distance H) := by
  intro t f
  unfold Alarm_Distance
  simp only
  split_ifs <;> exact ⟨rfl, rfl⟩

/-- `Alarm_Vector` writes `alert_level` only. -/
theorem Alarm_Vector_Framed (M : Libm) (H : Header) (t0 : ℚ) : Framed (Alarm_Vector M H t0) := by
  intro t f
  unfold Alarm_Vector
  simp only
  split_ifs <;> first | exact Alarm_Distance_Framed H t f | exact ⟨rfl, rfl⟩

/-- The four guards at the head of `icao_to_n` return before any store. -/
theorem icao_to_n_guarded (H : Header) (st : settings_t) (fop : container_t)
    (h : fop.addr_type ≠ H.ADDR_TYPE_ICAO ∨ st.band ≠ H.RF_BAND_US ∨
      (fop.callsign.headD 0 ≠ 0 ∧ fop.callsign.headD 0 ≠ 32) ∨
      (¬ (0xA00001 ≤ fop.addr ∧ fop.addr ≤ 0xADF7C7) ∧
        ¬ (0xC00001 ≤ fop.addr ∧ fop.addr < 0xC0CDF9))) :
    icao_to_n H st fop = some fop := by
  unfold icao_to_n
  rcases h with h | h | h | h
  · rw [if_pos h]
  · by_cases a1 : fop.addr_type ≠ H.ADDR_TYPE_ICAO
    · rw [if_pos a1]
    · rw [if_neg a1, if_pos h]
  · by_cases a1 : fop.addr_type ≠ H.ADDR_TYPE_ICAO
    · rw [if_pos a1]
    · by_cases a2 : st.band ≠ H.RF_BAND_US
      · rw [if_neg a1, if_pos a2]
      · rw [if_neg a1, if_neg a2, if_pos h]
  · have a5 : ¬ (fop.addr > 0xC00000 ∧ fop.addr < 0xC0CDF9) := by omega
    have a6 : fop.addr < 0xA00001 ∨ fop.addr > 0xADF7C7 := by omega
    simp only [a5, a6, if_false, if_true, ite_self]

/-- On a 10-byte callsign array `icao_to_n` completes; it keeps the address and the size of
the array. -/
theorem icao_to_n_total (H : Header) (st : settings_t) (f : container_t)
    (hlen : f.callsign.length = 10) :
    ∃ r, icao_to_n H st f = some r ∧ r.addr = f.addr ∧ r.callsign.length = 10 := by
  by_cases h : f.addr_type ≠ H.ADDR_TYPE_ICAO ∨ st.band ≠ H.RF_BAND_US ∨
      (f.callsign.headD 0 ≠ 0 ∧ f.callsign.headD 0 ≠ 32) ∨
      (¬ (0xA00001 ≤ f.addr ∧ f.addr ≤ 0xADF7C7) ∧ ¬ (0xC00001 ≤ f.addr ∧ f.addr < 0xC0CDF9))
  · exact ⟨f, icao_to_n_guarded H st f h, rfl, hlen⟩
  · have hty : f.addr_type = H.ADDR_TYPE_ICAO := by
      by_contra hc; exact h (Or.inl hc)
    have hband : st.band = H.RF_BAND_US := by
      by_contra hc; exact h (Or.inr (Or.inl hc))
    have hcs : f.callsign.headD 0 = 0 ∨ f.callsign.headD 0 = 32 := by
      by_contra hc; exact h (Or.inr (Or.inr (Or.inl (by omega))))
    have hr : (0xA00001 ≤ f.addr ∧ f.addr ≤ 0xADF7C7) ∨ (0xC00001 ≤ f.addr ∧ f.addr < 0xC0CDF9) := by
      by_contra hc; exact h (Or.inr (Or.inr (Or.inr (by omega))))
    rcases hr with hr | hr
    · obtain ⟨d, tail, -, -, htl, -, -, hres⟩ := us_closed H st f hlen hty hband hcs hr.1 hr.2
      refine ⟨_, hres, rfl, ?_⟩
      simp only [List.cons_append, List.length_cons, List.length_append, List.length_take,
        List.length_drop, List.length_nil, hlen]
      omega
    · obtain ⟨b0, b1, b2, b3, b4, b5, b6, b7, b8, b9, hb⟩ := len10 _ hlen
      have hcs2 : ¬ (f.callsign.headD 0 ≠ 0 ∧ f.callsign.headD 0 ≠ 32) := by omega
      have hrange : f.addr > 0xC00000 ∧ f.addr < 0xC0CDF9 := by omega
      have hI : icao_to_n H st f = icao_canadian f := by
        unfold icao_to_n
        simp only [hty, hband, ne_eq, not_true_eq_false, if_false, hcs2, hrange, and_self, if_true]
      rw [hI, canadian_closed f b0 b1 b2 b3 b4 b5 b6 b7 b8 b9 hb hr.1 hr.2]
      exact ⟨_, rfl, rfl, rfl⟩

/-- The callsign copy of `CopyTraffic` completes on a 10-byte array and keeps its size. -/
theorem copy_callsign_total (dst src : List Nat) (hlen : dst.length = 10) :
    ∃ buf, copy_callsign dst src = some buf ∧ buf.length = 10 := by
  unfold copy_callsign
  have h8 : 8 ≤ dst.length := by omega
  have hl : ((cstring src ++ List.replicate 8 0).take 8 ++ dst.drop 8).length = 10 := by
    simp only [List.length_append, List.length_take, List.length_replicate, List.length_drop, hlen]
    omega
  simp only [h8, if_true, poke, hl, Nat.reduceLT, Option.some_bind, List.length_set]
  exact ⟨_, rfl, by simp only [List.length_set, hl]⟩

/-- `CopyTraffic` completes on an entry with a 10-byte callsign array; the entry gets the
address of the report and keeps a 10-byte array. -/
theorem CopyTraffic_total (H : Header) (env : Env) (cip : container_t) (fop : ufo_t)
    (callsign : Option (List Nat)) (hlen : cip.callsign.length = 10) :
    ∃ r, CopyTraffic H env cip fop callsign = some r ∧ r.addr = fop.addr ∧
      r.callsign.length = 10 := by
  have hlen2 : (copy_fields env cip fop).callsign.length = 10 := hlen
  have haddr : (copy_fields env cip fop).addr = fop.addr := rfl
  unfold CopyTraffic
  simp only
  cases callsign with
  | none =>
    simp only [Option.some_bind]
    obtain ⟨r, h1, h2, h3⟩ := icao_to_n_total H env.settings (copy_fields env cip fop) hlen2
    exact ⟨r, h1, h2.trans haddr, h3⟩
  | some cs =>
    simp only
    split_ifs with hc
    · obtain ⟨buf, hb1, hb2⟩ := copy_callsign_total (copy_fields env cip fop).callsign cs hlen2
      rw [hb1, Option.map_some', Option.some_bind]
      obtain ⟨r, h1, h2, h3⟩ := icao_to_n_total H env.settings
        { copy_fields env cip fop with callsign := buf } hb2
      exact ⟨r, h1, h2.trans haddr, h3⟩
    · rw [Option.some_bind]
      obtain ⟨r, h1, h2, h3⟩ := icao_to_n_total H env.settings (copy_fields env cip fop) hlen2
      exact ⟨r, h1, h2.trans haddr, h3⟩

/-- `Calc_Traffic_Distances` keeps address and callsign. -/
theorem Calc_Traffic_Distances_frame (M : Libm) (own : container_t) (c : cos_cache)
    (cip : container_t) :
    (Calc_Traffic_Distances M own c cip).1.addr = cip.addr ∧
    (Calc_Traffic_Distances M own c cip).1.callsign = cip.callsign := ⟨rfl, rfl⟩

/-- The common end of the paths of `AddTraffic` that store an entry: `Traffic_Update`, then
the relay and the write into slot `i`. The table changes in slot `i` only, and the entry
stored has the address and callsign size of `cip`. -/
theorem update_and_store (H : Header) (env : Env) (w : World) (i : Nat) (cip : container_t)
    (b : Bool) (timer : Nat) (hF : ∀ alg, env.Alarm_Level = some alg → Framed alg) :
    ∃ c, (relay_and_store H env w i (Traffic_Update H env timer cip).1 b).Container
        = w.Container.set i c ∧
      c.addr = cip.addr ∧ c.callsign = cip.callsign := by
  obtain ⟨c, h1, h2, h3⟩ := relay_and_store_Container H env w i (Traffic_Update H env timer cip).1 b
  obtain ⟨t1, t2⟩ := Traffic_Update_frame H env timer cip hF
  exact ⟨c, h1, h2.trans t1, h3.trans t2⟩

/-- The first loop of `AddTraffic` on a matching entry: the call completes, and the table is
unchanged or changed in slot `i` only, by an entry with the same address. -/
theorem AddTraffic_known_spec (M : Libm) (H : Header) (env : Env) (w : World) (i : Nat)
    (cip : container_t) (fop : ufo_t) (callsign : Option (List Nat))
    (hF : ∀ alg, env.Alarm_Level = some alg → Framed alg)
    (hlen : cip.callsign.length = 10) (haddr : cip.addr = fop.addr) :
    ∃ w', AddTraffic_known M H env w i cip fop callsign = some w' ∧
      (w'.Container = w.Container ∨
        ∃ c, w'.Container = w.Container.set i c ∧ c.addr = fop.addr ∧ c.callsign.length = 10) := by
  unfold AddTraffic_known
  split_ifs with h1 h2
  · exact ⟨w, rfl, Or.inl rfl⟩
  · obtain ⟨c, hc1, hc2, hc3⟩ := relay_and_store_Container H env w i
      { cip with last_crc := fop.last_crc, timestamp := fop.timestamp } (do_relay H env fop)
    exact ⟨_, rfl, Or.inr ⟨c, hc1, hc2.trans haddr, by rw [hc3]; exact hlen⟩⟩
  · have hrl : (rotate_history cip fop).callsign.length = 10 := by
      unfold rotate_history
      split_ifs <;> exact hlen
    obtain ⟨r, hr1, hr2, hr3⟩ := CopyTraffic_total H env (rotate_history cip fop) fop callsign hrl
    dsimp only
    rw [hr1, Option.map_some']
    obtain ⟨c, hc1, hc2, hc3⟩ := update_and_store H env
      { w with cosc := (Calc_Traffic_Distances M env.ThisAircraft w.cosc r).2,
               Alarm_timer := (Traffic_Update H env w.Alarm_timer
                 (Calc_Traffic_Distances M env.ThisAircraft w.cosc r).1).2 }
      i (Calc_Traffic_Distances M env.ThisAircraft w.cosc r).1 (do_relay H env fop) w.Alarm_timer hF
    exact ⟨_, rfl, Or.inr ⟨c, hc1, hc2.trans hr2, by rw [hc3]; exact hr3⟩⟩

/-- The admission of a new object into slot `i`: the call completes and changes slot `i`
only, storing an entry with the address of the report. -/
theorem AddTraffic_new_spec (M : Libm) (H : Header) (env : Env) (w : World) (i : Nat)
    (fop : ufo_t) (callsign : Option (List Nat)) (sample : Bool)
    (hF : ∀ alg, env.Alarm_Level = some alg → Framed alg) :
    ∃ w' c, AddTraffic_new M H env w i fop callsign sample = some w' ∧
      w'.Container = w.Container.set i c ∧ c.addr = fop.addr ∧ c.callsign.length = 10 := by
  unfold AddTraffic_new
  obtain ⟨r, hr1, hr2, hr3⟩ := CopyTraffic_total H env EmptyContainer fop callsign rfl
  rw [hr1, Option.map_some']
  obtain ⟨c, hc1, hc2, hc3⟩ := update_and_store H env
    { w with cosc := (Calc_Traffic_Distances M env.ThisAircraft w.cosc r).2,
             Alarm_timer := (Traffic_Update H env w.Alarm_timer
               (Calc_Traffic_Distances M env.ThisAircraft w.cosc r).1).2,
             stats := if sample then sample_range M H env.ThisAircraft
               (Traffic_Update H env w.Alarm_timer
                 (Calc_Traffic_Distances M env.ThisAircraft w.cosc r).1).1 w.stats else w.stats }
    i (Calc_Traffic_Distances M env.ThisAircraft w.cosc r).1 (do_relay H env fop) w.Alarm_timer hF
  exact ⟨_, c, rfl, hc1, hc2.trans hr2, by rw [hc3]; exact hr3⟩

/-- The eviction path of `AddTraffic`: the call completes; the table is unchanged or one
slot is overwritten by an entry with the address of the report. -/
theorem AddTraffic_evict_spec (M : Libm) (H : Header) (env : Env) (w : World)
    (fop : ufo_t) (callsign : Option (List Nat))
    (hF : ∀ alg, env.Alarm_Level = some alg → Framed alg) :
    ∃ w', AddTraffic_evict M H env w fop callsign = some w' ∧
      (w'.Container = w.Container ∨
        ∃ i c, w'.Container = w.Container.set i c ∧ c.addr = fop.addr ∧
          c.callsign.length = 10) := by
  unfold AddTraffic_evict
  simp only
  split
  · rename_i ndx _
    split_ifs
    · obtain ⟨r, hr1, hr2, hr3⟩ := CopyTraffic_total H env EmptyContainer fop callsign rfl
      rw [hr1, Option.map_some']
      obtain ⟨c, hc1, hc2, hc3⟩ := update_and_store H env
        { w with cosc := (Stash_Traffic_Distances M env.ThisAircraft w.cosc fop).2,
                 Alarm_timer := (Traffic_Update H env w.Alarm_timer
                   (Copy_Traffic_Distances
                     (Stash_Traffic_Distances M env.ThisAircraft w.cosc fop).1 r)).2 }
        ndx (Copy_Traffic_Distances (Stash_Traffic_Distances M env.ThisAircraft w.cosc fop).1 r)
        (do_relay H env fop) w.Alarm_timer hF
      exact ⟨_, rfl, Or.inr ⟨ndx, c, hc1, hc2.trans hr2, by rw [hc3]; exact hr3⟩⟩
    · exact ⟨_, rfl, Or.inl rfl⟩
  · exact ⟨_, rfl, Or.inl rfl⟩

/-! ## The table invariant -/

/-- Storing an entry with a 10-byte callsign array keeps the table well formed. -/
theorem WellFormed_set (l : List container_t) (i : Nat) (c : container_t)
    (hl : ∀ x ∈ l, x.callsign.length = 10) (hc : c.callsign.length = 10) :
    ∀ x ∈ l.set i c, x.callsign.length = 10 := by
  intro x hx
  rcases List.mem_or_eq_of_mem_set hx with h | h
  · exact hl x h
  · rw [h]; exact hc

/-- `AddTraffic` completes on a well-formed table and keeps it well formed and free of
duplicate addresses. -/
theorem AddTraffic_spec (M : Libm) (H : Header) (env : Env) (w : World) (fop : ufo_t)
    (callsign : Option (List Nat))
    (hF : ∀ alg, env.Alarm_Level = some alg → Framed alg)
    (hWF : WellFormed w) (hU : UniqueAddr w.Container) :
    ∃ w', AddTraffic M H env w fop callsign = some w' ∧ UniqueAddr w'.Container ∧
      WellFormed w' := by
  unfold AddTraffic
  cases h1 : w.Container.findIdx? (fun cip => cip.addr == fop.addr) with
  | some i =>
    obtain ⟨hlt, hp, -⟩ := List.findIdx?_eq_some_iff_getElem.1 h1
    have hget : w.Container.getD i EmptyContainer = w.Container[i] := by
      rw [List.getD_eq_getElem?_getD, List.getElem?_eq_getElem hlt]; rfl
    have haddr : (w.Container[i]).addr = fop.addr := by simpa using hp
    have hlen : (w.Container[i]).callsign.length = 10 := hWF _ (List.getElem_mem hlt)
    simp only [hget]
    obtain ⟨w', hw1, hw2⟩ := AddTraffic_known_spec M H env w i (w.Container[i]) fop callsign hF
      hlen haddr
    refine ⟨w', hw1, ?_, ?_⟩
    · rcases hw2 with h | ⟨c, h, hc1, -⟩
      · rw [h]; exact hU
      · rw [h]
        refine UniqueAddr_set _ i c hU (Or.inr (Or.inr ?_))
        rw [List.getElem?_eq_getElem hlt, Option.map_some', haddr, hc1]
    · unfold WellFormed
      rcases hw2 with h | ⟨c, h, -, hc2⟩
      · rw [h]; exact hWF
      · rw [h]; exact WellFormed_set _ i c hWF hc2
  | none =>
    have hnew : ∀ x ∈ w.Container, x.addr ≠ fop.addr := by
      intro x hx
      have := List.findIdx?_eq_none_iff.1 h1 x hx
      simpa using this
    have hfin : ∀ (w' : World) (i : Nat) (c : container_t),
        w'.Container = w.Container.set i c → c.addr = fop.addr → c.callsign.length = 10 →
        UniqueAddr w'.Container ∧ WellFormed w' := by
      intro w' i c h hc1 hc2
      unfold WellFormed
      rw [h]
      refine ⟨UniqueAddr_set _ i c hU (Or.inr (Or.inl ?_)), WellFormed_set _ i c hWF hc2⟩
      intro x hx
      rw [hc1]; exact hnew x hx
    simp only
    cases h2 : w.Container.findIdx? (fun cip => cip.addr == 0) with
    | some i =>
      obtain ⟨w', c, hw1, hw2, hc1, hc2⟩ := AddTraffic_new_spec M H env w i fop callsign true hF
      exact ⟨w', hw1, hfin w' i c hw2 hc1 hc2⟩
    | none =>
      simp only
      cases h3 : w.Container.findIdx?
          (fun cip => decide (env.OurTime > cip.timestamp + H.ENTRY_EXPIRATION_TIME)) with
      | some i =>
        obtain ⟨w', c, hw1, hw2, hc1, hc2⟩ := AddTraffic_new_spec M H env w i fop callsign false hF
        exact ⟨w', hw1, hfin w' i c hw2 hc1 hc2⟩
      | none =>
        obtain ⟨w', hw1, hw2⟩ := AddTraffic_evict_spec M H env w fop callsign hF
        refine ⟨w', hw1, ?_⟩
        rcases hw2 with h | ⟨i, c, h, hc1, hc2⟩
        · unfold WellFormed
          rw [h]; exact ⟨hU, hWF⟩
        · exact hfin w' i c h hc1 hc2

/-- A tick of `Traffic_loop` keeps the table well formed and free of duplicate addresses. -/
theorem Traffic_loop_spec (M : Libm) (H : Header) (env : Env) (w : World)
    (hWF : WellFormed w) (hU : UniqueAddr w.Container) :
    UniqueAddr (Traffic_loop M H env w).1.Container ∧ WellFormed (Traffic_loop M H env w).1 := by
  cases hg : env.isTimeToUpdateTraffic with
  | false =>
    have : Traffic_loop M H env w = (w, none) := by
      unfold Traffic_loop
      simp only [hg, if_true]
    rw [this]
    exact ⟨hU, hWF⟩
  | true =>
    have hUL := UniqueAddr_map w.Container
      (fun fop => if fop.addr ≠ 0 ∧ expired H env.OurTime fop = true then { fop with addr := 0 }
        else fop)
      (by
        intro c
        dsimp only
        split_ifs
        · exact Or.inr rfl
        · exact Or.inl rfl) hU
    have hWL : ∀ x ∈ (w.Container.map fun fop =>
        if fop.addr ≠ 0 ∧ expired H env.OurTime fop = true then { fop with addr := 0 }
        else fop), x.callsign.length = 10 := by
      intro x hx
      obtain ⟨y, hy, rfl⟩ := List.mem_map.1 hx
      split_ifs
      · exact hWF y hy
      · exact hWF y hy
    unfold WellFormed
    rcases Traffic_loop_Container M H env w hg with h | ⟨k, x, y, h⟩
    · rw [h]; exact ⟨hUL, hWL⟩
    · rw [h]
      by_cases hk : k < (w.Container.map fun fop =>
        if fop.addr ≠ 0 ∧ expired H env.OurTime fop = true then { fop with addr := 0 }
        else fop).length
      · have hget : (w.Container.map fun fop =>
            if fop.addr ≠ 0 ∧ expired H env.OurTime fop = true then { fop with addr := 0 }
            else fop).getD k EmptyContainer = (w.Container.map fun fop =>
            if fop.addr ≠ 0 ∧ expired H env.OurTime fop = true then { fop with addr := 0 }
            else fop)[k] := by
          rw [List.getD_eq_getElem?_getD, List.getElem?_eq_getElem hk]; rfl
        rw [hget]
        refine ⟨UniqueAddr_set _ k _ hUL (Or.inr (Or.inr ?_)), WellFormed_set _ k _ hWL ?_⟩
        · rw [List.getElem?_eq_getElem hk]; rfl
        · have hm := hWL _ (List.getElem_mem hk)
          exact hm
      · rw [List.set_eq_of_length_le (not_lt.1 hk)]
        exact ⟨hUL, hWL⟩

/-- Claim C1. For every sequence of `AddTraffic` calls and `Traffic_loop` ticks, with alarm
algorithms that leave address and callsign alone, starting from a table (of 10-byte callsign
arrays) in which no two slots hold the same non-zero address: every call completes and the
table never contains two slots with the same non-zero address. This holds for reports with
a zero address too. -/
theorem table_addresses_unique (M : Libm) (H : Header) (es : List Event) :
    ∀ (w : World), (∀ e ∈ es, ∀ alg, e.env.Alarm_Level = some alg → Framed alg) →
      WellFormed w → UniqueAddr w.Container →
      ∃ w', run M H w es = some w' ∧ UniqueAddr w'.Container := by
  induction es with
  | nil => intro w _ _ hU; exact ⟨w, rfl, hU⟩
  | cons e es ih =>
    intro w hF hWF hU
    have hFe := hF e (List.mem_cons_self _ _)
    have hFes : ∀ e' ∈ es, ∀ alg, e'.env.Alarm_Level = some alg → Framed alg :=
      fun e' he' => hF e' (List.mem_cons_of_mem _ he')
    cases e with
    | add env fop callsign =>
      obtain ⟨w1, h1, hU1, hWF1⟩ := AddTraffic_spec M H env w fop callsign hFe hWF hU
      obtain ⟨w', h2, hU2⟩ := ih w1 hFes hWF1 hU1
      refine ⟨w', ?_, hU2⟩
      simp only [run, step, h1, Option.some_bind, h2]
    | tick env =>
      obtain ⟨hU1, hWF1⟩ := Traffic_loop_spec M H env w hWF hU
      obtain ⟨w', h2, hU2⟩ := ih _ hFes hWF1 hU1
      refine ⟨w', ?_, hU2⟩
      simp only [run, step, Option.some_bind, h2]

/-- Witness of C1: two reports of one address and a report of another, then a tick, on a
table of two empty slots, with `Alarm_Distance` selected. -/
theorem table_addresses_unique_witness :
    ∃ w', run testLibm stdHeader (worldOf [EmptyContainer, EmptyContainer] 0)
        [Event.add (testEnv (ownShip 1 100) (some (Alarm_Distance stdHeader)) 100 0)
          (flarmReport 0xABCDEF 45 8) none,
         Event.add (testEnv (ownShip 1 100) (some (Alarm_Distance stdHeader)) 100 500)
          (flarmReport 0xABCDEF 45 9) none,
         Event.add (testEnv (ownShip 1 100) (some (Alarm_Distance stdHeader)) 100 600)
          (flarmReport 0x123456 46 8) none,
         Event.tick (testEnv (ownShip 1 100) (some (Alarm_Distance stdHeader)) 100 1000)] = some w' ∧
      UniqueAddr w'.Container :=
  table_addresses_unique testLibm stdHeader _ (worldOf [EmptyContainer, EmptyContainer] 0)
    (by
      intro e he alg h
      have hA : e.env.Alarm_Level = some (Alarm_Distance stdHeader) := by
        simp only [List.mem_cons, List.mem_singleton, List.not_mem_nil, or_false] at he
        rcases he with rfl | rfl | rfl | rfl <;> rfl
      rw [hA] at h
      rw [← Option.some.inj h]
      exact Alarm_Distance_Framed stdHeader)
    (by decide) (by decide)

/-! ## Hysteresis: notifications and `alert_level` -/

/-- One pass of the loop of `Traffic_loop`: the selection `(mfop, sound_alarm_level)` is
kept, or it becomes this entry, which then is a candidate (alarm level above `alert_level`
and above Close) that the pass leaves untouched. -/
theorem loop_slot_mfop (M : Libm) (H : Header) (env : Env) (i : Nat) (c : container_t)
    (a : loop_acc) :
    ((loop_slot M H env i c a).2.mfop = a.mfop ∧
      (loop_slot M H env i c a).2.sound_alarm_level = a.sound_alarm_level) ∨
    ((loop_slot M H env i c a).2.mfop = some i ∧
      (loop_slot M H env i c a).2.sound_alarm_level = c.alarm_level ∧
      c.alarm_level > c.alert_level ∧ c.alarm_level > ALARM_LEVEL_CLOSE ∧
      (loop_slot M H env i c a).1 = c) := by
  unfold loop_slot
  simp only
  split_ifs <;> first
    | exact Or.inl ⟨rfl, rfl⟩
    | (refine Or.inr ⟨rfl, rfl, ?_, ?_, rfl⟩ <;> tauto)

/-- The loop of `Traffic_loop`: the selection is the initial one, or an entry of the table
that is a candidate and that the loop leaves untouched. -/
theorem loop_slots_mfop (M : Libm) (H : Header) (env : Env) (l : List container_t) :
    ∀ (i : Nat) (a : loop_acc),
      ((loop_slots M H env i l a).2.mfop = a.mfop ∧
        (loop_slots M H env i l a).2.sound_alarm_level = a.sound_alarm_level) ∨
      ∃ p c, l[p]? = some c ∧ (loop_slots M H env i l a).2.mfop = some (i + p) ∧
        (loop_slots M H env i l a).2.sound_alarm_level = c.alarm_level ∧
        c.alarm_level > c.alert_level ∧ c.alarm_level > ALARM_LEVEL_CLOSE ∧
        (loop_slots M H env i l a).1[p]? = some c := by
  induction l with
  | nil => intro i a; exact Or.inl ⟨rfl, rfl⟩
  | cons c rest ih =>
    intro i a
    simp only [loop_slots]
    rcases ih (i + 1) (loop_slot M H env i c a).2 with ⟨h1, h2⟩ | ⟨p, d, hp, h1, h2, h3, h4, h5⟩
    · rcases loop_slot_mfop M H env i c a with ⟨g1, g2⟩ | ⟨g1, g2, g3, g4, g5⟩
      · exact Or.inl ⟨h1.trans g1, h2.trans g2⟩
      · refine Or.inr ⟨0, c, List.getElem?_cons_zero, h1.trans g1, h2.trans g2, g3, g4, ?_⟩
        simp only [List.getElem?_cons_zero, g5]
    · refine Or.inr ⟨p + 1, d, ?_, ?_, h2, h3, h4, ?_⟩
      · simp only [List.getElem?_cons_succ, hp]
      · rw [h1]; congr 1; omega
      · simp only [List.getElem?_cons_succ, h5]

/-- The outcome of a tick: no notification and the table as the loop leaves it (or
untouched, when the rate gate is closed), or a notification for a slot `p` holding a
candidate `c`, at level `c.alarm_level`, with that entry's `alert_level` set to the level. -/
theorem Traffic_loop_view (M : Libm) (H : Header) (env : Env) (w : World) :
    ((Traffic_loop M H env w).2 = none ∧
      ((Traffic_loop M H env w).1.Container = w.Container ∨
       (Traffic_loop M H env w).1.Container = w.Container.map fun fop =>
          if fop.addr ≠ 0 ∧ expired H env.OurTime fop = true then { fop with addr := 0 }
          else fop)) ∨
    ∃ p c b y, w.Container[p]? = some c ∧
      (w.Container.map fun fop =>
          if fop.addr ≠ 0 ∧ expired H env.OurTime fop = true then { fop with addr := 0 }
          else fop)[p]? = some c ∧
      c.alarm_level > c.alert_level ∧ c.alarm_level > ALARM_LEVEL_CLOSE ∧
      (Traffic_loop M H env w).2 =
        some { level := c.alarm_level, multiple := b, index := p, addr := c.addr } ∧
      (Traffic_loop M H env w).1.Container =
        (w.Container.map fun fop =>
          if fop.addr ≠ 0 ∧ expired H env.OurTime fop = true then { fop with addr := 0 }
          else fop).set p { c with alert_level := c.alarm_level, alert := y } := by
  cases hg : env.isTimeToUpdateTraffic with
  | false =>
    have : Traffic_loop M H env w = (w, none) := by
      unfold Traffic_loop
      simp only [hg, if_true]
    rw [this]
    exact Or.inl ⟨rfl, Or.inl rfl⟩
  | true =>
    have hinv := loop_slots_mfop M H env w.Container 0
      { max_alarm_level := ALARM_LEVEL_NONE
        alarm_ahead := false
        sound_alarm_level := ALARM_LEVEL_NONE
        alarmcount := 0
        mfop := none
        stats := w.stats }
    have hfst := loop_slots_fst M H env w.Container 0
      { max_alarm_level := ALARM_LEVEL_NONE
        alarm_ahead := false
        sound_alarm_level := ALARM_LEVEL_NONE
        alarmcount := 0
        mfop := none
        stats := w.stats }
    unfold Traffic_loop
    simp only [hg, Bool.true_eq_false, if_false]
    generalize loop_slots M H env 0 w.Container
      { max_alarm_level := ALARM_LEVEL_NONE
        alarm_ahead := false
        sound_alarm_level := ALARM_LEVEL_NONE
        alarmcount := 0
        mfop := none
        stats := w.stats } = r at hinv hfst ⊢
    obtain ⟨r1, r2⟩ := r
    simp only at hinv hfst ⊢
    subst hfst
    rcases hinv with ⟨h1, h2⟩ | ⟨p, c, hp, h1, h2, h3, h4, h5⟩
    · rw [h1]
      exact Or.inl ⟨rfl, Or.inr rfl⟩
    · have hgd : (w.Container.map fun fop =>
          if fop.addr ≠ 0 ∧ expired H env.OurTime fop = true then { fop with addr := 0 }
          else fop).getD p EmptyContainer = c := by
        rw [List.getD_eq_getElem?_getD, h5]; rfl
      rw [h1]
      simp only [Nat.zero_add, h2, hgd]
      rw [if_pos h4]
      exact Or.inr ⟨p, c, _, _, hp, h5, h3, h4, rfl, rfl⟩

/-- The loop of `Traffic_loop` leaves the `alert_level` of every slot as it was. -/
theorem getD_sweep_alert (H : Header) (OurTime : Nat) (l : List container_t) (k : Nat) :
    ((l.map fun fop =>
        if fop.addr ≠ 0 ∧ expired H OurTime fop = true then { fop with addr := 0 }
        else fop).getD k EmptyContainer).alert_level
      = (l.getD k EmptyContainer).alert_level := by
  rw [List.getD_eq_getElem?_getD, List.getD_eq_getElem?_getD, List.getElem?_map]
  cases l[k]? with
  | none => rfl
  | some c =>
    simp only [Option.map_some', Option.getD_some]
    split_ifs <;> rfl

/-- What a tick does to the `alert_level` of slot `k`: a notification for slot `k` has a
level above the old `alert_level` and sets `alert_level` to it; without a notification for
slot `k` its `alert_level` is unchanged. -/
theorem Traffic_loop_alert (M : Libm) (H : Header) (env : Env) (w : World) (k : Nat) :
    (∀ n, (Traffic_loop M H env w).2 = some n → n.index = k →
      (w.Container.getD k EmptyContainer).alert_level < n.level ∧
      ((Traffic_loop M H env w).1.Container.getD k EmptyContainer).alert_level = n.level) ∧
    ((∀ n, (Traffic_loop M H env w).2 = some n → n.index ≠ k) →
      ((Traffic_loop M H env w).1.Container.getD k EmptyContainer).alert_level
        = (w.Container.getD k EmptyContainer).alert_level) := by
  rcases Traffic_loop_view M H env w with ⟨h1, h2⟩ | ⟨p, c, b, y, hp, hL, h3, h4, hn, hC⟩
  · refine ⟨fun n hn => ?_, fun _ => ?_⟩
    · rw [h1] at hn; exact absurd hn (by simp)
    · rcases h2 with h2 | h2
      · rw [h2]
      · rw [h2]; exact getD_sweep_alert H env.OurTime w.Container k
  · have hplt : p < (w.Container.map fun fop =>
          if fop.addr ≠ 0 ∧ expired H env.OurTime fop = true then { fop with addr := 0 }
          else fop).length := by
      by_contra hcon
      rw [List.getElem?_eq_none (not_lt.1 hcon)] at hL
      exact absurd hL (by simp)
    refine ⟨fun n hn' hk => ?_, fun hne => ?_⟩
    · rw [hn] at hn'
      have hn'' := Option.some.inj hn'
      subst hn''
      simp only at hk
      subst hk
      constructor
      · rw [List.getD_eq_getElem?_getD, hp]
        exact h3
      · rw [hC, List.getD_eq_getElem?_getD, List.getElem?_set, if_pos rfl, if_pos hplt]
        rfl
    · have hpk : p ≠ k := hne _ hn
      rw [hC, List.getD_eq_getElem?_getD, List.getElem?_set, if_neg hpk,
        ← List.getD_eq_getElem?_getD]
      exact getD_sweep_alert H env.OurTime w.Container k

/-- When `Traffic_Update` evaluates the alarm level, it does so on `eval_input`. -/
theorem Traffic_Update_eval (H : Header) (env : Env) (timer : Nat) (fop : container_t)
    (he : evaluates H env fop = true) :
    Traffic_Update H env timer fop = alarm_eval env timer (eval_input H env fop) ∧
    (eval_input H env fop).alert_level = fop.alert_level := by
  unfold eval_input
  by_cases h1 : fop.tx_type ≤ H.TX_TYPE_S
  · simp only [evaluates, h1, if_true, decide_eq_true_eq] at he
    simp only [Traffic_Update, h1, if_true, he, if_false]
    exact ⟨trivial, (update_nondirectional_frame H fop).1⟩
  · obtain ⟨m1, -, -, -, m5, m6⟩ := update_directional_frame H env fop
    simp only [evaluates, h1, if_false, decide_eq_true_eq] at he
    obtain ⟨e1, e2, e3⟩ := he
    have e2' : ¬ env.OurTime > env.ThisAircraft.timestamp + 2 := by omega
    have e3' : ¬ env.OurTime > fop.timestamp + 2 := by omega
    simp only [Traffic_Update, h1, if_false, m5, m6, e1, e2', e3']
    exact ⟨trivial, m1⟩

/-- `Traffic_Update` does not bring `alert_level` below `L` when, in case it evaluates the
alarm level, the level is at least `L - 1`, the algorithm does not lower `alert_level`, and
the re-arm timer has not expired. -/
theorem Traffic_Update_alert_ge (H : Header) (env : Env) (timer : Nat) (f : container_t)
    (L : Int) (hL : L ≤ f.alert_level)
    (hc : evaluates H env f = true → ∀ alg, env.Alarm_Level = some alg →
      L - 1 ≤ (alg env.ThisAircraft (eval_input H env f)).1 ∧
      (eval_input H env f).alert_level
        ≤ (alg env.ThisAircraft (eval_input H env f)).2.alert_level ∧
      ¬ (timer ≠ 0 ∧ env.millis > timer)) :
    L ≤ (Traffic_Update H env timer f).1.alert_level := by
  cases he : evaluates H env f with
  | false =>
    rw [((Traffic_Update_cases H env timer f).2 he).1]
    exact hL
  | true =>
    obtain ⟨hT, hA⟩ := Traffic_Update_eval H env timer f he
    rw [hT]
    cases hAl : env.Alarm_Level with
    | none =>
      rw [alarm_eval_none env timer _ hAl]
      show L ≤ (eval_input H env f).alert_level
      rw [hA]; exact hL
    | some alg =>
      obtain ⟨c1, c2, c3⟩ := hc he alg hAl
      rw [hA] at c2
      unfold alarm_eval
      simp only [hAl, c3, if_false]
      split_ifs <;> simp only <;> omega

/-- Along a calm sequence of updates and ticks, starting with the `alert_level` of slot `k`
at `L` or above, every notification for slot `k` has a level above `L`. -/
theorem calm_trace (M : Libm) (H : Header) (k : Nat) (L : Int) (es : List AlarmEvent) :
    ∀ w : World, L ≤ (w.Container.getD k EmptyContainer).alert_level → Calm M H k L w es →
      ∀ t n, (t, n) ∈ alarm_trace M H w es → n.index = k → L < n.level := by
  induction es with
  | nil => intro w _ _ t n h; simp [alarm_trace] at h
  | cons e es ih =>
    intro w hL hC t n hmem hk
    obtain ⟨hC1, hC2⟩ := hC
    simp only [alarm_trace, List.mem_append, List.mem_map, Option.mem_toList,
      Option.mem_def] at hmem
    have hnext : L ≤ ((alarm_step M H w e).1.Container.getD k EmptyContainer).alert_level := by
      cases e with
      | update env i refresh =>
        simp only [alarm_step]
        by_cases hik : i = k
        · subst hik
          obtain ⟨c1, c2⟩ := hC1 rfl
          by_cases hlt : i < w.Container.length
          · rw [List.getD_eq_getElem?_getD, List.getElem?_set, if_pos rfl, if_pos hlt]
            exact Traffic_Update_alert_ge H env w.Alarm_timer _ L (by rw [c1]; exact hL) c2
          · rw [List.set_eq_of_length_le (not_lt.1 hlt)]
            exact hL
        · rw [List.getD_eq_getElem?_getD, List.getElem?_set, if_neg hik,
            ← List.getD_eq_getElem?_getD]
          exact hL
      | tick env =>
        simp only [alarm_step]
        obtain ⟨a1, a2⟩ := Traffic_loop_alert M H env w k
        cases hn : (Traffic_loop M H env w).2 with
        | none =>
          rw [a2 (fun n h => by rw [hn] at h; exact absurd h (by simp))]
          exact hL
        | some m =>
          by_cases hmk : m.index = k
          · obtain ⟨b1, b2⟩ := a1 m hn hmk
            rw [b2]; omega
          · rw [a2 (fun n h => by rw [hn] at h; rw [← Option.some.inj h]; exact hmk)]
            exact hL
    rcases hmem with ⟨m, hm, hmt⟩ | hmem
    · cases e with
      | update env i refresh => simp [alarm_step] at hm
      | tick env =>
        simp only [alarm_step] at hm
        have h2 := Prod.mk.inj hmt
        obtain ⟨-, rfl⟩ := h2
        obtain ⟨b1, -⟩ := (Traffic_loop_alert M H env w k).1 m hm hk
        omega
    · exact ih _ hnext hC2 t n hmem hk

/-- Claim C4, amended. After `Traffic_loop` emits a notification `n0` (for slot `n0.index`,
at level `n0.level`), along every sequence of `Traffic_Update` calls and `Traffic_loop` ticks
that is calm for that slot and level -- at each `Traffic_Update` of the slot that evaluates
the alarm level, the level is at least `n0.level - 1`, the algorithm does not lower
`alert_level` itself, and the re-arm timer has not expired -- every further notification for
the slot has a level above `n0.level`. Ticks alone are always calm. -/
theorem renotification_needs_rearm (M : Libm) (H : Header) (env0 : Env) (w0 : World)
    (n0 : Notification) (es : List AlarmEvent)
    (hn : (Traffic_loop M H env0 w0).2 = some n0)
    (hcalm : Calm M H n0.index n0.level (Traffic_loop M H env0 w0).1 es) :
    ∀ t n, (t, n) ∈ alarm_trace M H (Traffic_loop M H env0 w0).1 es →
      n.index = n0.index → n0.level < n.level := by
  obtain ⟨-, b2⟩ := (Traffic_loop_alert M H env0 w0 n0.index).1 n0 hn rfl
  exact calm_trace M H n0.index n0.level es _ (by rw [b2]) hcalm

/-- Witness of C4 (amended): a target at Low is notified; it is then heard at 800 m (Low)
and at 600 m (Important) within the next two seconds. -/
theorem renotification_needs_rearm_witness :
    (Traffic_loop testLibm stdHeader
        (testEnv (ownShip 1 101) (some (Alarm_Distance stdHeader)) 101 1000)
        (worldOf [flarmTarget 0xABCDEF 800 2 0] 0)).2
      = some { level := 2, multiple := false, index := 0, addr := 0xABCDEF } ∧
    ∀ t n, (t, n) ∈ alarm_trace testLibm stdHeader
        (Traffic_loop testLibm stdHeader
          (testEnv (ownShip 1 101) (some (Alarm_Distance stdHeader)) 101 1000)
          (worldOf [flarmTarget 0xABCDEF 800 2 0] 0)).1
        [AlarmEvent.update (testEnv (ownShip 1 102) (some (Alarm_Distance stdHeader)) 102 2000) 0
           (heardAt 800 102),
         AlarmEvent.tick (testEnv (ownShip 1 102) (some (Alarm_Distance stdHeader)) 102 2000),
         AlarmEvent.update (testEnv (ownShip 1 103) (some (Alarm_Distance stdHeader)) 103 3000) 0
           (heardAt 600 103),
         AlarmEvent.tick (testEnv (ownShip 1 103) (some (Alarm_Distance stdHeader)) 103 3000)] →
      n.index = 0 → 2 < n.level :=
  ⟨by decide!,
   renotification_needs_rearm testLibm stdHeader
    (testEnv (ownShip 1 101) (some (Alarm_Distance stdHeader)) 101 1000)
    (worldOf [flarmTarget 0xABCDEF 800 2 0] 0)
    { level := 2, multiple := false, index := 0, addr := 0xABCDEF } _ (by decide!)
    ⟨fun _ => ⟨by decide!, fun _ alg h => by
        have h' : Alarm_Distance stdHeader = alg := Option.some.inj h
        subst h'
        decide!⟩,
     trivial,
     fun _ => ⟨by decide!, fun _ alg h => by
        have h' : Alarm_Distance stdHeader = alg := Option.some.inj h
        subst h'
        decide!⟩,
     trivial, trivial⟩⟩

/-- Counterexample to C4 as stated, with `Alarm_Distance` and one target. First run: the
target is notified at Low (1000 ms), then at Urgent (3000 ms); it stays at 300 m, Urgent; the
re-arm timer, started by the first notification and not refreshed by the second, expires at
10000 ms, and the tick at 11000 ms notifies Urgent again, 8000 ms after the previous Urgent
notification. Second run: the target is at 100 m, inside `ALARM_ZONE_EXTREME`; each
`Traffic_Update` lowers `alert_level` and the Urgent notification is repeated after 1000 ms.
In both runs the alarm level never drops. -/
theorem renotification_within_9s :
    alarm_trace testLibm stdHeader (worldOf [flarmTarget 0xABCDEF 800 0 0] 0)
      [AlarmEvent.update (testEnv (ownShip 1 101) (some (Alarm_Distance stdHeader)) 101 1000) 0
         (heardAt 800 101),
       AlarmEvent.tick (testEnv (ownShip 1 101) (some (Alarm_Distance stdHeader)) 101 1000),
       AlarmEvent.update (testEnv (ownShip 1 103) (some (Alarm_Distance stdHeader)) 103 3000) 0
         (heardAt 300 103),
       AlarmEvent.tick (testEnv (ownShip 1 103) (some (Alarm_Distance stdHeader)) 103 3000),
       AlarmEvent.update (testEnv (ownShip 1 104) (some (Alarm_Distance stdHeader)) 104 4000) 0
         (heardAt 300 104),
       AlarmEvent.tick (testEnv (ownShip 1 104) (some (Alarm_Distance stdHeader)) 104 4000),
       AlarmEvent.update (testEnv (ownShip 1 111) (some (Alarm_Distance stdHeader)) 111 11000) 0
         (heardAt 300 111),
       AlarmEvent.tick (testEnv (ownShip 1 111) (some (Alarm_Distance stdHeader)) 111 11000)]
      = [(1000, { level := 2, multiple := false, index := 0, addr := 0xABCDEF }),
         (3000, { level := 4, multiple := false, index := 0, addr := 0xABCDEF }),
         (11000, { level := 4, multiple := false, index := 0, addr := 0xABCDEF })] ∧
    alarm_trace testLibm stdHeader (worldOf [flarmTarget 0xABCDEF 100 0 0] 0)
      [AlarmEvent.update (testEnv (ownShip 1 101) (some (Alarm_Distance stdHeader)) 101 1000) 0
         (heardAt 100 101),
       AlarmEvent.tick (testEnv (ownShip 1 101) (some (Alarm_Distance stdHeader)) 101 1000),
       AlarmEvent.update (testEnv (ownShip 1 102) (some (Alarm_Distance stdHeader)) 102 2000) 0
         (heardAt 100 102),
       AlarmEvent.tick (testEnv (ownShip 1 102) (some (Alarm_Distance stdHeader)) 102 2000)]
      = [(1000, { level := 4, multiple := false, index := 0, addr := 0xABCDEF }),
         (2000, { level := 4, multiple := false, index := 0, addr := 0xABCDEF })] := by
  constructor <;> decide!

/-! ## The cosine cache -/

/-- Claim C13. With the thresholds ordered (Urgent ≤ Important ≤ Low ≤ Close),
`Alarm_Distance` returns None when `distance > ALARM_ZONE_CLOSE` or
`|adj_alt_diff| > VERTICAL_SEPARATION`; otherwise, with `d = max(distance, adj_distance)`,
Urgent if `d < ALARM_ZONE_URGENT`, Important if `ALARM_ZONE_URGENT ≤ d < ALARM_ZONE_IMPORTANT`,
Low if `ALARM_ZONE_IMPORTANT ≤ d < ALARM_ZONE_LOW`, Close if
`ALARM_ZONE_LOW ≤ d < ALARM_ZONE_CLOSE`, and None if `d ≥ ALARM_ZONE_CLOSE`. -/
theorem Alarm_Distance_bands (H : Header) (t f : container_t)
    (h1 : H.ALARM_ZONE_URGENT ≤ H.ALARM_ZONE_IMPORTANT)
    (h2 : H.ALARM_ZONE_IMPORTANT ≤ H.ALARM_ZONE_LOW)
    (h3 : H.ALARM_ZONE_LOW ≤ H.ALARM_ZONE_CLOSE) :
    (f.distance > H.ALARM_ZONE_CLOSE ∨ |f.adj_alt_diff| > H.VERTICAL_SEPARATION →
      (Alarm_Distance H t f).1 = ALARM_LEVEL_NONE) ∧
    (¬ (f.distance > H.ALARM_ZONE_CLOSE ∨ |f.adj_alt_diff| > H.VERTICAL_SEPARATION) →
      (max f.distance f.adj_distance < H.ALARM_ZONE_URGENT →
        (Alarm_Distance H t f).1 = ALARM_LEVEL_URGENT) ∧
      (H.ALARM_ZONE_URGENT ≤ max f.distance f.adj_distance →
        max f.distance f.adj_distance < H.ALARM_ZONE_IMPORTANT →
        (Alarm_Distance H t f).1 = ALARM_LEVEL_IMPORTANT) ∧
      (H.ALARM_ZONE_IMPORTANT ≤ max f.distance f.adj_distance →
        max f.distance f.adj_distance < H.ALARM_ZONE_LOW →
        (Alarm_Distance H t f).1 = ALARM_LEVEL_LOW) ∧
      (H.ALARM_ZONE_LOW ≤ max f.distance f.adj_distance →
        max f.distance f.adj_distance < H.ALARM_ZONE_CLOSE →
        (Alarm_Distance H t f).1 = ALARM_LEVEL_CLOSE) ∧
      (H.ALARM_ZONE_CLOSE ≤ max f.distance f.adj_distance →
        (Alarm_Distance H t f).1 = ALARM_LEVEL_NONE)) := by
  rw [Alarm_Distance_level, max_comm f.distance f.adj_distance]
  refine ⟨fun h => by rw [if_pos h], fun h => ?_⟩
  rw [if_neg h]
  refine ⟨fun a => by rw [if_pos a], fun a b => ?_, fun a b => ?_, fun a b => ?_, fun a => ?_⟩
  · rw [if_neg (not_lt.2 a), if_pos b]
  · rw [if_neg (not_lt.2 (h1.trans a)), if_neg (not_lt.2 a), if_pos b]
  · rw [if_neg (not_lt.2 ((h1.trans h2).trans a)), if_neg (not_lt.2 (h2.trans a)),
      if_neg (not_lt.2 a), if_pos b]
  · rw [if_neg (not_lt.2 (((h1.trans h2).trans h3).trans a)),
      if_neg (not_lt.2 ((h2.trans h3).trans a)), if_neg (not_lt.2 (h3.trans a)),
      if_neg (not_lt.2 a)]

/-- Witness of C13: with the zones 400 / 700 / 1000 / 1500 m, a target at 800 m is Low. -/
theorem Alarm_Distance_bands_witness :
    (Alarm_Distance stdHeader (ownShip 1 100) (flarmTarget 1 800 0 0)).1 = ALARM_LEVEL_LOW :=
  (((Alarm_Distance_bands stdHeader (ownShip 1 100) (flarmTarget 1 800 0 0)
    (by decide!) (by decide!) (by decide!)).2 (by decide!)).2.2.1) (by decide!) (by decide!)

/-- Claim C14. Whenever `|adj_alt_diff| > VERTICAL_SEPARATION`, both `Alarm_Distance` and
`Alarm_Vector` return None and leave the target (its `alert_level` in particular) unchanged,
for every target and host state. -/
theorem separated_gives_none (M : Libm) (H : Header) (t0 : ℚ) (this_aircraft fop : container_t)
    (h : |fop.adj_alt_diff| > H.VERTICAL_SEPARATION) :
    Alarm_Distance H this_aircraft fop = (ALARM_LEVEL_NONE, fop) ∧
    Alarm_Vector M H t0 this_aircraft fop = (ALARM_LEVEL_NONE, fop) := by
  have hd : Alarm_Distance H this_aircraft fop = (ALARM_LEVEL_NONE, fop) := by
    unfold Alarm_Distance
    simp only [h, or_true, if_true]
  refine ⟨hd, ?_⟩
  unfold Alarm_Vector
  simp only [hd, h, if_true, ite_self]

/-- Witness of C14: a target 400 m higher (adjusted), 300 m away. -/
theorem separated_gives_none_witness :
    Alarm_Distance stdHeader (ownShip 1 100)
        { flarmTarget 1 300 0 3 with adj_alt_diff := 400 } =
      (ALARM_LEVEL_NONE, { flarmTarget 1 300 0 3 with adj_alt_diff := 400 }) ∧
    Alarm_Vector testLibm stdHeader 0 (ownShip 1 100)
        { flarmTarget 1 300 0 3 with adj_alt_diff := 400 } =
      (ALARM_LEVEL_NONE, { flarmTarget 1 300 0 3 with adj_alt_diff := 400 }) :=
  separated_gives_none testLibm stdHeader 0 (ownShip 1 100)
    { flarmTarget 1 300 0 3 with adj_alt_diff := 400 } (by decide!)

/-! ## The adjusted altitude difference -/

/-- The dead band of `Adj_alt_diff`: sign and size of `vertical_slack`. -/
theorem vertical_slack_abs (H : Header) (hS : 0 ≤ H.VERTICAL_SLACK) (x : ℚ) :
    |vertical_slack H x| = max 0 (|x| - H.VERTICAL_SLACK) ∧
    (0 ≤ x → 0 ≤ vertical_slack H x) ∧ (x ≤ 0 → vertical_slack H x ≤ 0) := by
  unfold vertical_slack
  split_ifs with a b
  · have hx : 0 < x := by linarith
    rw [abs_of_pos (by linarith : (0:ℚ) < x - H.VERTICAL_SLACK), abs_of_pos hx,
      max_eq_right (by linarith)]
    exact ⟨rfl, fun _ => by linarith, fun h => by linarith⟩
  · have hx : x < 0 := by linarith
    rw [abs_of_neg (by linarith : x + H.VERTICAL_SLACK < 0), abs_of_neg hx,
      max_eq_right (by linarith)]
    exact ⟨by ring, fun h => by linarith, fun _ => by linarith⟩
  · rw [abs_zero, max_eq_left]
    · exact ⟨rfl, fun _ => le_refl _, fun _ => le_refl _⟩
    · rcases abs_cases x with ⟨h, _⟩ | ⟨h, _⟩ <;> rw [h] <;> linarith

/-- The relative vertical speed `Adj_alt_diff` works with: clamped to 2000 fpm either way. -/
theorem clamp_vsr (v : ℚ) :
    |(if (if v > 2000 then 2000 else v) < -2000 then -2000 else (if v > 2000 then 2000 else v))|
      ≤ 2000 ∧
    ((if (if v > 2000 then 2000 else v) < -2000 then -2000 else (if v > 2000 then 2000 else v)) < 0
      ↔ v < 0) ∧
    ((if (if v > 2000 then 2000 else v) < -2000 then -2000 else (if v > 2000 then 2000 else v)) > 0
      ↔ v > 0) := by
  split_ifs with a b b
  · exact absurd b (by norm_num)
  · refine ⟨by norm_num, ?_, ?_⟩
    · constructor <;> intro h <;> linarith
    · constructor <;> intro h <;> linarith
  · refine ⟨by norm_num, ?_, ?_⟩
    · constructor <;> intro h <;> linarith
    · constructor <;> intro h <;> linarith
  · refine ⟨abs_le.2 ⟨by linarith, by linarith⟩, Iff.rfl, Iff.rfl⟩

/-- Sign and size of `Adj_alt_diff`, for any non-negative `VERTICAL_SLACK`. -/
theorem Adj_alt_diff_range (H : Header) (hS : 0 ≤ H.VERTICAL_SLACK) (t f : container_t) :
    (0 ≤ f.alt_diff → 0 ≤ Adj_alt_diff H t f) ∧
    (f.alt_diff ≤ 0 → Adj_alt_diff H t f ≤ 0) ∧
    max 0 (|f.alt_diff| - 100 - H.VERTICAL_SLACK) ≤ |Adj_alt_diff H t f| ∧
    |Adj_alt_diff H t f| ≤ max 0 (|f.alt_diff| - H.VERTICAL_SLACK) ∧
    (¬ (f.alt_diff > 0 ∧ f.vs - t.vs < 0) → ¬ (f.alt_diff < 0 ∧ f.vs - t.vs > 0) →
      |Adj_alt_diff H t f| = max 0 (|f.alt_diff| - H.VERTICAL_SLACK)) := by
  unfold Adj_alt_diff
  simp only
  obtain ⟨hc, hneg, hpos⟩ := clamp_vsr (f.vs - t.vs)
  generalize (if (if f.vs - t.vs > 2000 then 2000 else f.vs - t.vs) < -2000 then (-2000 : ℚ)
    else (if f.vs - t.vs > 2000 then 2000 else f.vs - t.vs)) = vsr at hc hneg hpos
  have hc' := abs_le.1 hc
  have hch1 : vsr * (5 / 100) < 0 ↔ f.vs - t.vs < 0 := by
    rw [← hneg]; constructor <;> intro h <;> linarith
  have hch2 : vsr * (5 / 100) > 0 ↔ f.vs - t.vs > 0 := by
    rw [← hpos]; constructor <;> intro h <;> linarith
  have hlo : -100 ≤ vsr * (5 / 100) := by linarith [hc'.1]
  have hhi : vsr * (5 / 100) ≤ 100 := by linarith [hc'.2]
  generalize vsr * (5 / 100) = ch at hch1 hch2 hlo hhi
  have key : ∀ x : ℚ, |vertical_slack H x| = max 0 (|x| - H.VERTICAL_SLACK) ∧
      (0 ≤ x → 0 ≤ vertical_slack H x) ∧ (x ≤ 0 → vertical_slack H x ≤ 0) :=
    vertical_slack_abs H hS
  by_cases c1 : f.alt_diff > 0 ∧ ch < 0
  · rw [if_pos c1]
    have ha : |f.alt_diff| = f.alt_diff := abs_of_pos c1.1
    by_cases c2 : f.alt_diff + ch < 0
    · rw [if_pos c2, abs_zero, ha]
      refine ⟨fun _ => le_refl _, fun _ => le_refl _, ?_, le_max_left _ _, ?_⟩
      · exact max_le (le_refl _) (by linarith)
      · intro h; exact absurd ⟨c1.1, hch1.1 c1.2⟩ h
    · rw [if_neg c2]
      obtain ⟨k1, k2, k3⟩ := key (f.alt_diff + ch)
      have hb : |f.alt_diff + ch| = f.alt_diff + ch := abs_of_nonneg (by linarith)
      rw [k1, hb, ha]
      refine ⟨fun _ => k2 (by linarith), fun h => by linarith [c1.1], ?_, ?_, ?_⟩
      · exact max_le_max (le_refl _) (by linarith)
      · exact max_le_max (le_refl _) (by linarith [c1.2])
      · intro h; exact absurd ⟨c1.1, hch1.1 c1.2⟩ h
  · rw [if_neg c1]
    by_cases c3 : f.alt_diff < 0 ∧ ch > 0
    · rw [if_pos c3]
      have ha : |f.alt_diff| = - f.alt_diff := abs_of_neg c3.1
      by_cases c4 : f.alt_diff + ch > 0
      · rw [if_pos c4, abs_zero, ha]
        refine ⟨fun _ => le_refl _, fun _ => le_refl _, ?_, le_max_left _ _, ?_⟩
        · exact max_le (le_refl _) (by linarith)
        · intro _ h; exact absurd ⟨c3.1, hch2.1 c3.2⟩ h
      · rw [if_neg c4]
        obtain ⟨k1, k2, k3⟩ := key (f.alt_diff + ch)
        have hb : |f.alt_diff + ch| = - (f.alt_diff + ch) := abs_of_nonpos (by linarith)
        rw [k1, hb, ha]
        refine ⟨fun h => by linarith [c3.1], fun _ => k3 (by linarith), ?_, ?_, ?_⟩
        · exact max_le_max (le_refl _) (by linarith)
        · exact max_le_max (le_refl _) (by linarith [c3.2])
        · intro _ h; exact absurd ⟨c3.1, hch2.1 c3.2⟩ h
    · rw [if_neg c3]
      obtain ⟨k1, k2, k3⟩ := key f.alt_diff
      rw [k1]
      refine ⟨k2, k3, max_le_max (le_refl _) (by linarith), le_refl _, fun _ _ => rfl⟩

/-- Claim C15. In exact arithmetic with `VERTICAL_SLACK` = 30 m: `Adj_alt_diff` never has
the opposite sign of `alt_diff`, and
`max(0, |alt_diff| - 130) ≤ |Adj_alt_diff| ≤ max(0, |alt_diff| - 30)`; the upper bound is
attained whenever the relative vertical speed does not reduce the separation. -/
theorem Adj_alt_diff_bounds (H : Header) (hS : H.VERTICAL_SLACK = 30)
    (this_aircraft fop : container_t) :
    (0 ≤ fop.alt_diff → 0 ≤ Adj_alt_diff H this_aircraft fop) ∧
    (fop.alt_diff ≤ 0 → Adj_alt_diff H this_aircraft fop ≤ 0) ∧
    max 0 (|fop.alt_diff| - 130) ≤ |Adj_alt_diff H this_aircraft fop| ∧
    |Adj_alt_diff H this_aircraft fop| ≤ max 0 (|fop.alt_diff| - 30) ∧
    (¬ (fop.alt_diff > 0 ∧ fop.vs - this_aircraft.vs < 0) →
      ¬ (fop.alt_diff < 0 ∧ fop.vs - this_aircraft.vs > 0) →
      |Adj_alt_diff H this_aircraft fop| = max 0 (|fop.alt_diff| - 30)) := by
  have h := Adj_alt_diff_range H (by rw [hS]; norm_num) this_aircraft fop
  rw [hS] at h
  have e : |fop.alt_diff| - 100 - 30 = |fop.alt_diff| - 130 := by ring
  rw [e] at h
  exact h

/-- Witness of C15: a target 200 m higher, sinking at 1000 fpm relative to the own aircraft:
the adjusted difference is 200 - 50 - 30 = 120 m. -/
theorem Adj_alt_diff_bounds_witness :
    Adj_alt_diff stdHeader (ownShip 1 100)
      { flarmTarget 1 800 0 0 with alt_diff := 200, vs := -1000 } = 120 ∧
    max 0 (|(200 : ℚ)| - 130) ≤ |Adj_alt_diff stdHeader (ownShip 1 100)
      { flarmTarget 1 800 0 0 with alt_diff := 200, vs := -1000 }| :=
  ⟨by decide!, (Adj_alt_diff_bounds stdHeader rfl (ownShip 1 100)
      { flarmTarget 1 800 0 0 with alt_diff := 200, vs := -1000 }).2.2.1⟩

/-! ## Early-outs of `Alarm_Vector` -/

/-- Claim C16, amended. `Alarm_Vector` returns what `Alarm_Distance` returns on the same
input (level and target) when `distance > 2*ALARM_ZONE_CLOSE` (with `ALARM_ZONE_CLOSE ≥ 0`),
when `|adj_alt_diff| > VERTICAL_SEPARATION`, and on its fall-backs: a non-directional
target, a target with speed 0, a history older than 3000 ms, or, past the early-outs, one
of the aircraft turning by more than 3 degrees per second. On the third early-out
(directional target with a speed and a recent history, farther than the combined speeds
cover in `ALARM_TIME_LOW` seconds) it returns None and leaves the target unchanged,
whatever `Alarm_Distance` returns. -/
theorem Alarm_Vector_early_outs (M : Libm) (H : Header) (t0 : ℚ)
    (this_aircraft fop : container_t) :
    (0 ≤ H.ALARM_ZONE_CLOSE → fop.distance > 2 * H.ALARM_ZONE_CLOSE →
      Alarm_Vector M H t0 this_aircraft fop = Alarm_Distance H this_aircraft fop) ∧
    (|fop.adj_alt_diff| > H.VERTICAL_SEPARATION →
      Alarm_Vector M H t0 this_aircraft fop = Alarm_Distance H this_aircraft fop) ∧
    (fop.tx_type ≤ H.TX_TYPE_S ∨ fop.speed = 0 ∨
        (fop.gnsstime_ms + 4294967296 - fop.prevtime_ms) % 4294967296 > 3000 ∨
        (¬ fop.distance > 2 * H.ALARM_ZONE_CLOSE ∧
          ¬ |fop.adj_alt_diff| > H.VERTICAL_SEPARATION ∧
          ¬ fop.distance >
            (fop.speed + this_aircraft.speed) * (H.ALARM_TIME_LOW * H.GPS_MPS_PER_KNOT) ∧
          (|this_aircraft.turnrate| > 3 ∨ |fop.turnrate| > 3)) →
      Alarm_Vector M H t0 this_aircraft fop = Alarm_Distance H this_aircraft fop) ∧
    (¬ fop.tx_type ≤ H.TX_TYPE_S → fop.speed ≠ 0 →
      ¬ (fop.gnsstime_ms + 4294967296 - fop.prevtime_ms) % 4294967296 > 3000 →
      fop.distance >
        (fop.speed + this_aircraft.speed) * (H.ALARM_TIME_LOW * H.GPS_MPS_PER_KNOT) →
      Alarm_Vector M H t0 this_aircraft fop = (ALARM_LEVEL_NONE, fop)) := by
  refine ⟨fun h0 h => ?_, fun h => ?_, fun h => ?_, fun a b c d => ?_⟩
  · have hd : Alarm_Distance H this_aircraft fop = (ALARM_LEVEL_NONE, fop) := by
      unfold Alarm_Distance
      have : fop.distance > H.ALARM_ZONE_CLOSE := by linarith
      simp only [this, true_or, if_true]
    unfold Alarm_Vector
    simp only [hd, h, if_true, ite_self]
  · have hd : Alarm_Distance H this_aircraft fop = (ALARM_LEVEL_NONE, fop) := by
      unfold Alarm_Distance
      simp only [h, or_true, if_true]
    unfold Alarm_Vector
    simp only [hd, h, if_true, ite_self]
  · unfold Alarm_Vector
    simp only
    by_cases a : fop.tx_type ≤ H.TX_TYPE_S
    · rw [if_pos a]
    rw [if_neg a]
    by_cases b : fop.speed = 0
    · rw [if_pos b]
    rw [if_neg b]
    by_cases c : (fop.gnsstime_ms + 4294967296 - fop.prevtime_ms) % 4294967296 > 3000
    · rw [if_pos c]
    rw [if_neg c]
    rcases h with h | h | h | ⟨h1, h2, h3, h4⟩
    · exact absurd h a
    · exact absurd h b
    · exact absurd h c
    · rw [if_neg h1, if_neg h2, if_neg h3, if_pos h4]
  · unfold Alarm_Vector
    simp only [a, b, c, d, if_false, if_true, ite_self]

/-- Witness of the amended C16: a target 4 km away, beyond `2*ALARM_ZONE_CLOSE`. -/
theorem Alarm_Vector_early_outs_witness :
    Alarm_Vector testLibm stdHeader 0 (ownShip 1 100)
        { flarmTarget 1 4000 0 0 with speed := 80 } =
      Alarm_Distance stdHeader (ownShip 1 100) { flarmTarget 1 4000 0 0 with speed := 80 } :=
  (Alarm_Vector_early_outs testLibm stdHeader 0 (ownShip 1 100)
    { flarmTarget 1 4000 0 0 with speed := 80 }).1 (by decide!) (by decide!)

/-- Counterexample to C16 as stated: two slow aircraft (10 knots each, covering about 195 m
in `ALARM_TIME_LOW` = 19 s), 300 m apart at the same altitude, the target with a history
2 s old. `Alarm_Vector` takes its third early-out and returns None; `Alarm_Distance`
returns Urgent on the same input. -/
theorem Alarm_Vector_early_out_differs :
    ¬ (flarmTarget 0xABCDEF 300 0 0).tx_type ≤ stdHeader.TX_TYPE_S ∧
    ({ flarmTarget 0xABCDEF 300 0 0 with
        speed := 10, gnsstime_ms := 100000, prevtime_ms := 98000 } : container_t).distance >
      (10 + 10) * (stdHeader.ALARM_TIME_LOW * stdHeader.GPS_MPS_PER_KNOT) ∧
    Alarm_Vector testLibm stdHeader 0 { ownShip 1 100 with speed := 10 }
        { flarmTarget 0xABCDEF 300 0 0 with
          speed := 10, gnsstime_ms := 100000, prevtime_ms := 98000 } =
      (ALARM_LEVEL_NONE, { flarmTarget 0xABCDEF 300 0 0 with
          speed := 10, gnsstime_ms := 100000, prevtime_ms := 98000 }) ∧
    (Alarm_Distance stdHeader { ownShip 1 100 with speed := 10 }
        { flarmTarget 0xABCDEF 300 0 0 with
          speed := 10, gnsstime_ms := 100000, prevtime_ms := 98000 }).1 = ALARM_LEVEL_URGENT ∧
    Alarm_Vector testLibm stdHeader 0 { ownShip 1 100 with speed := 10 }
        { flarmTarget 0xABCDEF 300 0 0 with
          speed := 10, gnsstime_ms := 100000, prevtime_ms := 98000 } ≠
      Alarm_Distance stdHeader { ownShip 1 100 with speed := 10 }
        { flarmTarget 0xABCDEF 300 0 0 with
          speed := 10, gnsstime_ms := 100000, prevtime_ms := 98000 } := by
  refine ⟨by decide, by decide!, by decide!, by decide!, by decide!⟩

/-- The third early-out of `Alarm_Vector`: None, and the target unchanged. -/
theorem Alarm_Vector_slow (M : Libm) (H : Header) (t0 : ℚ) (this_aircraft fop : container_t)
    (a : ¬ fop.tx_type ≤ H.TX_TYPE_S) (b : fop.speed ≠ 0)
    (c : ¬ (fop.gnsstime_ms + 4294967296 - fop.prevtime_ms) % 4294967296 > 3000)
    (d : fop.distance >
      (fop.speed + this_aircraft.speed) * (H.ALARM_TIME_LOW * H.GPS_MPS_PER_KNOT)) :
    Alarm_Vector M H t0 this_aircraft fop = (ALARM_LEVEL_NONE, fop) := by
  unfold Alarm_Vector
  simp only [a, b, c, d, if_false, if_true, ite_self]

/-- Whatever the values of the constants (with `ALARM_ZONE_CLOSE > 0` and
`VERTICAL_SEPARATION ≥ 0`), some input takes the third early-out of `Alarm_Vector` while
`Alarm_Distance` returns a level above None: a slow directional target at half of
`ALARM_ZONE_CLOSE`, at the same altitude. -/
theorem third_early_out_differs (M : Libm) (H : Header) (t0 : ℚ)
    (hc : 0 < H.ALARM_ZONE_CLOSE) (hs : 0 ≤ H.VERTICAL_SEPARATION) :
    ∃ this_aircraft fop : container_t,
      ¬ fop.tx_type ≤ H.TX_TYPE_S ∧ fop.speed ≠ 0 ∧
      fop.distance >
        (fop.speed + this_aircraft.speed) * (H.ALARM_TIME_LOW * H.GPS_MPS_PER_KNOT) ∧
      Alarm_Vector M H t0 this_aircraft fop = (ALARM_LEVEL_NONE, fop) ∧
      (Alarm_Distance H this_aircraft fop).1 ≠ ALARM_LEVEL_NONE := by
  have hex : ∃ s : ℚ, s ≠ 0 ∧
      H.ALARM_ZONE_CLOSE / 2 > (s + 0) * (H.ALARM_TIME_LOW * H.GPS_MPS_PER_KNOT) := by
    by_cases hk : H.ALARM_TIME_LOW * H.GPS_MPS_PER_KNOT ≤ 0
    · exact ⟨1, one_ne_zero, by linarith⟩
    · have hk' : 0 < H.ALARM_TIME_LOW * H.GPS_MPS_PER_KNOT := not_le.1 hk
      refine ⟨H.ALARM_ZONE_CLOSE / (4 * (H.ALARM_TIME_LOW * H.GPS_MPS_PER_KNOT)), ?_, ?_⟩
      · exact ne_of_gt (div_pos hc (by linarith))
      · have hk4 : H.ALARM_ZONE_CLOSE / (4 * (H.ALARM_TIME_LOW * H.GPS_MPS_PER_KNOT))
            * (H.ALARM_TIME_LOW * H.GPS_MPS_PER_KNOT) = H.ALARM_ZONE_CLOSE / 4 := by
          field_simp
          ring
        rw [add_zero, hk4]
        linarith
  obtain ⟨s, hs0, hlt⟩ := hex
  refine ⟨EmptyContainer,
    { EmptyContainer with
      tx_type := H.TX_TYPE_S + 1, speed := s, distance := H.ALARM_ZONE_CLOSE / 2,
      adj_distance := H.ALARM_ZONE_CLOSE / 2 },
    Nat.not_succ_le_self _, hs0, hlt, ?_, ?_⟩
  · refine Alarm_Vector_slow M H t0 _ _ (Nat.not_succ_le_self _) hs0 ?_ hlt
    show ¬ ((0 + 4294967296 - 0) % 4294967296 > 3000)
    norm_num
  · rw [Alarm_Distance_level]
    have h1 : ¬ ((H.ALARM_ZONE_CLOSE / 2 > H.ALARM_ZONE_CLOSE) ∨
        |(0 : ℚ)| > H.VERTICAL_SEPARATION) := by
      rw [abs_zero]
      rintro (h | h) <;> linarith
    have h2 : max (H.ALARM_ZONE_CLOSE / 2) (H.ALARM_ZONE_CLOSE / 2) < H.ALARM_ZONE_CLOSE := by
      rw [max_self]; linarith
    show (if (H.ALARM_ZONE_CLOSE / 2 > H.ALARM_ZONE_CLOSE) ∨
        |(0 : ℚ)| > H.VERTICAL_SEPARATION then ALARM_LEVEL_NONE else _) ≠ _
    rw [if_neg h1]
    show (if max (H.ALARM_ZONE_CLOSE / 2) (H.ALARM_ZONE_CLOSE / 2) < H.ALARM_ZONE_URGENT then _
      else if max (H.ALARM_ZONE_CLOSE / 2) (H.ALARM_ZONE_CLOSE / 2) < H.ALARM_ZONE_IMPORTANT then _
      else if max (H.ALARM_ZONE_CLOSE / 2) (H.ALARM_ZONE_CLOSE / 2) < H.ALARM_ZONE_LOW then _
      else if max (H.ALARM_ZONE_CLOSE / 2) (H.ALARM_ZONE_CLOSE / 2) < H.ALARM_ZONE_CLOSE then _
      else _) ≠ _
    rw [if_pos h2]
    split_ifs <;> decide

/-! ## Re-arming after a return to None -/

/-- After the block `if (Alarm_Level)`: `alarm_level` is the level returned, and
`alert_level` is at most one above it and at most what the algorithm left. -/
theorem alarm_eval_levels (env : Env) (timer : Nat) (f : container_t) (alg : AlarmFn)
    (h : env.Alarm_Level = some alg) :
    (alarm_eval env timer f).1.alarm_level = (alg env.ThisAircraft f).1 ∧
    (alarm_eval env timer f).1.alert_level ≤ (alg env.ThisAircraft f).1 + 1 ∧
    (alarm_eval env timer f).1.alert_level ≤ (alg env.ThisAircraft f).2.alert_level := by
  unfold alarm_eval
  rw [h]
  simp only
  split_ifs <;> simp only [ALARM_LEVEL_NONE] at * <;> refine ⟨trivial, ?_, ?_⟩ <;> omega

/-- None of `Alarm_None`, `Alarm_Distance`, `Alarm_Vector` raises `alert_level`. -/
theorem alert_level_not_raised (M : Libm) (H : Header) (t0 : ℚ) (t f : container_t) :
    (Alarm_None t f).2.alert_level ≤ f.alert_level ∧
    (Alarm_Distance H t f).2.alert_level ≤ f.alert_level ∧
    (Alarm_Vector M H t0 t f).2.alert_level ≤ f.alert_level := by
  have hd : (Alarm_Distance H t f).2.alert_level ≤ f.alert_level := by
    unfold Alarm_Distance
    simp only
    split_ifs <;> simp only <;> omega
  refine ⟨le_refl _, hd, ?_⟩
  unfold Alarm_Vector
  simp only
  split_ifs <;> first | exact hd | exact le_refl _ | (simp only; omega)

/-- Claim C18. If `Traffic_Update` evaluates a target's level as None, its `alert_level` is
at most Close afterwards (whatever it was before); and if a later `Traffic_Update` of the
same target, whose `alert_level` was not raised in between, evaluates the level as Low with
an algorithm that does not raise `alert_level`, the entry then satisfies the notification
criterion of `Traffic_loop`: `alarm_level > alert_level` and `alarm_level > Close`. -/
theorem none_then_low_rearms (H : Header) (env env2 : Env) (timer timer2 : Nat)
    (fop : container_t) (refresh : container_t → container_t) (alg alg2 : AlarmFn)
    (ha : env.Alarm_Level = some alg) (he : evaluates H env fop = true)
    (hn : (alg env.ThisAircraft (eval_input H env fop)).1 = ALARM_LEVEL_NONE)
    (hr : (refresh (Traffic_Update H env timer fop).1).alert_level
      ≤ (Traffic_Update H env timer fop).1.alert_level)
    (ha2 : env2.Alarm_Level = some alg2)
    (he2 : evaluates H env2 (refresh (Traffic_Update H env timer fop).1) = true)
    (hl : (alg2 env2.ThisAircraft
      (eval_input H env2 (refresh (Traffic_Update H env timer fop).1))).1 = ALARM_LEVEL_LOW)
    (hk : (alg2 env2.ThisAircraft
        (eval_input H env2 (refresh (Traffic_Update H env timer fop).1))).2.alert_level
      ≤ (eval_input H env2 (refresh (Traffic_Update H env timer fop).1)).alert_level) :
    (Traffic_Update H env timer fop).1.alarm_level = ALARM_LEVEL_NONE ∧
    (Traffic_Update H env timer fop).1.alert_level ≤ ALARM_LEVEL_CLOSE ∧
    (Traffic_Update H env2 timer2 (refresh (Traffic_Update H env timer fop).1)).1.alarm_level
      = ALARM_LEVEL_LOW ∧
    (Traffic_Update H env2 timer2 (refresh (Traffic_Update H env timer fop).1)).1.alarm_level
      > (Traffic_Update H env2 timer2
          (refresh (Traffic_Update H env timer fop).1)).1.alert_level ∧
    (Traffic_Update H env2 timer2 (refresh (Traffic_Update H env timer fop).1)).1.alarm_level
      > ALARM_LEVEL_CLOSE := by
  obtain ⟨e1, -⟩ := Traffic_Update_eval H env timer fop he
  obtain ⟨l1, l2, -⟩ := alarm_eval_levels env timer (eval_input H env fop) alg ha
  rw [← e1, hn] at l1 l2
  have hc : (Traffic_Update H env timer fop).1.alert_level ≤ ALARM_LEVEL_CLOSE := by
    simp only [ALARM_LEVEL_NONE, ALARM_LEVEL_CLOSE] at *
    omega
  generalize refresh (Traffic_Update H env timer fop).1 = g at hr he2 hl hk ⊢
  obtain ⟨e2, e3⟩ := Traffic_Update_eval H env2 timer2 g he2
  obtain ⟨m1, -, m3⟩ := alarm_eval_levels env2 timer2 (eval_input H env2 g) alg2 ha2
  rw [← e2, hl] at m1
  rw [← e2] at m3
  refine ⟨l1, hc, m1, ?_, ?_⟩
  · rw [m1]
    simp only [ALARM_LEVEL_LOW, ALARM_LEVEL_CLOSE] at *
    omega
  · rw [m1]
    decide

/-- Witness of C18: a target notified at Urgent moves out to 2000 m (None), then comes back
to 800 m (Low): the entry is at Low with `alert_level` Close. -/
theorem none_then_low_rearms_witness :
    (Traffic_Update stdHeader (testEnv (ownShip 1 101) (some (Alarm_Distance stdHeader)) 101 1000)
      0 (heardAt 2000 101 (flarmTarget 0xABCDEF 300 4 4))).1.alert_level ≤ ALARM_LEVEL_CLOSE ∧
    (Traffic_Update stdHeader (testEnv (ownShip 1 103) (some (Alarm_Distance stdHeader)) 103 3000)
      0 (heardAt 800 103
        (Traffic_Update stdHeader
          (testEnv (ownShip 1 101) (some (Alarm_Distance stdHeader)) 101 1000)
          0 (heardAt 2000 101 (flarmTarget 0xABCDEF 300 4 4))).1)).1.alarm_level
      > (Traffic_Update stdHeader
        (testEnv (ownShip 1 103) (some (Alarm_Distance stdHeader)) 103 3000)
        0 (heardAt 800 103
          (Traffic_Update stdHeader
            (testEnv (ownShip 1 101) (some (Alarm_Distance stdHeader)) 101 1000)
            0 (heardAt 2000 101 (flarmTarget 0xABCDEF 300 4 4))).1)).1.alert_level :=
  have h := none_then_low_rearms stdHeader
    (testEnv (ownShip 1 101) (some (Alarm_Distance stdHeader)) 101 1000)
    (testEnv (ownShip 1 103) (some (Alarm_Distance stdHeader)) 103 3000) 0 0
    (heardAt 2000 101 (flarmTarget 0xABCDEF 300 4 4)) (heardAt 800 103)
    (Alarm_Distance stdHeader) (Alarm_Distance stdHeader)
    rfl (by decide!) (by decide!) (by decide!) rfl (by decide!) (by decide!) (by decide!)
  ⟨h.2.1, h.2.2.2.1⟩

/-! ## Source preference in `AddTraffic` -/

/-- Claim C20. When a report arrives for an address already in the table (`cip` is the first
entry holding it) and the stored entry is not expired, `AddTraffic` ignores the report and
leaves the whole state unchanged in each of these cases: (i) the report is external
(GDL90 / ADS-B 1090) and the stored entry is direct and not marked relayed; (ii) the report
is a relayed direct report and the stored entry is external; (iii) both are external, the
report is TIS-B and the stored entry is above TIS-B (direct ADS-B). -/
theorem AddTraffic_ignores (M : Libm) (H : Header) (env : Env) (w : World) (fop : ufo_t)
    (callsign : Option (List Nat)) (i : Nat) (cip : container_t)
    (hi : w.Container[i]? = some cip) (ha : cip.addr = fop.addr)
    (hfirst : ∀ j c, j < i → w.Container[j]? = some c → c.addr ≠ fop.addr)
    (hfresh : env.OurTime ≤ cip.timestamp + H.ENTRY_EXPIRATION_TIME)
    (hcase :
      ((fop.protocol = H.RF_PROTOCOL_GDL90 ∨ fop.protocol = H.RF_PROTOCOL_ADSB_1090) ∧
        ¬ (cip.protocol = H.RF_PROTOCOL_GDL90 ∨ cip.protocol = H.RF_PROTOCOL_ADSB_1090) ∧
        cip.relayed = false) ∨
      (fop.relayed = true ∧
        ¬ (fop.protocol = H.RF_PROTOCOL_GDL90 ∨ fop.protocol = H.RF_PROTOCOL_ADSB_1090) ∧
        (cip.protocol = H.RF_PROTOCOL_GDL90 ∨ cip.protocol = H.RF_PROTOCOL_ADSB_1090)) ∨
      ((fop.protocol = H.RF_PROTOCOL_GDL90 ∨ fop.protocol = H.RF_PROTOCOL_ADSB_1090) ∧
        (cip.protocol = H.RF_PROTOCOL_GDL90 ∨ cip.protocol = H.RF_PROTOCOL_ADSB_1090) ∧
        fop.tx_type = H.TX_TYPE_TISB ∧ cip.tx_type > H.TX_TYPE_TISB)) :
    AddTraffic M H env w fop callsign = some w := by
  have hlt : i < w.Container.length := by
    by_contra hc
    rw [List.getElem?_eq_none (not_lt.1 hc)] at hi
    exact Option.noConfusion hi
  have hget : w.Container[i] = cip := by
    rw [List.getElem?_eq_getElem hlt] at hi
    exact Option.some.inj hi
  have hfind : w.Container.findIdx? (fun cip => cip.addr == fop.addr) = some i := by
    rw [List.findIdx?_eq_some_iff_getElem]
    refine ⟨hlt, ?_, ?_⟩
    · rw [hget, ha]; exact beq_self_eq_true _
    · intro j hj
      have hjl : j < w.Container.length := lt_trans hj hlt
      have := hfirst j w.Container[j] hj (List.getElem?_eq_getElem hjl)
      simpa using this
  have hD : w.Container.getD i EmptyContainer = cip := by
    rw [List.getD_eq_getElem?_getD, hi]; rfl
  unfold AddTraffic
  rw [hfind]
  simp only
  rw [hD]
  have hrej : source_rejected H env cip fop = true := by
    unfold source_rejected
    simp only
    rcases hcase with ⟨a, b, c⟩ | ⟨a, b, c⟩ | ⟨a, b, c, d⟩
    · rw [if_pos ⟨a, b⟩]
      exact decide_eq_true ⟨c, hfresh⟩
    · rw [if_neg (fun h => b h.1), if_pos ⟨c, b⟩]
      exact decide_eq_true ⟨a, hfresh⟩
    · rw [if_neg (fun h => h.2 b), if_neg (fun h => h.2 a), if_pos ⟨b, a⟩]
      exact decide_eq_true ⟨c, d, hfresh⟩
  unfold AddTraffic_known
  rw [if_pos hrej]

/-- Witness of C20, case (i): an ADS-B report for a FLARM target heard directly one second
before. -/
theorem AddTraffic_ignores_witness :
    AddTraffic testLibm stdHeader
        (testEnv (ownShip 1 101) (some (Alarm_Distance stdHeader)) 101 1000)
        (worldOf [flarmTarget 0xABCDEF 800 0 0, EmptyContainer] 0)
        { flarmReport 0xABCDEF 46 7 with
          protocol := stdHeader.RF_PROTOCOL_ADSB_1090, tx_type := 3, timestamp := 101 } none
      = some (worldOf [flarmTarget 0xABCDEF 800 0 0, EmptyContainer] 0) :=
  AddTraffic_ignores testLibm stdHeader
    (testEnv (ownShip 1 101) (some (Alarm_Distance stdHeader)) 101 1000)
    (worldOf [flarmTarget 0xABCDEF 800 0 0, EmptyContainer] 0)
    { flarmReport 0xABCDEF 46 7 with
      protocol := stdHeader.RF_PROTOCOL_ADSB_1090, tx_type := 3, timestamp := 101 } none
    0 (flarmTarget 0xABCDEF 800 0 0) rfl rfl (fun j _ hj _ => absurd hj (Nat.not_lt_zero j))
    (by decide) (Or.inl ⟨Or.inr rfl, by decide, rfl⟩)

/-! ## The selection made by a tick -/

/-- What one pass of the loop of `Traffic_loop` does to the count of candidates, the level to
sound and the selected entry. -/
theorem loop_slot_acc (M : Libm) (H : Header) (env : Env) (i : Nat) (c : container_t)
    (a : loop_acc) :
    (sound_candidate H env c = true → c.alarm_level > a.sound_alarm_level →
      (loop_slot M H env i c a).2.alarmcount = a.alarmcount + 1 ∧
      (loop_slot M H env i c a).2.sound_alarm_level = c.alarm_level ∧
      (loop_slot M H env i c a).2.mfop = some i) ∧
    (sound_candidate H env c = true → ¬ c.alarm_level > a.sound_alarm_level →
      (loop_slot M H env i c a).2.alarmcount = a.alarmcount + 1 ∧
      (loop_slot M H env i c a).2.sound_alarm_level = a.sound_alarm_level ∧
      (loop_slot M H env i c a).2.mfop = a.mfop) ∧
    (sound_candidate H env c = false →
      (loop_slot M H env i c a).2.alarmcount = a.alarmcount ∧
      (loop_slot M H env i c a).2.sound_alarm_level = a.sound_alarm_level ∧
      (loop_slot M H env i c a).2.mfop = a.mfop) := by
  unfold sound_candidate
  simp only [decide_eq_true_eq, decide_eq_false_iff_not]
  refine ⟨fun ⟨h1, h2, h3, h4⟩ h5 => ?_, fun ⟨h1, h2, h3, h4⟩ h5 => ?_, fun h => ?_⟩
  · unfold loop_slot
    rw [if_pos h1, if_pos h2, if_neg (not_le.2 h3)]
    simp only
    rw [if_pos h4]
    split_ifs <;> exact ⟨rfl, rfl, rfl⟩
  · unfold loop_slot
    rw [if_pos h1, if_pos h2, if_neg (not_le.2 h3)]
    simp only
    rw [if_pos h4]
    split_ifs <;> exact ⟨rfl, rfl, rfl⟩
  · unfold loop_slot
    by_cases h1 : c.addr ≠ 0
    · rw [if_pos h1]
      by_cases h2 : expired H env.OurTime c = false
      · rw [if_pos h2]
        by_cases h3 : (env.RF_time : Int) - (c.timestamp : Int)
            ≥ (H.TRAFFIC_VECTOR_UPDATE_INTERVAL : Int)
        · rw [if_pos h3]
          exact ⟨rfl, rfl, rfl⟩
        · rw [if_neg h3]
          have h4 : ¬ (c.alarm_level > c.alert_level ∧ c.alarm_level > ALARM_LEVEL_CLOSE) :=
            fun h4 => h ⟨h1, h2, not_le.1 h3, h4⟩
          simp only
          rw [if_neg h4]
          split_ifs <;> exact ⟨rfl, rfl, rfl⟩
      · rw [if_neg h2]
        exact ⟨rfl, rfl, rfl⟩
    · rw [if_neg h1]
      exact ⟨rfl, rfl, rfl⟩

/-- The loop of `Traffic_loop`: it counts the candidates, and selects the first candidate
whose level is the highest, if that is above the level to sound it started with. -/
theorem loop_slots_acc (M : Libm) (H : Header) (env : Env) (l : List container_t) :
    ∀ (i : Nat) (a : loop_acc),
      (loop_slots M H env i l a).2.alarmcount
        = a.alarmcount + (l.countP (sound_candidate H env) : Nat) ∧
      ((∀ c ∈ l, sound_candidate H env c = true → c.alarm_level ≤ a.sound_alarm_level) →
        (loop_slots M H env i l a).2.sound_alarm_level = a.sound_alarm_level ∧
        (loop_slots M H env i l a).2.mfop = a.mfop) ∧
      ((∃ c ∈ l, sound_candidate H env c = true ∧ a.sound_alarm_level < c.alarm_level) →
        ∃ p c, l[p]? = some c ∧ sound_candidate H env c = true ∧
          (loop_slots M H env i l a).2.mfop = some (i + p) ∧
          (loop_slots M H env i l a).2.sound_alarm_level = c.alarm_level ∧
          a.sound_alarm_level < c.alarm_level ∧
          (∀ c' ∈ l, sound_candidate H env c' = true → c'.alarm_level ≤ c.alarm_level) ∧
          (∀ q c', q < p → l[q]? = some c' → sound_candidate H env c' = true →
            c'.alarm_level < c.alarm_level)) := by
  induction l with
  | nil =>
    intro i a
    refine ⟨?_, fun _ => ⟨rfl, rfl⟩, ?_⟩
    · simp [loop_slots]
    · rintro ⟨c, hc, -⟩
      exact absurd hc (List.not_mem_nil c)
  | cons x rest ih =>
    intro i a
    obtain ⟨s1, s2, s3⟩ := loop_slot_acc M H env i x a
    obtain ⟨k1, k2, k3⟩ := ih (i + 1) (loop_slot M H env i x a).2
    have hstep : (loop_slots M H env i (x :: rest) a).2
        = (loop_slots M H env (i + 1) rest (loop_slot M H env i x a).2).2 := rfl
    rw [hstep]
    by_cases hx : sound_candidate H env x = true
    · by_cases hgt : x.alarm_level > a.sound_alarm_level
      · obtain ⟨t1, t2, t3⟩ := s1 hx hgt
        rw [t2] at k2 k3
        rw [t3] at k2
        refine ⟨?_, ?_, ?_⟩
        · rw [k1, t1, List.countP_cons_of_pos _ _ hx]
          push_cast
          ring
        · intro hall
          have := hall x (List.mem_cons_self _ _) hx
          exact absurd hgt (not_lt.2 this)
        · intro _
          by_cases hrest : ∃ c ∈ rest, sound_candidate H env c = true ∧
              x.alarm_level < c.alarm_level
          · obtain ⟨p, c, hp, hc, hm, hs, hlt, hmax, hmin⟩ := k3 hrest
            refine ⟨p + 1, c, ?_, hc, ?_, hs, lt_trans hgt hlt, ?_, ?_⟩
            · simpa using hp
            · rw [hm]; congr 1; omega
            · intro c' hc' hcand
              rcases List.mem_cons.1 hc' with h | h
              · rw [h]; exact le_of_lt hlt
              · exact hmax c' h hcand
            · intro q c' hq hq' hcand
              cases q with
              | zero =>
                have : x = c' := by simpa using hq'
                rw [← this]; exact hlt
              | succ q =>
                exact hmin q c' (by omega) (by simpa using hq') hcand
          · have hall : ∀ c ∈ rest, sound_candidate H env c = true →
                c.alarm_level ≤ x.alarm_level := by
              intro c hc hcand
              by_contra hcon
              exact hrest ⟨c, hc, hcand, not_le.1 hcon⟩
            obtain ⟨u1, u2⟩ := k2 hall
            refine ⟨0, x, by simp, hx, ?_, u1, hgt, ?_, ?_⟩
            · rw [u2]; rfl
            · intro c' hc' hcand
              rcases List.mem_cons.1 hc' with h | h
              · rw [h]
              · exact hall c' h hcand
            · intro q c' hq
              exact absurd hq (Nat.not_lt_zero q)
      · obtain ⟨t1, t2, t3⟩ := s2 hx hgt
        rw [t2] at k2 k3
        rw [t3] at k2
        refine ⟨?_, ?_, ?_⟩
        · rw [k1, t1, List.countP_cons_of_pos _ _ hx]
          push_cast
          ring
        · intro hall
          exact k2 fun c hc => hall c (List.mem_cons_of_mem _ hc)
        · rintro ⟨c0, hc0, hcand0, hlt0⟩
          have hrest : ∃ c ∈ rest, sound_candidate H env c = true ∧
              a.sound_alarm_level < c.alarm_level := by
            rcases List.mem_cons.1 hc0 with h | h
            · rw [h] at hlt0; exact absurd hlt0 hgt
            · exact ⟨c0, h, hcand0, hlt0⟩
          obtain ⟨p, c, hp, hc, hm, hs, hlt, hmax, hmin⟩ := k3 hrest
          refine ⟨p + 1, c, ?_, hc, ?_, hs, hlt, ?_, ?_⟩
          · simpa using hp
          · rw [hm]; congr 1; omega
          · intro c' hc' hcand
            rcases List.mem_cons.1 hc' with h | h
            · rw [h]; exact le_of_lt (lt_of_le_of_lt (not_lt.1 hgt) hlt)
            · exact hmax c' h hcand
          · intro q c' hq hq' hcand
            cases q with
            | zero =>
              have : x = c' := by simpa using hq'
              rw [← this]; exact lt_of_le_of_lt (not_lt.1 hgt) hlt
            | succ q =>
              exact hmin q c' (by omega) (by simpa using hq') hcand
    · have hx' : sound_candidate H env x = false := by
        cases h : sound_candidate H env x
        · rfl
        · exact absurd h hx
      obtain ⟨t1, t2, t3⟩ := s3 hx'
      rw [t2] at k2 k3
      rw [t3] at k2
      refine ⟨?_, ?_, ?_⟩
      · rw [k1, t1, List.countP_cons_of_neg _ _ hx]
      · intro hall
        exact k2 fun c hc => hall c (List.mem_cons_of_mem _ hc)
      · rintro ⟨c0, hc0, hcand0, hlt0⟩
        have hrest : ∃ c ∈ rest, sound_candidate H env c = true ∧
            a.sound_alarm_level < c.alarm_level := by
          rcases List.mem_cons.1 hc0 with h | h
          · rw [h] at hcand0; exact absurd hcand0 hx
          · exact ⟨c0, h, hcand0, hlt0⟩
        obtain ⟨p, c, hp, hc, hm, hs, hlt, hmax, hmin⟩ := k3 hrest
        refine ⟨p + 1, c, ?_, hc, ?_, hs, hlt, ?_, ?_⟩
        · simpa using hp
        · rw [hm]; congr 1; omega
        · intro c' hc' hcand
          rcases List.mem_cons.1 hc' with h | h
          · rw [h] at hcand; exact absurd hcand hx
          · exact hmax c' h hcand
        · intro q c' hq hq' hcand
          cases q with
          | zero =>
            have : x = c' := by simpa using hq'
            rw [← this] at hcand; exact absurd hcand hx
          | succ q =>
            exact hmin q c' (by omega) (by simpa using hq') hcand

/-- A candidate is not touched by the expiry of the loop. -/
theorem sound_candidate_kept (H : Header) (env : Env) (c : container_t)
    (h : sound_candidate H env c = true) :
    (if c.addr ≠ 0 ∧ expired H env.OurTime c = true then { c with addr := 0 } else c) = c := by
  unfold sound_candidate at h
  simp only [decide_eq_true_eq] at h
  rw [if_neg]
  rintro ⟨-, h2⟩
  rw [h.2.1] at h2
  exact Bool.noConfusion h2

/-- A tick that passes the rate gate, in closed form: without a candidate nothing is
notified; otherwise the first candidate of the highest level is. -/
theorem Traffic_loop_closed (M : Libm) (H : Header) (env : Env) (w : World)
    (hg : env.isTimeToUpdateTraffic = true) :
    ((∀ c ∈ w.Container, sound_candidate H env c = false) ∧
      (Traffic_loop M H env w).2 = none ∧
      (Traffic_loop M H env w).1.Container = w.Container.map fun fop =>
        if fop.addr ≠ 0 ∧ expired H env.OurTime fop = true then { fop with addr := 0 }
        else fop) ∨
    ∃ p c, w.Container[p]? = some c ∧ sound_candidate H env c = true ∧
      (∀ c' ∈ w.Container, sound_candidate H env c' = true → c'.alarm_level ≤ c.alarm_level) ∧
      (∀ q c', q < p → w.Container[q]? = some c' → sound_candidate H env c' = true →
        c'.alarm_level < c.alarm_level) ∧
      (Traffic_loop M H env w).2 = some
        { level := c.alarm_level
          multiple := decide (1 < w.Container.countP (sound_candidate H env))
          index := p
          addr := c.addr } ∧
      (Traffic_loop M H env w).1.Container =
        (w.Container.map fun fop =>
          if fop.addr ≠ 0 ∧ expired H env.OurTime fop = true then { fop with addr := 0 }
          else fop).set p
          { c with alert_level := c.alarm_level, alert := c.alert ||| env.TRAFFIC_ALERT_SOUND } := by
  have hinv := loop_slots_acc M H env w.Container 0
    { max_alarm_level := ALARM_LEVEL_NONE
      alarm_ahead := false
      sound_alarm_level := ALARM_LEVEL_NONE
      alarmcount := 0
      mfop := none
      stats := w.stats }
  have hfst := loop_slots_fst M H env w.Container 0
    { max_alarm_level := ALARM_LEVEL_NONE
      alarm_ahead := false
      sound_alarm_level := ALARM_LEVEL_NONE
      alarmcount := 0
      mfop := none
      stats := w.stats }
  unfold Traffic_loop
  simp only [hg, Bool.true_eq_false, if_false]
  generalize loop_slots M H env 0 w.Container
    { max_alarm_level := ALARM_LEVEL_NONE
      alarm_ahead := false
      sound_alarm_level := ALARM_LEVEL_NONE
      alarmcount := 0
      mfop := none
      stats := w.stats } = r at hinv hfst ⊢
  obtain ⟨r1, r2⟩ := r
  simp only at hinv hfst ⊢
  subst hfst
  obtain ⟨hcount, hnone, hsome⟩ := hinv
  have hcl : ∀ c : container_t, sound_candidate H env c = true →
      ALARM_LEVEL_NONE < c.alarm_level := by
    intro c hc
    unfold sound_candidate at hc
    simp only [decide_eq_true_eq] at hc
    have := hc.2.2.2.2
    simp only [ALARM_LEVEL_NONE, ALARM_LEVEL_CLOSE] at *
    omega
  by_cases hex : ∃ c ∈ w.Container, sound_candidate H env c = true
  · obtain ⟨c0, hc0, hcand0⟩ := hex
    obtain ⟨p, c, hp, hc, hm, hs, -, hmax, hmin⟩ := hsome ⟨c0, hc0, hcand0, hcl c0 hcand0⟩
    right
    have hgt : c.alarm_level > ALARM_LEVEL_CLOSE := by
      unfold sound_candidate at hc
      simp only [decide_eq_true_eq] at hc
      exact hc.2.2.2.2
    have hgd : (w.Container.map fun fop =>
        if fop.addr ≠ 0 ∧ expired H env.OurTime fop = true then { fop with addr := 0 }
        else fop).getD p EmptyContainer = c := by
      rw [List.getD_eq_getElem?_getD, List.getElem?_map, hp]
      simp only [Option.map_some', Option.getD_some]
      exact sound_candidate_kept H env c hc
    refine ⟨p, c, hp, hc, hmax, hmin, ?_⟩
    rw [hm]
    simp only [Nat.zero_add, hs, hgd]
    rw [if_pos hgt]
    simp only [hcount, zero_add, Nat.one_lt_cast, gt_iff_lt]
    exact ⟨trivial, trivial⟩
  · left
    have hall : ∀ c ∈ w.Container, sound_candidate H env c = false := by
      intro c hc
      cases h : sound_candidate H env c
      · rfl
      · exact absurd ⟨c, hc, h⟩ hex
    obtain ⟨-, hm⟩ := hnone fun c hc hcand => by
      rw [hall c hc] at hcand
      exact Bool.noConfusion hcand
    rw [hm]
    exact ⟨hall, rfl, rfl⟩

/-- The expiry of the loop keeps the `alert_level` of every slot. -/
theorem sweep_alert_level (H : Header) (OurTime : Nat) (l : List container_t) :
    (l.map fun fop =>
        if fop.addr ≠ 0 ∧ expired H OurTime fop = true then { fop with addr := 0 }
        else fop).map (fun x => x.alert_level) = l.map fun x => x.alert_level := by
  rw [List.map_map]
  apply List.map_congr_left
  intro c _
  simp only [Function.comp]
  split_ifs <;> rfl

/-- Claim C19. In a `Traffic_loop` tick that passes the rate gate, a notification is emitted
if and only if at least one candidate exists (a non-empty, non-expired, recently updated
slot with `alarm_level > alert_level` and `alarm_level > Close`); the notified level is the
maximum `alarm_level` over the candidates, the selected target is the lowest-index
candidate attaining it, the multiple-threats flag is set iff there is more than one
candidate, and afterwards the selected slot's `alert_level` equals its `alarm_level` while
no other slot's `alert_level` changes (none at all without a notification). -/
theorem Traffic_loop_selects (M : Libm) (H : Header) (env : Env) (w : World)
    (hg : env.isTimeToUpdateTraffic = true) :
    ((Traffic_loop M H env w).2.isSome = true ↔
      ∃ c ∈ w.Container, sound_candidate H env c = true) ∧
    (∀ n, (Traffic_loop M H env w).2 = some n →
      ∃ c, w.Container[n.index]? = some c ∧ sound_candidate H env c = true ∧
        n.level = c.alarm_level ∧ n.addr = c.addr ∧
        (∀ c' ∈ w.Container, sound_candidate H env c' = true → c'.alarm_level ≤ n.level) ∧
        (∀ q c', q < n.index → w.Container[q]? = some c' →
          sound_candidate H env c' = true → c'.alarm_level < n.level) ∧
        (n.multiple = true ↔ 1 < w.Container.countP (sound_candidate H env)) ∧
        (∃ c2, (Traffic_loop M H env w).1.Container[n.index]? = some c2 ∧
          c2.alert_level = c2.alarm_level ∧ c2.alarm_level = c.alarm_level) ∧
        (∀ j, j ≠ n.index →
          ((Traffic_loop M H env w).1.Container[j]?).map (fun x => x.alert_level)
            = (w.Container[j]?).map fun x => x.alert_level)) ∧
    ((Traffic_loop M H env w).2 = none →
      (Traffic_loop M H env w).1.Container.map (fun x => x.alert_level)
        = w.Container.map fun x => x.alert_level) := by
  rcases Traffic_loop_closed M H env w hg with ⟨hall, hn, hC⟩ | ⟨p, c, hp, hc, hmax, hmin, hn, hC⟩
  · refine ⟨?_, ?_, ?_⟩
    · rw [hn]
      constructor
      · intro h; exact Bool.noConfusion h
      · rintro ⟨c, hc, hcand⟩
        rw [hall c hc] at hcand
        exact Bool.noConfusion hcand
    · intro n h
      rw [hn] at h
      exact Option.noConfusion h
    · intro _
      rw [hC]
      exact sweep_alert_level H env.OurTime w.Container
  · have hplt : p < w.Container.length := by
      by_contra hcon
      rw [List.getElem?_eq_none (not_lt.1 hcon)] at hp
      exact Option.noConfusion hp
    refine ⟨?_, ?_, ?_⟩
    · rw [hn]
      exact ⟨fun _ => ⟨c, List.getElem?_mem hp, hc⟩, fun _ => rfl⟩
    · intro n h
      rw [hn] at h
      have h' := Option.some.inj h
      subst h'
      refine ⟨c, hp, hc, rfl, rfl, hmax, hmin, ?_, ?_, ?_⟩
      · simp only [decide_eq_true_eq]
      · refine ⟨{ c with alert_level := c.alarm_level,
                         alert := c.alert ||| env.TRAFFIC_ALERT_SOUND }, ?_, rfl, rfl⟩
        rw [hC, List.getElem?_set, if_pos rfl, if_pos (by rw [List.length_map]; exact hplt)]
      · intro j hj
        simp only at hj
        rw [hC, List.getElem?_set, if_neg (Ne.symm hj), List.getElem?_map]
        cases w.Container[j]? with
        | none => rfl
        | some x =>
          simp only [Option.map_some']
          split_ifs <;> rfl
    · intro h
      rw [hn] at h
      exact Option.noConfusion h

/-- Witness of C19: three tracked targets, at Low (already notified), Urgent and Urgent; the
tick notifies Urgent for the second slot, with the multiple-threats flag. -/
theorem Traffic_loop_selects_witness :
    (Traffic_loop testLibm stdHeader
      (testEnv (ownShip 1 101) (some (Alarm_Distance stdHeader)) 101 1000)
      (worldOf [flarmTarget 0xA 800 2 2, flarmTarget 0xB 300 4 2, flarmTarget 0xC 300 4 0] 0)).2
      = some { level := 4, multiple := true, index := 1, addr := 0xB } ∧
    ((Traffic_loop testLibm stdHeader
      (testEnv (ownShip 1 101) (some (Alarm_Distance stdHeader)) 101 1000)
      (worldOf [flarmTarget 0xA 800 2 2, flarmTarget 0xB 300 4 2, flarmTarget 0xC 300 4 0] 0)).2.isSome
      = true ↔
    ∃ c ∈ (worldOf [flarmTarget 0xA 800 2 2, flarmTarget 0xB 300 4 2,
        flarmTarget 0xC 300 4 0] 0).Container,
      sound_candidate stdHeader
        (testEnv (ownShip 1 101) (some (Alarm_Distance stdHeader)) 101 1000) c = true) :=
  ⟨by decide!,
   (Traffic_loop_selects testLibm stdHeader
      (testEnv (ownShip 1 101) (some (Alarm_Distance stdHeader)) 101 1000)
      (worldOf [flarmTarget 0xA 800 2 2, flarmTarget 0xB 300 4 2, flarmTarget 0xC 300 4 0] 0)
      rfl).1⟩

/-! ## Persistence of the range statistics -/

/-- A pass of the loading loop leaves the counter of new samples alone. -/
theorem load_sector_newrssi_n (s : load_state) (oclock : Nat) :
    (load_sector s oclock).rs.newrssi_n = s.rs.newrssi_n := by
  unfold load_sector
  split_ifs
  · rfl
  · cases s.lines with
    | nil => rfl
    | cons buf rest =>
      simp only
      cases buf[1]? <;> cases buf[2]? <;> rfl

/-- The loading loop leaves the counter of new samples alone. -/
theorem load_sectors_newrssi_n (l : List Nat) :
    ∀ s : load_state, (l.foldl load_sector s).rs.newrssi_n = s.rs.newrssi_n := by
  induction l with
  | nil => intro s; rfl
  | cons o rest ih =>
    intro s
    rw [List.foldl_cons, ih, load_sector_newrssi_n]

/-- The end of `load_range_stats` leaves the counter of new samples at zero. -/
theorem load_finish_newrssi_n (s : load_state) (h : s.rs.newrssi_n = 0) :
    (load_finish s).1.1.newrssi_n = 0 := by
  unfold load_finish
  split_ifs
  · rfl
  · cases s.lines with
    | nil => rfl
    | cons b r =>
      simp only
      unfold scan_rssi
      cases b[0]? <;> cases b[1]? <;> exact h

/-- After `load_range_stats` the counter of new samples is zero, whatever the file holds. -/
theorem load_range_stats_newrssi_n (v0 : Int) (fs : FileSys) :
    (load_range_stats v0 fs).1.1.newrssi_n = 0 := by
  unfold load_range_stats
  simp only
  cases (fs.call (FsCall.fs_exists "/range.txt")).range_txt with
  | none => rfl
  | some lines =>
    simp only
    split_ifs
    · rfl
    · cases lines with
      | nil => rfl
      | cons buf rest =>
        simp only
        split_ifs
        · rfl
        · apply load_finish_newrssi_n
          rw [load_sectors_newrssi_n]
          rfl

/-- Claim C12. `save_range_stats` is idempotent when no sample arrived since the last save:
after a save the counter of new samples is zero, and a save with that counter at zero
changes no accumulator and makes no call to the file system, so two consecutive saves have
the same effect as one. -/
theorem save_range_stats_idempotent (M : Libm) (v0 v1 : Int) (rs : range_stats)
    (fs : FileSys) :
    (save_range_stats M v0 rs fs).1.newrssi_n = 0 ∧
    (∀ (rs1 : range_stats) (fs1 : FileSys), rs1.newrssi_n = 0 →
      save_range_stats M v1 rs1 fs1 = (rs1, fs1)) ∧
    save_range_stats M v1 (save_range_stats M v0 rs fs).1 (save_range_stats M v0 rs fs).2
      = save_range_stats M v0 rs fs := by
  have h2 : ∀ (rs1 : range_stats) (fs1 : FileSys), rs1.newrssi_n = 0 →
      save_range_stats M v1 rs1 fs1 = (rs1, fs1) := by
    intro rs1 fs1 h
    unfold save_range_stats
    rw [if_pos h]
  have h1 : (save_range_stats M v0 rs fs).1.newrssi_n = 0 := by
    unfold save_range_stats
    split_ifs with h
    · exact h
    · exact load_range_stats_newrssi_n v0 _
  exact ⟨h1, h2, h2 _ _ h1⟩

/-- Witness of C12: after one sample, the save writes the 14 lines of `range.txt` and
leaves the counter at zero; a second save changes nothing. -/
theorem save_range_stats_idempotent_witness :
    oneSample.newrssi_n = 1 ∧
    ((save_range_stats testLibm 0 oneSample emptyFs).2.range_txt.map List.length) = some 14 ∧
    (save_range_stats testLibm 0 oneSample emptyFs).1.oldrssi_mean = -80 ∧
    (save_range_stats testLibm 0 oneSample emptyFs).1.newrssi_n = 0 ∧
    save_range_stats testLibm 0 (save_range_stats testLibm 0 oneSample emptyFs).1
        (save_range_stats testLibm 0 oneSample emptyFs).2
      = save_range_stats testLibm 0 oneSample emptyFs :=
  ⟨by decide!, by decide!, by decide!,
   (save_range_stats_idempotent testLibm 0 0 oneSample emptyFs).1,
   (save_range_stats_idempotent testLibm 0 0 oneSample emptyFs).2.2⟩

/-! ## Fall-backs of `Alarm_Latest` -/

/-- Beyond `ALARM_ZONE_CLOSE` (in particular beyond twice that distance),
`Alarm_Distance` returns None and leaves the target alone. -/
theorem Alarm_Distance_far (H : Header) (t f : container_t)
    (h : f.distance > H.ALARM_ZONE_CLOSE) : Alarm_Distance H t f = (ALARM_LEVEL_NONE, f) := by
  unfold Alarm_Distance
  simp only [h, true_or, if_true]

/-- The simulator of `Alarm_Latest` writes `alert_level` only. -/
theorem latest_sim_frame (H : Header) (t g : container_t) :
    (latest_sim H t g).2.addr = g.addr ∧ (latest_sim H t g).2.callsign = g.callsign := by
  unfold latest_sim latest_result
  simp only
  split_ifs <;> exact ⟨rfl, rfl⟩

/-- `Alarm_Latest` writes `alert_level` only, as far as `project_that` keeps the address
and the callsign. -/
theorem Alarm_Latest_Framed (M : Libm) (H : Header)
    (project_that : container_t → container_t → container_t) (t0 : ℚ)
    (hp : ∀ t f, (project_that t f).addr = f.addr ∧ (project_that t f).callsign = f.callsign) :
    Framed (Alarm_Latest M H project_that t0) := by
  intro t f
  have hs : ∀ g : container_t, (latest_sim H t g).2.addr = g.addr ∧
      (latest_sim H t g).2.callsign = g.callsign := fun g => latest_sim_frame H t g
  unfold Alarm_Latest
  simp only
  by_cases c1 : f.distance > 2 * H.ALARM_ZONE_CLOSE
  · rw [if_pos c1]; exact ⟨rfl, rfl⟩
  rw [if_neg c1]
  by_cases c2 : f.tx_type ≤ H.TX_TYPE_S
  · rw [if_pos c2]; exact Alarm_Distance_Framed H t f
  rw [if_neg c2]
  by_cases c3 : f.speed = 0
  · rw [if_pos c3]; exact Alarm_Distance_Framed H t f
  rw [if_neg c3]
  by_cases c4 : f.tx_type = H.TX_TYPE_TISB ∨ f.relayed = true
  · rw [if_pos c4]; exact Alarm_Vector_Framed M H t0 t f
  rw [if_neg c4]
  by_cases c5 : f.distance > (f.speed + t.speed) * (H.ALARM_TIME_LOW * H.GPS_MPS_PER_KNOT)
  · rw [if_pos c5]; exact ⟨rfl, rfl⟩
  rw [if_neg c5]
  split_ifs
  · exact ⟨rfl, rfl⟩
  · exact Alarm_Vector_Framed M H t0 t f
  · exact ⟨((Alarm_Vector_Framed M H t0 t (project_that t f)).1).trans (hp t f).1,
      ((Alarm_Vector_Framed M H t0 t (project_that t f)).2).trans (hp t f).2⟩
  · exact ⟨((hs (project_that t f)).1).trans (hp t f).1,
      ((hs (project_that t f)).2).trans (hp t f).2⟩

/-- Claim C17. With `ALARM_ZONE_CLOSE ≥ 0`: for every non-directional target
(`tx_type ≤ TX_TYPE_S`) and every target with speed 0, `Alarm_Latest` and `Alarm_Vector`
return exactly what `Alarm_Distance` returns, level and target (so the same effect on
`alert_level`); for every other target that is TIS-B or relayed, `Alarm_Latest` returns
exactly what `Alarm_Vector` returns. -/
theorem Alarm_Latest_fallbacks (M : Libm) (H : Header)
    (project_that : container_t → container_t → container_t) (t0 : ℚ)
    (this_aircraft fop : container_t) (h0 : 0 ≤ H.ALARM_ZONE_CLOSE) :
    (fop.tx_type ≤ H.TX_TYPE_S ∨ fop.speed = 0 →
      Alarm_Latest M H project_that t0 this_aircraft fop = Alarm_Distance H this_aircraft fop ∧
      Alarm_Vector M H t0 this_aircraft fop = Alarm_Distance H this_aircraft fop) ∧
    (¬ (fop.tx_type ≤ H.TX_TYPE_S ∨ fop.speed = 0) →
      fop.tx_type = H.TX_TYPE_TISB ∨ fop.relayed = true →
      Alarm_Latest M H project_that t0 this_aircraft fop
        = Alarm_Vector M H t0 this_aircraft fop) := by
  have hfar : fop.distance > 2 * H.ALARM_ZONE_CLOSE →
      Alarm_Distance H this_aircraft fop = (ALARM_LEVEL_NONE, fop) :=
    fun h => Alarm_Distance_far H this_aircraft fop (by linarith)
  refine ⟨fun h => ⟨?_, ?_⟩, fun h1 h2 => ?_⟩
  · unfold Alarm_Latest
    simp only
    by_cases a : fop.distance > 2 * H.ALARM_ZONE_CLOSE
    · rw [if_pos a, hfar a]
    · rw [if_neg a]
      by_cases b : fop.tx_type ≤ H.TX_TYPE_S
      · rw [if_pos b]
      · rw [if_neg b]
        rcases h with h | h
        · exact absurd h b
        · rw [if_pos h]
  · unfold Alarm_Vector
    simp only
    by_cases b : fop.tx_type ≤ H.TX_TYPE_S
    · rw [if_pos b]
    · rw [if_neg b]
      rcases h with h | h
      · exact absurd h b
      · rw [if_pos h]
  · have b : ¬ fop.tx_type ≤ H.TX_TYPE_S := fun b => h1 (Or.inl b)
    have c : ¬ fop.speed = 0 := fun c => h1 (Or.inr c)
    unfold Alarm_Latest
    simp only
    by_cases a : fop.distance > 2 * H.ALARM_ZONE_CLOSE
    · rw [if_pos a]
      unfold Alarm_Vector
      simp only
      rw [if_neg b, if_neg c, hfar a, if_pos a, ite_self]
    · rw [if_neg a, if_neg b, if_neg c, if_pos h2]

/-- Witness of C17: a non-directional target 800 m away at the same altitude is Low for the
three algorithms; a relayed FLARM target gets the level of `Alarm_Vector`. -/
theorem Alarm_Latest_fallbacks_witness :
    (Alarm_Distance stdHeader (ownShip 1 100)
      { flarmTarget 0xABCDEF 800 0 0 with tx_type := stdHeader.TX_TYPE_S }).1 = ALARM_LEVEL_LOW ∧
    Alarm_Latest testLibm stdHeader (fun _ f => f) 0 (ownShip 1 100)
        { flarmTarget 0xABCDEF 800 0 0 with tx_type := stdHeader.TX_TYPE_S }
      = Alarm_Distance stdHeader (ownShip 1 100)
        { flarmTarget 0xABCDEF 800 0 0 with tx_type := stdHeader.TX_TYPE_S } ∧
    Alarm_Latest testLibm stdHeader (fun _ f => f) 0 (ownShip 1 100)
        { flarmTarget 0xABCDEF 800 0 0 with speed := 80, relayed := true }
      = Alarm_Vector testLibm stdHeader 0 (ownShip 1 100)
        { flarmTarget 0xABCDEF 800 0 0 with speed := 80, relayed := true } :=
  ⟨by decide!,
   ((Alarm_Latest_fallbacks testLibm stdHeader (fun _ f => f) 0 (ownShip 1 100)
      { flarmTarget 0xABCDEF 800 0 0 with tx_type := stdHeader.TX_TYPE_S }
      (by decide!)).1 (Or.inl (by decide))).1,
   (Alarm_Latest_fallbacks testLibm stdHeader (fun _ f => f) 0 (ownShip 1 100)
      { flarmTarget 0xABCDEF 800 0 0 with speed := 80, relayed := true }
      (by decide!)).2 (by decide!) (Or.inr rfl)⟩

/-! ## Admission into an empty slot -/

/-- Writing one entry that satisfies `p` into a list without such an entry leaves exactly
one. -/
theorem countP_set_fresh {α : Type} (p : α → Bool) (e : α) (he : p e = true) :
    ∀ (l : List α) (i : Nat), i < l.length → (∀ c ∈ l, p c = false) →
      (l.set i e).countP p = 1 := by
  intro l
  induction l with
  | nil => intro i hi; exact absurd hi (Nat.not_lt_zero i)
  | cons x rest ih =>
    intro i hi hall
    have hrest : ∀ c ∈ rest, p c = false := fun c hc => hall c (List.mem_cons_of_mem _ hc)
    cases i with
    | zero =>
      rw [List.set_cons_zero, List.countP_cons_of_pos _ _ he]
      have : rest.countP p = 0 := by
        rw [List.countP_eq_zero]
        intro c hc
        rw [hrest c hc]
        exact Bool.false_ne_true
      rw [this]
    | succ i =>
      have hx : ¬ p x = true := by
        rw [hall x (List.mem_cons_self _ _)]
        exact Bool.false_ne_true
      rw [List.set_cons_succ, List.countP_cons_of_neg _ _ hx]
      exact ih i (by simpa using hi) hrest

/-! ## The clock sector of `sample_range` -/

/-- Claim C24. For every integer `RelativeHeading` h in [-180, 180], `sample_range` uses the
sector index `floor(((h + 15) mod 360) / 30)`, which lies in 0..11, a valid index of the
12-entry accumulators, and sector 0 is exactly `-15 ≤ h < 15`. A sample that is recorded
goes into that sector. -/
theorem clock_sector_valid (h : Int) (hlo : -180 ≤ h) (hhi : h ≤ 180) :
    clock_sector h = ((h + 15) % 360) / 30 ∧
    0 ≤ clock_sector h ∧ clock_sector h < 12 ∧
    (clock_sector h = 0 ↔ -15 ≤ h ∧ h < 15) ∧
    ∀ (M : Libm) (H : Header) (ThisAircraft fop : container_t) (rs : range_stats),
      fop.RelativeHeading = h →
      sample_range M H ThisAircraft fop rs = rs ∨
      (sample_range M H ThisAircraft fop rs).newrange_n =
        rs.newrange_n.set (clock_sector h).toNat
          ((rs.newrange_n.getD (clock_sector h).toNat 0 + 1) % 65536) := by
  have key : clock_sector h = ((h + 15) % 360) / 30 := by
    unfold clock_sector
    simp only
    by_cases h1 : h + 15 < 0
    · rw [if_pos h1]
      have h2 : ¬ (h + 15 + 360 ≥ 360) := by omega
      rw [if_neg h2]
      have e : (h + 15) % 360 = h + 15 + 360 := by omega
      rw [e, Int.tdiv_eq_ediv (by omega) (by decide)]
    · rw [if_neg h1]
      have h2 : ¬ (h + 15 ≥ 360) := by omega
      rw [if_neg h2]
      have e : (h + 15) % 360 = h + 15 := by omega
      rw [e, Int.tdiv_eq_ediv (by omega) (by decide)]
  have hb : 0 ≤ clock_sector h ∧ clock_sector h < 12 := by
    rw [key]; omega
  refine ⟨key, hb.1, hb.2, ?_, ?_⟩
  · rw [key]; omega
  · intro M H own fop rs hh
    unfold sample_range
    rw [hh]
    simp only
    split_ifs
    all_goals first
      | exact Or.inl rfl
      | exact Or.inr rfl

/-- Witness of C24: a target dead ahead is in sector 0, one at -16 degrees in sector 11. -/
theorem clock_sector_valid_witness :
    clock_sector 0 = 0 ∧ clock_sector (-16) = 11 ∧ clock_sector 180 = 6 ∧
    clock_sector (-180) = 6 ∧ (clock_sector 14 = 0 ↔ -15 ≤ (14 : Int) ∧ (14 : Int) < 15) :=
  ⟨by decide, by decide, by decide, by decide,
   (clock_sector_valid 14 (by decide) (by decide)).2.2.2.1⟩

/-! ## The angle bands of `Alarm_Vector` -/

/-- The level of an angle band of `Alarm_Vector` is between None and Urgent. -/
theorem band_level_range (H : Header) (a v t : ℚ) :
    ALARM_LEVEL_NONE ≤ band_level H a v t ∧ band_level H a v t ≤ ALARM_LEVEL_URGENT := by
  unfold band_level
  split_ifs <;> decide

/-- In the vector path of `Alarm_Vector` (directional target with a speed and a recent
history, none of the early-outs, no aircraft turning, relative speed above
`ALARM_VECTOR_SPEED`) the level returned is the level of the angle band. -/
theorem Alarm_Vector_path (M : Libm) (H : Header) (t0 : ℚ) (this_aircraft fop : container_t)
    (c1 : ¬ fop.tx_type ≤ H.TX_TYPE_S) (c2 : fop.speed ≠ 0)
    (c3 : ¬ (fop.gnsstime_ms + 4294967296 - fop.prevtime_ms) % 4294967296 > 3000)
    (c4 : ¬ fop.distance > 2 * H.ALARM_ZONE_CLOSE)
    (c5 : |fop.adj_alt_diff| < H.VERTICAL_SEPARATION)
    (c6 : ¬ fop.distance >
      (fop.speed + this_aircraft.speed) * (H.ALARM_TIME_LOW * H.GPS_MPS_PER_KNOT))
    (c7 : ¬ (|this_aircraft.turnrate| > 3 ∨ |fop.turnrate| > 3))
    (c8 : M.hypot
        (this_aircraft.speed * M.sin (M.D2R * this_aircraft.course)
          - fop.speed * M.sin (M.D2R * fop.course))
        (this_aircraft.speed * M.cos (M.D2R * this_aircraft.course)
          - fop.speed * M.cos (M.D2R * fop.course)) * H.GPS_MPS_PER_KNOT
      > H.ALARM_VECTOR_SPEED) :
    ∀ V dir : ℚ,
      V = (M.hypot
          (this_aircraft.speed * M.sin (M.D2R * this_aircraft.course)
            - fop.speed * M.sin (M.D2R * fop.course))
          (this_aircraft.speed * M.cos (M.D2R * this_aircraft.course)
            - fop.speed * M.cos (M.D2R * fop.course)) * H.GPS_MPS_PER_KNOT) →
      dir = (M.R2D * M.atan2
          (this_aircraft.speed * M.sin (M.D2R * this_aircraft.course)
            - fop.speed * M.sin (M.D2R * fop.course))
          (this_aircraft.speed * M.cos (M.D2R * this_aircraft.course)
            - fop.speed * M.cos (M.D2R * fop.course))) →
      (Alarm_Vector M H t0 this_aircraft fop).1 =
        band_level H
          (if |(if dir < 0 then dir + 360 else dir) - fop.bearing| > 180 then
            360 - |(if dir < 0 then dir + 360 else dir) - fop.bearing|
           else |(if dir < 0 then dir + 360 else dir) - fop.bearing|)
          V
          ((if fop.adj_distance < fop.distance then fop.distance else fop.adj_distance) / V) := by
  intro V dir hV hdir
  subst hV hdir
  have h1 : (Alarm_Vector M H t0 this_aircraft fop).1
      = (vector_level M H t0 this_aircraft fop).1 := by
    unfold Alarm_Vector
    have c5' : ¬ |fop.adj_alt_diff| > H.VERTICAL_SEPARATION := not_lt.2 (le_of_lt c5)
    simp only
    rw [if_neg c1, if_neg c2, if_neg c3, if_neg c4, if_neg c5', if_neg c6, if_neg c7]
    split_ifs <;> rfl
  rw [h1]
  unfold vector_level
  simp only
  rw [if_pos c5, if_pos c8]

/-- Claim C27. In the vector path of `Alarm_Vector`, for a fixed time to impact `t` and a
fixed relative speed, the level of the angle band is non-increasing in the angle between
the incoming direction and the bearing to the target (with `ALARM_TIME_IMPORTANT ≤
ALARM_TIME_LOW ≤ ALARM_TIME_CLOSE`), and for an angle of at least `3*ALARM_VECTOR_ANGLE`
(with `ALARM_VECTOR_ANGLE ≥ 0`) the level is None. -/
theorem band_level_antitone (H : Header) (v t a1 a2 : ℚ)
    (hIL : H.ALARM_TIME_IMPORTANT ≤ H.ALARM_TIME_LOW)
    (hLC : H.ALARM_TIME_LOW ≤ H.ALARM_TIME_CLOSE) (h12 : a1 ≤ a2) :
    band_level H a2 v t ≤ band_level H a1 v t ∧
    (0 ≤ H.ALARM_VECTOR_ANGLE → 3 * H.ALARM_VECTOR_ANGLE ≤ a2 →
      band_level H a2 v t = ALARM_LEVEL_NONE) := by
  constructor
  · unfold band_level
    by_cases b1 : a2 < H.ALARM_VECTOR_ANGLE ∧ v > 3 * H.ALARM_VECTOR_SPEED
    · have b1' : a1 < H.ALARM_VECTOR_ANGLE ∧ v > 3 * H.ALARM_VECTOR_SPEED :=
        ⟨lt_of_le_of_lt h12 b1.1, b1.2⟩
      rw [if_pos b1, if_pos b1']
    · rw [if_neg b1]
      by_cases b2 : a2 < 2 * H.ALARM_VECTOR_ANGLE
      · have b2' : a1 < 2 * H.ALARM_VECTOR_ANGLE := lt_of_le_of_lt h12 b2
        rw [if_pos b2]
        by_cases d1 : a1 < H.ALARM_VECTOR_ANGLE ∧ v > 3 * H.ALARM_VECTOR_SPEED
        · rw [if_pos d1]
          split_ifs <;> first | decide | (exfalso; linarith)
        · rw [if_neg d1, if_pos b2']
      · rw [if_neg b2]
        by_cases b3 : a2 < 3 * H.ALARM_VECTOR_ANGLE
        · have b3' : a1 < 3 * H.ALARM_VECTOR_ANGLE := lt_of_le_of_lt h12 b3
          rw [if_pos b3]
          by_cases d1 : a1 < H.ALARM_VECTOR_ANGLE ∧ v > 3 * H.ALARM_VECTOR_SPEED
          · rw [if_pos d1]
            split_ifs <;> first | decide | (exfalso; linarith)
          · rw [if_neg d1]
            by_cases d2 : a1 < 2 * H.ALARM_VECTOR_ANGLE
            · rw [if_pos d2]
              split_ifs <;> first | decide | (exfalso; linarith)
            · rw [if_neg d2, if_pos b3']
        · rw [if_neg b3]
          split_ifs <;> decide
  · intro h0 h3
    unfold band_level
    have n1 : ¬ (a2 < H.ALARM_VECTOR_ANGLE ∧ v > 3 * H.ALARM_VECTOR_SPEED) := by
      rintro ⟨h, -⟩; linarith
    have n2 : ¬ a2 < 2 * H.ALARM_VECTOR_ANGLE := by intro h; linarith
    have n3 : ¬ a2 < 3 * H.ALARM_VECTOR_ANGLE := by intro h; linarith
    rw [if_neg n1, if_neg n2, if_neg n3]

/-- Witness of C27: 8 s to impact at 30 m/s; head-on (angle 5) is Urgent, at 15 degrees
Important, at 25 degrees Low, at 35 degrees None. -/
theorem band_level_antitone_witness :
    band_level stdHeader 5 30 8 = ALARM_LEVEL_URGENT ∧
    band_level stdHeader 15 30 8 = ALARM_LEVEL_IMPORTANT ∧
    band_level stdHeader 25 30 8 = ALARM_LEVEL_LOW ∧
    band_level stdHeader 35 30 8 = ALARM_LEVEL_NONE ∧
    band_level stdHeader 15 30 8 ≤ band_level stdHeader 5 30 8 :=
  ⟨by decide!, by decide!, by decide!, by decide!,
   (band_level_antitone stdHeader 30 8 5 15 (by decide!) (by decide!) (by decide!)).1⟩

/-! ## The simulator of `Alarm_Latest` -/

/-- One more pass of the loop. -/
theorem proj_after_succ (u : proj_setup) (n : Nat) :
    proj_after u (n + 1)
      = proj_step u.thisvx u.thisvy u.thatvx u.thatvy u.i0 u.j0 u.sqdz (proj_after u n) n := by
  unfold proj_after
  rw [List.range_succ, List.foldl_append]
  rfl

/-- The loop of `Alarm_Latest` after `n` passes: the position is the projected one; either
no pass gave a squared distance below the initial `minsqdist` and the locals are as before
the loop, or `mintime` is the first pass that gave the smallest squared distance,
`minsqdist` is that distance and `vxmin`, `vymin` the relative velocity of that pass. -/
theorem proj_after_spec (u : proj_setup) (n : Nat) :
    (proj_after u n).dx = (proj_pos u n).1 ∧ (proj_after u n).dy = (proj_pos u n).2 ∧
    (∀ t, t < n → (proj_after u n).minsqdist ≤ proj_sqdist u t) ∧
    (((proj_after u n).minsqdist = u.start.minsqdist ∧
        (proj_after u n).mintime = u.start.mintime ∧
        (proj_after u n).vxmin = u.start.vxmin ∧ (proj_after u n).vymin = u.start.vymin) ∨
      ∃ t, t < n ∧ (proj_after u n).mintime = (t : Int) ∧
        (proj_after u n).minsqdist = proj_sqdist u t ∧
        proj_sqdist u t < u.start.minsqdist ∧
        (∀ t', t' < t → proj_sqdist u t < proj_sqdist u t') ∧
        (proj_after u n).vxmin = u.thatvx.getD (u.i0 + t) 0 - u.thisvx.getD (u.j0 + t) 0 ∧
        (proj_after u n).vymin = u.thatvy.getD (u.i0 + t) 0 - u.thisvy.getD (u.j0 + t) 0) := by
  induction n with
  | zero =>
    refine ⟨rfl, rfl, fun t ht => absurd ht (Nat.not_lt_zero t), Or.inl ⟨rfl, rfl, rfl, rfl⟩⟩
  | succ n ih =>
    obtain ⟨hx, hy, hmin, hcase⟩ := ih
    have hsq : proj_sqdist u n =
        ((proj_after u n).dx + (u.thatvx.getD (u.i0 + n) 0 - u.thisvx.getD (u.j0 + n) 0)) *
          ((proj_after u n).dx + (u.thatvx.getD (u.i0 + n) 0 - u.thisvx.getD (u.j0 + n) 0))
        + ((proj_after u n).dy + (u.thatvy.getD (u.i0 + n) 0 - u.thisvy.getD (u.j0 + n) 0)) *
          ((proj_after u n).dy + (u.thatvy.getD (u.i0 + n) 0 - u.thisvy.getD (u.j0 + n) 0))
        + u.sqdz := by
      rw [hx, hy]; rfl
    rw [proj_after_succ]
    unfold proj_step
    simp only
    rw [← hsq]
    by_cases hlt : proj_sqdist u n < (proj_after u n).minsqdist
    · rw [if_pos hlt]
      simp only
      refine ⟨by rw [hx]; rfl, by rw [hy]; rfl, ?_, Or.inr ⟨n, Nat.lt_succ_self n, rfl, rfl, ?_, ?_, rfl, rfl⟩⟩
      · intro t ht
        rcases Nat.lt_succ_iff_lt_or_eq.1 ht with h | h
        · exact le_of_lt (lt_of_lt_of_le hlt (hmin t h))
        · rw [h]
      · rcases hcase with ⟨h1, -⟩ | ⟨t, -, -, h2, h3, -⟩
        · rw [← h1]; exact hlt
        · rw [h2] at hlt; exact lt_trans hlt h3
      · intro t' ht'
        exact lt_of_lt_of_le hlt (hmin t' ht')
    · rw [if_neg hlt]
      simp only
      refine ⟨by rw [hx]; rfl, by rw [hy]; rfl, ?_, ?_⟩
      · intro t ht
        rcases Nat.lt_succ_iff_lt_or_eq.1 ht with h | h
        · exact hmin t h
        · rw [h]; exact not_lt.1 hlt
      · rcases hcase with h | ⟨t, h1, h2, h3, h4, h5, h6, h7⟩
        · exact Or.inl h
        · exact Or.inr ⟨t, Nat.lt_succ_of_lt h1, h2, h3, h4, h5, h6, h7⟩

/-- The projection of `Alarm_Latest` is the loop run for 18 passes. -/
theorem latest_project_eq (H : Header) (this_aircraft fop : container_t) (adjdz : Int) :
    latest_project H this_aircraft fop adjdz =
      ((latest_setup H this_aircraft fop adjdz).cursqdist,
       proj_after (latest_setup H this_aircraft fop adjdz) 18) := rfl

/-- The locals before the loop: `minsqdist` is the square of 200 m, in quarter-metres. -/
theorem latest_setup_start (H : Header) (this_aircraft fop : container_t) (adjdz : Int) :
    (latest_setup H this_aircraft fop adjdz).start.minsqdist = 200 * 200 * 4 * 4 ∧
    (latest_setup H this_aircraft fop adjdz).start.vxmin = 0 ∧
    (latest_setup H this_aircraft fop adjdz).start.vymin = 0 := ⟨rfl, rfl, rfl⟩

/-- The level of `Alarm_Latest` before the reduction is between None and Urgent, and None
when the minimum squared distance is not below the square of 120 m. -/
theorem latest_band_range (H : Header) (minsqdist mintime : Int) (g tw : Bool) :
    ALARM_LEVEL_NONE ≤ latest_band H minsqdist mintime g tw ∧
    latest_band H minsqdist mintime g tw ≤ ALARM_LEVEL_URGENT ∧
    (120 * 120 * 4 * 4 ≤ minsqdist → latest_band H minsqdist mintime g tw = ALARM_LEVEL_NONE) ∧
    ((g = true ∨ tw = true) → 40 * 40 * 4 * 4 ≤ minsqdist →
      latest_band H minsqdist mintime g tw = ALARM_LEVEL_NONE) := by
  unfold latest_band
  refine ⟨?_, ?_, ?_, ?_⟩
  · split_ifs <;> decide
  · split_ifs <;> decide
  · intro h
    have n1 : ¬ minsqdist < 40 * 40 * 4 * 4 := by omega
    have n2 : ¬ (minsqdist < 70 * 70 * 4 * 4 ∧ g = false ∧ tw = false) := by
      rintro ⟨h2, -⟩; omega
    have n3 : ¬ (minsqdist < 120 * 120 * 4 * 4 ∧ g = false ∧ tw = false) := by
      rintro ⟨h2, -⟩; omega
    rw [if_neg n1, if_neg n2, if_neg n3]
  · intro hg h
    have n1 : ¬ minsqdist < 40 * 40 * 4 * 4 := by omega
    have n2 : ¬ (minsqdist < 70 * 70 * 4 * 4 ∧ g = false ∧ tw = false) := by
      rintro ⟨-, h2, h3⟩
      rcases hg with hg | hg
      · rw [hg] at h2; exact Bool.noConfusion h2
      · rw [hg] at h3; exact Bool.noConfusion h3
    have n3 : ¬ (minsqdist < 120 * 120 * 4 * 4 ∧ g = false ∧ tw = false) := by
      rintro ⟨-, h2, h3⟩
      rcases hg with hg | hg
      · rw [hg] at h2; exact Bool.noConfusion h2
      · rw [hg] at h3; exact Bool.noConfusion h3
    rw [if_neg n1, if_neg n2, if_neg n3]

/-- The reduction for a low relative speed: the level stays between None and the level it
started from, and is at most Important, Low, Close when the squared relative speed is below
the square of 6, 4, 2 m/s (in quarter-metres per second). -/
theorem slow_reduction_range (rval vx vy : Int) (h0 : ALARM_LEVEL_NONE ≤ rval)
    (h4 : rval ≤ ALARM_LEVEL_URGENT) :
    ALARM_LEVEL_NONE ≤ slow_reduction rval vx vy ∧ slow_reduction rval vx vy ≤ rval ∧
    (vx * vx + vy * vy < 6 * 6 * 4 * 4 → slow_reduction rval vx vy ≤ ALARM_LEVEL_IMPORTANT) ∧
    (vx * vx + vy * vy < 4 * 4 * 4 * 4 → slow_reduction rval vx vy ≤ ALARM_LEVEL_LOW) ∧
    (vx * vx + vy * vy < 2 * 2 * 4 * 4 → slow_reduction rval vx vy ≤ ALARM_LEVEL_CLOSE) := by
  unfold slow_reduction
  simp only [ALARM_LEVEL_NONE, ALARM_LEVEL_URGENT, ALARM_LEVEL_IMPORTANT, ALARM_LEVEL_LOW,
    ALARM_LEVEL_CLOSE] at *
  generalize vx * vx + vy * vy = q
  refine ⟨?_, ?_, ?_, ?_, ?_⟩
  · split_ifs <;> omega
  · split_ifs <;> omega
  · intro h; split_ifs <;> omega
  · intro h; split_ifs <;> omega
  · intro h; split_ifs <;> omega

/-- The level of the simulator of `Alarm_Latest`: None, or the level of the closest point
reduced for a low relative speed, in which case the aircraft get closer than they are and
not in the first pass. -/
theorem latest_sim_level (H : Header) (this_aircraft fop : container_t) :
    latest_sim H this_aircraft fop = (ALARM_LEVEL_NONE, fop) ∨
    (¬ ((latest_setup H this_aircraft fop (latest_adjdz H this_aircraft fop)).cursqdist
          ≤ (proj_after (latest_setup H this_aircraft fop
              (latest_adjdz H this_aircraft fop)) 18).minsqdist ∨
        (proj_after (latest_setup H this_aircraft fop
          (latest_adjdz H this_aircraft fop)) 18).mintime = 0) ∧
      (latest_sim H this_aircraft fop).1 =
        slow_reduction
          (latest_band H
            (proj_after (latest_setup H this_aircraft fop
              (latest_adjdz H this_aircraft fop)) 18).minsqdist
            (proj_after (latest_setup H this_aircraft fop
              (latest_adjdz H this_aircraft fop)) 18).mintime
            (decide (|this_aircraft.circling + fop.circling| = 2))
            (towing_pair H this_aircraft fop))
          (proj_after (latest_setup H this_aircraft fop
            (latest_adjdz H this_aircraft fop)) 18).vxmin
          (proj_after (latest_setup H this_aircraft fop
            (latest_adjdz H this_aircraft fop)) 18).vymin ∧
      ((latest_sim H this_aircraft fop).1 < ALARM_LEVEL_LOW →
        (latest_sim H this_aircraft fop).2 = fop)) := by
  unfold latest_sim
  simp only
  by_cases h1 : latest_adjdz H this_aircraft fop > 60
  · rw [if_pos h1]
    exact Or.inl rfl
  · rw [if_neg h1, latest_project_eq]
    unfold latest_result
    simp only
    by_cases h2 : (latest_setup H this_aircraft fop (latest_adjdz H this_aircraft fop)).cursqdist
          ≤ (proj_after (latest_setup H this_aircraft fop
              (latest_adjdz H this_aircraft fop)) 18).minsqdist ∨
        (proj_after (latest_setup H this_aircraft fop
          (latest_adjdz H this_aircraft fop)) 18).mintime = 0
    · rw [if_pos h2]
      exact Or.inl rfl
    · rw [if_neg h2]
      right
      refine ⟨h2, ?_⟩
      split_ifs with h3
      · exact ⟨rfl, fun h4 => absurd h3.1 (not_le.2 h4)⟩
      · exact ⟨rfl, fun _ => rfl⟩

/-- Claim C28. In the simulator of `Alarm_Latest`, if none of the 18 projected one-second
steps gives a weighted 3-D squared distance strictly smaller than the current one, or the
minimum is reached at the first step (t = 0), the result is None (and the target is left
as it is). -/
theorem latest_sim_not_closing (H : Header) (this_aircraft fop : container_t)
    (h : (∀ t, t < 18 →
        (latest_setup H this_aircraft fop (latest_adjdz H this_aircraft fop)).cursqdist
          ≤ proj_sqdist (latest_setup H this_aircraft fop
              (latest_adjdz H this_aircraft fop)) t) ∨
      (∀ t, t < 18 →
        proj_sqdist (latest_setup H this_aircraft fop (latest_adjdz H this_aircraft fop)) 0
          ≤ proj_sqdist (latest_setup H this_aircraft fop
              (latest_adjdz H this_aircraft fop)) t)) :
    latest_sim H this_aircraft fop = (ALARM_LEVEL_NONE, fop) := by
  rcases latest_sim_level H this_aircraft fop with h0 | ⟨hc, hl, hf⟩
  · exact h0
  · obtain ⟨-, -, hmin, hcase⟩ :=
      proj_after_spec (latest_setup H this_aircraft fop (latest_adjdz H this_aircraft fop)) 18
    have hst := (latest_setup_start H this_aircraft fop (latest_adjdz H this_aircraft fop)).1
    generalize latest_setup H this_aircraft fop (latest_adjdz H this_aircraft fop) = u
      at h hc hl hmin hcase hst
    rcases hcase with ⟨h1, -⟩ | ⟨t, ht, h1, h2, h3, h4, -⟩
    · have hb := (latest_band_range H (proj_after u 18).minsqdist (proj_after u 18).mintime
        (decide (|this_aircraft.circling + fop.circling| = 2))
        (towing_pair H this_aircraft fop)).2.2.1 (by rw [h1, hst]; decide)
      rw [hb] at hl
      have hz : slow_reduction ALARM_LEVEL_NONE (proj_after u 18).vxmin (proj_after u 18).vymin
          = ALARM_LEVEL_NONE := by
        unfold slow_reduction
        simp only [ALARM_LEVEL_NONE, gt_iff_lt, lt_self_iff_false, if_false]
      rw [hz] at hl
      have h2 := hf (by rw [hl]; decide)
      exact Prod.ext hl h2
    · exfalso
      rcases h with h | h
      · exact hc (Or.inl (by rw [h2]; exact h t ht))
      · cases t with
        | zero => exact hc (Or.inr h1)
        | succ t =>
          have := h4 0 (Nat.succ_pos t)
          have := h (t + 1) ht
          omega

/-- Claim C29. When the two aircraft are gaggling (both circling in the same direction) or
form a towing pairing, the simulator of `Alarm_Latest` returns a level above None only if
the minimum projected weighted 3-D squared distance is below the square of 40 m
(`40*40*4*4` in quarter-metres): some step gives such a distance, the smallest of the 18
steps, which is the `minsqdist` the level is taken from. -/
theorem latest_sim_gaggle (H : Header) (this_aircraft fop : container_t)
    (hg : |this_aircraft.circling + fop.circling| = 2 ∨
      towing_pair H this_aircraft fop = true)
    (hl : (latest_sim H this_aircraft fop).1 > ALARM_LEVEL_NONE) :
    (latest_project H this_aircraft fop (latest_adjdz H this_aircraft fop)).2.minsqdist
      < 40 * 40 * 4 * 4 ∧
    ∃ t, t < 18 ∧
      proj_sqdist (latest_setup H this_aircraft fop (latest_adjdz H this_aircraft fop)) t
        = (latest_project H this_aircraft fop (latest_adjdz H this_aircraft fop)).2.minsqdist ∧
      ∀ t', t' < 18 →
        proj_sqdist (latest_setup H this_aircraft fop (latest_adjdz H this_aircraft fop)) t
          ≤ proj_sqdist (latest_setup H this_aircraft fop
              (latest_adjdz H this_aircraft fop)) t' := by
  rw [latest_project_eq]
  simp only
  rcases latest_sim_level H this_aircraft fop with h0 | ⟨-, he, -⟩
  · rw [h0] at hl
    exact absurd hl (lt_irrefl _)
  · obtain ⟨-, -, hmin, hcase⟩ :=
      proj_after_spec (latest_setup H this_aircraft fop (latest_adjdz H this_aircraft fop)) 18
    have hst := (latest_setup_start H this_aircraft fop (latest_adjdz H this_aircraft fop)).1
    generalize latest_setup H this_aircraft fop (latest_adjdz H this_aircraft fop) = u
      at he hmin hcase hst
    obtain ⟨b0, b4, -, bg⟩ := latest_band_range H (proj_after u 18).minsqdist
      (proj_after u 18).mintime (decide (|this_aircraft.circling + fop.circling| = 2))
      (towing_pair H this_aircraft fop)
    obtain ⟨-, r1, -⟩ := slow_reduction_range _ (proj_after u 18).vxmin
      (proj_after u 18).vymin b0 b4
    have hband : latest_band H (proj_after u 18).minsqdist (proj_after u 18).mintime
        (decide (|this_aircraft.circling + fop.circling| = 2))
        (towing_pair H this_aircraft fop) > ALARM_LEVEL_NONE := by
      rw [he] at hl
      exact lt_of_lt_of_le hl r1
    have hlt : (proj_after u 18).minsqdist < 40 * 40 * 4 * 4 := by
      by_contra hcon
      have := bg (by
        rcases hg with hg | hg
        · exact Or.inl (decide_eq_true hg)
        · exact Or.inr hg) (not_lt.1 hcon)
      rw [this] at hband
      exact absurd hband (lt_irrefl _)
    refine ⟨hlt, ?_⟩
    rcases hcase with ⟨h1, -⟩ | ⟨t, ht, -, h2, -, -, -⟩
    · rw [h1, hst] at hlt
      exact absurd hlt (by decide)
    · exact ⟨t, ht, h2.symm, fun t' ht' => by rw [← h2]; exact hmin t' ht'⟩

/-- Claim C30. The level returned by the simulator of `Alarm_Latest` is at most Important
when the relative speed at the closest point is below 6 m/s, at most Low when it is below
4 m/s, and at most Close when it is below 2 m/s (`vxmin`, `vymin` are in quarter-metres per
second); it is never below None, nor above Urgent. -/
theorem latest_sim_slow (H : Header) (this_aircraft fop : container_t) (vx vy : Int)
    (hx : vx = (latest_project H this_aircraft fop (latest_adjdz H this_aircraft fop)).2.vxmin)
    (hy : vy = (latest_project H this_aircraft fop
      (latest_adjdz H this_aircraft fop)).2.vymin) :
    (vx * vx + vy * vy < 6 * 6 * 4 * 4 →
      (latest_sim H this_aircraft fop).1 ≤ ALARM_LEVEL_IMPORTANT) ∧
    (vx * vx + vy * vy < 4 * 4 * 4 * 4 →
      (latest_sim H this_aircraft fop).1 ≤ ALARM_LEVEL_LOW) ∧
    (vx * vx + vy * vy < 2 * 2 * 4 * 4 →
      (latest_sim H this_aircraft fop).1 ≤ ALARM_LEVEL_CLOSE) ∧
    ALARM_LEVEL_NONE ≤ (latest_sim H this_aircraft fop).1 ∧
    (latest_sim H this_aircraft fop).1 ≤ ALARM_LEVEL_URGENT := by
  rw [latest_project_eq] at hx hy
  simp only at hx hy
  subst hx hy
  rcases latest_sim_level H this_aircraft fop with h0 | ⟨-, he, -⟩
  · rw [h0]
    show (_ → ALARM_LEVEL_NONE ≤ ALARM_LEVEL_IMPORTANT) ∧ (_ → ALARM_LEVEL_NONE ≤ ALARM_LEVEL_LOW) ∧
      (_ → ALARM_LEVEL_NONE ≤ ALARM_LEVEL_CLOSE) ∧ ALARM_LEVEL_NONE ≤ ALARM_LEVEL_NONE ∧
      ALARM_LEVEL_NONE ≤ ALARM_LEVEL_URGENT
    exact ⟨fun _ => by decide, fun _ => by decide, fun _ => by decide, by decide, by decide⟩
  · rw [he]
    obtain ⟨b0, b4, -, -⟩ := latest_band_range H
      (proj_after (latest_setup H this_aircraft fop
        (latest_adjdz H this_aircraft fop)) 18).minsqdist
      (proj_after (latest_setup H this_aircraft fop
        (latest_adjdz H this_aircraft fop)) 18).mintime
      (decide (|this_aircraft.circling + fop.circling| = 2))
      (towing_pair H this_aircraft fop)
    obtain ⟨r0, r1, r6, r4, r2⟩ := slow_reduction_range _
      (proj_after (latest_setup H this_aircraft fop
        (latest_adjdz H this_aircraft fop)) 18).vxmin
      (proj_after (latest_setup H this_aircraft fop
        (latest_adjdz H this_aircraft fop)) 18).vymin b0 b4
    exact ⟨r6, r4, r2, r0, le_trans r1 b4⟩

/-- Witness of C28: a target 600 m ahead flying at the same velocity: no step brings the
aircraft closer, the result is None. -/
theorem latest_sim_not_closing_witness :
    latest_sim stdHeader (simOwn 0) (simTarget 600 120 0)
      = (ALARM_LEVEL_NONE, simTarget 600 120 0) :=
  latest_sim_not_closing stdHeader (simOwn 0) (simTarget 600 120 0) (Or.inl (by decide!))

/-- Witness of C29: two aircraft circling the same way, head-on 600 m apart at 30 m/s each:
the level is Important, and the projected distance goes below 40 m. -/
theorem latest_sim_gaggle_witness :
    (latest_sim stdHeader (simOwn 1) (simTarget 600 (-120) 1)).1 = ALARM_LEVEL_IMPORTANT ∧
    (latest_project stdHeader (simOwn 1) (simTarget 600 (-120) 1)
      (latest_adjdz stdHeader (simOwn 1) (simTarget 600 (-120) 1))).2.minsqdist
      < 40 * 40 * 4 * 4 :=
  ⟨by decide!,
   (latest_sim_gaggle stdHeader (simOwn 1) (simTarget 600 (-120) 1) (Or.inl (by decide))
      (by decide!)).1⟩

/-- Witness of C30: a target 100 m ahead, 5 m/s slower: the closest point, after 18 s, is
reached at a relative speed of 5 m/s, and the level is Close. -/
theorem latest_sim_slow_witness :
    (latest_sim stdHeader (simOwn 0) (simTarget 100 100 0)).1 = ALARM_LEVEL_CLOSE ∧
    (latest_sim stdHeader (simOwn 0) (simTarget 100 100 0)).1 ≤ ALARM_LEVEL_IMPORTANT :=
  ⟨by decide!,
   (latest_sim_slow stdHeader (simOwn 0) (simTarget 100 100 0) 0 (-20) (by decide!)
      (by decide!)).1 (by decide)⟩

/-! ## The levels stay in their range -/

/-- None is a level of the range. -/
theorem LevelOK_none : LevelOK ALARM_LEVEL_NONE :=
  ⟨le_refl _, by decide⟩

/-- `Alarm_None` returns None and leaves `alert_level` alone. -/
theorem Alarm_None_LevelSafe : LevelSafe Alarm_None :=
  fun _ _ => ⟨LevelOK_none, fun h => h⟩

/-- `Alarm_Distance` returns a level of the range and decrements `alert_level` only above
None. -/
theorem Alarm_Distance_LevelSafe (H : Header) : LevelSafe (Alarm_Distance H) := by
  intro t f
  constructor
  · rw [Alarm_Distance_level]
    unfold LevelOK
    split_ifs <;> decide
  · unfold LevelOK Alarm_Distance
    simp only [ALARM_LEVEL_NONE, ALARM_LEVEL_URGENT]
    intro h
    split_ifs <;> simp only <;> omega

/-- `Alarm_Vector` returns a level of the range and decrements `alert_level` only above
None. -/
theorem Alarm_Vector_LevelSafe (M : Libm) (H : Header) (t0 : ℚ) :
    LevelSafe (Alarm_Vector M H t0) := by
  intro t f
  have hv : LevelOK (vector_level M H t0 t f).1 := by
    unfold vector_level
    simp only
    split_ifs
    all_goals first
      | exact band_level_range H _ _ _
      | exact LevelOK_none
  have hn : LevelOK ALARM_LEVEL_NONE := LevelOK_none
  obtain ⟨d1, d2⟩ := Alarm_Distance_LevelSafe H t f
  unfold Alarm_Vector
  simp only
  split_ifs
  all_goals first
    | exact ⟨d1, d2⟩
    | exact ⟨hn, fun h => h⟩
    | exact ⟨hv, fun h => h⟩
    | (refine ⟨hv, fun h => ?_⟩
       unfold LevelOK at h ⊢
       simp only [ALARM_LEVEL_NONE, ALARM_LEVEL_URGENT] at *
       omega)

/-- The simulator of `Alarm_Latest` returns a level of the range and decrements
`alert_level` only above None. -/
theorem latest_sim_LevelSafe (H : Header) (t f : container_t) :
    LevelOK (latest_sim H t f).1 ∧
    (LevelOK f.alert_level → LevelOK (latest_sim H t f).2.alert_level) := by
  have hl : LevelOK (latest_sim H t f).1 := by
    rcases latest_sim_level H t f with h0 | ⟨-, he, -⟩
    · rw [h0]; exact LevelOK_none
    · rw [he]
      obtain ⟨b0, b4, -, -⟩ := latest_band_range H
        (proj_after (latest_setup H t f (latest_adjdz H t f)) 18).minsqdist
        (proj_after (latest_setup H t f (latest_adjdz H t f)) 18).mintime
        (decide (|t.circling + f.circling| = 2)) (towing_pair H t f)
      obtain ⟨r0, r1, -⟩ := slow_reduction_range _
        (proj_after (latest_setup H t f (latest_adjdz H t f)) 18).vxmin
        (proj_after (latest_setup H t f (latest_adjdz H t f)) 18).vymin b0 b4
      exact ⟨r0, le_trans r1 b4⟩
  refine ⟨hl, fun h => ?_⟩
  unfold latest_sim latest_result
  simp only
  unfold LevelOK at h ⊢
  simp only [ALARM_LEVEL_NONE, ALARM_LEVEL_URGENT] at *
  split_ifs <;> simp only <;> omega

/-- `Alarm_Latest` returns a level of the range and decrements `alert_level` only above
None, as far as `project_that` leaves `alert_level` alone. -/
theorem Alarm_Latest_LevelSafe (M : Libm) (H : Header)
    (project_that : container_t → container_t → container_t) (t0 : ℚ)
    (hp : ∀ t f, (project_that t f).alert_level = f.alert_level) :
    LevelSafe (Alarm_Latest M H project_that t0) := by
  intro t f
  have hn : LevelOK ALARM_LEVEL_NONE := LevelOK_none
  obtain ⟨d1, d2⟩ := Alarm_Distance_LevelSafe H t f
  obtain ⟨v1, v2⟩ := Alarm_Vector_LevelSafe M H t0 t f
  obtain ⟨p1, p2⟩ := Alarm_Vector_LevelSafe M H t0 t (project_that t f)
  obtain ⟨s1, s2⟩ := latest_sim_LevelSafe H t (project_that t f)
  rw [hp] at p2 s2
  unfold Alarm_Latest
  simp only
  by_cases c1 : f.distance > 2 * H.ALARM_ZONE_CLOSE
  · rw [if_pos c1]; exact ⟨hn, fun h => h⟩
  rw [if_neg c1]
  by_cases c2 : f.tx_type ≤ H.TX_TYPE_S
  · rw [if_pos c2]; exact ⟨d1, d2⟩
  rw [if_neg c2]
  by_cases c3 : f.speed = 0
  · rw [if_pos c3]; exact ⟨d1, d2⟩
  rw [if_neg c3]
  by_cases c4 : f.tx_type = H.TX_TYPE_TISB ∨ f.relayed = true
  · rw [if_pos c4]; exact ⟨v1, v2⟩
  rw [if_neg c4]
  by_cases c5 : f.distance > (f.speed + t.speed) * (H.ALARM_TIME_LOW * H.GPS_MPS_PER_KNOT)
  · rw [if_pos c5]; exact ⟨hn, fun h => h⟩
  rw [if_neg c5]
  split_ifs
  · exact ⟨hn, fun h => h⟩
  · exact ⟨v1, v2⟩
  · exact ⟨p1, p2⟩
  · exact ⟨s1, s2⟩

/-- The block `if (Alarm_Level)` keeps the levels of the entry in the range. -/
theorem alarm_eval_LevelOK (env : Env) (timer : Nat) (f : container_t)
    (hs : ∀ alg, env.Alarm_Level = some alg → LevelSafe alg)
    (h1 : LevelOK f.alarm_level) (h2 : LevelOK f.alert_level) :
    LevelOK (alarm_eval env timer f).1.alarm_level ∧
    LevelOK (alarm_eval env timer f).1.alert_level := by
  unfold alarm_eval
  cases hA : env.Alarm_Level with
  | none => exact ⟨h1, h2⟩
  | some alg =>
    obtain ⟨a1, a2⟩ := hs alg hA env.ThisAircraft f
    have a3 := a2 h2
    simp only
    unfold LevelOK at *
    simp only [ALARM_LEVEL_NONE, ALARM_LEVEL_URGENT] at *
    split_ifs <;> dsimp only at * <;> omega

/-- `Traffic_Update` keeps the levels of the entry in the range. -/
theorem Traffic_Update_LevelOK (H : Header) (env : Env) (timer : Nat) (f : container_t)
    (hs : ∀ alg, env.Alarm_Level = some alg → LevelSafe alg)
    (h1 : LevelOK f.alarm_level) (h2 : LevelOK f.alert_level) :
    LevelOK (Traffic_Update H env timer f).1.alarm_level ∧
    LevelOK (Traffic_Update H env timer f).1.alert_level := by
  obtain ⟨c1, c2⟩ := Traffic_Update_cases H env timer f
  cases he : evaluates H env f with
  | false =>
    obtain ⟨e1, e2, -⟩ := c2 he
    rw [e1]
    refine ⟨?_, h2⟩
    rcases e2 with e2 | e2
    · rw [e2]; exact LevelOK_none
    · rw [e2]; exact h1
  | true =>
    obtain ⟨f', e1, e2, -, -, hf⟩ := c1 he
    rw [hf]
    exact alarm_eval_LevelOK env timer f' hs (by rw [e2]; exact h1) (by rw [e1]; exact h2)

/-- `Traffic_loop` keeps the levels of every entry in the range. -/
theorem Traffic_loop_LevelOK (M : Libm) (H : Header) (env : Env) (w : World)
    (h : ∀ c ∈ w.Container, LevelOK c.alarm_level ∧ LevelOK c.alert_level) :
    ∀ c ∈ (Traffic_loop M H env w).1.Container,
      LevelOK c.alarm_level ∧ LevelOK c.alert_level := by
  have hsweep : ∀ c ∈ (w.Container.map fun fop =>
      if fop.addr ≠ 0 ∧ expired H env.OurTime fop = true then { fop with addr := 0 }
      else fop), LevelOK c.alarm_level ∧ LevelOK c.alert_level := by
    intro c hc
    obtain ⟨c0, hc0, rfl⟩ := List.mem_map.1 hc
    have := h c0 hc0
    split_ifs <;> exact this
  rcases Traffic_loop_view M H env w with ⟨-, h2⟩ | ⟨p, c0, b, y, hp, -, -, -, -, hC⟩
  · rcases h2 with h2 | h2
    · rw [h2]; exact h
    · rw [h2]; exact hsweep
  · rw [hC]
    intro c hc
    rcases List.mem_or_eq_of_mem_set hc with hc | hc
    · exact hsweep c hc
    · rw [hc]
      have := (h c0 (List.getElem?_mem hp)).1
      exact ⟨this, this⟩

/-- Claim C26. Each of `Alarm_None`, `Alarm_Distance`, `Alarm_Vector` and `Alarm_Latest`
returns a level in `{None, Close, Low, Important, Urgent}` and keeps `alert_level` in that
range, and with any of them selected (or none) every slot's `alarm_level` and
`alert_level` stay within the range under `Traffic_Update` and `Traffic_loop`; in
particular `alert_level` is never decremented below None. `project_that`, called by
`Alarm_Latest`, is taken to leave `alert_level` alone. -/
theorem levels_stay_in_range (M : Libm) (H : Header)
    (project_that : container_t → container_t → container_t) (t0 : ℚ)
    (hp : ∀ t f, (project_that t f).alert_level = f.alert_level) :
    (LevelSafe Alarm_None ∧ LevelSafe (Alarm_Distance H) ∧ LevelSafe (Alarm_Vector M H t0) ∧
      LevelSafe (Alarm_Latest M H project_that t0)) ∧
    (∀ (env : Env) (timer : Nat) (f : container_t),
      (env.Alarm_Level = none ∨ env.Alarm_Level = some Alarm_None ∨
        env.Alarm_Level = some (Alarm_Distance H) ∨
        env.Alarm_Level = some (Alarm_Vector M H t0) ∨
        env.Alarm_Level = some (Alarm_Latest M H project_that t0)) →
      LevelOK f.alarm_level → LevelOK f.alert_level →
      LevelOK (Traffic_Update H env timer f).1.alarm_level ∧
      LevelOK (Traffic_Update H env timer f).1.alert_level) ∧
    (∀ (env : Env) (w : World),
      (∀ c ∈ w.Container, LevelOK c.alarm_level ∧ LevelOK c.alert_level) →
      ∀ c ∈ (Traffic_loop M H env w).1.Container,
        LevelOK c.alarm_level ∧ LevelOK c.alert_level) := by
  have hL := Alarm_Latest_LevelSafe M H project_that t0 hp
  refine ⟨⟨Alarm_None_LevelSafe, Alarm_Distance_LevelSafe H, Alarm_Vector_LevelSafe M H t0, hL⟩,
    fun env timer f hA h1 h2 => ?_, fun env w h => Traffic_loop_LevelOK M H env w h⟩
  apply Traffic_Update_LevelOK H env timer f _ h1 h2
  intro alg ha
  rcases hA with hA | hA | hA | hA | hA
  all_goals rw [hA] at ha
  · exact Option.noConfusion ha
  · rw [← Option.some.inj ha]; exact Alarm_None_LevelSafe
  · rw [← Option.some.inj ha]; exact Alarm_Distance_LevelSafe H
  · rw [← Option.some.inj ha]; exact Alarm_Vector_LevelSafe M H t0
  · rw [← Option.some.inj ha]; exact hL

/-- Witness of C26: `Alarm_Latest` on two aircraft head-on 300 m apart returns Urgent and
lowers `alert_level` from Important to Low; with `alert_level` at None it stays there. -/
theorem levels_stay_in_range_witness :
    (Alarm_Latest testLibm stdHeader (fun _ f => f) 0 (simOwn 0) (simTarget 300 (-120) 0)).1
      = ALARM_LEVEL_URGENT ∧
    (Alarm_Latest testLibm stdHeader (fun _ f => f) 0 (simOwn 0)
      (simTarget 300 (-120) 0)).2.alert_level = ALARM_LEVEL_LOW ∧
    (Alarm_Latest testLibm stdHeader (fun _ f => f) 0 (simOwn 0)
      { simTarget 300 (-120) 0 with alert_level := 0 }).2.alert_level = ALARM_LEVEL_NONE ∧
    LevelSafe (Alarm_Latest testLibm stdHeader (fun _ f => f) 0) :=
  ⟨by decide!, by decide!, by decide!,
   (levels_stay_in_range testLibm stdHeader (fun _ f => f) 0 (fun _ _ => rfl)).1.2.2.2⟩

/-! ## Eviction of the farthest entry -/

/-- The loop of `AddTraffic` over the entries from index `i` on: the accumulator is kept, no
entry that may be evicted being farther than `max_dist`; or the first of the farthest such
entries is selected. -/
theorem farthest_spec (fid : Nat) (l : List container_t) :
    ∀ (i : Nat) (acc : Option Nat × ℚ),
      (farthest fid i l acc = acc ∧ ∀ c ∈ l, evictable fid c → reach c ≤ acc.2) ∨
      ∃ p c, l[p]? = some c ∧ evictable fid c ∧
        farthest fid i l acc = (some (i + p), reach c) ∧ acc.2 < reach c ∧
        (∀ c' ∈ l, evictable fid c' → reach c' ≤ reach c) ∧
        (∀ q c', q < p → l[q]? = some c' → evictable fid c' → reach c' < reach c) := by
  induction l with
  | nil =>
    intro i acc
    exact Or.inl ⟨rfl, fun c hc => absurd hc (List.not_mem_nil c)⟩
  | cons x rest ih =>
    intro i acc
    have hreach : (if x.adj_distance < x.distance then x.distance else x.adj_distance)
        = reach x := by
      unfold reach
      split_ifs with h
      · exact (max_eq_left (le_of_lt h)).symm
      · exact (max_eq_right (not_lt.1 h)).symm
    by_cases hx : evictable fid x ∧ reach x > acc.2
    · have hstep : farthest fid i (x :: rest) acc
          = farthest fid (i + 1) rest (some i, reach x) := by
        show farthest fid (i + 1) rest _ = _
        have hx1 : x.alarm_level = ALARM_LEVEL_NONE ∧ x.addr ≠ fid ∧ x.relayed = false := hx.1
        simp only [hx1, hreach, hx.2, if_true, and_self, ne_eq, not_false_eq_true]
      rw [hstep]
      rcases ih (i + 1) (some i, reach x) with ⟨h1, h2⟩ | ⟨p, c, hp, hc, hr, hlt, hmax, hmin⟩
      · refine Or.inr ⟨0, x, by simp, hx.1, by rw [h1]; rfl, hx.2, ?_, ?_⟩
        · intro c' hc' hev
          rcases List.mem_cons.1 hc' with h | h
          · rw [h]
          · exact h2 c' h hev
        · intro q c' hq
          exact absurd hq (Nat.not_lt_zero q)
      · refine Or.inr ⟨p + 1, c, by simpa using hp, hc, ?_, lt_trans hx.2 hlt, ?_, ?_⟩
        · rw [hr]; congr 2; omega
        · intro c' hc' hev
          rcases List.mem_cons.1 hc' with h | h
          · rw [h]; exact le_of_lt hlt
          · exact hmax c' h hev
        · intro q c' hq hq' hev
          cases q with
          | zero =>
            have : x = c' := by simpa using hq'
            rw [← this]; exact hlt
          | succ q => exact hmin q c' (by omega) (by simpa using hq') hev
    · have hstep : farthest fid i (x :: rest) acc = farthest fid (i + 1) rest acc := by
        show farthest fid (i + 1) rest _ = _
        congr 1
        by_cases he : x.alarm_level = ALARM_LEVEL_NONE ∧ x.addr ≠ fid ∧ x.relayed = false
        · have hng : ¬ reach x > acc.2 := fun h => hx ⟨he, h⟩
          rw [if_pos he]
          simp only [hreach]
          rw [if_neg hng]
        · rw [if_neg he]
      have hle : evictable fid x → reach x ≤ acc.2 := fun he => not_lt.1 fun h => hx ⟨he, h⟩
      rw [hstep]
      rcases ih (i + 1) acc with ⟨h1, h2⟩ | ⟨p, c, hp, hc, hr, hlt, hmax, hmin⟩
      · refine Or.inl ⟨h1, ?_⟩
        intro c' hc' hev
        rcases List.mem_cons.1 hc' with h | h
        · rw [h] at hev ⊢; exact hle hev
        · exact h2 c' h hev
      · refine Or.inr ⟨p + 1, c, by simpa using hp, hc, ?_, hlt, ?_, ?_⟩
        · rw [hr]; congr 2; omega
        · intro c' hc' hev
          rcases List.mem_cons.1 hc' with h | h
          · rw [h] at hev ⊢; exact le_of_lt (lt_of_le_of_lt (hle hev) hlt)
          · exact hmax c' h hev
        · intro q c' hq hq' hev
          cases q with
          | zero =>
            have : x = c' := by simpa using hq'
            rw [← this] at hev ⊢; exact lt_of_le_of_lt (hle hev) hlt
          | succ q => exact hmin q c' (by omega) (by simpa using hq') hev


/-- Claim C22. When a report's address is not in the table and no slot is empty or past
`ENTRY_EXPIRATION_TIME`, `AddTraffic` completes and either leaves the table unchanged or
overwrites one slot `i`: the slot with the greatest `max(distance, adj_distance)` among the
slots that have alarm level None, are not the followed address and are not relayed (the
lowest index on ties); and it does so only if the report's adjusted distance
(`distance + VERTICAL_SLOPE*|alt_diff|`, from `Stash_Traffic_Distances`) is smaller than
that maximum, or the report is the followed address, or it is relayed. The selected alarm
algorithm is taken to leave address and callsign alone. -/
theorem AddTraffic_evicts_farthest (M : Libm) (H : Header) (env : Env) (w : World)
    (fop : ufo_t) (callsign : Option (List Nat))
    (hF : ∀ alg, env.Alarm_Level = some alg → Framed alg)
    (hnew : ∀ c ∈ w.Container, c.addr ≠ fop.addr)
    (hfull : ∀ c ∈ w.Container, c.addr ≠ 0)
    (hfresh : ∀ c ∈ w.Container, ¬ env.OurTime > c.timestamp + H.ENTRY_EXPIRATION_TIME) :
    ∃ w', AddTraffic M H env w fop callsign = some w' ∧
      (w'.Container = w.Container ∨
        ∃ i c e, w.Container[i]? = some c ∧ evictable env.settings.follow_id c ∧
          (∀ c' ∈ w.Container, evictable env.settings.follow_id c' → reach c' ≤ reach c) ∧
          (∀ j c', j < i → w.Container[j]? = some c' →
            evictable env.settings.follow_id c' → reach c' < reach c) ∧
          ((Stash_Traffic_Distances M env.ThisAircraft w.cosc fop).1.distance
              + H.VERTICAL_SLOPE * |(Stash_Traffic_Distances M env.ThisAircraft w.cosc fop).1.alt_diff|
              < reach c ∨
            fop.addr = env.settings.follow_id ∨ fop.relayed = true) ∧
          w'.Container = w.Container.set i e ∧ e.addr = fop.addr ∧
          ∀ j, j ≠ i → w'.Container[j]? = w.Container[j]?) := by
  have hfind1 : w.Container.findIdx? (fun cip => cip.addr == fop.addr) = none := by
    rw [List.findIdx?_eq_none_iff]
    intro c hc
    have := hnew c hc
    simpa using this
  have hfind2 : w.Container.findIdx? (fun cip => cip.addr == 0) = none := by
    rw [List.findIdx?_eq_none_iff]
    intro c hc
    have := hfull c hc
    simpa using this
  have hfind3 : w.Container.findIdx?
      (fun cip => decide (env.OurTime > cip.timestamp + H.ENTRY_EXPIRATION_TIME)) = none := by
    rw [List.findIdx?_eq_none_iff]
    intro c hc
    have := hfresh c hc
    simpa using this
  have hA : AddTraffic M H env w fop callsign = AddTraffic_evict M H env w fop callsign := by
    unfold AddTraffic
    rw [hfind1]
    simp only
    rw [hfind2]
    simp only
    rw [hfind3]
  rw [hA]
  unfold AddTraffic_evict
  simp only
  rcases farthest_spec env.settings.follow_id w.Container 0 (none, 0) with
    ⟨h1, -⟩ | ⟨p, c, hp, hc, hr, -, hmax, hmin⟩
  · rw [h1]
    exact ⟨_, rfl, Or.inl rfl⟩
  · rw [hr]
    simp only [Nat.zero_add]
    split_ifs with hcond
    · obtain ⟨r, hr1, hr2, -⟩ := CopyTraffic_total H env EmptyContainer fop callsign rfl
      rw [hr1, Option.map_some']
      obtain ⟨e, he1, he2, -⟩ := update_and_store H env
        { w with cosc := (Stash_Traffic_Distances M env.ThisAircraft w.cosc fop).2,
                 Alarm_timer := (Traffic_Update H env w.Alarm_timer
                   (Copy_Traffic_Distances
                     (Stash_Traffic_Distances M env.ThisAircraft w.cosc fop).1 r)).2 }
        p (Copy_Traffic_Distances (Stash_Traffic_Distances M env.ThisAircraft w.cosc fop).1 r)
        (do_relay H env fop) w.Alarm_timer hF
      refine ⟨_, rfl, Or.inr ⟨p, c, e, hp, hc, hmax, hmin, hcond, he1, he2.trans hr2, ?_⟩⟩
      intro j hj
      rw [he1]
      show (w.Container.set p e)[j]? = _
      rw [List.getElem?_set, if_neg (Ne.symm hj)]
    · exact ⟨_, rfl, Or.inl rfl⟩


theorem AddTraffic_evicts_farthest_witness :
    ∃ w', AddTraffic testLibm stdHeader
        (testEnv (ownShip 1 101) (some (Alarm_Distance stdHeader)) 101 1000)
        (worldOf [flarmTarget 0xABCDEF 800 0 0, flarmTarget 0xBBBBBB 9000 0 0] 0)
        (flarmReport 0x123456 46 7) none = some w' ∧
      (w'.Container =
          (worldOf [flarmTarget 0xABCDEF 800 0 0, flarmTarget 0xBBBBBB 9000 0 0] 0).Container ∨
        ∃ i c e,
          (worldOf [flarmTarget 0xABCDEF 800 0 0, flarmTarget 0xBBBBBB 9000 0 0]
            0).Container[i]? = some c ∧
          evictable (testEnv (ownShip 1 101) (some (Alarm_Distance stdHeader)) 101
            1000).settings.follow_id c ∧
          (∀ c' ∈ (worldOf [flarmTarget 0xABCDEF 800 0 0, flarmTarget 0xBBBBBB 9000 0 0]
              0).Container,
            evictable (testEnv (ownShip 1 101) (some (Alarm_Distance stdHeader)) 101
              1000).settings.follow_id c' → reach c' ≤ reach c) ∧
          (∀ j c', j < i →
            (worldOf [flarmTarget 0xABCDEF 800 0 0, flarmTarget 0xBBBBBB 9000 0 0]
              0).Container[j]? = some c' →
            evictable (testEnv (ownShip 1 101) (some (Alarm_Distance stdHeader)) 101
              1000).settings.follow_id c' → reach c' < reach c) ∧
          ((Stash_Traffic_Distances testLibm
                (testEnv (ownShip 1 101) (some (Alarm_Distance stdHeader)) 101
                  1000).ThisAircraft
                (worldOf [flarmTarget 0xABCDEF 800 0 0, flarmTarget 0xBBBBBB 9000 0 0] 0).cosc
                (flarmReport 0x123456 46 7)).1.distance
              + stdHeader.VERTICAL_SLOPE *
                |(Stash_Traffic_Distances testLibm
                  (testEnv (ownShip 1 101) (some (Alarm_Distance stdHeader)) 101
                    1000).ThisAircraft
                  (worldOf [flarmTarget 0xABCDEF 800 0 0, flarmTarget 0xBBBBBB 9000 0 0] 0).cosc
                  (flarmReport 0x123456 46 7)).1.alt_diff|
              < reach c ∨
            (flarmReport 0x123456 46 7).addr =
              (testEnv (ownShip 1 101) (some (Alarm_Distance stdHeader)) 101
                1000).settings.follow_id ∨
            (flarmReport 0x123456 46 7).relayed = true) ∧
          w'.Container =
            (worldOf [flarmTarget 0xABCDEF 800 0 0, flarmTarget 0xBBBBBB 9000 0 0]
              0).Container.set i e ∧
          e.addr = (flarmReport 0x123456 46 7).addr ∧
          ∀ j, j ≠ i → w'.Container[j]? =
            (worldOf [flarmTarget 0xABCDEF 800 0 0, flarmTarget 0xBBBBBB 9000 0 0]
              0).Container[j]?) :=
  AddTraffic_evicts_farthest testLibm stdHeader
    (testEnv (ownShip 1 101) (some (Alarm_Distance stdHeader)) 101 1000)
    (worldOf [flarmTarget 0xABCDEF 800 0 0, flarmTarget 0xBBBBBB 9000 0 0] 0)
    (flarmReport 0x123456 46 7) none
    (fun alg h => by
      have h' : Alarm_Distance stdHeader = alg := Option.some.inj h
      rw [← h']
      exact Alarm_Distance_Framed stdHeader)
    (by decide) (by decide) (by decide)

/-! ## The RSSI statistics are exact -/

/-- The sum of the squared deviations from `c`, by the sums of the samples and of their
squares. -/
theorem sum_sq_dev (l : List ℚ) (c : ℚ) :
    (l.map fun z => (z - c) ^ 2).sum
      = (l.map fun z => z ^ 2).sum - 2 * c * l.sum + (l.length : ℚ) * c ^ 2 := by
  induction l with
  | nil => simp
  | cons a l ih =>
    simp only [List.map_cons, List.sum_cons, List.length_cons, Nat.cast_add, Nat.cast_one]
    rw [ih]
    ring

/-- The sum of the deviations from `c`. -/
theorem sum_dev (l : List ℚ) (c : ℚ) :
    (l.map fun z => z - c).sum = l.sum - (l.length : ℚ) * c := by
  induction l with
  | nil => simp
  | cons a l ih =>
    simp only [List.map_cons, List.sum_cons, List.length_cons, Nat.cast_add, Nat.cast_one]
    rw [ih]
    ring

/-- The mean times the number of samples is their sum. -/
theorem spec_mean_mul (l : List ℚ) : spec_mean l * (l.length : ℚ) = l.sum := by
  unfold spec_mean
  by_cases h : (l.length : ℚ) = 0
  · have hl : l = [] := by
      have : l.length = 0 := by exact_mod_cast h
      exact List.length_eq_zero.mp this
    subst hl
    simp
  · field_simp

/-- The population variance times the number of samples is the sum of the squared deviations
from the mean. -/
theorem spec_pvariance_mul (l : List ℚ) :
    spec_pvariance l * (l.length : ℚ) = (l.map fun x => (x - spec_mean l) ^ 2).sum := by
  unfold spec_pvariance
  by_cases h : (l.length : ℚ) = 0
  · have hl : l = [] := by
      have : l.length = 0 := by exact_mod_cast h
      exact List.length_eq_zero.mp this
    subst hl
    simp
  · field_simp

/-- The combination of `save_range_stats`, in exact arithmetic: from the mean and the
population variance of the earlier samples `xs` and the three sums over the new samples `ys`
(samples, deviations from the old mean, squared deviations from the old mean), the mean and
the population variance of all samples. -/
theorem combine_exact (xs ys : List ℚ) (hN : xs.length + ys.length ≠ 0) :
    (ys.sum + spec_mean xs * (xs.length : ℚ)) / ((xs.length + ys.length : Nat) : ℚ)
      = spec_mean (xs ++ ys) ∧
    ((ys.map fun y => (y - spec_mean xs) * (y - spec_mean xs)).sum
        + spec_pvariance xs * (xs.length : ℚ)
        - (ys.map fun y => y - spec_mean xs).sum * (ys.map fun y => y - spec_mean xs).sum
          / ((xs.length + ys.length : Nat) : ℚ)) / ((xs.length + ys.length : Nat) : ℚ)
      = spec_pvariance (xs ++ ys) := by
  have hNq : ((xs.length + ys.length : Nat) : ℚ) ≠ 0 := by exact_mod_cast hN
  have hm := spec_mean_mul xs
  have hv := spec_pvariance_mul xs
  have hsq : (ys.map fun y => (y - spec_mean xs) * (y - spec_mean xs))
      = ys.map fun y => (y - spec_mean xs) ^ 2 := by
    apply List.map_congr_left
    intro y _
    ring
  constructor
  · rw [hm]
    unfold spec_mean
    rw [List.sum_append, List.length_append]
    ring
  · rw [hsq, hv, sum_sq_dev ys, sum_sq_dev xs, sum_dev ys]
    unfold spec_pvariance
    rw [sum_sq_dev (xs ++ ys)]
    have hM : spec_mean (xs ++ ys) = (xs.sum + ys.sum) / ((xs.length + ys.length : Nat) : ℚ) := by
      unfold spec_mean
      rw [List.sum_append, List.length_append]
    rw [hM, List.map_append, List.sum_append, List.sum_append, List.length_append, ← hm]
    have hNN : ((xs.length + ys.length : Nat) : ℚ) = (xs.length : ℚ) + (ys.length : ℚ) := by
      push_cast
      ring
    rw [hNN] at hNq ⊢
    generalize spec_mean xs = m at hNq ⊢
    generalize (xs.length : ℚ) = a at hNq ⊢
    generalize (ys.length : ℚ) = b at hNq ⊢
    generalize ys.sum = sy
    generalize (List.map (fun z => z ^ 2) ys).sum = qy
    generalize (List.map (fun z => z ^ 2) xs).sum = qx
    field_simp
    ring

/-- A call of `sample_range` that records a sample adds it to the three RSSI sums and
counts it; the old statistics stay. -/
theorem sample_range_records (M : Libm) (H : Header) (ThisAircraft fop : container_t)
    (rs : range_stats) (h : records H ThisAircraft fop) :
    (sample_range M H ThisAircraft fop rs).oldrssi_mean = rs.oldrssi_mean ∧
    (sample_range M H ThisAircraft fop rs).oldrssi_n = rs.oldrssi_n ∧
    (sample_range M H ThisAircraft fop rs).oldrssi_ssd = rs.oldrssi_ssd ∧
    (sample_range M H ThisAircraft fop rs).newrssi_sum = rs.newrssi_sum + (fop.rssi : ℚ) ∧
    (sample_range M H ThisAircraft fop rs).newrssi_dev
      = rs.newrssi_dev + ((fop.rssi : ℚ) - rs.oldrssi_mean) ∧
    (sample_range M H ThisAircraft fop rs).newrssi_ssd
      = rs.newrssi_ssd + ((fop.rssi : ℚ) - rs.oldrssi_mean) * ((fop.rssi : ℚ) - rs.oldrssi_mean) ∧
    (sample_range M H ThisAircraft fop rs).newrssi_n = (rs.newrssi_n + 1) % 4294967296 := by
  obtain ⟨h1, h2, h3, h4, h5, h6, h7⟩ := h
  unfold sample_range
  rw [if_neg h1, if_neg h2, if_neg h3, if_neg h4, if_neg h5]
  simp only
  rw [if_pos ⟨h6, h7⟩]
  exact ⟨rfl, rfl, rfl, rfl, rfl, rfl, rfl⟩

/-- After a sequence of recording calls the three RSSI sums hold the sums over the samples
of the calls, and the counter their number modulo 2^32. -/
theorem sample_calls_sums (M : Libm) (H : Header) (calls : List (container_t × container_t)) :
    ∀ rs : range_stats, rs.newrssi_n < 4294967296 → (∀ p ∈ calls, records H p.1 p.2) →
    (sample_calls M H calls rs).oldrssi_mean = rs.oldrssi_mean ∧
    (sample_calls M H calls rs).oldrssi_n = rs.oldrssi_n ∧
    (sample_calls M H calls rs).oldrssi_ssd = rs.oldrssi_ssd ∧
    (sample_calls M H calls rs).newrssi_sum
      = rs.newrssi_sum + (calls.map fun p => (p.2.rssi : ℚ)).sum ∧
    (sample_calls M H calls rs).newrssi_dev
      = rs.newrssi_dev
        + ((calls.map fun p => (p.2.rssi : ℚ)).map fun y => y - rs.oldrssi_mean).sum ∧
    (sample_calls M H calls rs).newrssi_ssd
      = rs.newrssi_ssd
        + ((calls.map fun p => (p.2.rssi : ℚ)).map fun y =>
            (y - rs.oldrssi_mean) * (y - rs.oldrssi_mean)).sum ∧
    (sample_calls M H calls rs).newrssi_n = (rs.newrssi_n + calls.length) % 4294967296 := by
  induction calls with
  | nil =>
    intro rs hn _
    refine ⟨rfl, rfl, rfl, ?_, ?_, ?_, ?_⟩
    · simp [sample_calls]
    · simp [sample_calls]
    · simp [sample_calls]
    · show rs.newrssi_n = (rs.newrssi_n + 0) % 4294967296
      omega
  | cons p calls ih =>
    intro rs hn h
    have hp := sample_range_records M H p.1 p.2 rs (h p (List.mem_cons_self _ _))
    obtain ⟨a1, a2, a3, a4, a5, a6, a7⟩ := hp
    have ht := ih (sample_range M H p.1 p.2 rs) (by rw [a7]; omega) (fun q hq => h q (List.mem_cons_of_mem _ hq))
    obtain ⟨b1, b2, b3, b4, b5, b6, b7⟩ := ht
    have hfold : sample_calls M H (p :: calls) rs
        = sample_calls M H calls (sample_range M H p.1 p.2 rs) := rfl
    rw [hfold]
    refine ⟨b1.trans a1, b2.trans a2, b3.trans a3, ?_, ?_, ?_, ?_⟩
    · rw [b4, a4, List.map_cons, List.sum_cons]
      ring
    · rw [b5, a5, a1, List.map_cons, List.map_cons, List.sum_cons]
      ring
    · rw [b6, a6, a1, List.map_cons, List.map_cons, List.sum_cons]
      ring
    · rw [b7, a7, List.length_cons]
      omega

/-- The values that `save_range_stats` leaves alone while it writes the sectors. -/
theorem save_sector_rssi (M : Libm) (s : range_stats × FileSys) (oclock : Nat) :
    same_rssi (save_sector M s oclock).1 s.1 ∧
    (save_sector M s oclock).2.opens = s.2.opens ∧
    ∃ line, (save_sector M s oclock).2.range_txt
        = s.2.range_txt.map (fun lines => lines ++ [line]) ∧
      (save_sector M s oclock).2.calls = s.2.calls ++ [FsCall.println line] := by
  unfold save_sector
  simp only
  refine ⟨?_, rfl, _, rfl, rfl⟩
  split_ifs <;> exact ⟨rfl, rfl, rfl, rfl, rfl, rfl, rfl⟩

/-- The loop of `save_range_stats` over the sectors leaves the RSSI statistics alone and
appends one line per sector. -/
theorem save_sectors_rssi (M : Libm) (l : List Nat) :
    ∀ s : range_stats × FileSys,
    same_rssi (l.foldl (save_sector M) s).1 s.1 ∧
    (l.foldl (save_sector M) s).2.opens = s.2.opens ∧
    (∃ extra, extra.length = l.length ∧
      (l.foldl (save_sector M) s).2.range_txt
        = s.2.range_txt.map (fun lines => lines ++ extra)) ∧
    ∀ c ∈ s.2.calls, c ∈ (l.foldl (save_sector M) s).2.calls := by
  induction l with
  | nil =>
    intro s
    refine ⟨⟨rfl, rfl, rfl, rfl, rfl, rfl, rfl⟩, rfl, ⟨[], rfl, ?_⟩, fun c hc => hc⟩
    simp
  | cons o l ih =>
    intro s
    obtain ⟨a1, a2, line, a3, a4⟩ := save_sector_rssi M s o
    obtain ⟨b1, b2, ⟨extra, b3, b4⟩, b5⟩ := ih (save_sector M s o)
    rw [List.foldl_cons]
    refine ⟨?_, b2.trans a2, ⟨line :: extra, by simp [b3], ?_⟩, ?_⟩
    · obtain ⟨x1, x2, x3, x4, x5, x6, x7⟩ := a1
      obtain ⟨y1, y2, y3, y4, y5, y6, y7⟩ := b1
      exact ⟨y1.trans x1, y2.trans x2, y3.trans x3, y4.trans x4, y5.trans x5, y6.trans x6,
        y7.trans x7⟩
    · rw [b4, a3]
      cases s.2.range_txt <;> simp
    · intro c hc
      apply b5
      rw [a4]
      exact List.mem_append_left _ hc

/-- A call leaves `/range.txt` alone. -/
theorem call_range_txt (fs : FileSys) (c : FsCall) : (fs.call c).range_txt = fs.range_txt :=
  rfl

/-- A printed line is appended to `/range.txt`. -/
theorem println_range_txt (fs : FileSys) (line : Line) :
    (fs.println line).range_txt = fs.range_txt.map (fun lines => lines ++ [line]) :=
  rfl

/-- A call is recorded and leaves `/range.txt` alone. -/
theorem fs_kept_call (a b : FileSys) (c : FsCall) (h : fs_kept a b) : fs_kept a (b.call c) :=
  ⟨h.1, fun x hx => List.mem_append_left _ (h.2 x hx)⟩

/-- Every file system keeps itself. -/
theorem fs_kept_refl (a : FileSys) : fs_kept a a :=
  ⟨rfl, fun _ h => h⟩

/-- One pass of the loading loop reads only. -/
theorem load_sector_fs (a : FileSys) (s : load_state) (oclock : Nat) (h : fs_kept a s.fs) :
    fs_kept a (load_sector s oclock).fs := by
  unfold load_sector
  split_ifs
  · exact h
  · cases s.lines with
    | nil => exact fs_kept_call a _ _ h
    | cons buf rest => exact fs_kept_call a _ _ h

/-- The loading loop reads only. -/
theorem load_sectors_fs (a : FileSys) (l : List Nat) :
    ∀ s : load_state, fs_kept a s.fs → fs_kept a (l.foldl load_sector s).fs := by
  induction l with
  | nil => intro s h; exact h
  | cons o rest ih =>
    intro s h
    rw [List.foldl_cons]
    exact ih _ (load_sector_fs a s o h)

/-- The end of `load_range_stats` reads only. -/
theorem load_finish_fs (a : FileSys) (s : load_state) (h : fs_kept a s.fs) :
    fs_kept a (load_finish s).1.2 := by
  unfold load_finish
  split_ifs
  · exact fs_kept_call a _ _ h
  · cases s.lines with
    | nil => exact fs_kept_call a _ _ (fs_kept_call a _ _ h)
    | cons b r => exact fs_kept_call a _ _ (fs_kept_call a _ _ h)

/-- The function `load_range_stats` reads only: `/range.txt` is as before, and the calls made
before are still on record. -/
theorem load_range_stats_fs (v0 : Int) (fs : FileSys) :
    fs_kept fs (load_range_stats v0 fs).1.2 := by
  have h0 : fs_kept fs (fs.call (FsCall.fs_exists "/range.txt")) :=
    fs_kept_call fs fs _ (fs_kept_refl fs)
  unfold load_range_stats
  simp only
  cases hr : (fs.call (FsCall.fs_exists "/range.txt")).range_txt with
  | none => exact h0
  | some lines =>
    simp only
    have h1 := fs_kept_call fs _ (FsCall.fs_open_read "/range.txt") h0
    split_ifs
    · exact h1
    · have h2 := fs_kept_call fs _ FsCall.getline h1
      cases lines with
      | nil => exact fs_kept_call fs _ _ h2
      | cons buf rest =>
        simp only
        split_ifs
        · exact fs_kept_call fs _ _ h2
        · apply load_finish_fs
          apply load_sectors_fs
          exact h2

/-- The merge of `save_range_stats` is exact: from the statistics of the earlier samples and
the sums over the new ones it computes the mean and the population variance of all. -/
theorem merge_rssi_exact (r : range_stats) (xs ys : List ℚ)
    (hn : r.oldrssi_n = xs.length) (hm : r.oldrssi_mean = spec_mean xs)
    (hv : r.oldrssi_ssd = spec_pvariance xs)
    (h1 : r.newrssi_sum = ys.sum)
    (h2 : r.newrssi_dev = (ys.map fun y => y - spec_mean xs).sum)
    (h3 : r.newrssi_ssd = (ys.map fun y => (y - spec_mean xs) * (y - spec_mean xs)).sum)
    (h4 : r.newrssi_n = ys.length)
    (hN : xs.length + ys.length ≠ 0) (hW : xs.length + ys.length < 4294967296) :
    (merge_rssi r).newrssi_sum = spec_mean (xs ++ ys) ∧
    (merge_rssi r).newrssi_ssd = spec_pvariance (xs ++ ys) := by
  obtain ⟨c1, c2⟩ := combine_exact xs ys hN
  have hmod : (r.newrssi_n + r.oldrssi_n) % 4294967296 = xs.length + ys.length := by
    rw [h4, hn]
    omega
  unfold merge_rssi
  simp only
  rw [hmod, hn, hm, hv, h1, h2, h3]
  exact ⟨c1, c2⟩



/-- Claim C25. In exact arithmetic: if the persisted RSSI mean and mean-square deviation are
the exact mean and population variance of the `n0` earlier samples `xs`, and the
accumulators of new samples are at zero as `load_range_stats` leaves them, then after
`k ≥ 1` calls of `sample_range` that record a sample, `save_range_stats` writes the exact
mean and the exact population variance of all `n0 + k` samples: that line is printed to the
file, and it is the last of the 14 lines of `/range.txt` when the file can be opened. The
counters are 32-bit, so `n0 + k` is taken below 2^32. -/
theorem rssi_statistics_exact (M : Libm) (H : Header) (v0 : Int) (rs : range_stats)
    (fs : FileSys) (xs : List ℚ) (calls : List (container_t × container_t))
    (hn : rs.oldrssi_n = xs.length) (hm : rs.oldrssi_mean = spec_mean xs)
    (hv : rs.oldrssi_ssd = spec_pvariance xs)
    (h0 : rs.newrssi_n = 0 ∧ rs.newrssi_sum = 0 ∧ rs.newrssi_dev = 0 ∧ rs.newrssi_ssd = 0)
    (hk : 1 ≤ calls.length)
    (hrec : ∀ p ∈ calls, records H p.1 p.2)
    (hW : xs.length + calls.length < 4294967296) :
    FsCall.println [spec_mean (xs ++ calls.map fun p => (p.2.rssi : ℚ)),
        spec_pvariance (xs ++ calls.map fun p => (p.2.rssi : ℚ))]
      ∈ (save_range_stats M v0 (sample_calls M H calls rs) fs).2.calls ∧
    (fs.opens = true → ∃ lines, lines.length = 13 ∧
      (save_range_stats M v0 (sample_calls M H calls rs) fs).2.range_txt
        = some (lines ++ [[spec_mean (xs ++ calls.map fun p => (p.2.rssi : ℚ)),
            spec_pvariance (xs ++ calls.map fun p => (p.2.rssi : ℚ))]])) := by
  obtain ⟨z1, z2, z3, z4⟩ := h0
  obtain ⟨s1, s2, s3, s4, s5, s6, s7⟩ :=
    sample_calls_sums M H calls rs (by rw [z1]; decide) hrec
  rw [z1, Nat.zero_add, Nat.mod_eq_of_lt (by omega)] at s7
  rw [z2, zero_add] at s4
  rw [z3, zero_add, hm] at s5
  rw [z4, zero_add, hm] at s6
  have hne : (sample_calls M H calls rs).newrssi_n ≠ 0 := by omega
  have hmerge : ∀ fs3 : FileSys,
      (merge_rssi ((List.range 12).foldl (save_sector M)
          (sample_calls M H calls rs, fs3)).1).newrssi_sum
        = spec_mean (xs ++ calls.map fun p => (p.2.rssi : ℚ)) ∧
      (merge_rssi ((List.range 12).foldl (save_sector M)
          (sample_calls M H calls rs, fs3)).1).newrssi_ssd
        = spec_pvariance (xs ++ calls.map fun p => (p.2.rssi : ℚ)) := by
    intro fs3
    obtain ⟨⟨y1, y2, y3, y4, y5, y6, y7⟩, -⟩ :=
      save_sectors_rssi M (List.range 12) (sample_calls M H calls rs, fs3)
    apply merge_rssi_exact
    · rw [y2, s2, hn]
    · rw [y1, s1, hm]
    · rw [y3, s3, hv]
    · rw [y4, s4]
    · rw [y5, s5]
    · rw [y6, s6]
    · rw [y7, s7, List.length_map]
    · rw [List.length_map]; omega
    · rw [List.length_map]; exact hW
  unfold save_range_stats
  rw [if_neg hne]
  simp only
  rw [(hmerge _).1, (hmerge _).2]
  generalize hfs3 : FileSys.println _ [(RANGESTATSVERSION : ℚ)] = fs3
  constructor
  · apply (load_range_stats_fs v0 _).2
    simp [FileSys.call, FileSys.println]
  · intro hopen
    rw [(load_range_stats_fs v0 _).1]
    have h3 : fs3.range_txt = some [[(RANGESTATSVERSION : ℚ)]] := by
      rw [← hfs3]
      cases hr : fs.range_txt <;> simp [FileSys.call, FileSys.println, hopen, hr]
    obtain ⟨-, -, ⟨extra, e1, e2⟩, -⟩ := save_sectors_rssi M (List.range 12)
      (sample_calls M H calls rs, fs3)
    refine ⟨[(RANGESTATSVERSION : ℚ)] :: extra, ?_, ?_⟩
    · rw [List.length_cons, e1, List.length_range]
    · rw [call_range_txt, println_range_txt, e2, h3]
      rfl



theorem rssi_statistics_exact_witness :
    FsCall.println
        [spec_mean ([-80, -90] ++
          [(ownShip 1 100, { flarmTarget 0xABCDEF 2000 0 0 with rssi := -70 })].map
            fun p => (p.2.rssi : ℚ)),
         spec_pvariance ([-80, -90] ++
          [(ownShip 1 100, { flarmTarget 0xABCDEF 2000 0 0 with rssi := -70 })].map
            fun p => (p.2.rssi : ℚ))]
      ∈ (save_range_stats testLibm 0
          (sample_calls testLibm stdHeader
            [(ownShip 1 100, { flarmTarget 0xABCDEF 2000 0 0 with rssi := -70 })]
            { zero_range_stats with oldrssi_n := 2, oldrssi_mean := -85, oldrssi_ssd := 25 })
          emptyFs).2.calls ∧
    (emptyFs.opens = true → ∃ lines, lines.length = 13 ∧
      (save_range_stats testLibm 0
          (sample_calls testLibm stdHeader
            [(ownShip 1 100, { flarmTarget 0xABCDEF 2000 0 0 with rssi := -70 })]
            { zero_range_stats with oldrssi_n := 2, oldrssi_mean := -85, oldrssi_ssd := 25 })
          emptyFs).2.range_txt
        = some (lines ++
          [[spec_mean ([-80, -90] ++
              [(ownShip 1 100, { flarmTarget 0xABCDEF 2000 0 0 with rssi := -70 })].map
                fun p => (p.2.rssi : ℚ)),
            spec_pvariance ([-80, -90] ++
              [(ownShip 1 100, { flarmTarget 0xABCDEF 2000 0 0 with rssi := -70 })].map
                fun p => (p.2.rssi : ℚ))]])) :=
  rssi_statistics_exact testLibm stdHeader 0
    { zero_range_stats with oldrssi_n := 2, oldrssi_mean := -85, oldrssi_ssd := 25 }
    emptyFs [-80, -90]
    [(ownShip 1 100, { flarmTarget 0xABCDEF 2000 0 0 with rssi := -70 })]
    rfl (by decide!) (by decide!) ⟨rfl, rfl, rfl, rfl⟩ (by decide) (by decide!) (by decide)

/-- The statistics of the three samples -80, -90 and -70: the mean is -80 and the population
variance 200/3. -/
theorem spec_statistics_example :
    spec_mean [-80, -90, -70] = -80 ∧ spec_pvariance [-80, -90, -70] = 200 / 3 := by
  decide!

/-! ## The gates of `air_relay` -/

/-- The record of `air_relay_outcome` carries the state that `air_relay` computes. -/
theorem air_relay_outcome_state (H : Header) (env : Env) (g : relay_globals)
    (cip : container_t) :
    ((air_relay_outcome H env g cip).cip, (air_relay_outcome H env g cip).g)
      = air_relay H env g cip := by
  unfold air_relay_outcome air_relay
  simp only
  split_ifs <;> rfl

/-- In the normal protocol the transmitter is called only past the four gates of the code:
slot 0, no transmission yet, `millis() + 15 < TxEndMarker` and not
`millis() < lastrelay + 1000*ANY_RELAY_TIME`, both in 32-bit arithmetic. -/
theorem air_relay_outcome_invoked (H : Header) (env : Env) (g : relay_globals)
    (cip : container_t) (hn : env.current_RF_protocol = env.settings.rf_protocol)
    (hi : (air_relay_outcome H env g cip).invoked = true) :
    env.RF_current_slot = 0 ∧ env.RF_Transmit_Happened = false ∧
    (env.millis + 15) % 4294967296 < env.TxEndMarker ∧
    ¬ env.millis < (g.lastrelay + 1000 * H.ANY_RELAY_TIME) % 4294967296 := by
  unfold air_relay_outcome at hi
  simp only at hi
  split_ifs at hi with h1 h2 h3 h4 h5
  all_goals first
    | exact absurd hi (by decide)
    | (simp only [if_pos hn, decide_eq_true_eq] at hi
       refine ⟨hi.1.1, hi.1.2.1, hi.1.2.2, ?_⟩
       intro hlt
       exact h2 ⟨hn, Or.inl hlt⟩)

/-- A call of `air_relay` leaves `lastrelay` alone or sets it to `millis()`, and sets it
when the relay succeeded in the normal protocol. -/
theorem air_relay_outcome_lastrelay (H : Header) (env : Env) (g : relay_globals)
    (cip : container_t) :
    ((air_relay_outcome H env g cip).g.lastrelay = g.lastrelay ∨
      (air_relay_outcome H env g cip).g.lastrelay = env.millis) ∧
    (env.current_RF_protocol = env.settings.rf_protocol →
      (air_relay_outcome H env g cip).relayed = true →
      (air_relay_outcome H env g cip).g.lastrelay = env.millis) := by
  unfold air_relay_outcome
  simp only
  split_ifs with h1 h2 h3 h4 h5
  all_goals first
    | exact ⟨Or.inl rfl, fun _ h => absurd h (by decide)⟩
    | exact ⟨Or.inr rfl, fun _ _ => rfl⟩
    | exact ⟨Or.inl rfl, fun hn _ => absurd hn (by assumption)⟩
    | exact ⟨Or.inl rfl, fun _ h => absurd h (by assumption)⟩



/-- Claim C23, as the code has it. Along a sequence of calls of `air_relay` with `millis()`
not decreasing and away from the wrap of the 32-bit millisecond clock, a call in the normal
protocol invokes the transmitter only if the current radio slot is 0, no transmission has
happened yet in this slot, more than 15 ms remain before the slot end marker, and at least
`ANY_RELAY_TIME` seconds have passed since `lastrelay`, hence since every earlier successful
relay made in the normal protocol. -/
theorem air_relay_gates (H : Header) (steps : List (Env × container_t)) (g : relay_globals)
    (hg : ∀ s ∈ steps, g.lastrelay ≤ s.1.millis)
    (hmono : steps.Pairwise (fun a b => a.1.millis ≤ b.1.millis))
    (hwrap : ∀ s ∈ steps, s.1.millis + 15 < 4294967296 ∧
      s.1.millis + 1000 * H.ANY_RELAY_TIME < 4294967296) :
    ∀ (j : Nat) (s : Env × container_t) (o : relay_outcome),
      steps[j]? = some s → (relay_run H g steps)[j]? = some o →
      s.1.current_RF_protocol = s.1.settings.rf_protocol → o.invoked = true →
      s.1.RF_current_slot = 0 ∧ s.1.RF_Transmit_Happened = false ∧
      s.1.millis + 15 < s.1.TxEndMarker ∧
      g.lastrelay + 1000 * H.ANY_RELAY_TIME ≤ s.1.millis ∧
      ∀ (i : Nat) (si : Env × container_t) (oi : relay_outcome), i < j →
        steps[i]? = some si → (relay_run H g steps)[i]? = some oi →
        si.1.current_RF_protocol = si.1.settings.rf_protocol → oi.relayed = true →
        si.1.millis + 1000 * H.ANY_RELAY_TIME ≤ s.1.millis := by
  induction steps generalizing g with
  | nil =>
    intro j s o hs
    simp at hs
  | cons s0 rest ih =>
    have hrun : relay_run H g (s0 :: rest)
        = air_relay_outcome H s0.1 g s0.2
          :: relay_run H (air_relay_outcome H s0.1 g s0.2).g rest := rfl
    obtain ⟨hl1, hl2⟩ := air_relay_outcome_lastrelay H s0.1 g s0.2
    have hg0 : g.lastrelay ≤ s0.1.millis := hg s0 (List.mem_cons_self _ _)
    have hhead : ∀ s ∈ rest, s0.1.millis ≤ s.1.millis := (List.pairwise_cons.mp hmono).1
    intro j s o hs ho hn hi
    rw [hrun] at ho
    cases j with
    | zero =>
      rw [List.getElem?_cons_zero] at hs ho
      have es : s0 = s := Option.some.inj hs
      have eo : air_relay_outcome H s0.1 g s0.2 = o := Option.some.inj ho
      subst es
      subst eo
      obtain ⟨c1, c2, c3, c4⟩ := air_relay_outcome_invoked H s0.1 g s0.2 hn hi
      obtain ⟨w1, w2⟩ := hwrap s0 (List.mem_cons_self _ _)
      rw [Nat.mod_eq_of_lt w1] at c3
      rw [Nat.mod_eq_of_lt (by omega)] at c4
      refine ⟨c1, c2, c3, by omega, ?_⟩
      intro i si oi hlt
      omega
    | succ j =>
      rw [List.getElem?_cons_succ] at hs ho
      have hg1 : ∀ s ∈ rest, (air_relay_outcome H s0.1 g s0.2).g.lastrelay ≤ s.1.millis := by
        intro s1 hs1
        rcases hl1 with e | e
        · rw [e]
          exact hg s1 (List.mem_cons_of_mem _ hs1)
        · rw [e]
          exact hhead s1 hs1
      obtain ⟨c1, c2, c3, c4, c5⟩ :=
        ih (air_relay_outcome H s0.1 g s0.2).g hg1 (List.pairwise_cons.mp hmono).2
          (fun s1 hs1 => hwrap s1 (List.mem_cons_of_mem _ hs1)) j s o hs ho hn hi
      refine ⟨c1, c2, c3, ?_, ?_⟩
      · rcases hl1 with e | e
        · rw [e] at c4
          exact c4
        · rw [e] at c4
          omega
      · intro i si oi hlt hsi hoi hni hri
        rw [hrun] at hoi
        cases i with
        | zero =>
          rw [List.getElem?_cons_zero] at hsi hoi
          have es : s0 = si := Option.some.inj hsi
          have eo : air_relay_outcome H s0.1 g s0.2 = oi := Option.some.inj hoi
          subst es
          subst eo
          rw [hl2 hni hri] at c4
          exact c4
        | succ i =>
          rw [List.getElem?_cons_succ] at hsi hoi
          exact c5 i si oi (by omega) hsi hoi hni hri

theorem air_relay_gates_witness :
    (relayEnv 2 0 16000 16400).RF_current_slot = 0 ∧
    (relayEnv 2 0 16000 16400).RF_Transmit_Happened = false ∧
    (relayEnv 2 0 16000 16400).millis + 15 < (relayEnv 2 0 16000 16400).TxEndMarker ∧
    (0 : Nat) + 1000 * stdHeader.ANY_RELAY_TIME ≤ (relayEnv 2 0 16000 16400).millis ∧
    (relayEnv 2 0 10000 10400).millis + 1000 * stdHeader.ANY_RELAY_TIME
      ≤ (relayEnv 2 0 16000 16400).millis :=
  have h := air_relay_gates stdHeader
    [(relayEnv 2 0 10000 10400, landedOut 0 100), (relayEnv 2 0 16000 16400, landedOut 100 107)]
    { lastrelay := 0, relay_waiting := false, alt_relay_waiting := false }
    (by decide) (by decide) (by decide)
    1 (relayEnv 2 0 16000 16400, landedOut 100 107)
    (air_relay_outcome stdHeader (relayEnv 2 0 16000 16400)
      { lastrelay := 10000, relay_waiting := false, alt_relay_waiting := false }
      (landedOut 100 107))
    rfl rfl rfl rfl
  ⟨h.1, h.2.1, h.2.2.1, h.2.2.2.1,
    h.2.2.2.2 0 (relayEnv 2 0 10000 10400, landedOut 0 100)
      (air_relay_outcome stdHeader (relayEnv 2 0 10000 10400)
        { lastrelay := 0, relay_waiting := false, alt_relay_waiting := false }
        (landedOut 0 100))
      (by decide) rfl rfl rfl rfl⟩

/-- Counterexample to C23 as stated: a relay made in the alternate protocol
leaves `lastrelay` alone. The host relays a landed-out aircraft in the alternate protocol
(Legacy, slot 1) at `millis()` = 10000, the transmission succeeds, and 1000 ms later, in the
normal protocol and slot 0, `air_relay` invokes the transmitter again, less than
`ANY_RELAY_TIME` = 5 seconds after the last successful relay. -/
theorem air_relay_after_alt_relay :
    (relay_run stdHeader { lastrelay := 0, relay_waiting := false, alt_relay_waiting := false }
      [(relayEnv 1 1 10000 10400, landedOut 0 100),
       (relayEnv 2 0 11000 11400, landedOut 1 101)]).map (fun o => (o.invoked, o.relayed))
      = [(true, true), (true, true)] ∧
    (relayEnv 2 0 11000 11400).current_RF_protocol
      = (relayEnv 2 0 11000 11400).settings.rf_protocol ∧
    (relayEnv 1 1 10000 10400).current_RF_protocol
      ≠ (relayEnv 1 1 10000 10400).settings.rf_protocol ∧
    (relayEnv 2 0 11000 11400).millis
      < (relayEnv 1 1 10000 10400).millis + 1000 * stdHeader.ANY_RELAY_TIME := by
  decide

/-- At the wrap of the 32-bit millisecond clock the comparisons of `air_relay` let a call
through: with `lastrelay` = 4294966296 and `millis()` = 4294966796, 500 ms later, the sum
`lastrelay + 1000*ANY_RELAY_TIME` wraps to 4000 and the transmitter is invoked. -/
theorem air_relay_at_wrap :
    (air_relay_outcome stdHeader (relayEnv 2 0 4294966796 4294967200)
      { lastrelay := 4294966296, relay_waiting := false, alt_relay_waiting := false }
      (landedOut 100 107)).invoked = true := by
  decide

/-! ## The local `t` of `Alarm_Vector` -/

/-- The level of the block `if (abs_alt_diff < VERTICAL_SEPARATION)` does not depend on the
value `t` holds before its assignment, and a level other than None comes with `t`
assigned. -/
theorem vector_level_fst (M : Libm) (H : Header) (t0 t1 : ℚ) (this_aircraft fop : container_t) :
    (vector_level M H t0 this_aircraft fop).1 = (vector_level M H t1 this_aircraft fop).1 ∧
    ((vector_level M H t0 this_aircraft fop).1 ≠ ALARM_LEVEL_NONE →
      (vector_level M H t0 this_aircraft fop).2 = (vector_level M H t1 this_aircraft fop).2) := by
  unfold vector_level
  simp only
  split
  · split
    · exact ⟨rfl, fun _ => rfl⟩
    · exact ⟨rfl, fun h => absurd rfl h⟩
  · exact ⟨rfl, fun h => absurd rfl h⟩

/-- With a relative speed of at most `ALARM_VECTOR_SPEED` the block leaves the level at
None. -/
theorem vector_level_slow (M : Libm) (H : Header) (t0 : ℚ) (this_aircraft fop : container_t)
    (h : V_rel_magnitude M H this_aircraft fop ≤ H.ALARM_VECTOR_SPEED) :
    (vector_level M H t0 this_aircraft fop).1 = ALARM_LEVEL_NONE := by
  have h' : ¬ V_rel_magnitude M H this_aircraft fop > H.ALARM_VECTOR_SPEED := not_lt.2 h
  unfold V_rel_magnitude at h'
  simp only at h'
  unfold vector_level
  simp only
  split_ifs <;> rfl

/-- A level other than None out of the block: the relative speed is above
`ALARM_VECTOR_SPEED` and `t` holds `adj_distance / V_rel_magnitude`, with `adj_distance` not
below `distance`. -/
theorem vector_level_assigned (M : Libm) (H : Header) (t0 : ℚ) (this_aircraft fop : container_t)
    (h : (vector_level M H t0 this_aircraft fop).1 ≠ ALARM_LEVEL_NONE) :
    V_rel_magnitude M H this_aircraft fop > H.ALARM_VECTOR_SPEED ∧
    (vector_level M H t0 this_aircraft fop).2
      = (if fop.adj_distance < fop.distance then fop.distance else fop.adj_distance)
        / V_rel_magnitude M H this_aircraft fop := by
  unfold V_rel_magnitude
  unfold vector_level at h ⊢
  simp only at h ⊢
  split at h
  · split at h
    · rename_i h1 h2
      rw [if_pos h1, if_pos h2]
      exact ⟨h2, rfl⟩
    · exact absurd rfl h
  · exact absurd rfl h

/-- Claim C36. In `Alarm_Vector` the result (level and target, `alert_level` included) is
the same whatever value the local `t` holds before its assignment; past the fall-backs to
`Alarm_Distance`, a relative speed of at most `ALARM_VECTOR_SPEED` gives None and leaves the
target alone; and a level of Low or higher out of the vector block implies that the relative
speed is above `ALARM_VECTOR_SPEED` and that `t` was assigned
`adj_distance / V_rel_magnitude`. -/
theorem Alarm_Vector_t_assigned (M : Libm) (H : Header) (t0 t1 : ℚ)
    (this_aircraft fop : container_t) :
    Alarm_Vector M H t0 this_aircraft fop = Alarm_Vector M H t1 this_aircraft fop ∧
    (¬ fop.tx_type ≤ H.TX_TYPE_S → fop.speed ≠ 0 →
      ¬ (fop.gnsstime_ms + 4294967296 - fop.prevtime_ms) % 4294967296 > 3000 →
      ¬ (|this_aircraft.turnrate| > 3 ∨ |fop.turnrate| > 3) →
      V_rel_magnitude M H this_aircraft fop ≤ H.ALARM_VECTOR_SPEED →
      Alarm_Vector M H t0 this_aircraft fop = (ALARM_LEVEL_NONE, fop)) ∧
    ((vector_level M H t0 this_aircraft fop).1 ≥ ALARM_LEVEL_LOW →
      V_rel_magnitude M H this_aircraft fop > H.ALARM_VECTOR_SPEED ∧
      (vector_level M H t0 this_aircraft fop).2
        = (if fop.adj_distance < fop.distance then fop.distance else fop.adj_distance)
          / V_rel_magnitude M H this_aircraft fop) := by
  refine ⟨?_, ?_, ?_⟩
  · obtain ⟨e1, e2⟩ := vector_level_fst M H t0 t1 this_aircraft fop
    unfold Alarm_Vector
    simp only
    by_cases hl : (vector_level M H t0 this_aircraft fop).1 ≥ ALARM_LEVEL_LOW
    · have hne : (vector_level M H t0 this_aircraft fop).1 ≠ ALARM_LEVEL_NONE := by
        intro h0
        rw [h0] at hl
        exact absurd hl (by decide)
      rw [← e1, ← e2 hne]
    · have hl' : ¬ (vector_level M H t1 this_aircraft fop).1 ≥ ALARM_LEVEL_LOW := by
        rw [← e1]
        exact hl
      rw [← e1]
      simp only [hl, hl', false_and, if_false]
  · intro c1 c2 c3 c7 hv
    have hs := vector_level_slow M H t0 this_aircraft fop hv
    unfold Alarm_Vector
    simp only
    rw [if_neg c1, if_neg c2, if_neg c3, if_neg c7, hs]
    have hn : ¬ ALARM_LEVEL_NONE ≥ ALARM_LEVEL_LOW := by decide
    simp only [hn, false_and, if_false, ite_self]
  · intro hl
    apply vector_level_assigned
    intro h0
    rw [h0] at hl
    exact absurd hl (by decide)

theorem Alarm_Vector_t_assigned_witness :
    Alarm_Vector testLibm stdHeader 0 { ownShip 1 100 with speed := 80 }
        { flarmTarget 0xABCDEF 800 0 0 with
          speed := 80, gnsstime_ms := 100000, prevtime_ms := 98000 }
      = (ALARM_LEVEL_NONE, { flarmTarget 0xABCDEF 800 0 0 with
          speed := 80, gnsstime_ms := 100000, prevtime_ms := 98000 }) :=
  (Alarm_Vector_t_assigned testLibm stdHeader 0 1 { ownShip 1 100 with speed := 80 }
    { flarmTarget 0xABCDEF 800 0 0 with
      speed := 80, gnsstime_ms := 100000, prevtime_ms := 98000 }).2.1
    (by decide) (by decide!) (by decide) (by decide!) (by decide!)

/-! ## The re-arm timer -/

/-- Claim C31, as the code has it. A notification emitted by `Traffic_loop` at time `now`
starts the re-arm timer only if it is not running: after the tick the expiry is
`now + 9000` ms (in 32-bit arithmetic) if `Alarm_timer` was 0, and the old expiry
otherwise; a running timer is not refreshed. -/
theorem Traffic_loop_starts_timer (M : Libm) (H : Header) (env : Env) (w : World)
    (n : Notification) (hn : (Traffic_loop M H env w).2 = some n) :
    (w.Alarm_timer = 0 →
      (Traffic_loop M H env w).1.Alarm_timer = (env.millis + 9000) % 4294967296) ∧
    (w.Alarm_timer ≠ 0 → (Traffic_loop M H env w).1.Alarm_timer = w.Alarm_timer) := by
  cases hg : env.isTimeToUpdateTraffic with
  | false =>
    have h0 : Traffic_loop M H env w = (w, none) := by
      unfold Traffic_loop
      simp only [hg, if_true]
    rw [h0] at hn
    exact absurd hn (by simp)
  | true =>
    unfold Traffic_loop at hn ⊢
    simp only [hg, Bool.true_eq_false, if_false] at hn ⊢
    generalize loop_slots M H env 0 w.Container
      { max_alarm_level := ALARM_LEVEL_NONE
        alarm_ahead := false
        sound_alarm_level := ALARM_LEVEL_NONE
        alarmcount := 0
        mfop := none
        stats := w.stats } = r at hn ⊢
    cases hm : r.2.mfop with
    | none =>
      rw [hm] at hn
      exact absurd hn (by simp)
    | some k =>
      rw [hm] at hn
      by_cases h2 : r.2.sound_alarm_level > ALARM_LEVEL_CLOSE
      · simp only [hm, if_pos h2]
        constructor
        · intro h0
          rw [if_pos h0]
        · intro h0
          rw [if_neg h0]
      · simp only [if_neg h2] at hn
        exact absurd hn (by simp)

theorem Traffic_loop_starts_timer_witness :
    (Traffic_loop testLibm stdHeader
        (testEnv (ownShip 1 101) (some (Alarm_Distance stdHeader)) 101 1000)
        (worldOf [flarmTarget 0xABCDEF 800 2 0] 0)).1.Alarm_timer = 10000 :=
  (Traffic_loop_starts_timer testLibm stdHeader
    (testEnv (ownShip 1 101) (some (Alarm_Distance stdHeader)) 101 1000)
    (worldOf [flarmTarget 0xABCDEF 800 2 0] 0)
    { level := 2, multiple := false, index := 0, addr := 0xABCDEF } (by decide!)).1 rfl

/-- Counterexample to C31 as stated: the timer runs, with expiry 10000 ms, when a tick at
3000 ms notifies an Urgent target. After the tick the expiry is still 10000 ms, not
3000 + 9000 = 12000 ms. -/
theorem Traffic_loop_timer_not_refreshed :
    (Traffic_loop testLibm stdHeader
        (testEnv (ownShip 1 103) (some (Alarm_Distance stdHeader)) 103 3000)
        (worldOf [heardAt 300 103 (flarmTarget 0xABCDEF 300 4 2)] 10000)).2
      = some { level := 4, multiple := false, index := 0, addr := 0xABCDEF } ∧
    (Traffic_loop testLibm stdHeader
        (testEnv (ownShip 1 103) (some (Alarm_Distance stdHeader)) 103 3000)
        (worldOf [heardAt 300 103 (flarmTarget 0xABCDEF 300 4 2)] 10000)).1.Alarm_timer = 10000 ∧
    (testEnv (ownShip 1 103) (some (Alarm_Distance stdHeader)) 103 3000).millis + 9000
      = 12000 := by
  decide!

/-- The block `if (Alarm_Level)` with an algorithm selected: the evaluation, then the test of
the re-arm timer. -/
theorem alarm_eval_timer (env : Env) (alg : AlarmFn) (timer : Nat) (fop : container_t)
    (ha : env.Alarm_Level = some alg) :
    alarm_eval env timer fop =
      if timer ≠ 0 ∧ env.millis > timer then
        (if (evaluated alg env.ThisAircraft fop).alert_level > ALARM_LEVEL_NONE then
          { evaluated alg env.ThisAircraft fop with
            alert_level := (evaluated alg env.ThisAircraft fop).alert_level - 1 }
         else evaluated alg env.ThisAircraft fop, 0)
      else (evaluated alg env.ThisAircraft fop, timer) := by
  unfold alarm_eval evaluated
  rw [ha]

/-- What `Traffic_Update` does at the expiry of the re-arm timer. The timer is one global
without a record of the target it was started for. Once it
has expired (`Alarm_timer != 0` and `millis() > Alarm_timer`), the first call of
`Traffic_Update` that reaches the alarm evaluation, for whichever target it is made,
decrements the `alert_level` of that target by one if it is above None, and clears the timer.
With the timer cleared a call evaluates without that decrement and leaves the timer cleared,
so the decrement is applied at most once per expiry; a call that does not reach the
evaluation leaves timer and `alert_level` alone. -/
theorem rearm_expiry_once (H : Header) (env : Env) (alg : AlarmFn) (timer : Nat)
    (fop : container_t) (ha : env.Alarm_Level = some alg)
    (he : evaluates H env fop = true) (hx : timer ≠ 0 ∧ env.millis > timer) :
    (Traffic_Update H env timer fop).2 = 0 ∧
    (Traffic_Update H env timer fop).1 =
      (if (evaluated alg env.ThisAircraft (eval_input H env fop)).alert_level
          > ALARM_LEVEL_NONE then
        { evaluated alg env.ThisAircraft (eval_input H env fop) with
          alert_level :=
            (evaluated alg env.ThisAircraft (eval_input H env fop)).alert_level - 1 }
       else evaluated alg env.ThisAircraft (eval_input H env fop)) ∧
    Traffic_Update H env 0 fop
      = (evaluated alg env.ThisAircraft (eval_input H env fop), 0) ∧
    ∀ (env1 : Env) (fop1 : container_t),
      (Traffic_Update H env1 0 fop1).2 = 0 ∧
      (evaluates H env1 fop1 = false →
        (Traffic_Update H env1 timer fop1).2 = timer ∧
        (Traffic_Update H env1 timer fop1).1.alert_level = fop1.alert_level) := by
  obtain ⟨e1, -⟩ := Traffic_Update_eval H env timer fop he
  obtain ⟨e0, -⟩ := Traffic_Update_eval H env 0 fop he
  rw [e1, e0, alarm_eval_timer env alg timer _ ha, alarm_eval_timer env alg 0 _ ha, if_pos hx]
  refine ⟨rfl, rfl, ?_, ?_⟩
  · rw [if_neg (fun h => h.1 rfl)]
  · intro env1 fop1
    constructor
    · cases hev : evaluates H env1 fop1 with
      | false => exact ((Traffic_Update_cases H env1 0 fop1).2 hev).2.2.2.2
      | true =>
        obtain ⟨f, -, -, -, -, hf⟩ := (Traffic_Update_cases H env1 0 fop1).1 hev
        rw [hf]
        unfold alarm_eval
        cases env1.Alarm_Level with
        | none => rfl
        | some alg1 =>
          simp only
          rw [if_neg (fun h => h.1 rfl)]
    · intro hev
      obtain ⟨c1, -, -, -, c5⟩ := (Traffic_Update_cases H env1 timer fop1).2 hev
      exact ⟨c5, c1⟩

/-- The expiry at a concrete input: the update of a target at Low, 1000 ms after the
expiry. -/
theorem rearm_expiry_once_witness :
    (Traffic_Update stdHeader
        (testEnv (ownShip 1 111) (some (Alarm_Distance stdHeader)) 111 11000) 10000
        (heardAt 800 111 (flarmTarget 0xBBBBBB 800 2 2))).2 = 0 ∧
    (Traffic_Update stdHeader
        (testEnv (ownShip 1 111) (some (Alarm_Distance stdHeader)) 111 11000) 10000
        (heardAt 800 111 (flarmTarget 0xBBBBBB 800 2 2))).1.alert_level = 1 :=
  have h := rearm_expiry_once stdHeader
    (testEnv (ownShip 1 111) (some (Alarm_Distance stdHeader)) 111 11000)
    (Alarm_Distance stdHeader) 10000 (heardAt 800 111 (flarmTarget 0xBBBBBB 800 2 2))
    rfl (by decide) (by decide)
  ⟨h.1, by rw [h.2.1]; decide!⟩

/-- The code at the failing input of C32, where the claim wants the decrement at the expiry
to go to the target T whose notification started the timer, and to no other target. Two
targets T (slot 0) and U (slot 1), both at Low,
U already notified. A tick at 1000 ms notifies T and starts the timer (expiry 10000 ms). At
11000 ms a report of U arrives first: its `Traffic_Update` finds the timer expired and
decrements the `alert_level` of U from Low to Close; the `Traffic_Update` of T that follows
finds the timer cleared and leaves the `alert_level` of T at Low. The next tick notifies U,
not T. -/
theorem rearm_expiry_hits_other_target :
    (Traffic_loop testLibm stdHeader
        (testEnv (ownShip 1 101) (some (Alarm_Distance stdHeader)) 101 1000)
        (worldOf [flarmTarget 0xAAAAAA 800 2 0, flarmTarget 0xBBBBBB 800 2 2] 0)).2
      = some { level := 2, multiple := false, index := 0, addr := 0xAAAAAA } ∧
    (Traffic_loop testLibm stdHeader
        (testEnv (ownShip 1 101) (some (Alarm_Distance stdHeader)) 101 1000)
        (worldOf [flarmTarget 0xAAAAAA 800 2 0, flarmTarget 0xBBBBBB 800 2 2] 0)).1.Alarm_timer
      = 10000 ∧
    (alarm_run testLibm stdHeader
        (worldOf [flarmTarget 0xAAAAAA 800 2 0, flarmTarget 0xBBBBBB 800 2 2] 0)
        [AlarmEvent.tick (testEnv (ownShip 1 101) (some (Alarm_Distance stdHeader)) 101 1000),
         AlarmEvent.update (testEnv (ownShip 1 111) (some (Alarm_Distance stdHeader)) 111 11000)
           1 (heardAt 800 111),
         AlarmEvent.update (testEnv (ownShip 1 111) (some (Alarm_Distance stdHeader)) 111 11000)
           0 (heardAt 800 111)]).Container.map (fun c => (c.addr, c.alert_level))
      = [(0xAAAAAA, 2), (0xBBBBBB, 1)] ∧
    alarm_trace testLibm stdHeader
        (worldOf [flarmTarget 0xAAAAAA 800 2 0, flarmTarget 0xBBBBBB 800 2 2] 0)
        [AlarmEvent.tick (testEnv (ownShip 1 101) (some (Alarm_Distance stdHeader)) 101 1000),
         AlarmEvent.update (testEnv (ownShip 1 111) (some (Alarm_Distance stdHeader)) 111 11000)
           1 (heardAt 800 111),
         AlarmEvent.update (testEnv (ownShip 1 111) (some (Alarm_Distance stdHeader)) 111 11000)
           0 (heardAt 800 111),
         AlarmEvent.tick (testEnv (ownShip 1 111) (some (Alarm_Distance stdHeader)) 111 11000)]
      = [(1000, { level := 2, multiple := false, index := 0, addr := 0xAAAAAA }),
         (11000, { level := 2, multiple := false, index := 1, addr := 0xBBBBBB })] := by
  decide!

/-! ## A report with the stored position -/

/-- The only field of the entry that `air_relay` writes is `timerelayed`. -/
theorem air_relay_timerelayed (H : Header) (env : Env) (g : relay_globals) (cip : container_t) :
    (air_relay H env g cip).1
      = { cip with timerelayed := (air_relay H env g cip).1.timerelayed } := by
  unfold air_relay
  simp only
  split_ifs <;> rfl

/-- Claim C33. When a report matches a stored address (`cip`, in slot `i`, is the first entry
holding it), passes the source-preference tests and carries the altitude, latitude and
longitude of the stored entry, `AddTraffic` completes and changes only `timestamp` and
`last_crc` of that slot, and `timerelayed` when a relay is considered: every other field of
the slot (levels, position, derived geometry, history), every other slot, the re-arm timer,
the cosine cache and the range statistics are unchanged. -/
theorem AddTraffic_same_position (M : Libm) (H : Header) (env : Env) (w : World) (fop : ufo_t)
    (callsign : Option (List Nat)) (i : Nat) (cip : container_t)
    (hi : w.Container[i]? = some cip) (ha : cip.addr = fop.addr)
    (hfirst : ∀ j c, j < i → w.Container[j]? = some c → c.addr ≠ fop.addr)
    (hpass : source_rejected H env cip fop = false)
    (hsame : fop.altitude = cip.altitude ∧ fop.latitude = cip.latitude ∧
      fop.longitude = cip.longitude) :
    ∃ w' tr, AddTraffic M H env w fop callsign = some w' ∧
      w'.Container = w.Container.set i
        { cip with last_crc := fop.last_crc, timestamp := fop.timestamp, timerelayed := tr } ∧
      (do_relay H env fop = false → tr = cip.timerelayed ∧ w'.relay = w.relay) ∧
      (∀ j, j ≠ i → w'.Container[j]? = w.Container[j]?) ∧
      w'.Alarm_timer = w.Alarm_timer ∧ w'.cosc = w.cosc ∧ w'.stats = w.stats ∧
      w'.max_alarm_level = w.max_alarm_level ∧ w'.alarm_ahead = w.alarm_ahead := by
  have hlt : i < w.Container.length := by
    by_contra hc
    rw [List.getElem?_eq_none (not_lt.1 hc)] at hi
    exact Option.noConfusion hi
  have hget : w.Container[i] = cip := by
    rw [List.getElem?_eq_getElem hlt] at hi
    exact Option.some.inj hi
  have hfind : w.Container.findIdx? (fun cip => cip.addr == fop.addr) = some i := by
    rw [List.findIdx?_eq_some_iff_getElem]
    refine ⟨hlt, ?_, ?_⟩
    · rw [hget, ha]; exact beq_self_eq_true _
    · intro j hj
      have hjl : j < w.Container.length := lt_trans hj hlt
      have := hfirst j w.Container[j] hj (List.getElem?_eq_getElem hjl)
      simpa using this
  have hD : w.Container.getD i EmptyContainer = cip := by
    rw [List.getD_eq_getElem?_getD, hi]; rfl
  have hset : ∀ (e : container_t) (j : Nat), j ≠ i →
      (w.Container.set i e)[j]? = w.Container[j]? := by
    intro e j hj
    rw [List.getElem?_set, if_neg (Ne.symm hj)]
  unfold AddTraffic
  rw [hfind]
  simp only
  rw [hD]
  unfold AddTraffic_known
  rw [hpass]
  simp only [Bool.false_eq_true, if_false]
  rw [if_pos hsame]
  unfold relay_and_store
  cases hr : do_relay H env fop with
  | false =>
    refine ⟨_, cip.timerelayed, rfl, rfl, fun _ => ⟨rfl, rfl⟩, ?_, rfl, rfl, rfl, rfl, rfl⟩
    intro j hj
    exact hset _ j hj
  | true =>
    refine ⟨_, (air_relay H env w.relay
        { cip with last_crc := fop.last_crc, timestamp := fop.timestamp }).1.timerelayed,
      rfl, ?_, fun h => absurd h (by simp), ?_, rfl, rfl, rfl, rfl, rfl⟩
    · simp only [if_true]
      rw [air_relay_timerelayed H env w.relay
        { cip with last_crc := fop.last_crc, timestamp := fop.timestamp }]
    · intro j hj
      exact hset _ j hj

theorem AddTraffic_same_position_witness :
    ∃ w' tr, AddTraffic testLibm stdHeader
        (testEnv (ownShip 1 101) (some (Alarm_Distance stdHeader)) 101 1000)
        (worldOf [flarmTarget 0xABCDEF 800 0 0,
          { flarmTarget 0x123456 800 2 2 with latitude := 46, longitude := 7, altitude := 1000 }]
          0)
        { flarmReport 0x123456 46 7 with timestamp := 101, last_crc := 77 } none = some w' ∧
      w'.Container = (worldOf [flarmTarget 0xABCDEF 800 0 0,
          { flarmTarget 0x123456 800 2 2 with latitude := 46, longitude := 7, altitude := 1000 }]
          0).Container.set 1
        { ({ flarmTarget 0x123456 800 2 2 with
              latitude := 46, longitude := 7, altitude := 1000 } : container_t) with
          last_crc := 77, timestamp := 101, timerelayed := tr } ∧
      (do_relay stdHeader (testEnv (ownShip 1 101) (some (Alarm_Distance stdHeader)) 101 1000)
          { flarmReport 0x123456 46 7 with timestamp := 101, last_crc := 77 } = false →
        tr = 0 ∧ w'.relay = (worldOf [] 0).relay) ∧
      (∀ j, j ≠ 1 → w'.Container[j]? = (worldOf [flarmTarget 0xABCDEF 800 0 0,
          { flarmTarget 0x123456 800 2 2 with latitude := 46, longitude := 7, altitude := 1000 }]
          0).Container[j]?) ∧
      w'.Alarm_timer = 0 ∧ w'.cosc = (worldOf [] 0).cosc ∧ w'.stats = zero_range_stats ∧
      w'.max_alarm_level = ALARM_LEVEL_NONE ∧ w'.alarm_ahead = false :=
  AddTraffic_same_position testLibm stdHeader
    (testEnv (ownShip 1 101) (some (Alarm_Distance stdHeader)) 101 1000)
    (worldOf [flarmTarget 0xABCDEF 800 0 0,
      { flarmTarget 0x123456 800 2 2 with latitude := 46, longitude := 7, altitude := 1000 }] 0)
    { flarmReport 0x123456 46 7 with timestamp := 101, last_crc := 77 } none 1
    { flarmTarget 0x123456 800 2 2 with latitude := 46, longitude := 7, altitude := 1000 }
    rfl rfl
    (fun j c hj hc => by
      have hj0 : j = 0 := by omega
      subst hj0
      have : flarmTarget 0xABCDEF 800 0 0 = c := Option.some.inj hc
      rw [← this]
      decide)
    (by decide) (by decide!)

/-! ## A newly admitted target carries no state of the previous occupant -/

/-- `Alarm_None` hands a fresh entry back fresh. -/
theorem Alarm_None_KeepsFresh : KeepsFresh Alarm_None :=
  fun _ _ => ⟨le_refl _, fun h => h⟩

/-- `Alarm_Distance` hands a fresh entry back fresh: its decrement of `alert_level` is
guarded by `alert_level > ALARM_LEVEL_NONE`. -/
theorem Alarm_Distance_KeepsFresh (H : Header) : KeepsFresh (Alarm_Distance H) := by
  intro t f
  refine ⟨(Alarm_Distance_LevelSafe H t f).1.1, fun hf => ?_⟩
  obtain ⟨h1, h2, h3, h4, h5⟩ := hf
  have hn : ¬ f.alert_level > ALARM_LEVEL_NONE := by rw [h1]; decide
  unfold Alarm_Distance
  simp only
  split_ifs
  all_goals first
    | exact ⟨h1, h2, h3, h4, h5⟩
    | (exfalso
       rename_i hx
       exact hn hx.2)

/-- `Alarm_Vector` hands a fresh entry back fresh. -/
theorem Alarm_Vector_KeepsFresh (M : Libm) (H : Header) (t0 : ℚ) :
    KeepsFresh (Alarm_Vector M H t0) := by
  intro t f
  refine ⟨(Alarm_Vector_LevelSafe M H t0 t f).1.1, fun hf => ?_⟩
  have hd := (Alarm_Distance_KeepsFresh H t f).2 hf
  have hn : ¬ f.alert_level > ALARM_LEVEL_NONE := by rw [hf.1]; decide
  unfold Alarm_Vector
  simp only
  split_ifs
  all_goals first
    | exact hd
    | exact hf
    | (exfalso
       rename_i hx
       exact hn hx.2.2)

/-- The simulator of `Alarm_Latest` hands a fresh entry back fresh. -/
theorem latest_sim_KeepsFresh (H : Header) (t f : container_t) (hf : Fresh f) :
    Fresh (latest_sim H t f).2 := by
  have hn : ¬ f.alert_level > ALARM_LEVEL_NONE := by rw [hf.1]; decide
  unfold latest_sim latest_result
  simp only
  split_ifs
  all_goals first
    | exact hf
    | (exfalso
       rename_i hx
       exact hn hx.2.2)

/-- `Alarm_Latest` hands a fresh entry back fresh, as far as `project_that` does. -/
theorem Alarm_Latest_KeepsFresh (M : Libm) (H : Header)
    (project_that : container_t → container_t → container_t) (t0 : ℚ)
    (hp : ∀ t f, Fresh f → Fresh (project_that t f)) :
    KeepsFresh (Alarm_Latest M H project_that t0) := by
  intro t f
  have hl : ALARM_LEVEL_NONE ≤ (Alarm_Latest M H project_that t0 t f).1 := by
    have hn : ALARM_LEVEL_NONE ≤ ALARM_LEVEL_NONE := le_refl _
    have d1 := (Alarm_Distance_LevelSafe H t f).1.1
    have v1 := (Alarm_Vector_LevelSafe M H t0 t f).1.1
    have p1 := (Alarm_Vector_LevelSafe M H t0 t (project_that t f)).1.1
    have s1 := (latest_sim_LevelSafe H t (project_that t f)).1.1
    unfold Alarm_Latest
    simp only
    split_ifs
    all_goals first
      | exact hn
      | exact d1
      | exact v1
      | exact p1
      | exact s1
  refine ⟨hl, fun hf => ?_⟩
  have d2 := (Alarm_Distance_KeepsFresh H t f).2 hf
  have v2 := (Alarm_Vector_KeepsFresh M H t0 t f).2 hf
  have p2 := (Alarm_Vector_KeepsFresh M H t0 t (project_that t f)).2 (hp t f hf)
  have s2 := latest_sim_KeepsFresh H t (project_that t f) (hp t f hf)
  unfold Alarm_Latest
  simp only
  split_ifs
  all_goals first
    | exact hf
    | exact d2
    | exact v2
    | exact p2
    | exact s2

/-- On a 10-byte callsign array `icao_to_n` completes and writes the callsign only. -/
theorem icao_to_n_callsign_only (H : Header) (st : settings_t) (f : container_t)
    (hlen : f.callsign.length = 10) :
    ∃ r, icao_to_n H st f = some r ∧ r = { f with callsign := r.callsign } := by
  by_cases h : f.addr_type ≠ H.ADDR_TYPE_ICAO ∨ st.band ≠ H.RF_BAND_US ∨
      (f.callsign.headD 0 ≠ 0 ∧ f.callsign.headD 0 ≠ 32) ∨
      (¬ (0xA00001 ≤ f.addr ∧ f.addr ≤ 0xADF7C7) ∧ ¬ (0xC00001 ≤ f.addr ∧ f.addr < 0xC0CDF9))
  · exact ⟨f, icao_to_n_guarded H st f h, rfl⟩
  · have hty : f.addr_type = H.ADDR_TYPE_ICAO := by
      by_contra hc; exact h (Or.inl hc)
    have hband : st.band = H.RF_BAND_US := by
      by_contra hc; exact h (Or.inr (Or.inl hc))
    have hcs : f.callsign.headD 0 = 0 ∨ f.callsign.headD 0 = 32 := by
      by_contra hc; exact h (Or.inr (Or.inr (Or.inl (by omega))))
    have hr : (0xA00001 ≤ f.addr ∧ f.addr ≤ 0xADF7C7) ∨ (0xC00001 ≤ f.addr ∧ f.addr < 0xC0CDF9) := by
      by_contra hc; exact h (Or.inr (Or.inr (Or.inr (by omega))))
    rcases hr with hr | hr
    · obtain ⟨d, tail, -, -, -, -, -, hres⟩ := us_closed H st f hlen hty hband hcs hr.1 hr.2
      exact ⟨_, hres, rfl⟩
    · obtain ⟨b0, b1, b2, b3, b4, b5, b6, b7, b8, b9, hb⟩ := len10 _ hlen
      have hcs2 : ¬ (f.callsign.headD 0 ≠ 0 ∧ f.callsign.headD 0 ≠ 32) := by omega
      have hrange : f.addr > 0xC00000 ∧ f.addr < 0xC0CDF9 := by omega
      have hI : icao_to_n H st f = icao_canadian f := by
        unfold icao_to_n
        simp only [hty, hband, ne_eq, not_true_eq_false, if_false, hcs2, hrange, and_self, if_true]
      rw [hI, canadian_closed f b0 b1 b2 b3 b4 b5 b6 b7 b8 b9 hb hr.1 hr.2]
      exact ⟨_, rfl, rfl⟩

/-- `CopyTraffic` on a fresh entry with a 10-byte callsign array: the entry it returns is
fresh. -/
theorem CopyTraffic_Fresh (H : Header) (env : Env) (cip : container_t) (fop : ufo_t)
    (callsign : Option (List Nat)) (hlen : cip.callsign.length = 10) (hf : Fresh cip) :
    ∀ r, CopyTraffic H env cip fop callsign = some r → Fresh r := by
  have hlen2 : (copy_fields env cip fop).callsign.length = 10 := hlen
  have hf2 : Fresh (copy_fields env cip fop) := hf
  have key : ∀ g : container_t, g.callsign.length = 10 → Fresh g →
      ∀ r, icao_to_n H env.settings g = some r → Fresh r := by
    intro g hg hfg r hr
    obtain ⟨r', h1, h2⟩ := icao_to_n_callsign_only H env.settings g hg
    rw [h1] at hr
    have : r' = r := Option.some.inj hr
    subst this
    rw [h2]
    exact hfg
  intro r hr
  unfold CopyTraffic at hr
  simp only at hr
  cases callsign with
  | none =>
    simp only [Option.some_bind] at hr
    exact key _ hlen2 hf2 r hr
  | some cs =>
    simp only at hr
    split_ifs at hr with hc
    · obtain ⟨buf, hb1, hb2⟩ := copy_callsign_total (copy_fields env cip fop).callsign cs hlen2
      rw [hb1, Option.map_some', Option.some_bind] at hr
      exact key { copy_fields env cip fop with callsign := buf } hb2 hf2 r hr
    · rw [Option.some_bind] at hr
      exact key _ hlen2 hf2 r hr

/-- The block `if (Alarm_Level)` hands a fresh entry back fresh. -/
theorem alarm_eval_Fresh (env : Env) (timer : Nat) (f : container_t)
    (hK : ∀ alg, env.Alarm_Level = some alg → KeepsFresh alg) (hf : Fresh f) :
    Fresh (alarm_eval env timer f).1 := by
  unfold alarm_eval
  cases hA : env.Alarm_Level with
  | none => exact hf
  | some alg =>
    obtain ⟨k1, k2⟩ := hK alg hA env.ThisAircraft f
    obtain ⟨g1, g2, g3, g4, g5⟩ := k2 hf
    simp only
    have h1 : ¬ (alg env.ThisAircraft f).1 < (alg env.ThisAircraft f).2.alert_level := by
      rw [g1]
      exact not_lt.2 k1
    have h2 : ¬ (alg env.ThisAircraft f).2.alert_level > ALARM_LEVEL_NONE := by
      rw [g1]
      decide
    rw [if_neg h1]
    simp only
    rw [if_neg h2]
    split_ifs <;> exact ⟨g1, g2, g3, g4, g5⟩

/-- `Traffic_Update` hands a fresh entry back fresh. -/
theorem Traffic_Update_Fresh (H : Header) (env : Env) (timer : Nat) (f : container_t)
    (hK : ∀ alg, env.Alarm_Level = some alg → KeepsFresh alg) (hf : Fresh f) :
    Fresh (Traffic_Update H env timer f).1 := by
  have hnm : ∀ g : container_t, Fresh g → Fresh (note_maxrssi H g) := by
    intro g hg
    unfold note_maxrssi
    split_ifs <;> exact hg
  have hnd : ∀ g : container_t, Fresh g → Fresh (note_mindist H g) := by
    intro g hg
    unfold note_mindist
    split_ifs <;> exact hg
  have hun : Fresh (update_nondirectional H f) := by
    unfold update_nondirectional
    exact hnm _ hf
  have hud : Fresh (update_directional H env f) := by
    have := hnm _ (hnd { f with
      RelativeHeading := relative_heading f.bearing env.ThisAircraft.heading } hf)
    unfold update_directional
    exact this
  unfold Traffic_Update
  simp only
  split_ifs
  · exact hun
  · exact alarm_eval_Fresh env timer _ hK hun
  · exact hud
  · exact hud
  · exact hud
  · exact alarm_eval_Fresh env timer _ hK hud

/-- The common end of the admission paths of `AddTraffic`: `Traffic_Update`, the relay and the
write into slot `i`. A fresh entry is stored fresh, with the address it had. -/
theorem store_Fresh (H : Header) (env : Env) (w : World) (i : Nat) (cip : container_t)
    (b : Bool) (timer : Nat)
    (hF : ∀ alg, env.Alarm_Level = some alg → Framed alg ∧ KeepsFresh alg)
    (hf : Fresh cip) :
    ∃ c, (relay_and_store H env w i (Traffic_Update H env timer cip).1 b).Container
        = w.Container.set i c ∧ c.addr = cip.addr ∧ Fresh c := by
  have hu := Traffic_Update_Fresh H env timer cip (fun alg h => (hF alg h).2) hf
  obtain ⟨t1, -⟩ := Traffic_Update_frame H env timer cip (fun alg h => (hF alg h).1)
  unfold relay_and_store
  cases b with
  | false => exact ⟨_, rfl, t1, hu⟩
  | true =>
    refine ⟨_, rfl, ((air_relay_frame H env w.relay _).1).trans t1, ?_⟩
    simp only [if_true]
    rw [air_relay_timerelayed]
    exact hu

/-- Claim C40. Whenever `AddTraffic` admits an address that was not in the table, into an
empty slot, an expired slot or the slot of the evicted entry, the entry stored carries no
state of the previous occupant `old`: its `alert_level` is None and its history
(`prevtime_ms`, `prevcourse`, `prevheading`, `prevaltitude`) is zero, so that with a level of
Low or higher it meets the notification criterion `alarm_level > alert_level` and
`alarm_level > Close`. The selected algorithm is taken to leave address and callsign alone,
to return no level below None and to hand a fresh entry back fresh, which the four
algorithms of the file do. -/
theorem AddTraffic_admits_fresh (M : Libm) (H : Header) (env : Env) (w : World) (fop : ufo_t)
    (callsign : Option (List Nat))
    (hF : ∀ alg, env.Alarm_Level = some alg → Framed alg ∧ KeepsFresh alg)
    (hnew : ∀ c ∈ w.Container, c.addr ≠ fop.addr) :
    ∃ w', AddTraffic M H env w fop callsign = some w' ∧
      (w'.Container = w.Container ∨
        ∃ i old e, w.Container[i]? = some old ∧
          (old.addr = 0 ∨ env.OurTime > old.timestamp + H.ENTRY_EXPIRATION_TIME ∨
            evictable env.settings.follow_id old) ∧
          w'.Container = w.Container.set i e ∧ w'.Container[i]? = some e ∧
          e.addr = fop.addr ∧ Fresh e ∧
          (e.alarm_level ≥ ALARM_LEVEL_LOW →
            e.alarm_level > e.alert_level ∧ e.alarm_level > ALARM_LEVEL_CLOSE)) := by
  have hE : Fresh EmptyContainer := by decide
  have hcand : ∀ e : container_t, Fresh e → e.alarm_level ≥ ALARM_LEVEL_LOW →
      e.alarm_level > e.alert_level ∧ e.alarm_level > ALARM_LEVEL_CLOSE := by
    intro e he hl
    rw [he.1]
    simp only [ALARM_LEVEL_LOW, ALARM_LEVEL_NONE, ALARM_LEVEL_CLOSE] at *
    omega
  have hsetget : ∀ (i : Nat) (old e : container_t), w.Container[i]? = some old →
      (w.Container.set i e)[i]? = some e := by
    intro i old e hi
    have hlt : i < w.Container.length := by
      by_contra hc
      rw [List.getElem?_eq_none (not_lt.1 hc)] at hi
      exact Option.noConfusion hi
    rw [List.getElem?_set, if_pos rfl, if_pos hlt]
  have hfind1 : w.Container.findIdx? (fun cip => cip.addr == fop.addr) = none := by
    rw [List.findIdx?_eq_none_iff]
    intro c hc
    have := hnew c hc
    simpa using this
  have hnewslot : ∀ (i : Nat) (old : container_t) (sample : Bool),
      w.Container[i]? = some old →
      (old.addr = 0 ∨ env.OurTime > old.timestamp + H.ENTRY_EXPIRATION_TIME ∨
        evictable env.settings.follow_id old) →
      ∃ w', AddTraffic_new M H env w i fop callsign sample = some w' ∧
        (w'.Container = w.Container ∨
          ∃ i old e, w.Container[i]? = some old ∧
            (old.addr = 0 ∨ env.OurTime > old.timestamp + H.ENTRY_EXPIRATION_TIME ∨
              evictable env.settings.follow_id old) ∧
            w'.Container = w.Container.set i e ∧ w'.Container[i]? = some e ∧
            e.addr = fop.addr ∧ Fresh e ∧
            (e.alarm_level ≥ ALARM_LEVEL_LOW →
              e.alarm_level > e.alert_level ∧ e.alarm_level > ALARM_LEVEL_CLOSE)) := by
    intro i old sample hi hold
    unfold AddTraffic_new
    obtain ⟨r, hr1, hr2, -⟩ := CopyTraffic_total H env EmptyContainer fop callsign rfl
    have hrF := CopyTraffic_Fresh H env EmptyContainer fop callsign rfl hE r hr1
    rw [hr1, Option.map_some']
    obtain ⟨c, hc1, hc2, hc3⟩ := store_Fresh H env
      { w with cosc := (Calc_Traffic_Distances M env.ThisAircraft w.cosc r).2,
               Alarm_timer := (Traffic_Update H env w.Alarm_timer
                 (Calc_Traffic_Distances M env.ThisAircraft w.cosc r).1).2,
               stats := if sample then sample_range M H env.ThisAircraft
                 (Traffic_Update H env w.Alarm_timer
                   (Calc_Traffic_Distances M env.ThisAircraft w.cosc r).1).1 w.stats
                 else w.stats }
      i (Calc_Traffic_Distances M env.ThisAircraft w.cosc r).1 (do_relay H env fop)
      w.Alarm_timer hF hrF
    refine ⟨_, rfl, Or.inr ⟨i, old, c, hi, hold, hc1, ?_, hc2.trans hr2, hc3, hcand c hc3⟩⟩
    rw [hc1]
    exact hsetget i old c hi
  unfold AddTraffic
  rw [hfind1]
  simp only
  cases h2 : w.Container.findIdx? (fun cip => cip.addr == 0) with
  | some i =>
    simp only
    obtain ⟨hlt, hp, -⟩ := List.findIdx?_eq_some_iff_getElem.1 h2
    exact hnewslot i w.Container[i] true (List.getElem?_eq_getElem hlt)
      (Or.inl (by simpa using hp))
  | none =>
    simp only
    cases h3 : w.Container.findIdx?
        (fun cip => decide (env.OurTime > cip.timestamp + H.ENTRY_EXPIRATION_TIME)) with
    | some i =>
      simp only
      obtain ⟨hlt, hp, -⟩ := List.findIdx?_eq_some_iff_getElem.1 h3
      exact hnewslot i w.Container[i] false (List.getElem?_eq_getElem hlt)
        (Or.inr (Or.inl (by simpa using hp)))
    | none =>
      simp only
      unfold AddTraffic_evict
      simp only
      rcases farthest_spec env.settings.follow_id w.Container 0 (none, 0) with
        ⟨h1, -⟩ | ⟨p, c0, hp, hc, hr, -, -, -⟩
      · rw [h1]
        exact ⟨_, rfl, Or.inl rfl⟩
      · rw [hr]
        simp only [Nat.zero_add]
        split_ifs with hcond
        · obtain ⟨r, hr1, hr2, -⟩ := CopyTraffic_total H env EmptyContainer fop callsign rfl
          have hrF := CopyTraffic_Fresh H env EmptyContainer fop callsign rfl hE r hr1
          rw [hr1, Option.map_some']
          obtain ⟨e, he1, he2, he3⟩ := store_Fresh H env
            { w with cosc := (Stash_Traffic_Distances M env.ThisAircraft w.cosc fop).2,
                     Alarm_timer := (Traffic_Update H env w.Alarm_timer
                       (Copy_Traffic_Distances
                         (Stash_Traffic_Distances M env.ThisAircraft w.cosc fop).1 r)).2 }
            p (Copy_Traffic_Distances (Stash_Traffic_Distances M env.ThisAircraft w.cosc fop).1 r)
            (do_relay H env fop) w.Alarm_timer hF hrF
          refine ⟨_, rfl, Or.inr ⟨p, c0, e, hp, Or.inr (Or.inr hc), he1, ?_, he2.trans hr2, he3,
            hcand e he3⟩⟩
          rw [he1]
          exact hsetget p c0 e hp
        · exact ⟨_, rfl, Or.inl rfl⟩

theorem AddTraffic_admits_fresh_witness :
    ∃ w', AddTraffic testLibm stdHeader
        (testEnv (ownShip 1 101) (some (Alarm_Distance stdHeader)) 101 1000)
        (worldOf [flarmTarget 0xABCDEF 800 0 0,
          { flarmTarget 0xBBBBBB 300 4 4 with timestamp := 50, prevtime_ms := 48000 }] 0)
        (flarmReport 0x123456 46 7) none = some w' ∧
      (w'.Container = (worldOf [flarmTarget 0xABCDEF 800 0 0,
          { flarmTarget 0xBBBBBB 300 4 4 with timestamp := 50, prevtime_ms := 48000 }]
          0).Container ∨
        ∃ i old e, (worldOf [flarmTarget 0xABCDEF 800 0 0,
            { flarmTarget 0xBBBBBB 300 4 4 with timestamp := 50, prevtime_ms := 48000 }]
            0).Container[i]? = some old ∧
          (old.addr = 0 ∨
            (testEnv (ownShip 1 101) (some (Alarm_Distance stdHeader)) 101 1000).OurTime
              > old.timestamp + stdHeader.ENTRY_EXPIRATION_TIME ∨
            evictable (testEnv (ownShip 1 101) (some (Alarm_Distance stdHeader)) 101
              1000).settings.follow_id old) ∧
          w'.Container = (worldOf [flarmTarget 0xABCDEF 800 0 0,
            { flarmTarget 0xBBBBBB 300 4 4 with timestamp := 50, prevtime_ms := 48000 }]
            0).Container.set i e ∧ w'.Container[i]? = some e ∧
          e.addr = (flarmReport 0x123456 46 7).addr ∧ Fresh e ∧
          (e.alarm_level ≥ ALARM_LEVEL_LOW →
            e.alarm_level > e.alert_level ∧ e.alarm_level > ALARM_LEVEL_CLOSE)) :=
  AddTraffic_admits_fresh testLibm stdHeader
    (testEnv (ownShip 1 101) (some (Alarm_Distance stdHeader)) 101 1000)
    (worldOf [flarmTarget 0xABCDEF 800 0 0,
      { flarmTarget 0xBBBBBB 300 4 4 with timestamp := 50, prevtime_ms := 48000 }] 0)
    (flarmReport 0x123456 46 7) none
    (fun alg h => by
      have h' : Alarm_Distance stdHeader = alg := Option.some.inj h
      rw [← h']
      exact ⟨Alarm_Distance_Framed stdHeader, Alarm_Distance_KeepsFresh stdHeader⟩)
    (by decide)

/-- The expired slot of an Urgent target that had been notified (`alert_level` Urgent, with
a history) is taken over by a new address: the entry stored has `alert_level` None and no
history. -/
theorem AddTraffic_admits_fresh_example :
    ((AddTraffic testLibm stdHeader
        (testEnv (ownShip 1 101) (some (Alarm_Distance stdHeader)) 101 1000)
        (worldOf [flarmTarget 0xABCDEF 800 0 0,
          { flarmTarget 0xBBBBBB 300 4 4 with timestamp := 50, prevtime_ms := 48000 }] 0)
        (flarmReport 0x123456 46 7) none).map fun w' =>
      w'.Container.map fun c => (c.addr, c.alert_level, c.prevtime_ms))
      = some [(0xABCDEF, 0, 0), (0x123456, 0, 0)] := by
  decide!

/-! ## Landed-out targets in `air_relay` -/

/-- The relay-mode tests of `air_relay` never refuse a target that its local `landed_out`
holds for: whatever the relay mode and whether the target is airborne or not, a call that
passes the timing and slot gates invokes the transmitter. -/
theorem air_relay_landed_out (H : Header) (env : Env) (g : relay_globals) (cip : container_t)
    (hl : landed_out H cip)
    (hg : ¬ (env.current_RF_protocol = env.settings.rf_protocol ∧
      (env.millis < (g.lastrelay + 1000 * H.ANY_RELAY_TIME) % 4294967296 ∨
        cip.timerelayed + (H.ANY_RELAY_TIME + 2) > cip.timestamp)))
    (hslot : env.current_RF_protocol = env.settings.rf_protocol → env.RF_current_slot = 0)
    (hs : env.RF_Transmit_Happened = false)
    (ht : (env.millis + 15) % 4294967296 < env.TxEndMarker)
    (he : env.RF_Encode cip ≠ 0) :
    (air_relay_outcome H env g cip).invoked = true := by
  unfold landed_out at hl
  have htry : (if env.current_RF_protocol = env.settings.rf_protocol then
      decide (env.RF_current_slot = 0) else true) = true := by
    split_ifs with hn
    · exact decide_eq_true (hslot hn)
    · rfl
  have hinv : decide (((if env.current_RF_protocol = env.settings.rf_protocol then
        decide (env.RF_current_slot = 0) else true) = true ∧
      env.RF_Transmit_Happened = false ∧
      (env.millis + 15) % 4294967296 < env.TxEndMarker) ∧ env.RF_Encode cip ≠ 0) = true :=
    decide_eq_true ⟨⟨htry, hs, ht⟩, he⟩
  unfold air_relay_outcome
  simp only [if_true]
  rw [if_neg (fun h => h.1 hl), if_neg hg, hinv]
  split_ifs <;> rfl

/-- The code at the failing input of C34. In relay mode Landed (1, below `RELAY_ALL`), in the
normal protocol and slot 0, a target of protocol Latest and aircraft type Unknown that is
airborne is not landed-out in the words of the specification, yet `air_relay` invokes the
transmitter for it; the same target with aircraft type Glider is refused. -/
theorem air_relay_airborne_unknown_type :
    ¬ spec_landed_out stdHeader { landedOut 100 107 with airborne := 1 } ∧
    landed_out stdHeader { landedOut 100 107 with airborne := 1 } ∧
    (air_relay_outcome stdHeader
      { relayEnv 2 0 16000 16400 with settings := { usSettings stdHeader with relay := 1 } }
      { lastrelay := 0, relay_waiting := false, alt_relay_waiting := false }
      { landedOut 100 107 with airborne := 1 }).invoked = true ∧
    (air_relay_outcome stdHeader
      { relayEnv 2 0 16000 16400 with settings := { usSettings stdHeader with relay := 1 } }
      { lastrelay := 0, relay_waiting := false, alt_relay_waiting := false }
      { landedOut 100 107 with
        airborne := 1, aircraft_type := stdHeader.AIRCRAFT_TYPE_GLIDER }).invoked = false := by
  decide

/-! ## The sector counts of `save_range_stats` -/

/-- The count that `save_range_stats` prints for a sector is kept in the 16-bit
`newrange_n`: the sum of the new and the persisted count modulo 65536, or the persisted count
modulo 65536 when the sector has no new sample. -/
theorem save_sector_count (M : Libm) (s : range_stats × FileSys) (oclock : Nat)
    (ho : oclock < s.1.newrange_n.length) :
    (save_sector M s oclock).1.newrange_n.getD oclock 0 =
      if s.1.newrange_n.getD oclock 0 ≠ 0 then
        (s.1.newrange_n.getD oclock 0 + s.1.oldrange_n.getD oclock 0) % 65536
      else s.1.oldrange_n.getD oclock 0 % 65536 := by
  unfold save_sector
  simp only
  split_ifs <;>
    simp only [List.getD_eq_getElem?_getD, List.getElem?_set, ho, if_true, Option.getD_some]

/-- The code at the failing input of C38. `/range.txt` holds 65535 samples for sector 0 and
70000 for sector 1; two samples are recorded in sector 0 and none in sector 1. The counts
written by `save_range_stats` are 1 and 4464, not 65537 and 70000. -/
theorem save_range_stats_count_wraps :
    (load_range_stats 0 persistedFs).1.1.oldrange_n.take 2 = [65535, 70000] ∧
    (sample_range testLibm stdHeader (ownShip 1 100)
      { flarmTarget 0xABCDEF 2000 0 0 with rssi := -80 }
      (sample_range testLibm stdHeader (ownShip 1 100)
        { flarmTarget 0xABCDEF 2000 0 0 with rssi := -80 }
        (load_range_stats 0 persistedFs).1.1)).newrange_n.take 2 = [2, 0] ∧
    ((save_range_stats testLibm 0
        (sample_range testLibm stdHeader (ownShip 1 100)
          { flarmTarget 0xABCDEF 2000 0 0 with rssi := -80 }
          (sample_range testLibm stdHeader (ownShip 1 100)
            { flarmTarget 0xABCDEF 2000 0 0 with rssi := -80 }
            (load_range_stats 0 persistedFs).1.1))
        (load_range_stats 0 persistedFs).1.2).2.range_txt.map fun lines =>
      ((lines.getD 1 []).getD 2 0, (lines.getD 2 []).getD 2 0)) = some (1, 4464) := by
  decide!

/-! ## The zoom-up of `Alarm_Latest` -/

/-- The velocities that the projection of `Alarm_Latest` works on are the samples scaled by
`this_factor` and `that_factor`. -/
theorem latest_setup_factors (H : Header) (this_aircraft fop : container_t) (adjdz : Int) :
    (latest_setup H this_aircraft fop adjdz).thisvx
      = per_second (this_factor this_aircraft fop) this_aircraft.air_ew ∧
    (latest_setup H this_aircraft fop adjdz).thisvy
      = per_second (this_factor this_aircraft fop) this_aircraft.air_ns ∧
    (latest_setup H this_aircraft fop adjdz).thatvx
      = per_second (that_factor this_aircraft fop) fop.air_ew ∧
    (latest_setup H this_aircraft fop adjdz).thatvy
      = per_second (that_factor this_aircraft fop) fop.air_ns :=
  ⟨rfl, rfl, rfl, rfl⟩

/-- The conversion `(int) x` gives a positive value only for a positive `x`, and a negative
one only for a negative `x`. -/
theorem float_to_int_sign (x : ℚ) :
    (0 < float_to_int x → 0 < x) ∧ (float_to_int x < 0 → x < 0) := by
  unfold float_to_int
  split_ifs with h
  · constructor
    · intro hp
      have h1 : (1 : Int) ≤ Rat.floor x := hp
      have h2 : ((1 : Int) : ℚ) ≤ x := Rat.le_floor.1 h1
      have h3 : ((1 : Int) : ℚ) = 1 := by norm_num
      rw [h3] at h2
      linarith
    · intro hn
      have h0 : (0 : Int) ≤ Rat.floor x := Rat.le_floor.2 (by simpa using h)
      omega
  · constructor
    · intro hp
      have hx : (0 : ℚ) ≤ -x := by linarith
      have h0 : (0 : Int) ≤ Rat.floor (-x) := Rat.le_floor.2 (by simpa using hx)
      omega
    · intro _
      exact not_le.1 h

/-- The function `zoom_up` in terms of the divisor `zoom_vv`. -/
theorem zoom_up_eq (this_aircraft fop : container_t) :
    zoom_up this_aircraft fop =
      if zoom_vv this_aircraft fop > 20 * 20 * 4 * 4 then
        if zoom_vv this_aircraft fop - 20 * 20 * 4 * 4 > 8000 then
          (|float_to_int fop.alt_diff| - ((zoom_vv this_aircraft fop - 20 * 20 * 4 * 4) >>> 9),
           some (if 64 - Int.tdiv (5 * 16 * 64 * |float_to_int fop.alt_diff|)
                (zoom_vv this_aircraft fop) < 48 then 48
              else 64 - Int.tdiv (5 * 16 * 64 * |float_to_int fop.alt_diff|)
                (zoom_vv this_aircraft fop)))
        else
          (|float_to_int fop.alt_diff| - ((zoom_vv this_aircraft fop - 20 * 20 * 4 * 4) >>> 9),
           none)
      else (|float_to_int fop.alt_diff|, none) := rfl

/-- The flag `zoom` of `Alarm_Latest` is set with a squared airspeed above
`20*20*4*4 + 8000`, and the factor is `64 - (5*16*64*|dz|)/vv`, not below 48. -/
theorem zoom_up_factor (this_aircraft fop : container_t) (factor : Int)
    (hz : (zoom_up this_aircraft fop).2 = some factor) :
    20 * 20 * 4 * 4 + 8000 < zoom_vv this_aircraft fop ∧
    factor = max 48
      (64 - Int.tdiv (5 * 16 * 64 * |float_to_int fop.alt_diff|)
        (zoom_vv this_aircraft fop)) := by
  rw [zoom_up_eq] at hz
  generalize zoom_vv this_aircraft fop = vv at hz ⊢
  generalize Int.tdiv (5 * 16 * 64 * |float_to_int fop.alt_diff|) vv = q at hz ⊢
  by_cases h1 : vv > 20 * 20 * 4 * 4
  · rw [if_pos h1] at hz
    by_cases h2 : vv - 20 * 20 * 4 * 4 > 8000
    · rw [if_pos h2] at hz
      have e : (if 64 - q < 48 then 48 else 64 - q) = factor := Option.some.inj hz
      refine ⟨by omega, ?_⟩
      rw [← e]
      split_ifs with h3
      · rw [max_eq_left (by omega)]
      · rw [max_eq_right (by omega)]
    · rw [if_neg h2] at hz
      exact Option.noConfusion hz
  · rw [if_neg h1] at hz
    exact Option.noConfusion hz

/-- Claim C37. In `Alarm_Latest`, whenever the flag `zoom` is set (`factor` is its scaling
factor), the divisor `vv`, the squared airspeed, is strictly positive and the factor lies in
[48, 64]; the scaling is applied to the velocity samples of at most one aircraft; it is
applied to this aircraft only if the target is above it (`dz > 15`) and this aircraft is not
circling, and to the target only if the target is below (`dz < -15`) and not circling. -/
theorem zoom_scaling (this_aircraft fop : container_t) (factor : Int)
    (hz : (zoom_up this_aircraft fop).2 = some factor) :
    0 < zoom_vv this_aircraft fop ∧ 48 ≤ factor ∧ factor ≤ 64 ∧
    ¬ ((this_factor this_aircraft fop).isSome ∧ (that_factor this_aircraft fop).isSome) ∧
    (∀ f, this_factor this_aircraft fop = some f →
      f = factor ∧ float_to_int fop.alt_diff > 15 ∧ 0 < fop.alt_diff ∧
      this_aircraft.circling = 0) ∧
    (∀ f, that_factor this_aircraft fop = some f →
      f = factor ∧ float_to_int fop.alt_diff < -15 ∧ fop.alt_diff < 0 ∧
      fop.circling = 0) := by
  obtain ⟨hv, hf⟩ := zoom_up_factor this_aircraft fop factor hz
  obtain ⟨sp, sn⟩ := float_to_int_sign fop.alt_diff
  have hdiv : 0 ≤ Int.tdiv (5 * 16 * 64 * |float_to_int fop.alt_diff|)
      (zoom_vv this_aircraft fop) :=
    Int.tdiv_nonneg (by positivity) (by omega)
  have hbr : (float_to_int fop.alt_diff < 0 ∧ fop.circling = 0) ∨
      (0 < float_to_int fop.alt_diff ∧ this_aircraft.circling = 0) := by
    unfold zoom_vv at hv
    simp only at hv
    split_ifs at hv with h1 h2
    · exact Or.inl ⟨h1.1, h1.2.1⟩
    · exact Or.inr ⟨h2.1, h2.2.1⟩
    · omega
  refine ⟨by omega, ?_, ?_, ?_, ?_, ?_⟩
  · rw [hf]; exact le_max_left _ _
  · rw [hf]; exact max_le (by decide) (by omega)
  · unfold this_factor that_factor
    rintro ⟨a, b⟩
    split_ifs at a b with c1 c2
    all_goals first
      | omega
      | exact Bool.noConfusion a
      | exact Bool.noConfusion b
  · intro f hf'
    unfold this_factor at hf'
    split_ifs at hf' with c1
    · rw [hz] at hf'
      have hd : 0 < float_to_int fop.alt_diff := by omega
      refine ⟨(Option.some.inj hf').symm, c1.2, sp hd, ?_⟩
      rcases hbr with h | h
      · omega
      · exact h.2
  · intro f hf'
    unfold that_factor at hf'
    split_ifs at hf' with c1
    · rw [hz] at hf'
      have hd : float_to_int fop.alt_diff < 0 := by omega
      refine ⟨(Option.some.inj hf').symm, c1.2, sn hd, ?_⟩
      rcases hbr with h | h
      · exact h.2
      · omega

theorem zoom_scaling_witness :
    0 < zoom_vv { simOwn 0 with vs := 0 }
        { simTarget 300 (-160) 0 with alt_diff := -40, vs := 600 } ∧
    48 ≤ (56 : Int) ∧ (56 : Int) ≤ 64 ∧
    ¬ ((this_factor { simOwn 0 with vs := 0 }
          { simTarget 300 (-160) 0 with alt_diff := -40, vs := 600 }).isSome ∧
        (that_factor { simOwn 0 with vs := 0 }
          { simTarget 300 (-160) 0 with alt_diff := -40, vs := 600 }).isSome) ∧
    (∀ f, this_factor { simOwn 0 with vs := 0 }
        { simTarget 300 (-160) 0 with alt_diff := -40, vs := 600 } = some f →
      f = 56 ∧
      float_to_int ({ simTarget 300 (-120) 0 with
        alt_diff := -40, vs := 600 } : container_t).alt_diff > 15 ∧
      0 < ({ simTarget 300 (-160) 0 with alt_diff := -40, vs := 600 } : container_t).alt_diff ∧
      ({ simOwn 0 with vs := 0 } : container_t).circling = 0) ∧
    (∀ f, that_factor { simOwn 0 with vs := 0 }
        { simTarget 300 (-160) 0 with alt_diff := -40, vs := 600 } = some f →
      f = 56 ∧
      float_to_int ({ simTarget 300 (-120) 0 with
        alt_diff := -40, vs := 600 } : container_t).alt_diff < -15 ∧
      ({ simTarget 300 (-160) 0 with alt_diff := -40, vs := 600 } : container_t).alt_diff < 0 ∧
      ({ simTarget 300 (-160) 0 with alt_diff := -40, vs := 600 } : container_t).circling = 0) :=
  zoom_scaling { simOwn 0 with vs := 0 }
    { simTarget 300 (-160) 0 with alt_diff := -40, vs := 600 } 56 (by decide!)

/-- The scaling in the run of the witness: the target, 40 m below and rising, has its
velocity samples of -160 quarter-metres per second scaled by 56/64 to -140; the samples of
this aircraft are taken as they are. -/
theorem zoom_scaling_example :
    that_factor { simOwn 0 with vs := 0 }
        { simTarget 300 (-160) 0 with alt_diff := -40, vs := 600 } = some 56 ∧
    this_factor { simOwn 0 with vs := 0 }
        { simTarget 300 (-160) 0 with alt_diff := -40, vs := 600 } = none ∧
    (latest_setup stdHeader { simOwn 0 with vs := 0 }
        { simTarget 300 (-160) 0 with alt_diff := -40, vs := 600 } 0).thatvy.take 3
      = [-140, -140, -140] ∧
    (latest_setup stdHeader { simOwn 0 with vs := 0 }
        { simTarget 300 (-160) 0 with alt_diff := -40, vs := 600 } 0).thisvy.take 3
      = [120, 120, 120] := by
  decide!

/-! ## The per-second velocity arrays of `Alarm_Latest` -/

/-- A list of 20 entries, entry by entry. -/
theorem len20 (l : List Int) (h : l.length = 20) :
    ∃ b0 b1 b2 b3 b4 b5 b6 b7 b8 b9 c0 c1 c2 c3 c4 c5 c6 c7 c8 c9,
      l = [b0, b1, b2, b3, b4, b5, b6, b7, b8, b9, c0, c1, c2, c3, c4, c5, c6, c7, c8, c9] := by
  match l, h with
  | [b0, b1, b2, b3, b4, b5, b6, b7, b8, b9, c0, c1, c2, c3, c4, c5, c6, c7, c8, c9], _ =>
    exact ⟨b0, b1, b2, b3, b4, b5, b6, b7, b8, b9, c0, c1, c2, c3, c4, c5, c6, c7, c8, c9, rfl⟩

/-- The list `per_second` in terms of the scaled samples. -/
theorem per_second_eq (factor : Option Int) (air : List Int) :
    per_second factor air =
      [scaled_sample factor air 0, scaled_sample factor air 0, scaled_sample factor air 0,
       scaled_sample factor air 1, scaled_sample factor air 1, scaled_sample factor air 1,
       scaled_sample factor air 2, scaled_sample factor air 2, scaled_sample factor air 2,
       scaled_sample factor air 3, scaled_sample factor air 3, scaled_sample factor air 3,
       scaled_sample factor air 4, scaled_sample factor air 4, scaled_sample factor air 4,
       scaled_sample factor air 5, scaled_sample factor air 5, scaled_sample factor air 5,
       scaled_sample factor air 5] := by
  cases factor <;> rfl

/-- The filling of a 20-entry array never stores outside it: entries 0 to 18 are written
with the list `per_second`, entry 19 keeps its old value. -/
theorem fill_per_second_spec (factor : Option Int) (air old : List Int)
    (h : old.length = 20) :
    fill_per_second factor air old = some (per_second factor air ++ old.drop 19) := by
  obtain ⟨b0, b1, b2, b3, b4, b5, b6, b7, b8, b9, c0, c1, c2, c3, c4, c5, c6, c7, c8, c9, rfl⟩ :=
    len20 old h
  rw [per_second_eq]
  simp [fill_per_second, fill_sample, store, List.range_succ, List.foldlM]

/-- The list `per_second` has 19 entries. -/
theorem per_second_length (factor : Option Int) (air : List Int) :
    (per_second factor air).length = 19 := by
  rw [per_second_eq]
  rfl

/-- A read of a filled array at an index up to 18 returns the entry of `per_second`,
whatever the array held before. -/
theorem read_filled (factor : Option Int) (air old : List Int) (i : Nat) (hi : i ≤ 18) :
    (per_second factor air ++ old.drop 19)[i]? = some ((per_second factor air).getD i 0) := by
  have hl := per_second_length factor air
  have hlt : i < (per_second factor air).length := by omega
  rw [List.getElem?_append_left hlt, List.getD_eq_getElem?_getD, List.getElem?_eq_getElem hlt]
  rfl

/-- A filled array is written as the specification says. -/
theorem filled_Written (factor : Option Int) (air old : List Int) (h : old.length = 20) :
    Written factor air (per_second factor air ++ old.drop 19) := by
  refine ⟨?_, ?_, ?_⟩
  · rw [List.length_append, per_second_length, List.length_drop, h]
  · intro k j hk hj
    rw [read_filled factor air old (3 * k + j) (by omega), per_second_eq]
    interval_cases k <;> interval_cases j <;> rfl
  · rw [read_filled factor air old 18 (by omega), read_filled factor air old 17 (by omega),
      per_second_eq]
    rfl

/-- The values of `i` and `j` before the projection loop are 0 or 1. -/
theorem latest_setup_offsets (H : Header) (this_aircraft fop : container_t) (adjdz : Int) :
    (latest_setup H this_aircraft fop adjdz).i0 ≤ 1 ∧
    (latest_setup H this_aircraft fop adjdz).j0 ≤ 1 := by
  unfold latest_setup
  simp only
  constructor <;> split_ifs <;> omega

/-- Claim C39. In a call of `Alarm_Latest` that reaches the simulator, whatever the four
static arrays `thisvx`, `thisvy`, `thatvx`, `thatvy` (20 entries each) hold from a previous
call: all stores fall inside the arrays; afterwards entries `3k`, `3k+1`, `3k+2` hold the
(scaled) sample `k` and entry 18 equals entry 17; every index read by the projection loop,
the one-second offset included, is at most 18, and the value read there is the one written
in this call, the value the projection works on. -/
theorem per_second_arrays_written (H : Header) (this_aircraft fop : container_t) (adjdz : Int)
    (o1 o2 o3 o4 : List Int)
    (h1 : o1.length = 20) (h2 : o2.length = 20) (h3 : o3.length = 20) (h4 : o4.length = 20) :
    ∃ thisvx thisvy thatvx thatvy : List Int,
      fill_per_second (this_factor this_aircraft fop) this_aircraft.air_ew o1 = some thisvx ∧
      fill_per_second (this_factor this_aircraft fop) this_aircraft.air_ns o2 = some thisvy ∧
      fill_per_second (that_factor this_aircraft fop) fop.air_ew o3 = some thatvx ∧
      fill_per_second (that_factor this_aircraft fop) fop.air_ns o4 = some thatvy ∧
      Written (this_factor this_aircraft fop) this_aircraft.air_ew thisvx ∧
      Written (this_factor this_aircraft fop) this_aircraft.air_ns thisvy ∧
      Written (that_factor this_aircraft fop) fop.air_ew thatvx ∧
      Written (that_factor this_aircraft fop) fop.air_ns thatvy ∧
      (∀ t, t < 18 →
        (latest_setup H this_aircraft fop adjdz).i0 + t ≤ 18 ∧
        (latest_setup H this_aircraft fop adjdz).j0 + t ≤ 18 ∧
        thatvx[(latest_setup H this_aircraft fop adjdz).i0 + t]? = some
          ((latest_setup H this_aircraft fop adjdz).thatvx.getD
            ((latest_setup H this_aircraft fop adjdz).i0 + t) 0) ∧
        thatvy[(latest_setup H this_aircraft fop adjdz).i0 + t]? = some
          ((latest_setup H this_aircraft fop adjdz).thatvy.getD
            ((latest_setup H this_aircraft fop adjdz).i0 + t) 0) ∧
        thisvx[(latest_setup H this_aircraft fop adjdz).j0 + t]? = some
          ((latest_setup H this_aircraft fop adjdz).thisvx.getD
            ((latest_setup H this_aircraft fop adjdz).j0 + t) 0) ∧
        thisvy[(latest_setup H this_aircraft fop adjdz).j0 + t]? = some
          ((latest_setup H this_aircraft fop adjdz).thisvy.getD
            ((latest_setup H this_aircraft fop adjdz).j0 + t) 0)) ∧
      thisvx[0]? = some ((latest_setup H this_aircraft fop adjdz).thisvx.getD 0 0) ∧
      thisvy[0]? = some ((latest_setup H this_aircraft fop adjdz).thisvy.getD 0 0) ∧
      thatvx[0]? = some ((latest_setup H this_aircraft fop adjdz).thatvx.getD 0 0) ∧
      thatvy[0]? = some ((latest_setup H this_aircraft fop adjdz).thatvy.getD 0 0) := by
  obtain ⟨f1, f2, f3, f4⟩ := latest_setup_factors H this_aircraft fop adjdz
  obtain ⟨hi, hj⟩ := latest_setup_offsets H this_aircraft fop adjdz
  refine ⟨_, _, _, _,
    fill_per_second_spec _ _ o1 h1, fill_per_second_spec _ _ o2 h2,
    fill_per_second_spec _ _ o3 h3, fill_per_second_spec _ _ o4 h4,
    filled_Written _ _ o1 h1, filled_Written _ _ o2 h2,
    filled_Written _ _ o3 h3, filled_Written _ _ o4 h4, ?_, ?_, ?_, ?_, ?_⟩
  · intro t ht
    rw [f1, f2, f3, f4]
    exact ⟨by omega, by omega,
      read_filled _ _ o3 _ (by omega), read_filled _ _ o4 _ (by omega),
      read_filled _ _ o1 _ (by omega), read_filled _ _ o2 _ (by omega)⟩
  · rw [f1]; exact read_filled _ _ o1 0 (by omega)
  · rw [f2]; exact read_filled _ _ o2 0 (by omega)
  · rw [f3]; exact read_filled _ _ o3 0 (by omega)
  · rw [f4]; exact read_filled _ _ o4 0 (by omega)

theorem per_second_arrays_written_witness :
    ∃ thisvx thisvy thatvx thatvy : List Int,
      fill_per_second (this_factor (simOwn 0) (simTarget 300 (-120) 0)) (simOwn 0).air_ew
        (List.replicate 20 7) = some thisvx ∧
      fill_per_second (this_factor (simOwn 0) (simTarget 300 (-120) 0)) (simOwn 0).air_ns
        (List.replicate 20 7) = some thisvy ∧
      fill_per_second (that_factor (simOwn 0) (simTarget 300 (-120) 0))
        (simTarget 300 (-120) 0).air_ew (List.replicate 20 7) = some thatvx ∧
      fill_per_second (that_factor (simOwn 0) (simTarget 300 (-120) 0))
        (simTarget 300 (-120) 0).air_ns (List.replicate 20 7) = some thatvy ∧
      Written (this_factor (simOwn 0) (simTarget 300 (-120) 0)) (simOwn 0).air_ew thisvx ∧
      Written (this_factor (simOwn 0) (simTarget 300 (-120) 0)) (simOwn 0).air_ns thisvy ∧
      Written (that_factor (simOwn 0) (simTarget 300 (-120) 0))
        (simTarget 300 (-120) 0).air_ew thatvx ∧
      Written (that_factor (simOwn 0) (simTarget 300 (-120) 0))
        (simTarget 300 (-120) 0).air_ns thatvy ∧
      (∀ t, t < 18 →
        (latest_setup stdHeader (simOwn 0) (simTarget 300 (-120) 0) 0).i0 + t ≤ 18 ∧
        (latest_setup stdHeader (simOwn 0) (simTarget 300 (-120) 0) 0).j0 + t ≤ 18 ∧
        thatvx[(latest_setup stdHeader (simOwn 0) (simTarget 300 (-120) 0) 0).i0 + t]? = some
          ((latest_setup stdHeader (simOwn 0) (simTarget 300 (-120) 0) 0).thatvx.getD
            ((latest_setup stdHeader (simOwn 0) (simTarget 300 (-120) 0) 0).i0 + t) 0) ∧
        thatvy[(latest_setup stdHeader (simOwn 0) (simTarget 300 (-120) 0) 0).i0 + t]? = some
          ((latest_setup stdHeader (simOwn 0) (simTarget 300 (-120) 0) 0).thatvy.getD
            ((latest_setup stdHeader (simOwn 0) (simTarget 300 (-120) 0) 0).i0 + t) 0) ∧
        thisvx[(latest_setup stdHeader (simOwn 0) (simTarget 300 (-120) 0) 0).j0 + t]? = some
          ((latest_setup stdHeader (simOwn 0) (simTarget 300 (-120) 0) 0).thisvx.getD
            ((latest_setup stdHeader (simOwn 0) (simTarget 300 (-120) 0) 0).j0 + t) 0) ∧
        thisvy[(latest_setup stdHeader (simOwn 0) (simTarget 300 (-120) 0) 0).j0 + t]? = some
          ((latest_setup stdHeader (simOwn 0) (simTarget 300 (-120) 0) 0).thisvy.getD
            ((latest_setup stdHeader (simOwn 0) (simTarget 300 (-120) 0) 0).j0 + t) 0)) ∧
      thisvx[0]? = some
        ((latest_setup stdHeader (simOwn 0) (simTarget 300 (-120) 0) 0).thisvx.getD 0 0) ∧
      thisvy[0]? = some
        ((latest_setup stdHeader (simOwn 0) (simTarget 300 (-120) 0) 0).thisvy.getD 0 0) ∧
      thatvx[0]? = some
        ((latest_setup stdHeader (simOwn 0) (simTarget 300 (-120) 0) 0).thatvx.getD 0 0) ∧
      thatvy[0]? = some
        ((latest_setup stdHeader (simOwn 0) (simTarget 300 (-120) 0) 0).thatvy.getD 0 0) :=
  per_second_arrays_written stdHeader (simOwn 0) (simTarget 300 (-120) 0) 0
    (List.replicate 20 7) (List.replicate 20 7) (List.replicate 20 7) (List.replicate 20 7)
    rfl rfl rfl rfl

/-- The array `thisvy` of the witness after the filling: the six samples of 120
quarter-metres per second three times each, once more in entry 18, and the old value 7 in
entry 19, which is not read. -/
theorem fill_per_second_example :
    fill_per_second none (simOwn 0).air_ns (List.replicate 20 7)
      = some (List.replicate 19 120 ++ [7]) := by
  decide

/-! ## The projection of `Alarm_Latest` stays within 32 bits -/

/-- The shift `v >> 6` of an `int` is the division by 64 rounded down. -/
theorem shr6 (m : Int) : m >>> 6 = m / 64 := by
  cases m with
  | ofNat n =>
    show Int.ofNat (n >>> 6) = Int.ofNat n / 64
    rw [Nat.shiftRight_eq_div_pow]
    rfl
  | negSucc n =>
    show Int.negSucc (n >>> 6) = Int.negSucc n / 64
    rw [Nat.shiftRight_eq_div_pow]
    rfl

/-- The square of a value between `-B` and `B` lies between 0 and `B * B`. -/
theorem sq_bound (x B : Int) (h1 : -B ≤ x) (h2 : x ≤ B) : 0 ≤ x * x ∧ x * x ≤ B * B := by
  constructor
  · exact mul_self_nonneg x
  · nlinarith

/-- The zoom factor lies between 48 and 64. -/
theorem zoom_factor_range (this_aircraft fop : container_t) (factor : Int)
    (hz : (zoom_up this_aircraft fop).2 = some factor) : 48 ≤ factor ∧ factor ≤ 64 := by
  obtain ⟨hv, hf⟩ := zoom_up_factor this_aircraft fop factor hz
  have hdiv : 0 ≤ Int.tdiv (5 * 16 * 64 * |float_to_int fop.alt_diff|)
      (zoom_vv this_aircraft fop) :=
    Int.tdiv_nonneg (by positivity) (by omega)
  rw [hf]
  exact ⟨le_max_left _ _, max_le (by decide) (by omega)⟩

/-- The factor applied to this aircraft, if any, lies between 48 and 64. -/
theorem this_factor_range (this_aircraft fop : container_t) (f : Int)
    (h : this_factor this_aircraft fop = some f) : 48 ≤ f ∧ f ≤ 64 := by
  unfold this_factor at h
  split_ifs at h
  exact zoom_factor_range this_aircraft fop f h

/-- The factor applied to the other aircraft, if any, lies between 48 and 64. -/
theorem that_factor_range (this_aircraft fop : container_t) (f : Int)
    (h : that_factor this_aircraft fop = some f) : 48 ≤ f ∧ f ≤ 64 := by
  unfold that_factor at h
  split_ifs at h
  exact zoom_factor_range this_aircraft fop f h

/-- A sample of at most 320 quarter-metres per second in magnitude, times a factor between
48 and 64: the product is at most 20480 in magnitude, and the shifted value at most 320. -/
theorem scale_bound (a f : Int) (ha1 : -320 ≤ a) (ha2 : a ≤ 320) (hf1 : 48 ≤ f)
    (hf2 : f ≤ 64) :
    (-20480 ≤ a * f ∧ a * f ≤ 20480) ∧ (-320 ≤ (a * f) >>> 6 ∧ (a * f) >>> 6 ≤ 320) := by
  have h1 : -20480 ≤ a * f := by nlinarith
  have h2 : a * f ≤ 20480 := by nlinarith
  refine ⟨⟨h1, h2⟩, ?_⟩
  rw [shr6]
  omega

/-- The values computed while a per-second array is prepared are at most 20480 in
magnitude. -/
theorem fill_values_bound (factor : Option Int) (air : List Int)
    (hf : ∀ f, factor = some f → 48 ≤ f ∧ f ≤ 64)
    (ha : ∀ i, i < 6 → -320 ≤ air.getD i 0 ∧ air.getD i 0 ≤ 320) :
    ∀ v ∈ fill_values factor air, -20480 ≤ v ∧ v ≤ 20480 := by
  intro v hv
  unfold fill_values at hv
  rw [List.mem_flatMap] at hv
  obtain ⟨i, hi, hvi⟩ := hv
  have hi6 : i < 6 := List.mem_range.1 hi
  obtain ⟨a1, a2⟩ := ha i hi6
  cases factor with
  | none =>
    simp only [List.mem_singleton] at hvi
    rw [hvi]
    omega
  | some f =>
    obtain ⟨f1, f2⟩ := hf f rfl
    obtain ⟨⟨p1, p2⟩, q1, q2⟩ := scale_bound (air.getD i 0) f a1 a2 f1 f2
    simp only [List.mem_cons, List.mem_singleton, List.not_mem_nil, or_false] at hvi
    rcases hvi with h | h | h
    · rw [h]; omega
    · rw [h]; exact ⟨p1, p2⟩
    · rw [h]; omega

/-- The scaled samples are at most 320 in magnitude. -/
theorem scaled_sample_bound (factor : Option Int) (air : List Int)
    (hf : ∀ f, factor = some f → 48 ≤ f ∧ f ≤ 64)
    (ha : ∀ i, i < 6 → -320 ≤ air.getD i 0 ∧ air.getD i 0 ≤ 320) (k : Nat) (hk : k < 6) :
    -320 ≤ scaled_sample factor air k ∧ scaled_sample factor air k ≤ 320 := by
  obtain ⟨a1, a2⟩ := ha k hk
  cases factor with
  | none => exact ⟨a1, a2⟩
  | some f =>
    obtain ⟨f1, f2⟩ := hf f rfl
    exact (scale_bound (air.getD k 0) f a1 a2 f1 f2).2

/-- Every entry of a per-second array is at most 320 in magnitude. -/
theorem per_second_bound (factor : Option Int) (air : List Int)
    (hf : ∀ f, factor = some f → 48 ≤ f ∧ f ≤ 64)
    (ha : ∀ i, i < 6 → -320 ≤ air.getD i 0 ∧ air.getD i 0 ≤ 320) (i : Nat) :
    -320 ≤ (per_second factor air).getD i 0 ∧ (per_second factor air).getD i 0 ≤ 320 := by
  have s0 := scaled_sample_bound factor air hf ha 0 (by decide)
  have s1 := scaled_sample_bound factor air hf ha 1 (by decide)
  have s2 := scaled_sample_bound factor air hf ha 2 (by decide)
  have s3 := scaled_sample_bound factor air hf ha 3 (by decide)
  have s4 := scaled_sample_bound factor air hf ha 4 (by decide)
  have s5 := scaled_sample_bound factor air hf ha 5 (by decide)
  rw [per_second_eq]
  by_cases hi : i < 19
  · interval_cases i <;> assumption
  · rw [List.getD_eq_default _ _ (by simpa using hi)]
    decide

/-- The relative position before the loop: `dx << 2`, shifted by the movement of one second
when the projections are of different times. -/
theorem start_bound (a v1 v2 : Int) (c1 c2 : Prop) [Decidable c1] [Decidable c2]
    (ha1 : -3000 ≤ a) (ha2 : a ≤ 3000) (h1 : -320 ≤ v1 ∧ v1 ≤ 320) (h2 : -320 ≤ v2 ∧ v2 ≤ 320) :
    -12320 ≤ (if c1 then a * 4 - v1 else if c2 then a * 4 + v2 else a * 4) ∧
    (if c1 then a * 4 - v1 else if c2 then a * 4 + v2 else a * 4) ≤ 12320 := by
  split_ifs <;> omega

/-- The relative position after `t` projected seconds, with velocities of at most 320 in
magnitude for each aircraft. -/
theorem proj_pos_bound (u : proj_setup)
    (h1 : ∀ i, -320 ≤ u.thisvx.getD i 0 ∧ u.thisvx.getD i 0 ≤ 320)
    (h2 : ∀ i, -320 ≤ u.thisvy.getD i 0 ∧ u.thisvy.getD i 0 ≤ 320)
    (h3 : ∀ i, -320 ≤ u.thatvx.getD i 0 ∧ u.thatvx.getD i 0 ≤ 320)
    (h4 : ∀ i, -320 ≤ u.thatvy.getD i 0 ∧ u.thatvy.getD i 0 ≤ 320)
    (hx : -12320 ≤ u.start.dx ∧ u.start.dx ≤ 12320)
    (hy : -12320 ≤ u.start.dy ∧ u.start.dy ≤ 12320) (t : Nat) :
    (-(12320 + 640 * (t : Int)) ≤ (proj_pos u t).1 ∧
      (proj_pos u t).1 ≤ 12320 + 640 * (t : Int)) ∧
    (-(12320 + 640 * (t : Int)) ≤ (proj_pos u t).2 ∧
      (proj_pos u t).2 ≤ 12320 + 640 * (t : Int)) := by
  induction t with
  | zero =>
    simp only [proj_pos, Nat.cast_zero, mul_zero, add_zero]
    exact ⟨hx, hy⟩
  | succ t ih =>
    obtain ⟨⟨a1, a2⟩, b1, b2⟩ := ih
    obtain ⟨p1, p2⟩ := h1 (u.j0 + t)
    obtain ⟨q1, q2⟩ := h2 (u.j0 + t)
    obtain ⟨r1, r2⟩ := h3 (u.i0 + t)
    obtain ⟨s1, s2⟩ := h4 (u.i0 + t)
    simp only [proj_pos, Nat.cast_add, Nat.cast_one]
    refine ⟨⟨?_, ?_⟩, ?_, ?_⟩ <;> omega

/-- The values of a pass of the projection loop lie in the range of a signed 32-bit
integer. -/
theorem step_values_bound (u : proj_setup)
    (h1 : ∀ i, -320 ≤ u.thisvx.getD i 0 ∧ u.thisvx.getD i 0 ≤ 320)
    (h2 : ∀ i, -320 ≤ u.thisvy.getD i 0 ∧ u.thisvy.getD i 0 ≤ 320)
    (h3 : ∀ i, -320 ≤ u.thatvx.getD i 0 ∧ u.thatvx.getD i 0 ≤ 320)
    (h4 : ∀ i, -320 ≤ u.thatvy.getD i 0 ∧ u.thatvy.getD i 0 ≤ 320)
    (hx : -12320 ≤ u.start.dx ∧ u.start.dx ≤ 12320)
    (hy : -12320 ≤ u.start.dy ∧ u.start.dy ≤ 12320)
    (hz : 0 ≤ u.sqdz ∧ u.sqdz ≤ 230400) (t : Nat) (ht : t < 18) :
    ∀ v ∈ step_values u t, -2147483648 ≤ v ∧ v ≤ 2147483647 := by
  obtain ⟨⟨a1, a2⟩, b1, b2⟩ := proj_pos_bound u h1 h2 h3 h4 hx hy t
  obtain ⟨p1, p2⟩ := h1 (u.j0 + t)
  obtain ⟨q1, q2⟩ := h2 (u.j0 + t)
  obtain ⟨r1, r2⟩ := h3 (u.i0 + t)
  obtain ⟨s1, s2⟩ := h4 (u.i0 + t)
  have ht' : (t : Int) ≤ 17 := by omega
  generalize hvx : u.thatvx.getD (u.i0 + t) 0 - u.thisvx.getD (u.j0 + t) 0 = vx
  generalize hvy : u.thatvy.getD (u.i0 + t) 0 - u.thisvy.getD (u.j0 + t) 0 = vy
  generalize hdx : (proj_pos u t).1 + vx = dx
  generalize hdy : (proj_pos u t).2 + vy = dy
  have bx1 : -23840 ≤ dx := by omega
  have bx2 : dx ≤ 23840 := by omega
  have by1 : -23840 ≤ dy := by omega
  have by2 : dy ≤ 23840 := by omega
  obtain ⟨sx1, sx2⟩ := sq_bound dx 23840 bx1 bx2
  obtain ⟨sy1, sy2⟩ := sq_bound dy 23840 by1 by2
  intro v hv
  unfold step_values at hv
  simp only [hvx, hvy, hdx, hdy, List.mem_cons, List.mem_singleton, List.not_mem_nil,
    or_false] at hv
  generalize dx * dx = X at hv sx1 sx2
  generalize dy * dy = Y at hv sy1 sy2
  rcases hv with h | h | h | h | h | h | h | h <;> rw [h] <;> omega



/-- The vertical separation that `Alarm_Latest` works with is not negative. -/
theorem latest_adjdz_nonneg (H : Header) (this_aircraft fop : container_t) :
    0 ≤ latest_adjdz H this_aircraft fop := by
  unfold latest_adjdz
  simp only
  split_ifs with h
  · exact le_refl 0
  · omega

/-- C35: in the simulator of `Alarm_Latest` no signed 32-bit overflow occurs. If `dx` and
`dy` are at most 3000 m in magnitude, every airspeed sample component of both aircraft is
at most 320 quarter-metres per second in magnitude, and the adjusted vertical separation
is at most 60 m, then every value computed by the projection (the scaled velocities and
the products they come from, the relative positions in quarter-metres, the squares and
the squared distances `dx*dx + dy*dy + sqdz`) lies between -2^31 and 2^31 - 1. -/
theorem projection_int32 (H : Header) (this_aircraft fop : container_t)
    (hdx : |fop.dx| ≤ 3000) (hdy : |fop.dy| ≤ 3000)
    (hthis : ∀ i, i < 6 → |this_aircraft.air_ew.getD i 0| ≤ 320 ∧
      |this_aircraft.air_ns.getD i 0| ≤ 320)
    (hthat : ∀ i, i < 6 → |fop.air_ew.getD i 0| ≤ 320 ∧ |fop.air_ns.getD i 0| ≤ 320)
    (hz : latest_adjdz H this_aircraft fop ≤ 60) :
    ∀ v ∈ projection_values H this_aircraft fop (latest_adjdz H this_aircraft fop),
      -2147483648 ≤ v ∧ v ≤ 2147483647 := by
  have hz0 := latest_adjdz_nonneg H this_aircraft fop
  generalize latest_adjdz H this_aircraft fop = adjdz at hz hz0 ⊢
  obtain ⟨dx1, dx2⟩ := abs_le.1 hdx
  obtain ⟨dy1, dy2⟩ := abs_le.1 hdy
  have a1 : ∀ i, i < 6 → -320 ≤ this_aircraft.air_ew.getD i 0 ∧
      this_aircraft.air_ew.getD i 0 ≤ 320 := fun i hi => abs_le.1 (hthis i hi).1
  have a2 : ∀ i, i < 6 → -320 ≤ this_aircraft.air_ns.getD i 0 ∧
      this_aircraft.air_ns.getD i 0 ≤ 320 := fun i hi => abs_le.1 (hthis i hi).2
  have a3 : ∀ i, i < 6 → -320 ≤ fop.air_ew.getD i 0 ∧ fop.air_ew.getD i 0 ≤ 320 :=
    fun i hi => abs_le.1 (hthat i hi).1
  have a4 : ∀ i, i < 6 → -320 ≤ fop.air_ns.getD i 0 ∧ fop.air_ns.getD i 0 ≤ 320 :=
    fun i hi => abs_le.1 (hthat i hi).2
  have f1 := this_factor_range this_aircraft fop
  have f2 := that_factor_range this_aircraft fop
  obtain ⟨e1, e2, e3, e4⟩ := latest_setup_factors H this_aircraft fop adjdz
  have v1 : ∀ i, -320 ≤ (latest_setup H this_aircraft fop adjdz).thisvx.getD i 0 ∧
      (latest_setup H this_aircraft fop adjdz).thisvx.getD i 0 ≤ 320 := by
    rw [e1]; exact per_second_bound _ _ f1 a1
  have v2 : ∀ i, -320 ≤ (latest_setup H this_aircraft fop adjdz).thisvy.getD i 0 ∧
      (latest_setup H this_aircraft fop adjdz).thisvy.getD i 0 ≤ 320 := by
    rw [e2]; exact per_second_bound _ _ f1 a2
  have v3 : ∀ i, -320 ≤ (latest_setup H this_aircraft fop adjdz).thatvx.getD i 0 ∧
      (latest_setup H this_aircraft fop adjdz).thatvx.getD i 0 ≤ 320 := by
    rw [e3]; exact per_second_bound _ _ f2 a3
  have v4 : ∀ i, -320 ≤ (latest_setup H this_aircraft fop adjdz).thatvy.getD i 0 ∧
      (latest_setup H this_aircraft fop adjdz).thatvy.getD i 0 ≤ 320 := by
    rw [e4]; exact per_second_bound _ _ f2 a4
  have sx : -12320 ≤ (latest_setup H this_aircraft fop adjdz).start.dx ∧
      (latest_setup H this_aircraft fop adjdz).start.dx ≤ 12320 :=
    start_bound fop.dx _ _ _ _ dx1 dx2 (v1 0) (v3 0)
  have sy : -12320 ≤ (latest_setup H this_aircraft fop adjdz).start.dy ∧
      (latest_setup H this_aircraft fop adjdz).start.dy ≤ 12320 :=
    start_bound fop.dy _ _ _ _ dy1 dy2 (v2 0) (v4 0)
  have hq : (latest_setup H this_aircraft fop adjdz).sqdz = adjdz * 8 * (adjdz * 8) := rfl
  have hc : (latest_setup H this_aircraft fop adjdz).cursqdist
      = (latest_setup H this_aircraft fop adjdz).start.dx
          * (latest_setup H this_aircraft fop adjdz).start.dx
        + (latest_setup H this_aircraft fop adjdz).start.dy
          * (latest_setup H this_aircraft fop adjdz).start.dy
        + (latest_setup H this_aircraft fop adjdz).sqdz := rfl
  obtain ⟨q1, q2⟩ := sq_bound (adjdz * 8) 480 (by omega) (by omega)
  rw [← hq] at q1 q2
  have q3 : (latest_setup H this_aircraft fop adjdz).sqdz ≤ 230400 := q2
  intro v hv
  unfold projection_values at hv
  simp only [List.mem_append, List.mem_flatMap, List.mem_range] at hv
  rcases hv with ((((h | h) | h) | h) | h) | ⟨t, ht, h⟩
  · have := fill_values_bound _ _ f1 a1 v h
    omega
  · have := fill_values_bound _ _ f1 a2 v h
    omega
  · have := fill_values_bound _ _ f2 a3 v h
    omega
  · have := fill_values_bound _ _ f2 a4 v h
    omega
  · rw [hc] at h
    generalize (latest_setup H this_aircraft fop adjdz).sqdz = Z at h q1 q3
    generalize (latest_setup H this_aircraft fop adjdz).start.dx = X at h sx
    generalize (latest_setup H this_aircraft fop adjdz).start.dy = Y at h sy
    obtain ⟨x1, x2⟩ := sq_bound X 12320 sx.1 sx.2
    obtain ⟨y1, y2⟩ := sq_bound Y 12320 sy.1 sy.2
    generalize X * X = XX at h x1 x2
    generalize Y * Y = YY at h y1 y2
    simp only [List.mem_cons, List.mem_singleton, List.not_mem_nil, or_false] at h
    rcases h with h | h | h | h | h | h | h | h | h | h <;> rw [h] <;> omega
  · exact step_values_bound _ v1 v2 v3 v4 sx sy ⟨q1, q3⟩ t ht v h

/-- The bound at a head-on approach from 300 m at 30 m/s each. -/
theorem projection_int32_witness :
    |(simTarget 300 (-120) 0).dx| ≤ 3000 ∧ |(simTarget 300 (-120) 0).dy| ≤ 3000 ∧
    (∀ i, i < 6 → |(simOwn 0).air_ew.getD i 0| ≤ 320 ∧ |(simOwn 0).air_ns.getD i 0| ≤ 320) ∧
    (∀ i, i < 6 → |(simTarget 300 (-120) 0).air_ew.getD i 0| ≤ 320 ∧
      |(simTarget 300 (-120) 0).air_ns.getD i 0| ≤ 320) ∧
    latest_adjdz stdHeader (simOwn 0) (simTarget 300 (-120) 0) ≤ 60 ∧
    ∀ v ∈ projection_values stdHeader (simOwn 0) (simTarget 300 (-120) 0)
        (latest_adjdz stdHeader (simOwn 0) (simTarget 300 (-120) 0)),
      -2147483648 ≤ v ∧ v ≤ 2147483647 :=
  ⟨by decide, by decide, by decide, by decide, by decide!,
   projection_int32 stdHeader (simOwn 0) (simTarget 300 (-120) 0) (by decide) (by decide)
    (by decide) (by decide) (by decide!)⟩

/-- The values of the projection for a head-on approach from 300 m at 30 m/s each: the
position before the loop is 1200 quarter-metres north, the squared distance now 1440000,
and the first pass moves the target to 960 quarter-metres. -/
theorem projection_values_example :
    ((projection_values stdHeader (simOwn 0) (simTarget 300 (-120) 0)
      (latest_adjdz stdHeader (simOwn 0) (simTarget 300 (-120) 0))).drop 24).take 18
      = [0, 1200, 0, 1200, 0, 0, 0, 1440000, 1440000, 1440000,
         0, -240, 0, 960, 0, 921600, 921600, 921600] := by
  decide!

/-! ## The report stored by `AddTraffic` -/

/-- `Alarm_None` leaves the report alone. -/
theorem Alarm_None_KeepsReport : KeepsReport Alarm_None := fun _ _ => ⟨rfl, rfl⟩

/-- `Alarm_Distance` leaves the report alone. -/
theorem Alarm_Distance_KeepsReport (H : Header) : KeepsReport (Alarm_Distance H) := by
  intro t f
  unfold Alarm_Distance
  simp only
  split_ifs <;> exact ⟨rfl, rfl⟩

/-- `Alarm_Vector` leaves the report alone. -/
theorem Alarm_Vector_KeepsReport (M : Libm) (H : Header) (t0 : ℚ) :
    KeepsReport (Alarm_Vector M H t0) := by
  intro t f
  unfold Alarm_Vector
  simp only
  split_ifs <;> first | exact Alarm_Distance_KeepsReport H t f | exact ⟨rfl, rfl⟩

/-- The simulator of `Alarm_Latest` leaves the report alone. -/
theorem latest_sim_report (H : Header) (t g : container_t) :
    report_of (latest_sim H t g).2 = report_of g ∧ (latest_sim H t g).2.rssi = g.rssi := by
  unfold latest_sim latest_result
  simp only
  split_ifs <;> exact ⟨rfl, rfl⟩

/-- `Alarm_Latest` leaves the report alone, as far as `project_that` does. -/
theorem Alarm_Latest_KeepsReport (M : Libm) (H : Header)
    (project_that : container_t → container_t → container_t) (t0 : ℚ)
    (hp : ∀ t f, report_of (project_that t f) = report_of f ∧ (project_that t f).rssi = f.rssi) :
    KeepsReport (Alarm_Latest M H project_that t0) := by
  intro t f
  have hn : report_of f = report_of f ∧ f.rssi = f.rssi := ⟨rfl, rfl⟩
  have d := Alarm_Distance_KeepsReport H t f
  have v := Alarm_Vector_KeepsReport M H t0 t f
  have p : report_of (Alarm_Vector M H t0 t (project_that t f)).2 = report_of f ∧
      (Alarm_Vector M H t0 t (project_that t f)).2.rssi = f.rssi :=
    ⟨((Alarm_Vector_KeepsReport M H t0 t (project_that t f)).1).trans (hp t f).1,
     ((Alarm_Vector_KeepsReport M H t0 t (project_that t f)).2).trans (hp t f).2⟩
  have s : report_of (latest_sim H t (project_that t f)).2 = report_of f ∧
      (latest_sim H t (project_that t f)).2.rssi = f.rssi :=
    ⟨((latest_sim_report H t (project_that t f)).1).trans (hp t f).1,
     ((latest_sim_report H t (project_that t f)).2).trans (hp t f).2⟩
  unfold Alarm_Latest
  simp only
  split_ifs
  all_goals first
    | exact hn
    | exact d
    | exact v
    | exact p
    | exact s

/-- `CopyTraffic` on an entry with a 10-byte callsign array: the entry it returns holds the
report, and the RSSI of the last packet. -/
theorem CopyTraffic_report (H : Header) (env : Env) (cip : container_t) (fop : ufo_t)
    (callsign : Option (List Nat)) (hlen : cip.callsign.length = 10) :
    ∀ r, CopyTraffic H env cip fop callsign = some r →
      report_of r = fop ∧ r.rssi = env.RF_last_rssi := by
  have hlen2 : (copy_fields env cip fop).callsign.length = 10 := hlen
  have key : ∀ g : container_t, g.callsign.length = 10 →
      report_of g = fop ∧ g.rssi = env.RF_last_rssi →
      ∀ r, icao_to_n H env.settings g = some r →
        report_of r = fop ∧ r.rssi = env.RF_last_rssi := by
    intro g hg hfg r hr
    obtain ⟨r', h1, h2⟩ := icao_to_n_callsign_only H env.settings g hg
    rw [h1] at hr
    have : r' = r := Option.some.inj hr
    subst this
    rw [h2]
    exact hfg
  intro r hr
  unfold CopyTraffic at hr
  simp only at hr
  cases callsign with
  | none =>
    simp only [Option.some_bind] at hr
    exact key _ hlen2 ⟨rfl, rfl⟩ r hr
  | some cs =>
    simp only at hr
    split_ifs at hr with hc
    · obtain ⟨buf, hb1, hb2⟩ := copy_callsign_total (copy_fields env cip fop).callsign cs hlen2
      rw [hb1, Option.map_some', Option.some_bind] at hr
      exact key { copy_fields env cip fop with callsign := buf } hb2 ⟨rfl, rfl⟩ r hr
    · rw [Option.some_bind] at hr
      exact key _ hlen2 ⟨rfl, rfl⟩ r hr

/-- The block `if (Alarm_Level)` leaves the report alone when the algorithm does. -/
theorem alarm_eval_report (env : Env) (timer : Nat) (f : container_t)
    (hK : ∀ alg, env.Alarm_Level = some alg → KeepsReport alg) :
    report_of (alarm_eval env timer f).1 = report_of f ∧
    (alarm_eval env timer f).1.rssi = f.rssi := by
  unfold alarm_eval
  cases hA : env.Alarm_Level with
  | none => exact ⟨rfl, rfl⟩
  | some alg =>
    obtain ⟨k1, k2⟩ := hK alg hA env.ThisAircraft f
    simp only
    split_ifs <;> exact ⟨k1, k2⟩

/-- `Traffic_Update` leaves the report and the RSSI alone when the selected algorithm
does. -/
theorem Traffic_Update_report (H : Header) (env : Env) (timer : Nat) (f : container_t)
    (hK : ∀ alg, env.Alarm_Level = some alg → KeepsReport alg) :
    report_of (Traffic_Update H env timer f).1 = report_of f ∧
    (Traffic_Update H env timer f).1.rssi = f.rssi := by
  have hnm : ∀ g : container_t, report_of (note_maxrssi H g) = report_of g ∧
      (note_maxrssi H g).rssi = g.rssi := by
    intro g
    unfold note_maxrssi
    split_ifs <;> exact ⟨rfl, rfl⟩
  have hnd : ∀ g : container_t, report_of (note_mindist H g) = report_of g ∧
      (note_mindist H g).rssi = g.rssi := by
    intro g
    unfold note_mindist
    split_ifs <;> exact ⟨rfl, rfl⟩
  have hun : report_of (update_nondirectional H f) = report_of f ∧
      (update_nondirectional H f).rssi = f.rssi := by
    unfold update_nondirectional
    exact hnm _
  have hud : report_of (update_directional H env f) = report_of f ∧
      (update_directional H env f).rssi = f.rssi := by
    have h1 := hnd { f with
      RelativeHeading := relative_heading f.bearing env.ThisAircraft.heading }
    have h2 := hnm (note_mindist H { f with
      RelativeHeading := relative_heading f.bearing env.ThisAircraft.heading })
    have h3 : report_of (note_maxrssi H (note_mindist H { f with
        RelativeHeading := relative_heading f.bearing env.ThisAircraft.heading }))
          = report_of f ∧
        (note_maxrssi H (note_mindist H { f with
          RelativeHeading := relative_heading f.bearing env.ThisAircraft.heading })).rssi
          = f.rssi := ⟨h2.1.trans h1.1, h2.2.trans h1.2⟩
    unfold update_directional
    exact h3
  have he : ∀ g : container_t, report_of g = report_of f ∧ g.rssi = f.rssi →
      report_of (alarm_eval env timer g).1 = report_of f ∧
      (alarm_eval env timer g).1.rssi = f.rssi := by
    intro g hg
    obtain ⟨e1, e2⟩ := alarm_eval_report env timer g hK
    exact ⟨e1.trans hg.1, e2.trans hg.2⟩
  unfold Traffic_Update
  simp only
  split_ifs
  · exact hun
  · exact he _ hun
  · exact hud
  · exact hud
  · exact hud
  · exact he _ hud

/-- The common end of the admission paths of `AddTraffic`: `Traffic_Update`, the relay and the
write into slot `i`. The entry stored has the address, the callsign, the report and the RSSI
of `cip`. -/
theorem store_report (H : Header) (env : Env) (w : World) (i : Nat) (cip : container_t)
    (b : Bool) (timer : Nat)
    (hF : ∀ alg, env.Alarm_Level = some alg → Framed alg ∧ KeepsReport alg) :
    ∃ c, (relay_and_store H env w i (Traffic_Update H env timer cip).1 b).Container
        = w.Container.set i c ∧ c.addr = cip.addr ∧ c.callsign = cip.callsign ∧
      report_of c = report_of cip ∧ c.rssi = cip.rssi := by
  obtain ⟨u1, u2⟩ := Traffic_Update_report H env timer cip (fun alg h => (hF alg h).2)
  obtain ⟨t1, t2⟩ := Traffic_Update_frame H env timer cip (fun alg h => (hF alg h).1)
  unfold relay_and_store
  cases b with
  | false => exact ⟨_, rfl, t1, t2, u1, u2⟩
  | true =>
    refine ⟨_, rfl, ((air_relay_frame H env w.relay _).1).trans t1,
      ((air_relay_frame H env w.relay _).2).trans t2, ?_, ?_⟩
    · simp only [if_true]
      rw [air_relay_timerelayed]
      exact u1
    · simp only [if_true]
      rw [air_relay_timerelayed]
      exact u2

/-- The admission of a new object into slot `i`: the call completes and changes slot `i`
only; the entry stored holds the report and the RSSI of the last packet. -/
theorem AddTraffic_new_report (M : Libm) (H : Header) (env : Env) (w : World) (i : Nat)
    (fop : ufo_t) (callsign : Option (List Nat)) (sample : Bool)
    (hF : ∀ alg, env.Alarm_Level = some alg → Framed alg ∧ KeepsReport alg) :
    ∃ w' c, AddTraffic_new M H env w i fop callsign sample = some w' ∧
      w'.Container = w.Container.set i c ∧ c.addr = fop.addr ∧ c.callsign.length = 10 ∧
      report_of c = fop ∧ c.rssi = env.RF_last_rssi := by
  unfold AddTraffic_new
  obtain ⟨r, hr1, hr2, hr3⟩ := CopyTraffic_total H env EmptyContainer fop callsign rfl
  obtain ⟨hr4, hr5⟩ := CopyTraffic_report H env EmptyContainer fop callsign rfl r hr1
  rw [hr1, Option.map_some']
  obtain ⟨c, hc1, hc2, hc3, hc4, hc5⟩ := store_report H env
    { w with cosc := (Calc_Traffic_Distances M env.ThisAircraft w.cosc r).2,
             Alarm_timer := (Traffic_Update H env w.Alarm_timer
               (Calc_Traffic_Distances M env.ThisAircraft w.cosc r).1).2,
             stats := if sample then sample_range M H env.ThisAircraft
               (Traffic_Update H env w.Alarm_timer
                 (Calc_Traffic_Distances M env.ThisAircraft w.cosc r).1).1 w.stats else w.stats }
    i (Calc_Traffic_Distances M env.ThisAircraft w.cosc r).1 (do_relay H env fop) w.Alarm_timer hF
  exact ⟨_, c, rfl, hc1, hc2.trans hr2, by rw [hc3]; exact hr3, hc4.trans hr4, hc5.trans hr5⟩


/-- Claim C21. When a report's address is not in the table and at least one slot is empty,
`AddTraffic` stores the report in the lowest-index empty slot (slot `i`) and leaves every
other slot unchanged: the entry `e` read from slot `i` afterwards holds every field of the
report (`report_of e = fop`) and the RSSI of the last packet; the address is then non-zero
and exactly one slot holds it afterwards. The selected alarm algorithm is taken to leave
address, callsign, report and RSSI alone, which the four algorithms of the file do. -/
theorem AddTraffic_empty_slot (M : Libm) (H : Header) (env : Env) (w : World) (fop : ufo_t)
    (callsign : Option (List Nat)) (i : Nat) (c0 : container_t)
    (hF : ∀ alg, env.Alarm_Level = some alg → Framed alg ∧ KeepsReport alg)
    (hnew : ∀ c ∈ w.Container, c.addr ≠ fop.addr)
    (hi : w.Container[i]? = some c0) (h0 : c0.addr = 0)
    (hfirst : ∀ j c, j < i → w.Container[j]? = some c → c.addr ≠ 0) :
    ∃ w' e, AddTraffic M H env w fop callsign = some w' ∧
      w'.Container = w.Container.set i e ∧ w'.Container[i]? = some e ∧
      e.addr = fop.addr ∧ report_of e = fop ∧ e.rssi = env.RF_last_rssi ∧
      (∀ j, j ≠ i → w'.Container[j]? = w.Container[j]?) ∧
      fop.addr ≠ 0 ∧
      w'.Container.countP (fun c => c.addr == fop.addr) = 1 := by
  have hlt : i < w.Container.length := by
    by_contra hc
    rw [List.getElem?_eq_none (not_lt.1 hc)] at hi
    exact Option.noConfusion hi
  have hget : w.Container[i] = c0 := by
    rw [List.getElem?_eq_getElem hlt] at hi
    exact Option.some.inj hi
  have hne : fop.addr ≠ 0 := by
    have := hnew c0 (List.getElem?_mem hi)
    rw [h0] at this
    exact fun h => this h.symm
  have hfind1 : w.Container.findIdx? (fun cip => cip.addr == fop.addr) = none := by
    rw [List.findIdx?_eq_none_iff]
    intro c hc
    have := hnew c hc
    simpa using this
  have hfind2 : w.Container.findIdx? (fun cip => cip.addr == 0) = some i := by
    rw [List.findIdx?_eq_some_iff_getElem]
    refine ⟨hlt, ?_, ?_⟩
    · rw [hget, h0]; rfl
    · intro j hj
      have hjl : j < w.Container.length := lt_trans hj hlt
      have := hfirst j w.Container[j] hj (List.getElem?_eq_getElem hjl)
      simpa using this
  obtain ⟨w', e, h1, h2, h3, -, h5, h6⟩ :=
    AddTraffic_new_report M H env w i fop callsign true hF
  refine ⟨w', e, ?_, h2, ?_, h3, h5, h6, ?_, hne, ?_⟩
  · unfold AddTraffic
    rw [hfind1]
    simp only
    rw [hfind2]
    exact h1
  · rw [h2, List.getElem?_set, if_pos rfl, if_pos hlt]
  · intro j hj
    rw [h2, List.getElem?_set, if_neg (Ne.symm hj)]
  · rw [h2]
    apply countP_set_fresh _ e (by rw [h3]; exact beq_self_eq_true _) _ i hlt
    intro c hc
    have := hnew c hc
    simpa using this

/-- Witness of C21: a table with a tracked target, an empty slot and another empty slot; a
new target goes into slot 1. -/
theorem AddTraffic_empty_slot_witness :
    ∃ w' e, AddTraffic testLibm stdHeader
        (testEnv (ownShip 1 101) (some (Alarm_Distance stdHeader)) 101 1000)
        (worldOf [flarmTarget 0xABCDEF 800 0 0, EmptyContainer, EmptyContainer] 0)
        (flarmReport 0x123456 46 7) none = some w' ∧
      w'.Container = (worldOf [flarmTarget 0xABCDEF 800 0 0, EmptyContainer, EmptyContainer]
        0).Container.set 1 e ∧ w'.Container[1]? = some e ∧
      e.addr = 0x123456 ∧ report_of e = flarmReport 0x123456 46 7 ∧
      e.rssi = (testEnv (ownShip 1 101) (some (Alarm_Distance stdHeader)) 101
        1000).RF_last_rssi ∧
      (∀ j, j ≠ 1 → w'.Container[j]? = (worldOf [flarmTarget 0xABCDEF 800 0 0, EmptyContainer,
        EmptyContainer] 0).Container[j]?) ∧
      (0x123456 : Nat) ≠ 0 ∧
      w'.Container.countP (fun c => c.addr == 0x123456) = 1 :=
  AddTraffic_empty_slot testLibm stdHeader
    (testEnv (ownShip 1 101) (some (Alarm_Distance stdHeader)) 101 1000)
    (worldOf [flarmTarget 0xABCDEF 800 0 0, EmptyContainer, EmptyContainer] 0)
    (flarmReport 0x123456 46 7) none 1 EmptyContainer
    (fun alg h => by
      have h' : Alarm_Distance stdHeader = alg := Option.some.inj h
      rw [← h']
      exact ⟨Alarm_Distance_Framed stdHeader, Alarm_Distance_KeepsReport stdHeader⟩)
    (by decide) rfl rfl
    (fun j c hj hc => by
      have hj0 : j = 0 := by omega
      subst hj0
      have : flarmTarget 0xABCDEF 800 0 0 = c := Option.some.inj hc
      rw [← this]
      decide)

/-- The table after the call of the witness: slot 0 is as before, slot 1 holds the report,
slot 2 is still empty. -/
theorem AddTraffic_empty_slot_example :
    (AddTraffic testLibm stdHeader
        (testEnv (ownShip 1 101) (some (Alarm_Distance stdHeader)) 101 1000)
        (worldOf [flarmTarget 0xABCDEF 800 0 0, EmptyContainer, EmptyContainer] 0)
        (flarmReport 0x123456 46 7) none).map (fun w => w.Container.map report_of)
      = some [report_of (flarmTarget 0xABCDEF 800 0 0), flarmReport 0x123456 46 7,
          report_of EmptyContainer] := by
  decide!

end SoftRF
